import Mathlib

/-! # spice-vdagent: transport and routing core

A shallow embedding of the message transport (`vdagent-connection.c`, `udscs.c`,
`vdagentd/virtio-port.c`) and of the daemon's routing engine (`vdagentd/vdagentd.c`).

Conventions of the embedding:

* a byte is a `Nat` (below 256 wherever a value is encoded); a buffer is a `List Nat`;
* a C `uint32_t` is a `Nat` reduced modulo `2^32` where the C arithmetic wraps, a C `int`
  is an `Int` obtained from the 32-bit pattern by `to_int`;
* a `NULL` pointer is `none`;
* undefined behaviour of the C code (a `memcpy` with a negative length, a write through
  `NULL`) makes the embedded function return `none`;
* callbacks are recorded in an event list, in call order.
-/

namespace VDAgent

/-! ## Machine integers and byte order -/

/-- Conversion of a 32-bit pattern to a C `int` (two's complement). -/
def to_int (n : Nat) : Int :=
  if n % 4294967296 < 2147483648 then ((n % 4294967296 : Nat) : Int)
  else ((n % 4294967296 : Nat) : Int) - 4294967296

/-- Conversion of a C `int` to `uint32_t` (the usual arithmetic conversion). -/
def to_uint32 (i : Int) : Nat := (i % 4294967296).toNat

/-- Subtraction of two `uint32_t` values, modulo `2^32`. -/
def sub_uint32 (a b : Nat) : Nat := (a % 4294967296 + 4294967296 - b % 4294967296) % 4294967296

/-- Value of a little-endian byte sequence. -/
def from_le : List Nat → Nat
  | [] => 0
  | b :: bs => b + 256 * from_le bs

/-- The `n` little-endian bytes of `v`. -/
def to_le : Nat → Nat → List Nat
  | 0, _ => []
  | n + 1, v => v % 256 :: to_le n (v / 256)

/-- Bytes `off .. off + n` of a buffer, read as a little-endian integer. -/
def read_le (buf : List Nat) (off n : Nat) : Nat := from_le ((buf.drop off).take n)

/-- The C `memcpy(dst + off, src, n)`: bytes `off .. off + n` of `dst` are overwritten. -/
def memcpy (dst : List Nat) (off : Nat) (src : List Nat) (n : Nat) : List Nat :=
  dst.take off ++ src.take n ++ dst.drop (off + n)

/-! ## Host channel: `vdagentd/virtio-port.c` -/

/-- The `VDAgentMessage` header, 20 bytes on the wire (4 + 4 + 8 + 4, packed). -/
structure VDAgentMessage where
  protocol : Nat
  type : Nat
  opaq : Nat
  size : Nat
deriving DecidableEq, Repr

/-- The `VDIChunkHeader`, with its fields already in host order. -/
structure VDIChunkHeader where
  port : Nat
  size : Nat
deriving DecidableEq, Repr

/-- The `sizeof(VDAgentMessage)`. -/
def sizeof_VDAgentMessage : Nat := 20

/-- The wire bytes of a message header. -/
def VDAgentMessage.to_wire (h : VDAgentMessage) : List Nat :=
  to_le 4 h.protocol ++ to_le 4 h.type ++ to_le 8 h.opaq ++ to_le 4 h.size

/-- The fields of a message header read from its 20 wire bytes (the four
`GUINT32_FROM_LE` / `GUINT64_FROM_LE` conversions of `vdagent_virtio_port_do_chunk`). -/
def VDAgentMessage.from_wire (raw : List Nat) : VDAgentMessage :=
  { protocol := read_le raw 0 4
    type := read_le raw 4 4
    opaq := read_le raw 8 8
    size := read_le raw 16 4 }

/-- The `struct vdagent_virtio_port_chunk_port_data`. The header is held twice: the
bytes as `memcpy` collects them, and the fields as converted once the header is whole. -/
structure vdagent_virtio_port_chunk_port_data where
  message_header_read : Int
  message_data_pos : Int
  message_header_raw : List Nat
  message_header : VDAgentMessage
  message_data : Option (List Nat)
deriving DecidableEq, Repr

/-- The port data of a new `VirtioPort` (zero-filled by `g_object_new`). -/
def port_data_init : vdagent_virtio_port_chunk_port_data :=
  { message_header_read := 0
    message_data_pos := 0
    message_header_raw := List.replicate 20 0
    message_header := ⟨0, 0, 0, 0⟩
    message_data := none }

/-- The `struct vdagent_virtio_port_buf`, with `buf = NULL` as `none`. -/
structure vdagent_virtio_port_buf where
  buf : Option (List Nat)
  size : Nat
  write_pos : Nat
deriving DecidableEq, Repr

/-- The `struct _VirtioPort`. Here `read_callback` tells whether a read callback is set,
and `write_queue` is the write queue of the parent framed connection. -/
structure VirtioPort where
  port_data : Nat → vdagent_virtio_port_chunk_port_data
  write_buf : vdagent_virtio_port_buf
  read_callback : Bool
  write_queue : List (List Nat)

/-- What `vdagent_virtio_port_do_chunk` and `conn_handle_header` call. -/
inductive PortEvent where
  | read_callback (port_nr : Nat) (message_header : VDAgentMessage)
      (data : Option (List Nat))
  | error_cb
deriving DecidableEq, Repr

/-- Lines 270-290 of `vdagent_virtio_port_do_chunk`: collect header bytes. Returns the
port data and `pos`. The comparison `message_header_read < sizeof(...)` is unsigned, so
it holds exactly for `0 ≤ message_header_read < 20`. -/
def do_chunk_header (port : vdagent_virtio_port_chunk_port_data)
    (chunk_header : VDIChunkHeader) (chunk_data : List Nat) :
    vdagent_virtio_port_chunk_port_data × Int :=
  if 0 ≤ port.message_header_read ∧ port.message_header_read < 20 then
    let read0 : Int := 20 - port.message_header_read
    let read : Int :=
      if to_uint32 read0 > chunk_header.size then to_int chunk_header.size else read0
    let raw := memcpy port.message_header_raw port.message_header_read.toNat
      chunk_data read.toNat
    let port1 := { port with
      message_header_raw := raw
      message_header_read := port.message_header_read + read }
    let port2 :=
      if port1.message_header_read = 20 then
        let hdr := VDAgentMessage.from_wire raw
        { port1 with
          message_header := hdr
          message_data :=
            if hdr.size ≠ 0 then some (List.replicate hdr.size 0)
            else port1.message_data }
      else port1
    (port2, read)
  else (port, 0)

/-- Lines 292-321 of `vdagent_virtio_port_do_chunk`: collect body bytes, report a chunk
that is larger than the message, deliver a complete message. -/
def do_chunk_body (read_callback : Bool)
    (port : vdagent_virtio_port_chunk_port_data)
    (chunk_header : VDIChunkHeader) (chunk_data : List Nat) (pos : Int) :
    Option (vdagent_virtio_port_chunk_port_data × List PortEvent) :=
  if port.message_header_read = 20 then
    let read0 : Int :=
      to_int (sub_uint32 port.message_header.size (to_uint32 port.message_data_pos))
    let avail : Int := to_int (sub_uint32 chunk_header.size (to_uint32 pos))
    if avail > read0 then some (port, [PortEvent.error_cb])
    else
      let read : Int := if avail < read0 then avail else read0
      let copied : Option vdagent_virtio_port_chunk_port_data :=
        if read ≠ 0 then
          match port.message_data with
          | none => none
          | some buf =>
            if read < 0 ∨ port.message_data_pos < 0 then none
            else some { port with
              message_data := some (memcpy buf port.message_data_pos.toNat
                (chunk_data.drop pos.toNat) read.toNat)
              message_data_pos := port.message_data_pos + read }
        else some port
      match copied with
      | none => none
      | some port1 =>
        if to_uint32 port1.message_data_pos = port1.message_header.size then
          some ({ port1 with
                  message_header_read := 0
                  message_data_pos := 0
                  message_data := none },
                if read_callback then
                  [PortEvent.read_callback chunk_header.port port1.message_header
                    port1.message_data]
                else [])
        else some (port1, [])
  else some (port, [])

/-- The body of `vdagent_virtio_port_do_chunk`, on the data of the chunk's port. -/
def port_do_chunk (read_callback : Bool) (port : vdagent_virtio_port_chunk_port_data)
    (chunk_header : VDIChunkHeader) (chunk_data : List Nat) :
    Option (vdagent_virtio_port_chunk_port_data × List PortEvent) :=
  let hp := do_chunk_header port chunk_header chunk_data
  do_chunk_body read_callback hp.1 chunk_header chunk_data hp.2

/-- The message handler `vdagent_virtio_port_do_chunk`: it works on
`&vport->port_data[chunk_header->port]` only. -/
def vdagent_virtio_port_do_chunk (vport : VirtioPort) (chunk_header : VDIChunkHeader)
    (chunk_data : List Nat) : Option (VirtioPort × List PortEvent) :=
  match port_do_chunk vport.read_callback (vport.port_data chunk_header.port)
      chunk_header chunk_data with
  | none => none
  | some (port1, evs) =>
    some ({ vport with port_data := Function.update vport.port_data chunk_header.port port1 },
          evs)

/-- A chunk as the framed connection hands it to the handler: its port and its bytes;
the header's size is the number of bytes. -/
abbrev Chunk := Nat × List Nat

/-- Feed chunks to `vdagent_virtio_port_do_chunk` in order, collecting the callbacks. -/
def feed_chunks (vport : VirtioPort) : List Chunk → Option (VirtioPort × List PortEvent)
  | [] => some (vport, [])
  | c :: cs =>
    match vdagent_virtio_port_do_chunk vport ⟨c.1, c.2.length⟩ c.2 with
    | none => none
    | some (vport1, evs1) =>
      match feed_chunks vport1 cs with
      | none => none
      | some (vport2, evs2) => some (vport2, evs1 ++ evs2)

/-- A new `VirtioPort` with a read callback. -/
def virtio_port_new : VirtioPort :=
  { port_data := fun _ => port_data_init
    write_buf := ⟨none, 0, 0⟩
    read_callback := true
    write_queue := [] }

/-- The events of a run, when it is defined. -/
def events_of (r : Option (VirtioPort × List PortEvent)) : Option (List PortEvent) :=
  r.map Prod.snd

/-! ### States of a port during reassembly -/

/-- A port that awaits a new message: both cursors at 0 and no body buffer. -/
def Fresh (p : vdagent_virtio_port_chunk_port_data) : Prop :=
  p.message_header_read = 0 ∧ p.message_data_pos = 0 ∧ p.message_data = none ∧
    p.message_header_raw.length = 20

/-- A port that has collected the first `n` bytes of the header bytes `H`. -/
def HeaderInv (H : List Nat) (n : Nat) (p : vdagent_virtio_port_chunk_port_data) : Prop :=
  p.message_header_read = (n : Int) ∧ p.message_data_pos = 0 ∧ p.message_data = none ∧
    p.message_header_raw.length = 20 ∧ p.message_header_raw.take n = H.take n

/-- A port that has the whole header `hdr` and the first `d` bytes of the body `B`. -/
def BodyInv (hdr : VDAgentMessage) (B : List Nat) (d : Nat)
    (p : vdagent_virtio_port_chunk_port_data) : Prop :=
  p.message_header_read = 20 ∧ p.message_header = hdr ∧ p.message_data_pos = (d : Int) ∧
    p.message_header_raw.length = 20 ∧ (B = [] → p.message_data = none) ∧
    (B ≠ [] → ∃ buf, p.message_data = some buf ∧ buf.length = B.length ∧
      buf.take d = B.take d)

/-- The body the read callback is given: `NULL` for an empty body. -/
def body_pointer (B : List Nat) : Option (List Nat) := if B = [] then none else some B

/-- A port that has consumed the first `n` bytes of the message `hdr`, `B`. -/
def Collecting (hdr : VDAgentMessage) (B : List Nat) (n : Nat)
    (p : vdagent_virtio_port_chunk_port_data) : Prop :=
  if n < 20 then HeaderInv hdr.to_wire n p else BodyInv hdr B (n - 20) p

/-- A header whose fields fit their wire widths and whose size is the body's length. -/
def WellFormed (hdr : VDAgentMessage) (B : List Nat) : Prop :=
  hdr.protocol < 4294967296 ∧ hdr.type < 4294967296 ∧ hdr.opaq < 18446744073709551616 ∧
    hdr.size = B.length

/-- What a port still owes: the bytes `rem` of the message `hdr`, `B` are yet to arrive and
the callbacks `exp` are yet to be made. -/
def Pending (rc : Bool) (port_nr : Nat) (hdr : VDAgentMessage) (B : List Nat)
    (p : vdagent_virtio_port_chunk_port_data) (rem : List Nat) (exp : List PortEvent) :
    Prop :=
  (rem ≠ [] ∧ exp = (if rc then [PortEvent.read_callback port_nr hdr (body_pointer B)]
      else []) ∧
    ∃ n, n ≤ 20 + B.length ∧ Collecting hdr B n p ∧ (hdr.to_wire ++ B).drop n = rem) ∨
  (rem = [] ∧ exp = [] ∧ Fresh p)

/-- The list `l` interleaves the chunks `cs1` of port `a` and the chunks `cs2` of port
`b`, keeping each port's own order. -/
inductive Interleaving (a b : Nat) : List (List Nat) → List (List Nat) → List Chunk → Prop
  | nil : Interleaving a b [] [] []
  | left (c : List Nat) (cs1 cs2 : List (List Nat)) (l : List Chunk) :
      Interleaving a b cs1 cs2 l → Interleaving a b (c :: cs1) cs2 ((a, c) :: l)
  | right (c : List Nat) (cs1 cs2 : List (List Nat)) (l : List Chunk) :
      Interleaving a b cs1 cs2 l → Interleaving a b cs1 (c :: cs2) ((b, c) :: l)

/-! ## Framed connection: `vdagent-connection.c` -/

/-- Outcome of `g_input_stream_read_all_finish`: an error (cancelled or another one), or
the bytes that were read into the buffer (fewer than asked for at the end of the stream). -/
inductive ReadResult where
  | cancelled
  | failed
  | bytes (b : List Nat)
deriving DecidableEq, Repr

/-- The virtual functions of `VDAgentConnectionClass` and the error callback given to
`vdagent_connection_setup`, over the subclass data `σ` and the events `ε` they emit. Each
returns whether it destroyed (cancelled) the connection. `handle_header` may rewrite the
header buffer in place; `handle_message` is undefined (`none`) where the C handler is. -/
structure VDAgentConnectionClass (σ ε : Type) where
  handle_header : σ → List Nat → σ × List Nat × Nat × List ε × Bool
  handle_message : σ → List Nat → Option (List Nat) → Option (σ × List ε × Bool)
  error_cb : σ → Bool → σ × List ε × Bool

/-- The `VDAgentConnectionPrivate` and the subclass data `sub`. The field `reading` is the
byte count of the outstanding `g_input_stream_read_all_async`, which fills `data_buf` when
that is set and `header_buf` otherwise. -/
structure VDAgentConnection (σ : Type) where
  sub : σ
  opening : Bool
  cancelled : Bool
  header_size : Nat
  header_buf : List Nat
  data_buf : Option (List Nat)
  reading : Option Nat
  write_queue : List (List Nat)
  bytes_written : Nat

/-- The `read_next_message`: ask for the next header unless cancelled. -/
def read_next_message {σ : Type} (self : VDAgentConnection σ) : VDAgentConnection σ :=
  if self.cancelled then { self with reading := none }
  else { self with reading := some self.header_size }

/-- The `vdagent_connection_setup` (the stream itself is the driver's argument). -/
def vdagent_connection_setup {σ : Type} (sub : σ) (wait_on_opening : Bool)
    (header_size : Nat) : VDAgentConnection σ :=
  read_next_message
    { sub := sub
      opening := wait_on_opening
      cancelled := false
      header_size := header_size
      header_buf := List.replicate header_size 0
      data_buf := none
      reading := none
      write_queue := []
      bytes_written := 0 }

/-- The completion callback `message_read_cb` of the outstanding read. -/
def message_read_cb {σ ε : Type} (cls : VDAgentConnectionClass σ ε)
    (self : VDAgentConnection σ) (res : ReadResult) :
    Option (VDAgentConnection σ × List ε) :=
  match res with
  | ReadResult.cancelled => some ({ self with reading := none }, [])
  | ReadResult.failed =>
    let r := cls.error_cb self.sub false
    some ({ self with sub := r.1, reading := none, cancelled := self.cancelled || r.2.2 },
      r.2.1)
  | ReadResult.bytes b =>
    -- the read has stored its bytes at the start of the buffer it was given
    let self0 : VDAgentConnection σ :=
      match self.data_buf with
      | some buf => { self with data_buf := some (memcpy buf 0 b b.length) }
      | none => { self with header_buf := memcpy self.header_buf 0 b b.length }
    if b.length = 0 then
      if self0.opening then some (read_next_message self0, [])
      else
        let r := cls.error_cb self0.sub true
        some ({ self0 with
                sub := r.1, reading := none, cancelled := self0.cancelled || r.2.2 },
          r.2.1)
    else
      let self1 := { self0 with opening := false }
      match self1.data_buf with
      | none =>
        let r := cls.handle_header self1.sub self1.header_buf
        let self2 := { self1 with
          sub := r.1, header_buf := r.2.1, cancelled := self1.cancelled || r.2.2.2.2 }
        let data_size := r.2.2.1
        let evs := r.2.2.2.1
        if self2.cancelled then some ({ self2 with reading := none }, evs)
        else if data_size > 0 then
          some ({ self2 with
                  data_buf := some (List.replicate data_size 0)
                  reading := some data_size }, evs)
        else
          match cls.handle_message self2.sub self2.header_buf self2.data_buf with
          | none => none
          | some m =>
            some (read_next_message
              { self2 with
                sub := m.1, cancelled := self2.cancelled || m.2.2, data_buf := none },
              evs ++ m.2.1)
      | some _ =>
        match cls.handle_message self1.sub self1.header_buf self1.data_buf with
        | none => none
        | some m =>
          some (read_next_message
            { self1 with
              sub := m.1, cancelled := self1.cancelled || m.2.2, data_buf := none },
            m.2.1)

/-- The `g_input_stream_read_all` on a stream that holds `stream` and then ends: the bytes
read and the rest of the stream. -/
def read_all (stream : List Nat) (count : Nat) : List Nat × List Nat :=
  (stream.take count, stream.drop count)

/-- The main loop serving `n` read completions of one connection from a stream without
I/O errors. -/
def serve_reads {σ ε : Type} (cls : VDAgentConnectionClass σ ε) :
    Nat → VDAgentConnection σ → List Nat → Option (VDAgentConnection σ × List ε × List Nat)
  | 0, self, stream => some (self, [], stream)
  | n + 1, self, stream =>
    match self.reading with
    | none => some (self, [], stream)
    | some count =>
      let r := read_all stream count
      match message_read_cb cls self (ReadResult.bytes r.1) with
      | none => none
      | some (self1, evs1) =>
        match serve_reads cls n self1 r.2 with
        | none => none
        | some (self2, evs2, rest) => some (self2, evs1 ++ evs2, rest)

/-! ## Local broker: `udscs.c` -/

/-- The `struct udscs_message_header`, 16 bytes in host byte order. -/
structure udscs_message_header where
  type : Nat
  arg1 : Nat
  arg2 : Nat
  size : Nat
deriving DecidableEq, Repr

/-- The bytes of a `struct udscs_message_header` in memory (host order, taken
little-endian). -/
def udscs_message_header.to_bytes (h : udscs_message_header) : List Nat :=
  to_le 4 h.type ++ to_le 4 h.arg1 ++ to_le 4 h.arg2 ++ to_le 4 h.size

/-- The header buffer read as a `struct udscs_message_header`. -/
def udscs_message_header.of_bytes (b : List Nat) : udscs_message_header :=
  { type := read_le b 0 4
    arg1 := read_le b 4 4
    arg2 := read_le b 8 4
    size := read_le b 12 4 }

/-- What a `UdscsConnection` calls. -/
inductive UdscsEvent where
  | read_callback (header : udscs_message_header) (data : Option (List Nat))
  | error_cb (err_is_null : Bool)
deriving DecidableEq, Repr

/-- The `conn_handle_header` of `udscs.c`: the `size` field of the header. -/
def udscs_conn_handle_header (header_buf : List Nat) : Nat :=
  (udscs_message_header.of_bytes header_buf).size

/-- The `conn_handle_message` of `udscs.c`: hand header and body to the read callback. -/
def udscs_conn_handle_message (header_buf : List Nat) (data : Option (List Nat)) :
    List UdscsEvent :=
  [UdscsEvent.read_callback (udscs_message_header.of_bytes header_buf) data]

/-- The class of `UdscsConnection`, with callbacks that only record the call. -/
def udscs_connection_class : VDAgentConnectionClass Unit UdscsEvent :=
  { handle_header := fun u hb => (u, hb, udscs_conn_handle_header hb, [], false)
    handle_message := fun u hb d => some (u, udscs_conn_handle_message hb d, false)
    error_cb := fun u null => (u, [UdscsEvent.error_cb null], false) }

/-- The `vdagent_connection_write`: append the buffer to the write queue. -/
def vdagent_connection_write {σ : Type} (self : VDAgentConnection σ) (data : List Nat) :
    VDAgentConnection σ :=
  { self with write_queue := self.write_queue ++ [data] }

/-- The `udscs_write`; `size` is the length of `data`. The buffer size is computed in a
32-bit `guint`: where it wraps the two `memcpy` overrun the buffer, which is undefined. -/
def udscs_write {σ : Type} (conn : VDAgentConnection σ) (type arg1 arg2 : Nat)
    (data : List Nat) : Option (VDAgentConnection σ) :=
  let size := data.length
  let buf_size := (16 + size) % 4294967296
  if buf_size < 16 + size then none
  else
    let header : udscs_message_header := ⟨type, arg1, arg2, size⟩
    let buf := List.replicate buf_size 0
    let buf := memcpy buf 0 header.to_bytes 16
    let buf := memcpy buf 16 data size
    some (vdagent_connection_write conn buf)

/-- A `UdscsConnection` as `udscs_connect` and `udscs_server_accept_cb` set it up. -/
def udscs_connection_new : VDAgentConnection Unit :=
  vdagent_connection_setup () false 16

/-! ## Local broker server: `udscs.c` -/

/-- A `UdscsConnection *`: connections are told apart by their address. -/
abbrev ConnId := Nat

/-- The `MAX_CONNECTED_AGENTS`. -/
def MAX_CONNECTED_AGENTS : Nat := 128

/-- The `struct udscs_server`: the `GList` of connections (head first) and whether a
connect callback is set. -/
structure udscs_server where
  connections : List ConnId
  connect_callback : Bool
deriving DecidableEq, Repr

/-- What the server does to the outside. -/
inductive ServerEvent where
  | connect_callback (conn : ConnId)
  | connection_destroy (conn : ConnId)
deriving DecidableEq, Repr

/-- The `udscs_server_new`. -/
def udscs_server_new (connect_callback : Bool) : udscs_server :=
  { connections := [], connect_callback := connect_callback }

/-- The `udscs_server_accept_cb`; `new_conn` is the object `g_object_new` would return. At
the limit nothing is created, registered or called. -/
def udscs_server_accept_cb (server : udscs_server) (new_conn : ConnId) :
    udscs_server × List ServerEvent :=
  if server.connections.length ≥ MAX_CONNECTED_AGENTS then (server, [])
  else
    ({ server with connections := new_conn :: server.connections },
      if server.connect_callback then [ServerEvent.connect_callback new_conn] else [])

/-- The `udscs_server_destroy_connection`: `g_list_remove` drops the first node holding
`conn`, then the connection is destroyed. -/
def udscs_server_destroy_connection (server : udscs_server) (conn : ConnId) :
    udscs_server × List ServerEvent :=
  ({ server with connections := server.connections.erase conn },
    [ServerEvent.connection_destroy conn])

/-- The loop of `udscs_server_for_all_clients` over the nodes from `l` on. The node after
the current one is read before `func` runs, so the walk follows the list as it was, also
when `func` unlinks the current node. `func` works on a state `π` (its `priv` and whatever
else it touches). Returns the sum, the state and the connections visited, in order. -/
def for_all_clients_loop {π : Type} (func : ConnId → π → Int × π) :
    List ConnId → π → Int → List ConnId → Int × π × List ConnId
  | [], priv, r, visited => (r, priv, visited)
  | c :: next, priv, r, visited =>
    let x := func c priv
    for_all_clients_loop func next x.2 (r + x.1) (visited ++ [c])

/-- The `udscs_server_for_all_clients`; a `NULL` server is `none`. -/
def udscs_server_for_all_clients {π : Type} (server : Option udscs_server)
    (func : ConnId → π → Int × π) (priv : π) : Int × π × List ConnId :=
  match server with
  | none => (0, priv, [])
  | some srv => for_all_clients_loop func srv.connections priv 0 []

/-- An accept or a `udscs_server_destroy_connection` call. -/
inductive ServerOp where
  | accept (new_conn : ConnId)
  | destroy (conn : ConnId)
deriving DecidableEq, Repr

/-- Run one operation. -/
def server_step (server : udscs_server) : ServerOp → udscs_server × List ServerEvent
  | ServerOp.accept c => udscs_server_accept_cb server c
  | ServerOp.destroy c => udscs_server_destroy_connection server c

/-- Run operations in order, collecting the events. -/
def server_run (server : udscs_server) : List ServerOp → udscs_server × List ServerEvent
  | [] => (server, [])
  | op :: ops =>
    let r := server_step server op
    let r2 := server_run r.1 ops
    (r2.1, r.2 ++ r2.2)

/-! ## Routing engine: `vdagentd/vdagentd.c` -/

/-- What `vdagentd.c` takes from headers that are not among the sources (`spice/vd_agent.h`,
`virtio-port.h`): the protocol version, the client port, the sizes and offsets of the
message structures, the capability test and the capability numbers, the selection numbers
and the file-transfer status codes. The engine is embedded for any values of these. -/
structure Protocol where
  VD_AGENT_PROTOCOL : Nat
  VDP_CLIENT_PORT : Nat
  sizeof_VDAgentMouseState : Nat
  sizeof_VDAgentMonitorsConfig : Nat
  sizeof_VDAgentMonConfig : Nat
  sizeof_VDAgentReply : Nat
  sizeof_VDAgentClipboard : Nat
  sizeof_VDAgentDisplayConfig : Nat
  sizeof_VDAgentAnnounceCapabilities : Nat
  sizeof_VDAgentClipboardGrab : Nat
  sizeof_VDAgentClipboardRequest : Nat
  sizeof_VDAgentClipboardRelease : Nat
  sizeof_VDAgentFileXferStartMessage : Nat
  sizeof_VDAgentFileXferStatusMessage : Nat
  sizeof_VDAgentFileXferDataMessage : Nat
  sizeof_VDAgentMaxClipboard : Nat
  sizeof_VDAgentAudioVolumeSync : Nat
  sizeof_VDAgentGraphicsDeviceInfo : Nat
  offsetof_VDAgentAudioVolumeSync_volume : Nat
  VD_AGENT_HAS_CAPABILITY : List Nat → Int → Nat → Bool
  VD_AGENT_CAPS_SIZE_FROM_MSG_SIZE : Nat → Int
  VD_AGENT_CAPS_BYTES : Nat
  VD_AGENT_CAP_MOUSE_STATE : Nat
  VD_AGENT_CAP_MONITORS_CONFIG : Nat
  VD_AGENT_CAP_REPLY : Nat
  VD_AGENT_CAP_CLIPBOARD_BY_DEMAND : Nat
  VD_AGENT_CAP_CLIPBOARD_SELECTION : Nat
  VD_AGENT_CAP_SPARSE_MONITORS_CONFIG : Nat
  VD_AGENT_CAP_GUEST_LINEEND_LF : Nat
  VD_AGENT_CAP_MAX_CLIPBOARD : Nat
  VD_AGENT_CAP_AUDIO_VOLUME_SYNC : Nat
  VD_AGENT_CAP_GRAPHICS_DEVICE_INFO : Nat
  VD_AGENT_CAP_CLIPBOARD_NO_RELEASE_ON_REGRAB : Nat
  VD_AGENT_CAP_CLIPBOARD_GRAB_SERIAL : Nat
  VD_AGENT_CAP_FILE_XFER_DETAILED_ERRORS : Nat
  VD_AGENT_CLIPBOARD_SELECTION_CLIPBOARD : Nat
  VD_AGENT_CLIPBOARD_SELECTION_SECONDARY : Nat
  VD_AGENT_CLIPBOARD_NONE : Nat
  VD_AGENT_SUCCESS : Nat
  VD_AGENT_FILE_XFER_STATUS_CAN_SEND_DATA : Nat
  VD_AGENT_FILE_XFER_STATUS_CANCELLED : Nat
  VD_AGENT_FILE_XFER_STATUS_ERROR : Nat
  VD_AGENT_FILE_XFER_STATUS_SUCCESS : Nat
  VD_AGENT_FILE_XFER_STATUS_NOT_ENOUGH_SPACE : Nat
  VD_AGENT_FILE_XFER_STATUS_SESSION_LOCKED : Nat
  VD_AGENT_FILE_XFER_STATUS_VDAGENT_NOT_CONNECTED : Nat
  VD_AGENT_FILE_XFER_STATUS_DISABLED : Nat
  VD_AGENT_FILE_XFER_STATUS_ERROR_GLIB_IO : Nat
  G_IO_ERROR_TOO_MANY_OPEN_FILES : Nat

/-- The message types of the host channel, numbered as the entries of
`vdagent_message_min_size` are commented. -/
def VD_AGENT_MOUSE_STATE : Nat := 1
/-- Message type 2. -/
def VD_AGENT_MONITORS_CONFIG : Nat := 2
/-- Message type 3. -/
def VD_AGENT_REPLY : Nat := 3
/-- Message type 4. -/
def VD_AGENT_CLIPBOARD : Nat := 4
/-- Message type 5. -/
def VD_AGENT_DISPLAY_CONFIG : Nat := 5
/-- Message type 6. -/
def VD_AGENT_ANNOUNCE_CAPABILITIES : Nat := 6
/-- Message type 7. -/
def VD_AGENT_CLIPBOARD_GRAB : Nat := 7
/-- Message type 8. -/
def VD_AGENT_CLIPBOARD_REQUEST : Nat := 8
/-- Message type 9. -/
def VD_AGENT_CLIPBOARD_RELEASE : Nat := 9
/-- Message type 10. -/
def VD_AGENT_FILE_XFER_START : Nat := 10
/-- Message type 11. -/
def VD_AGENT_FILE_XFER_STATUS : Nat := 11
/-- Message type 12. -/
def VD_AGENT_FILE_XFER_DATA : Nat := 12
/-- Message type 13. -/
def VD_AGENT_CLIENT_DISCONNECTED : Nat := 13
/-- Message type 14. -/
def VD_AGENT_MAX_CLIPBOARD : Nat := 14
/-- Message type 15. -/
def VD_AGENT_AUDIO_VOLUME_SYNC : Nat := 15
/-- Message type 16. -/
def VD_AGENT_GRAPHICS_DEVICE_INFO : Nat := 16

/-- The message types of the local broker protocol (the enumeration of
`vdagentd-proto.h`), used here as tags of the messages written to agents. -/
inductive VDAGENTD where
  | GUEST_XORG_RESOLUTION
  | MONITORS_CONFIG
  | CLIPBOARD_GRAB
  | CLIPBOARD_REQUEST
  | CLIPBOARD_DATA
  | CLIPBOARD_RELEASE
  | VERSION
  | AUDIO_VOLUME_SYNC
  | FILE_XFER_START
  | FILE_XFER_STATUS
  | FILE_XFER_DATA
  | FILE_XFER_DISABLE
  | CLIENT_DISCONNECTED
  | GRAPHICS_DEVICE_INFO
deriving DecidableEq, Repr

/-- The `MAX_ACTIVE_TRANSFERS`. -/
def MAX_ACTIVE_TRANSFERS : Nat := 128

/-- The `struct agent_data` attached to a connection. -/
structure agent_data where
  session : Option String
  width : Int
  height : Int
  screen_info : Option (List Nat)
  screen_count : Int
deriving DecidableEq, Repr

/-- What the engine does to the outside: writes to the host channel (recorded where
`vdagentd.c` calls the `vdagent_virtio_port_*` functions), writes to agents (`udscs_write`),
and calls to the other collaborators. -/
inductive Out where
  | virtio_port_write (port_nr type opaq : Nat) (data : List Nat) (size : Nat)
  | virtio_port_write_start (port_nr type opaq size : Nat)
  | virtio_port_write_append (data : List Nat) (size : Nat)
  | virtio_port_reset (port_nr : Nat)
  | virtio_port_create
  | virtio_port_flush
  | virtio_port_destroy
  | udscs_write (conn : ConnId) (type : VDAGENTD) (arg1 arg2 : Nat) (data : List Nat)
  | connection_destroy (conn : ConnId)
  | uinput_do_mouse (data : List Nat)
  | uinput_create
  | uinput_update_size
  | uinput_destroy
  | write_xorg_conf (data : List Nat)
  | quit (exit_code : Int)
deriving DecidableEq, Repr

/-- The answers of the collaborators during one call into the engine: the session
collaborator, uinput and the opening of the host channel. -/
structure Env where
  session_is_locked : Bool
  get_active_session : Option String
  is_user : Bool
  uinput_ok : Bool
  uinput_survives_mouse : Bool
  virtio_port_create_ok : Bool

/-- The global variables of `vdagentd.c`. The hash table `active_xfers` is the list of its
(id, connection) pairs; `virtio_port` and `session_info` tell whether the pointer is set;
`agent_datas` is `g_object_get_data(conn, "agent_data")`. -/
structure Daemon where
  server : udscs_server
  agent_datas : ConnId → Option agent_data
  virtio_port : Bool
  active_xfers : List (Nat × ConnId)
  session_info : Bool
  active_session : Option String
  session_count : Nat
  active_session_conn : Option ConnId
  agent_owns_clipboard : Nat → Bool
  clipboard_serial : Nat → Nat
  capabilities : List Nat
  capabilities_size : Int
  client_connected : Bool
  max_clipboard : Int
  mon_config : Option (List Nat)
  device_info : Option (List Nat)
  uinput : Bool
  only_once : Bool
  static_uinput : Bool
  retval : Option Int

/-- The test `VD_AGENT_HAS_CAPABILITY(capabilities, capabilities_size, index)`. -/
def has_capability (P : Protocol) (d : Daemon) (index : Nat) : Bool :=
  P.VD_AGENT_HAS_CAPABILITY d.capabilities d.capabilities_size index

/-! ### The hash table `active_xfers` -/

/-- The `g_hash_table_lookup`. -/
def xfers_lookup (t : List (Nat × ConnId)) (id : Nat) : Option ConnId := t.lookup id

/-- The `g_hash_table_remove`. -/
def xfers_remove (t : List (Nat × ConnId)) (id : Nat) : List (Nat × ConnId) :=
  t.filter (fun e => e.1 ≠ id)

/-- The `g_hash_table_insert`: the value of an existing key is replaced. -/
def xfers_insert (t : List (Nat × ConnId)) (id : Nat) (conn : ConnId) :
    List (Nat × ConnId) :=
  (id, conn) :: xfers_remove t id

/-- The `vdagentd_quit`. -/
def vdagentd_quit (d : Daemon) (exit_code : Int) : Daemon × List Out :=
  ({ d with retval := some exit_code }, [Out.quit exit_code])

/-- The `VD_AGENT_SET_CAPABILITY`: set bit `index % 32` of word `index / 32`. -/
def set_capability (caps : List Nat) (index : Nat) : List Nat :=
  caps.modify (fun w => w ||| 2 ^ (index % 32)) (index / 32)

/-- The `send_capabilities`: the request word, then the daemon's own capability set. -/
def send_capabilities (P : Protocol) (request : Nat) : List Out :=
  let size := (P.sizeof_VDAgentAnnounceCapabilities + P.VD_AGENT_CAPS_BYTES) % 4294967296
  let caps := List.replicate (P.VD_AGENT_CAPS_BYTES / 4) 0
  let caps := set_capability caps P.VD_AGENT_CAP_MOUSE_STATE
  let caps := set_capability caps P.VD_AGENT_CAP_MONITORS_CONFIG
  let caps := set_capability caps P.VD_AGENT_CAP_REPLY
  let caps := set_capability caps P.VD_AGENT_CAP_CLIPBOARD_BY_DEMAND
  let caps := set_capability caps P.VD_AGENT_CAP_CLIPBOARD_SELECTION
  let caps := set_capability caps P.VD_AGENT_CAP_SPARSE_MONITORS_CONFIG
  let caps := set_capability caps P.VD_AGENT_CAP_GUEST_LINEEND_LF
  let caps := set_capability caps P.VD_AGENT_CAP_MAX_CLIPBOARD
  let caps := set_capability caps P.VD_AGENT_CAP_AUDIO_VOLUME_SYNC
  let caps := set_capability caps P.VD_AGENT_CAP_GRAPHICS_DEVICE_INFO
  let caps := set_capability caps P.VD_AGENT_CAP_CLIPBOARD_NO_RELEASE_ON_REGRAB
  let caps := set_capability caps P.VD_AGENT_CAP_CLIPBOARD_GRAB_SERIAL
  [Out.virtio_port_write P.VDP_CLIENT_PORT VD_AGENT_ANNOUNCE_CAPABILITIES 0
    (to_le 4 request ++ (caps.map (to_le 4)).flatten) size]

/-- The capabilities that the daemon announces as its own, in the order in which
`send_capabilities` sets them. -/
def daemon_capabilities (P : Protocol) : List Nat :=
  [P.VD_AGENT_CAP_MOUSE_STATE, P.VD_AGENT_CAP_MONITORS_CONFIG, P.VD_AGENT_CAP_REPLY,
    P.VD_AGENT_CAP_CLIPBOARD_BY_DEMAND, P.VD_AGENT_CAP_CLIPBOARD_SELECTION,
    P.VD_AGENT_CAP_SPARSE_MONITORS_CONFIG, P.VD_AGENT_CAP_GUEST_LINEEND_LF,
    P.VD_AGENT_CAP_MAX_CLIPBOARD, P.VD_AGENT_CAP_AUDIO_VOLUME_SYNC,
    P.VD_AGENT_CAP_GRAPHICS_DEVICE_INFO, P.VD_AGENT_CAP_CLIPBOARD_NO_RELEASE_ON_REGRAB,
    P.VD_AGENT_CAP_CLIPBOARD_GRAB_SERIAL]

/-- In the capability words `caps`, the bits that are set are those of the capabilities in
`S`: bit `index % 32` of word `index / 32` for the capability `index`. -/
def CapabilityBits (caps : List Nat) (S : List Nat) : Prop :=
  ∀ index, index / 32 < caps.length →
    (Nat.testBit (caps.getD (index / 32) 0) (index % 32) = true ↔ index ∈ S)

/-- The call `o` is the daemon's capability announcement with the request word `request`:
one write to the client port of the host channel, of type `ANNOUNCE_CAPABILITIES`, whose
body is the request word followed by `VD_AGENT_CAPS_BYTES / 4` capability words in which
exactly the bits of the daemon's own capabilities are set. -/
def capability_announcement (P : Protocol) (request : Nat) (o : Out) : Prop :=
  ∃ caps : List Nat, caps.length = P.VD_AGENT_CAPS_BYTES / 4 ∧
    CapabilityBits caps (daemon_capabilities P) ∧
    o = Out.virtio_port_write P.VDP_CLIENT_PORT VD_AGENT_ANNOUNCE_CAPABILITIES 0
      (to_le 4 request ++ (caps.map (to_le 4)).flatten)
      ((P.sizeof_VDAgentAnnounceCapabilities + P.VD_AGENT_CAPS_BYTES) % 4294967296)

/-- The `udscs_server_write_all`. -/
def udscs_server_write_all (server : udscs_server) (type : VDAGENTD) (arg1 arg2 : Nat)
    (data : List Nat) : List Out :=
  server.connections.map (fun c => Out.udscs_write c type arg1 arg2 data)

/-- The `do_client_disconnect`. -/
def do_client_disconnect (d : Daemon) : Daemon × List Out :=
  let d1 := { d with active_xfers := [] }
  if d1.client_connected then
    ({ d1 with client_connected := false },
      udscs_server_write_all d1.server VDAGENTD.CLIENT_DISCONNECTED 0 0 [])
  else (d1, [])

/-- The `send_file_xfer_status`; `vport` tells whether the port pointer is set, `data` is
`none` for `NULL`. -/
def send_file_xfer_status (P : Protocol) (d : Daemon) (vport : Bool) (id xfer_status : Nat)
    (data : Option (List Nat)) (data_size : Nat) : List Out :=
  let downgrade := xfer_status > P.VD_AGENT_FILE_XFER_STATUS_SUCCESS ∧
    has_capability P d P.VD_AGENT_CAP_FILE_XFER_DETAILED_ERRORS = false
  let xfer_status := if downgrade then P.VD_AGENT_FILE_XFER_STATUS_ERROR else xfer_status
  let data_size := if downgrade then 0 else data_size
  let total := P.sizeof_VDAgentFileXferStatusMessage + data_size
  let status := List.replicate total 0
  let status := memcpy status 0 (to_le 4 id ++ to_le 4 xfer_status) 8
  let status :=
    match data with
    | some b => memcpy status P.sizeof_VDAgentFileXferStatusMessage b data_size
    | none => status
  if vport then
    [Out.virtio_port_write P.VDP_CLIENT_PORT VD_AGENT_FILE_XFER_STATUS 0 status
      (total % 4294967296)]
  else []

/-- The end of `do_client_file_xfer` (from the lookup of the task on): forward the message
to the connection that owns the task, and drop the task after a status message. -/
def file_xfer_forward (d : Daemon) (message_header : VDAgentMessage) (data : List Nat)
    (id : Nat) (msg_type : VDAGENTD) : Daemon × List Out :=
  match xfers_lookup d.active_xfers id with
  | none => (d, [])
  | some conn =>
    let out := [Out.udscs_write conn msg_type 0 0 (data.take message_header.size)]
    if message_header.type = VD_AGENT_FILE_XFER_STATUS then
      ({ d with active_xfers := xfers_remove d.active_xfers id }, out)
    else (d, out)

/-- The `do_client_file_xfer`. The ids are read from the start of the body, where
`vdagent_message_file_xfer_from_le` has converted them. -/
def do_client_file_xfer (P : Protocol) (env : Env) (d : Daemon) (vport : Bool)
    (message_header : VDAgentMessage) (data : List Nat) : Daemon × List Out :=
  let id := read_le data 0 4
  let forward (d : Daemon) (msg_type : VDAGENTD) : Daemon × List Out :=
    file_xfer_forward d message_header data id msg_type
  if message_header.type = VD_AGENT_FILE_XFER_START then
    match d.active_session_conn with
    | none =>
      (d, send_file_xfer_status P d vport id
        P.VD_AGENT_FILE_XFER_STATUS_VDAGENT_NOT_CONNECTED none 0)
    | some active =>
      if env.session_is_locked then
        (d, send_file_xfer_status P d vport id
          P.VD_AGENT_FILE_XFER_STATUS_SESSION_LOCKED none 0)
      else if d.active_xfers.length ≥ MAX_ACTIVE_TRANSFERS then
        let error := to_le 4 P.VD_AGENT_FILE_XFER_STATUS_ERROR_GLIB_IO ++
          to_le 4 P.G_IO_ERROR_TOO_MANY_OPEN_FILES
        let detail_size :=
          if has_capability P d P.VD_AGENT_CAP_FILE_XFER_DETAILED_ERRORS then 8 else 0
        (d, send_file_xfer_status P d vport id P.VD_AGENT_FILE_XFER_STATUS_ERROR
          (some error) detail_size)
      else if (xfers_lookup d.active_xfers id).isSome then
        (d, send_file_xfer_status P d vport id P.VD_AGENT_FILE_XFER_STATUS_ERROR none 0)
      else
        forward { d with active_xfers := xfers_insert d.active_xfers id active }
          VDAGENTD.FILE_XFER_START
  else if message_header.type = VD_AGENT_FILE_XFER_STATUS then
    forward d VDAGENTD.FILE_XFER_STATUS
  else if message_header.type = VD_AGENT_FILE_XFER_DATA then
    forward d VDAGENTD.FILE_XFER_DATA
  else (d, [])

/-- The four admission checks of a host `FILE_XFER_START` with id `id`. -/
def start_checks_pass (env : Env) (d : Daemon) (id : Nat) : Prop :=
  d.active_session_conn.isSome = true ∧ env.session_is_locked = false ∧
    d.active_xfers.length < 128 ∧ xfers_lookup d.active_xfers id = none

/-- The start with id `id` was admitted: the pair id -> active connection was added to the
task table and the start was forwarded to the active connection (and nothing else done). -/
def start_admitted (d : Daemon) (id : Nat) (message : List Nat) (r : Daemon × List Out) :
    Prop :=
  ∃ a, d.active_session_conn = some a ∧ r.1.active_xfers = (id, a) :: d.active_xfers ∧
    r.2 = [Out.udscs_write a VDAGENTD.FILE_XFER_START 0 0 message]

/-! ### Session arbitration and the host channel -/

/-- The `forward_data_to_session_agent`. -/
def forward_data_to_session_agent (d : Daemon) (type : VDAGENTD) (data : List Nat) :
    List Out :=
  match d.active_session_conn with
  | none => []
  | some conn => [Out.udscs_write conn type 0 0 data]

/-- One round of the loop of `release_clipboards`, for selection `sel`. -/
def release_clipboard (P : Protocol) (acc : Daemon × List Out) (sel : Nat) :
    Daemon × List Out :=
  let d := acc.1
  let out :=
    if d.agent_owns_clipboard sel ∧ d.virtio_port then
      [Out.virtio_port_write P.VDP_CLIENT_PORT VD_AGENT_CLIPBOARD_RELEASE 0 [sel] 1]
    else []
  ({ d with agent_owns_clipboard := Function.update d.agent_owns_clipboard sel false },
    acc.2 ++ out)

/-- The `release_clipboards`: the loop runs over the selections below
`VD_AGENT_CLIPBOARD_SELECTION_SECONDARY`. -/
def release_clipboards (P : Protocol) (d : Daemon) : Daemon × List Out :=
  (List.range P.VD_AGENT_CLIPBOARD_SELECTION_SECONDARY).foldl (release_clipboard P) (d, [])

/-- The `check_xorg_resolution`. -/
def check_xorg_resolution (P : Protocol) (env : Env) (d : Daemon) : Daemon × List Out :=
  let agent_data : Option agent_data :=
    match d.active_session_conn with
    | none => none
    | some c => d.agent_datas c
  let known : Bool :=
    match agent_data with
    | none => false
    | some ad => ad.screen_info.isSome
  if known then
    let out1 := if d.uinput then [Out.uinput_update_size] else [Out.uinput_create]
    let d1 := { d with uinput := env.uinput_ok }
    if d1.uinput = false then
      let q := vdagentd_quit d1 1
      (q.1, out1 ++ q.2)
    else if d1.virtio_port = false then
      if env.virtio_port_create_ok = false then
        let q := vdagentd_quit d1 1
        (q.1, out1 ++ [Out.virtio_port_create] ++ q.2)
      else
        ({ d1 with virtio_port := true },
          out1 ++ [Out.virtio_port_create] ++ send_capabilities P 1)
    else (d1, out1)
  else
    let out1 := if d.static_uinput then [] else [Out.uinput_destroy]
    let d1 := if d.static_uinput then d else { d with uinput := false }
    if d1.virtio_port then
      if d1.only_once then
        let q := vdagentd_quit d1 0
        (q.1, out1 ++ q.2)
      else
        ({ d1 with virtio_port := false },
          out1 ++ [Out.virtio_port_flush, Out.virtio_port_destroy])
    else (d1, out1)

/-- The `connection_matches_active_session`, on the `priv` it is given by
`update_active_session_connection` (the address of `new_conn`). A connection without
`agent_data` makes it dereference `NULL`: the state `none`. -/
def connection_matches_active_session (d : Daemon) (conn : ConnId)
    (priv : Option (Option ConnId)) : Int × Option (Option ConnId) :=
  match priv with
  | none => (0, none)
  | some conn_ret =>
    match d.agent_datas conn with
    | none => (0, none)
    | some ad =>
      match ad.session, d.active_session with
      | some s, some a => if s = a then (1, some (some conn)) else (0, some conn_ret)
      | _, _ => (0, some conn_ret)

/-- Lines 906-907 of `update_active_session_connection`: ask the oracle for the active
session when none is known. -/
def ask_active_session (env : Env) (d : Daemon) : Daemon :=
  if d.active_session.isNone then { d with active_session := env.get_active_session }
  else d

/-- Lines 904-916 of `update_active_session_connection`: with a session oracle, ask for the
active session when none is known and count the connections that match it (`new_conn`
becomes the last match); without one, count connects and disconnects. -/
def count_session_connections (env : Env) (d : Daemon) (new_conn : Option ConnId) :
    Option (Daemon × Option ConnId) :=
  if d.session_info then
    let d1 := ask_active_session env d
    let r := udscs_server_for_all_clients (some d1.server)
      (connection_matches_active_session d1) (some none)
    match r.2.1 with
    | none => none
    | some nc => some ({ d1 with session_count := to_uint32 r.1 }, nc)
  else
    if new_conn.isSome then
      some ({ d with session_count := (d.session_count + 1) % 4294967296 }, new_conn)
    else
      some ({ d with session_count := (d.session_count + 4294967295) % 4294967296 },
        new_conn)

/-- Lines 918-948 of `update_active_session_connection`: drop an ambiguous candidate, and
when the active connection changes, tell the new one, release the guest's clipboards and
look at the host channel again. -/
def switch_active_session (P : Protocol) (env : Env) (d : Daemon)
    (new_conn : Option ConnId) : Daemon × List Out :=
  let nc := if new_conn.isSome ∧ d.session_count ≠ 1 then none else new_conn
  if nc = d.active_session_conn then (d, [])
  else
    let d3 := { d with active_session_conn := nc }
    let out1 :=
      match nc with
      | some c =>
        if d3.session_info ∧ env.is_user = false then
          [Out.udscs_write c VDAGENTD.FILE_XFER_DISABLE 0 0 []]
        else []
      | none => []
    let out2 :=
      match nc, d3.mon_config with
      | some c, some mc =>
        [Out.udscs_write c VDAGENTD.MONITORS_CONFIG 0 0
          (mc.take ((P.sizeof_VDAgentMonitorsConfig +
            read_le mc 0 4 * P.sizeof_VDAgentMonConfig) % 4294967296))]
      | _, _ => []
    let r := release_clipboards P d3
    let x := check_xorg_resolution P env r.1
    (x.1, out1 ++ out2 ++ r.2 ++ x.2)

/-- The `update_active_session_connection`. -/
def update_active_session_connection (P : Protocol) (env : Env) (d : Daemon)
    (new_conn : Option ConnId) : Option (Daemon × List Out) :=
  match count_session_connections env d new_conn with
  | none => none
  | some (d2, nc) => some (switch_active_session P env d2 nc)

/-- The `g_hash_table_foreach_remove(active_xfers, remove_active_xfers, conn)`: the tasks of
`conn` are removed, each with a `CANCELLED` status sent through the global `virtio_port`. -/
def remove_active_xfers (P : Protocol) (d : Daemon) (conn : ConnId) : Daemon × List Out :=
  ({ d with active_xfers := d.active_xfers.filter (fun e => e.2 ≠ conn) },
    ((d.active_xfers.filter (fun e => e.2 = conn)).map (fun e =>
      send_file_xfer_status P d d.virtio_port e.1 P.VD_AGENT_FILE_XFER_STATUS_CANCELLED
        none 0)).flatten)

/-- The `udscs_server_destroy_connection` on the daemon's server. -/
def daemon_destroy_connection (d : Daemon) (conn : ConnId) : Daemon × List Out :=
  ({ d with server := (udscs_server_destroy_connection d.server conn).1 },
    [Out.connection_destroy conn])

/-- The `agent_disconnect`, the error callback of the agent connections. -/
def agent_disconnect (P : Protocol) (env : Env) (d : Daemon) (conn : ConnId) :
    Option (Daemon × List Out) :=
  let r1 := remove_active_xfers P d conn
  let r2 := daemon_destroy_connection r1.1 conn
  match update_active_session_connection P env r2.1 none with
  | none => none
  | some r3 => some (r3.1, r1.2 ++ r2.2 ++ r3.2)

/-- The `do_agent_file_xfer_status`. For `NOT_ENOUGH_SPACE` the first 8 bytes of the body are
read and rewritten whatever the size of the message: undefined when there are fewer. -/
def do_agent_file_xfer_status (P : Protocol) (d : Daemon) (conn : ConnId)
    (header : udscs_message_header) (data : Option (List Nat)) :
    Option (Daemon × List Out) :=
  let task_id := header.arg1
  match xfers_lookup d.active_xfers task_id with
  | none => some (d, [])
  | some task_conn =>
    if task_conn ≠ conn then some (d, [])
    else
      let short : Bool :=
        match data with
        | none => true
        | some b => b.length < 8
      if header.arg2 = P.VD_AGENT_FILE_XFER_STATUS_NOT_ENOUGH_SPACE ∧ short then none
      else
        let data_size :=
          if header.arg2 = P.VD_AGENT_FILE_XFER_STATUS_NOT_ENOUGH_SPACE then 8 else 0
        let out := send_file_xfer_status P d d.virtio_port header.arg1 header.arg2 data
          data_size
        if header.arg2 ≠ P.VD_AGENT_FILE_XFER_STATUS_CAN_SEND_DATA then
          some ({ d with active_xfers := xfers_remove d.active_xfers task_id }, out)
        else some (d, out)

/-- The events of the file-transfer table: a host file-transfer message, an agent status
message, an agent disconnect, each with the collaborators' answers of the moment; and any
other change of the active connection in between (the table does not depend on it). -/
inductive XferEvent where
  | host_message (env : Env) (message_header : VDAgentMessage) (data : List Nat)
  | agent_status (conn : ConnId) (header : udscs_message_header) (data : Option (List Nat))
  | agent_disconnect (env : Env) (conn : ConnId)
  | active_changed (conn : Option ConnId)

/-- Run one event of the file-transfer table. -/
def xfer_step (P : Protocol) (d : Daemon) : XferEvent → Option (Daemon × List Out)
  | XferEvent.host_message env h data => some (do_client_file_xfer P env d true h data)
  | XferEvent.agent_status conn h data => do_agent_file_xfer_status P d conn h data
  | XferEvent.agent_disconnect env conn => agent_disconnect P env d conn
  | XferEvent.active_changed conn => some ({ d with active_session_conn := conn }, [])

/-- Run events in order. -/
def xfer_run (P : Protocol) (d : Daemon) : List XferEvent → Option (Daemon × List Out)
  | [] => some (d, [])
  | e :: es =>
    match xfer_step P d e with
    | none => none
    | some r =>
      match xfer_run P r.1 es with
      | none => none
      | some r2 => some (r2.1, r.2 ++ r2.2)

/-- The task table is well formed: at most 128 entries, no id twice. -/
def XfersInv (t : List (Nat × ConnId)) : Prop :=
  t.length ≤ 128 ∧ (t.map Prod.fst).Nodup

/-- The connection `conn` belongs to the active session: it has a session id, an active
session id is known, and the two are equal. -/
def matches_active_session (d : Daemon) (conn : ConnId) : Bool :=
  match d.agent_datas conn with
  | none => false
  | some ad =>
    match ad.session, d.active_session with
    | some s, some a => decide (s = a)
    | _, _ => false

/-- The tracked connections that belong to the active session. -/
def candidates (d : Daemon) : List ConnId :=
  d.server.connections.filter (matches_active_session d)

/-- The connection that session arbitration selects: the one candidate, if there is
exactly one. -/
def selected (d : Daemon) : Option ConnId :=
  match candidates d with
  | [c] => some c
  | _ => none

/-- Every tracked connection has its `agent_data`. -/
def AllAttached (d : Daemon) : Prop :=
  ∀ c ∈ d.server.connections, (d.agent_datas c).isSome = true

/-- The answers of the collaborators to `agent_connect`: whether the peer's pid and uid
were found, the session of that pid, and whether the uid checks passed. -/
structure ConnectEnv where
  peer_found : Bool
  session_for_pid : Option String
  uid_ok : Bool

/-- The `connection_matches_session` of `agent_connect`; `priv` is `some session`, or
`none` once `strcmp` was given a `NULL` session (undefined). -/
def connection_matches_session (d : Daemon) (session : Option String) (conn : ConnId)
    (priv : Option Unit) : Int × Option Unit :=
  match priv with
  | none => (0, none)
  | some u =>
    match d.agent_datas conn with
    | none => (0, some u)
    | some ad =>
      match ad.session with
      | none => (0, some u)
      | some s =>
        match session with
        | none => (0, none)
        | some s2 => if s = s2 then (1, some u) else (0, some u)

/-- The `agent_connect`, the connect callback, run on the connection `conn` that
`udscs_server_accept_cb` has just registered; `version` is the `VERSION` string. -/
def agent_connect (P : Protocol) (env : Env) (cenv : ConnectEnv) (version : List Nat)
    (d : Daemon) (conn : ConnId) : Option (Daemon × List Out) :=
  let attach (session : Option String) : Option (Daemon × List Out) :=
    let ad : agent_data := ⟨session, 0, 0, none, 0⟩
    let d1 := { d with agent_datas := Function.update d.agent_datas conn (some ad) }
    match update_active_session_connection P env d1 (some conn) with
    | none => none
    | some r =>
      some (r.1, [Out.udscs_write conn VDAGENTD.VERSION 0 0 version] ++ r.2 ++
        (match r.1.device_info with
          | some di => forward_data_to_session_agent r.1 VDAGENTD.GRAPHICS_DEVICE_INFO di
          | none => []))
  if d.session_info then
    if cenv.peer_found = false then some (daemon_destroy_connection d conn)
    else if cenv.uid_ok = false then some (daemon_destroy_connection d conn)
    else
      let r := udscs_server_for_all_clients (some d.server)
        (connection_matches_session d cenv.session_for_pid) (some ())
      match r.2.1 with
      | none => none
      | some _ =>
        if r.1 > 0 then some (daemon_destroy_connection d conn)
        else attach cenv.session_for_pid
  else attach none

/-- The `si_io_channel_cb`: the session collaborator reports a change. -/
def si_io_channel_cb (P : Protocol) (env : Env) (d : Daemon) : Option (Daemon × List Out) :=
  update_active_session_connection P env
    { d with active_session := env.get_active_session } none

/-- A connect, a disconnect or a change of the active session, each with the answers of
the collaborators at that moment. -/
inductive SessionEvent where
  | connect (env : Env) (cenv : ConnectEnv) (version : List Nat) (conn : ConnId)
  | disconnect (env : Env) (conn : ConnId)
  | session_change (env : Env)

/-- Run one session event. A connect goes through `udscs_server_accept_cb` (which ignores
it at the limit) and then `agent_connect`; the new connection object is distinct from the
tracked ones and has no `agent_data` yet. -/
def session_step (P : Protocol) (d : Daemon) : SessionEvent → Option (Daemon × List Out)
  | SessionEvent.connect env cenv version conn =>
    if conn ∈ d.server.connections then none
    else
      let acc := udscs_server_accept_cb d.server conn
      if acc.2 = [ServerEvent.connect_callback conn] then
        agent_connect P env cenv version
          { d with server := acc.1, agent_datas := Function.update d.agent_datas conn none }
          conn
      else some ({ d with server := acc.1 }, [])
  | SessionEvent.disconnect env conn => agent_disconnect P env d conn
  | SessionEvent.session_change env => si_io_channel_cb P env d

/-- Run session events in order. -/
def session_run (P : Protocol) (d : Daemon) : List SessionEvent → Option (Daemon × List Out)
  | [] => some (d, [])
  | e :: es =>
    match session_step P d e with
    | none => none
    | some r =>
      match session_run P r.1 es with
      | none => none
      | some r2 => some (r2.1, r.2 ++ r2.2)

/-- The two states agree on what session arbitration reads and decides. -/
def RoutingEq (d d' : Daemon) : Prop :=
  d'.server = d.server ∧ d'.agent_datas = d.agent_datas ∧
    d'.active_session = d.active_session ∧ d'.session_info = d.session_info ∧
    d'.active_session_conn = d.active_session_conn

/-- The invariant of session arbitration with an oracle: the oracle and the connect
callback are there, at most 128 connections are tracked, each with its `agent_data`, and the
active connection is the selected one. -/
def SessionInv (d : Daemon) : Prop :=
  d.session_info = true ∧ d.server.connect_callback = true ∧
    d.server.connections.length ≤ 128 ∧ AllAttached d ∧
    d.active_session_conn = selected d

/-! ### Host messages: validation and handlers -/

/-- The table `vdagent_message_min_size`, indexed by message type; entry 0 is `-1` as a
`gsize`. -/
def vdagent_message_min_size (P : Protocol) : List Nat :=
  [18446744073709551615,
   P.sizeof_VDAgentMouseState,
   P.sizeof_VDAgentMonitorsConfig,
   P.sizeof_VDAgentReply,
   P.sizeof_VDAgentClipboard,
   P.sizeof_VDAgentDisplayConfig,
   P.sizeof_VDAgentAnnounceCapabilities,
   P.sizeof_VDAgentClipboardGrab,
   P.sizeof_VDAgentClipboardRequest,
   P.sizeof_VDAgentClipboardRelease,
   P.sizeof_VDAgentFileXferStartMessage,
   P.sizeof_VDAgentFileXferStatusMessage,
   P.sizeof_VDAgentFileXferDataMessage,
   0,
   P.sizeof_VDAgentMaxClipboard,
   P.sizeof_VDAgentAudioVolumeSync,
   P.sizeof_VDAgentGraphicsDeviceInfo]

/-- The `min_size` that `vdagent_message_check_size` computes for a known type, a
`uint32_t`: the table entry, plus 4 for a clipboard message under `CLIPBOARD_SELECTION`,
plus 4 for a grab under `CLIPBOARD_GRAB_SERIAL`. -/
def check_size_min (P : Protocol) (d : Daemon) (type : Nat) : Nat :=
  let min_size := (vdagent_message_min_size P).getD type 0 % 4294967296
  let min_size :=
    if has_capability P d P.VD_AGENT_CAP_CLIPBOARD_SELECTION ∧
        (type = VD_AGENT_CLIPBOARD_GRAB ∨ type = VD_AGENT_CLIPBOARD_REQUEST ∨
          type = VD_AGENT_CLIPBOARD ∨ type = VD_AGENT_CLIPBOARD_RELEASE) then
      (min_size + 4) % 4294967296
    else min_size
  if has_capability P d P.VD_AGENT_CAP_CLIPBOARD_GRAB_SERIAL ∧
      type = VD_AGENT_CLIPBOARD_GRAB then
    (min_size + 4) % 4294967296
  else min_size

/-- The `vdagent_message_check_size`. -/
def vdagent_message_check_size (P : Protocol) (d : Daemon)
    (message_header : VDAgentMessage) : Bool :=
  if message_header.protocol ≠ P.VD_AGENT_PROTOCOL then false
  else if message_header.type = 0 ∨
      message_header.type ≥ (vdagent_message_min_size P).length then false
  else
    let min_size := check_size_min P d message_header.type
    let t := message_header.type
    if t = VD_AGENT_MONITORS_CONFIG ∨ t = VD_AGENT_FILE_XFER_START ∨
        t = VD_AGENT_FILE_XFER_DATA ∨ t = VD_AGENT_CLIPBOARD ∨
        t = VD_AGENT_CLIPBOARD_GRAB ∨ t = VD_AGENT_AUDIO_VOLUME_SYNC ∨
        t = VD_AGENT_ANNOUNCE_CAPABILITIES ∨ t = VD_AGENT_GRAPHICS_DEVICE_INFO then
      if message_header.size < min_size then false else true
    else if t = VD_AGENT_MOUSE_STATE ∨ t = VD_AGENT_FILE_XFER_STATUS ∨
        t = VD_AGENT_DISPLAY_CONFIG ∨ t = VD_AGENT_REPLY ∨
        t = VD_AGENT_CLIPBOARD_REQUEST ∨ t = VD_AGENT_CLIPBOARD_RELEASE ∨
        t = VD_AGENT_MAX_CLIPBOARD ∨ t = VD_AGENT_CLIENT_DISCONNECTED then
      if message_header.size ≠ min_size then false else true
    else false

/-- The `do_client_mouse`: uinput handles the event; when that loses the device, it is
created again for the active connection, and the daemon quits if that fails. -/
def do_client_mouse (env : Env) (d : Daemon) (data : List Nat) : Daemon × List Out :=
  let out := [Out.uinput_do_mouse data]
  if env.uinput_survives_mouse ∧ d.uinput then (d, out)
  else
    if d.active_session_conn.isSome ∧ env.uinput_ok then
      ({ d with uinput := true }, out ++ [Out.uinput_create])
    else
      let q := vdagentd_quit { d with uinput := false } 1
      (q.1, out ++ (if d.active_session_conn.isSome then [Out.uinput_create] else []) ++ q.2)

/-- The `do_client_monitors`. -/
def do_client_monitors (P : Protocol) (d : Daemon) (port_nr : Nat)
    (message_header : VDAgentMessage) (data : List Nat) : Daemon × List Out :=
  let size := (P.sizeof_VDAgentMonitorsConfig +
    read_le data 0 4 * P.sizeof_VDAgentMonConfig) % 4294967296
  if message_header.size ≠ size then (d, [])
  else
    let mon_config := data.take size
    let d1 := { d with mon_config := some mon_config }
    (d1, [Out.write_xorg_conf data] ++
      (match d1.active_session_conn with
        | some c => [Out.udscs_write c VDAGENTD.MONITORS_CONFIG 0 0 mon_config]
        | none => []) ++
      [Out.virtio_port_write port_nr VD_AGENT_REPLY 0
        (to_le 4 VD_AGENT_MONITORS_CONFIG ++ to_le 4 P.VD_AGENT_SUCCESS)
        P.sizeof_VDAgentReply])

/-- The `do_client_volume_sync`. -/
def do_client_volume_sync (d : Daemon) (message_header : VDAgentMessage)
    (data : List Nat) : List Out :=
  match d.active_session_conn with
  | none => []
  | some c => [Out.udscs_write c VDAGENTD.AUDIO_VOLUME_SYNC 0 0
      (data.take message_header.size)]

/-- The 32-bit words of a buffer from offset `off` on, `n` of them. -/
def words_at (data : List Nat) (off n : Nat) : List Nat :=
  (List.range n).map (fun i => read_le data (off + 4 * i) 4)

/-- The `do_client_capabilities`. -/
def do_client_capabilities (P : Protocol) (d : Daemon) (message_header : VDAgentMessage)
    (data : List Nat) : Daemon × List Out :=
  let capabilities_size := P.VD_AGENT_CAPS_SIZE_FROM_MSG_SIZE message_header.size
  let d1 := { d with
    capabilities_size := capabilities_size
    capabilities := words_at data P.sizeof_VDAgentAnnounceCapabilities
      capabilities_size.toNat }
  if read_le data 0 4 ≠ 0 then
    let r := do_client_disconnect d1
    ({ r.1 with client_connected := true, clipboard_serial := fun _ => 0 },
      r.2 ++ send_capabilities P 0)
  else (d1, [])

/-- The grab branch of `do_client_clipboard`, after the selection was taken: check the
serial when the capability is there, then forward the grab and clear the ownership. -/
def do_client_clipboard_grab (P : Protocol) (d : Daemon) (active : ConnId)
    (selection : Nat) (data : List Nat) (size : Nat) : Daemon × List Out :=
  let accept (d : Daemon) (data : List Nat) (size : Nat) : Daemon × List Out :=
    ({ d with agent_owns_clipboard := Function.update d.agent_owns_clipboard selection false },
      [Out.udscs_write active VDAGENTD.CLIPBOARD_GRAB selection 0 (data.take size)])
  if has_capability P d P.VD_AGENT_CAP_CLIPBOARD_GRAB_SERIAL then
    let serial := read_le data 0 4
    let data := data.drop 4
    let size := sub_uint32 size 4
    if serial = sub_uint32 (d.clipboard_serial selection) 1 then accept d data size
    else if serial = d.clipboard_serial selection then
      accept { d with clipboard_serial :=
          (Function.update d.clipboard_serial selection
            ((d.clipboard_serial selection + 1) % 4294967296)) } data size
    else (d, [])
  else accept d data size

/-- The `do_client_clipboard`. The fields are read where
`vdagent_message_clipboard_from_le` has converted them. -/
def do_client_clipboard (P : Protocol) (d : Daemon) (message_header : VDAgentMessage)
    (data : List Nat) : Daemon × List Out :=
  match d.active_session_conn with
  | none => (d, [])
  | some active =>
    let has_sel := has_capability P d P.VD_AGENT_CAP_CLIPBOARD_SELECTION
    let selection :=
      if has_sel then data.getD 0 0 % 256 else P.VD_AGENT_CLIPBOARD_SELECTION_CLIPBOARD % 256
    let size := if has_sel then sub_uint32 message_header.size 4 else message_header.size
    let data := if has_sel then data.drop 4 else data
    let t := message_header.type
    if t = VD_AGENT_CLIPBOARD_GRAB then
      do_client_clipboard_grab P d active selection data size
    else if t = VD_AGENT_CLIPBOARD_REQUEST then
      (d, [Out.udscs_write active VDAGENTD.CLIPBOARD_REQUEST selection (read_le data 0 4) []])
    else if t = VD_AGENT_CLIPBOARD then
      (d, [Out.udscs_write active VDAGENTD.CLIPBOARD_DATA selection (read_le data 0 4)
        ((data.drop P.sizeof_VDAgentClipboard).take
          (sub_uint32 size P.sizeof_VDAgentClipboard))])
    else if t = VD_AGENT_CLIPBOARD_RELEASE then
      (d, [Out.udscs_write active VDAGENTD.CLIPBOARD_RELEASE selection 0 []])
    else
      (d, [Out.udscs_write active VDAGENTD.GUEST_XORG_RESOLUTION selection 0 (data.take size)])

/-- The `virtio_port_read_complete`, the read callback of the host channel. -/
def virtio_port_read_complete (P : Protocol) (env : Env) (d : Daemon) (port_nr : Nat)
    (message_header : VDAgentMessage) (data : List Nat) : Daemon × List Out :=
  if vdagent_message_check_size P d message_header = false then (d, [])
  else
    let t := message_header.type
    if t = VD_AGENT_MOUSE_STATE then do_client_mouse env d data
    else if t = VD_AGENT_MONITORS_CONFIG then
      do_client_monitors P d port_nr message_header data
    else if t = VD_AGENT_ANNOUNCE_CAPABILITIES then
      do_client_capabilities P d message_header data
    else if t = VD_AGENT_CLIPBOARD_GRAB ∨ t = VD_AGENT_CLIPBOARD_REQUEST ∨
        t = VD_AGENT_CLIPBOARD ∨ t = VD_AGENT_CLIPBOARD_RELEASE then
      do_client_clipboard P d message_header data
    else if t = VD_AGENT_FILE_XFER_START ∨ t = VD_AGENT_FILE_XFER_STATUS ∨
        t = VD_AGENT_FILE_XFER_DATA then
      do_client_file_xfer P env d true message_header data
    else if t = VD_AGENT_CLIENT_DISCONNECTED then
      let r := do_client_disconnect d
      (r.1, [Out.virtio_port_reset P.VDP_CLIENT_PORT] ++ r.2)
    else if t = VD_AGENT_MAX_CLIPBOARD then
      ({ d with max_clipboard := to_int (read_le data 0 4) }, [])
    else if t = VD_AGENT_GRAPHICS_DEVICE_INFO then
      let d1 := { d with device_info := some (data.take message_header.size) }
      (d1, forward_data_to_session_agent d1 VDAGENTD.GRAPHICS_DEVICE_INFO
        (data.take message_header.size))
    else if t = VD_AGENT_AUDIO_VOLUME_SYNC then
      (d, do_client_volume_sync d message_header data)
    else (d, [])

/-- The computed minimum as the specification words it: the base minimum of the type, plus
4 when the capability snapshot has `CLIPBOARD_SELECTION` and the type is clipboard grab,
request, data or release, plus 4 more when it has `CLIPBOARD_GRAB_SERIAL` and the type is
clipboard grab. -/
def claimed_min_size (P : Protocol) (d : Daemon) (type : Nat) : Nat :=
  (vdagent_message_min_size P).getD type 0 +
    (if has_capability P d P.VD_AGENT_CAP_CLIPBOARD_SELECTION = true ∧
        (type = VD_AGENT_CLIPBOARD_GRAB ∨ type = VD_AGENT_CLIPBOARD_REQUEST ∨
          type = VD_AGENT_CLIPBOARD ∨ type = VD_AGENT_CLIPBOARD_RELEASE) then 4 else 0) +
    (if has_capability P d P.VD_AGENT_CAP_CLIPBOARD_GRAB_SERIAL = true ∧
        type = VD_AGENT_CLIPBOARD_GRAB then 4 else 0)

/-- The base minimum sizes fit a `uint32_t` with room for the two increments. -/
def SizesFit (P : Protocol) : Prop :=
  ∀ t, 1 ≤ t → t < 17 → (vdagent_message_min_size P).getD t 0 + 8 < 4294967296

/-- The selection a host clipboard message is about: the first byte of the body under
`CLIPBOARD_SELECTION`, the selection `CLIPBOARD` otherwise. -/
def grab_selection (P : Protocol) (d : Daemon) (data : List Nat) : Nat :=
  if has_capability P d P.VD_AGENT_CAP_CLIPBOARD_SELECTION then data.getD 0 0 % 256
  else P.VD_AGENT_CLIPBOARD_SELECTION_CLIPBOARD % 256

/-- The serial of a host grab under `CLIPBOARD_GRAB_SERIAL`: the 32-bit word after the
optional selection field. -/
def grab_serial (P : Protocol) (d : Daemon) (data : List Nat) : Nat :=
  if has_capability P d P.VD_AGENT_CAP_CLIPBOARD_SELECTION then read_le (data.drop 4) 0 4
  else read_le data 0 4

/-- The payload forwarded with an accepted host grab under `CLIPBOARD_GRAB_SERIAL`: what
follows the selection field and the serial. -/
def grab_payload (P : Protocol) (d : Daemon) (message_header : VDAgentMessage)
    (data : List Nat) : List Nat :=
  if has_capability P d P.VD_AGENT_CAP_CLIPBOARD_SELECTION then
    ((data.drop 4).drop 4).take (sub_uint32 (sub_uint32 message_header.size 4) 4)
  else (data.drop 4).take (sub_uint32 message_header.size 4)

/-! ## Concrete instances -/

/-- The values of `spice/vd_agent.h` and `virtio-port.h` for the members of `Protocol`. -/
def spice_protocol : Protocol :=
  { VD_AGENT_PROTOCOL := 1
    VDP_CLIENT_PORT := 1
    sizeof_VDAgentMouseState := 13
    sizeof_VDAgentMonitorsConfig := 8
    sizeof_VDAgentMonConfig := 20
    sizeof_VDAgentReply := 8
    sizeof_VDAgentClipboard := 4
    sizeof_VDAgentDisplayConfig := 8
    sizeof_VDAgentAnnounceCapabilities := 4
    sizeof_VDAgentClipboardGrab := 0
    sizeof_VDAgentClipboardRequest := 4
    sizeof_VDAgentClipboardRelease := 0
    sizeof_VDAgentFileXferStartMessage := 4
    sizeof_VDAgentFileXferStatusMessage := 8
    sizeof_VDAgentFileXferDataMessage := 12
    sizeof_VDAgentMaxClipboard := 4
    sizeof_VDAgentAudioVolumeSync := 3
    sizeof_VDAgentGraphicsDeviceInfo := 4
    offsetof_VDAgentAudioVolumeSync_volume := 3
    VD_AGENT_HAS_CAPABILITY := fun caps caps_size index =>
      decide (caps_size > ((index / 32 : Nat) : Int)) &&
        Nat.testBit (caps.getD (index / 32) 0) (index % 32)
    VD_AGENT_CAPS_SIZE_FROM_MSG_SIZE := fun msg_size => (((msg_size - 4) / 4 : Nat) : Int)
    VD_AGENT_CAPS_BYTES := 4
    VD_AGENT_CAP_MOUSE_STATE := 0
    VD_AGENT_CAP_MONITORS_CONFIG := 1
    VD_AGENT_CAP_REPLY := 2
    VD_AGENT_CAP_CLIPBOARD_BY_DEMAND := 5
    VD_AGENT_CAP_CLIPBOARD_SELECTION := 6
    VD_AGENT_CAP_SPARSE_MONITORS_CONFIG := 7
    VD_AGENT_CAP_GUEST_LINEEND_LF := 8
    VD_AGENT_CAP_MAX_CLIPBOARD := 10
    VD_AGENT_CAP_AUDIO_VOLUME_SYNC := 11
    VD_AGENT_CAP_GRAPHICS_DEVICE_INFO := 15
    VD_AGENT_CAP_CLIPBOARD_NO_RELEASE_ON_REGRAB := 16
    VD_AGENT_CAP_CLIPBOARD_GRAB_SERIAL := 17
    VD_AGENT_CAP_FILE_XFER_DETAILED_ERRORS := 14
    VD_AGENT_CLIPBOARD_SELECTION_CLIPBOARD := 0
    VD_AGENT_CLIPBOARD_SELECTION_SECONDARY := 2
    VD_AGENT_CLIPBOARD_NONE := 0
    VD_AGENT_SUCCESS := 1
    VD_AGENT_FILE_XFER_STATUS_CAN_SEND_DATA := 0
    VD_AGENT_FILE_XFER_STATUS_CANCELLED := 1
    VD_AGENT_FILE_XFER_STATUS_ERROR := 2
    VD_AGENT_FILE_XFER_STATUS_SUCCESS := 3
    VD_AGENT_FILE_XFER_STATUS_NOT_ENOUGH_SPACE := 4
    VD_AGENT_FILE_XFER_STATUS_SESSION_LOCKED := 5
    VD_AGENT_FILE_XFER_STATUS_VDAGENT_NOT_CONNECTED := 6
    VD_AGENT_FILE_XFER_STATUS_DISABLED := 7
    VD_AGENT_FILE_XFER_STATUS_ERROR_GLIB_IO := 0
    G_IO_ERROR_TOO_MANY_OPEN_FILES := 31 }

/-- Collaborators that answer: session not locked, active session "seat0", the user's own
session, uinput and the host channel available. -/
def env_ok : Env :=
  { session_is_locked := false
    get_active_session := some "seat0"
    is_user := true
    uinput_ok := true
    uinput_survives_mouse := true
    virtio_port_create_ok := true }

/-- The daemon as `main` leaves it before the main loop, with a session oracle. -/
def daemon_init : Daemon :=
  { server := udscs_server_new true
    agent_datas := fun _ => none
    virtio_port := false
    active_xfers := []
    session_info := true
    active_session := none
    session_count := 0
    active_session_conn := none
    agent_owns_clipboard := fun _ => false
    clipboard_serial := fun _ => 0
    capabilities := []
    capabilities_size := 0
    client_connected := false
    max_clipboard := -1
    mon_config := none
    device_info := none
    uinput := false
    only_once := false
    static_uinput := false
    retval := none }

/-- A daemon with one agent, connection 1 of session "seat0", which is the active
connection and has reported its resolution; the host channel is open and the client has
announced `CLIPBOARD_SELECTION` and `CLIPBOARD_GRAB_SERIAL`; the guest owns selection 0,
whose serial counter is 5. -/
def daemon_one_agent : Daemon :=
  { daemon_init with
    server := { connections := [1], connect_callback := true }
    agent_datas := fun c =>
      if c = 1 then some ⟨some "seat0", 1024, 768, some [0], 1⟩ else none
    virtio_port := true
    active_session := some "seat0"
    session_count := 1
    active_session_conn := some 1
    agent_owns_clipboard := fun sel => decide (sel = 0)
    clipboard_serial := fun sel => if sel = 0 then 5 else 0
    capabilities := [131136]
    capabilities_size := 1
    client_connected := true
    uinput := true }

/-! ## Host channel, writes and chunk headers: `vdagentd/virtio-port.c` -/

/-- The `vdagent_virtio_port_write_start`; the four numbers are `uint32_t` parameters.
`g_return_if_fail` returns at once while a buffer is in progress. The new buffer, which
`g_malloc` leaves unset, is taken zero-filled; both headers are written little-endian and
`write_pos` ends after them. -/
def vdagent_virtio_port_write_start (P : Protocol) (vport : VirtioPort)
    (port_nr message_type message_opaque data_size : Nat) : VirtioPort :=
  if vport.write_buf.buf.isSome then vport
  else
    let port_nr := port_nr % 4294967296
    let message_type := message_type % 4294967296
    let message_opaque := message_opaque % 4294967296
    let data_size := data_size % 4294967296
    let size := 8 + 20 + data_size
    let buf := List.replicate size 0
    let buf := memcpy buf 0 (to_le 4 port_nr ++ to_le 4 (20 + data_size)) 8
    let buf := memcpy buf 8
      (to_le 4 P.VD_AGENT_PROTOCOL ++ to_le 4 message_type ++ to_le 8 message_opaque ++
        to_le 4 data_size) 20
    { vport with write_buf := { buf := some buf, size := size, write_pos := 8 + 20 } }

/-- The `vdagent_virtio_port_write_append`, with its `int` result; `data` is `none` for a
`NULL` pointer and `size` is a `uint32_t`. The room left is computed in `size_t`. Copying
from `NULL`, or more bytes than `data` holds, is undefined. A buffer that becomes exactly
full goes to the write queue of the framed connection. -/
def vdagent_virtio_port_write_append (vport : VirtioPort) (data : Option (List Nat))
    (size : Nat) : Option (VirtioPort × Int) :=
  let size := size % 4294967296
  if size = 0 then some (vport, 0)
  else
    match vport.write_buf.buf with
    | none => some (vport, -1)
    | some buf =>
      if (vport.write_buf.size + 18446744073709551616 - vport.write_buf.write_pos) %
          18446744073709551616 < size then some (vport, -1)
      else
        match data with
        | none => none
        | some src =>
          if src.length < size then none
          else
            let buf1 := memcpy buf vport.write_buf.write_pos src size
            let write_pos := vport.write_buf.write_pos + size
            if write_pos = vport.write_buf.size then
              some ({ vport with
                      write_queue := vport.write_queue ++ [buf1]
                      write_buf := { vport.write_buf with buf := none, write_pos := write_pos } },
                    0)
            else
              some ({ vport with
                      write_buf :=
                        { vport.write_buf with buf := some buf1, write_pos := write_pos } },
                    0)

/-- The `vdagent_virtio_port_write`: start, then one append of the whole body. -/
def vdagent_virtio_port_write (P : Protocol) (vport : VirtioPort)
    (port_nr message_type message_opaque : Nat) (data : Option (List Nat))
    (data_size : Nat) : Option VirtioPort :=
  (vdagent_virtio_port_write_append
    (vdagent_virtio_port_write_start P vport port_nr message_type message_opaque data_size)
    data data_size).map Prod.fst

/-- Calls of `vdagent_virtio_port_write_append` that supply the pieces in order. -/
def write_append_pieces (vport : VirtioPort) : List (List Nat) → Option VirtioPort
  | [] => some vport
  | piece :: pieces =>
    match vdagent_virtio_port_write_append vport (some piece) piece.length with
    | none => none
    | some r => write_append_pieces r.1 pieces

/-- The two headers of one message on the host channel, 28 bytes: the chunk header
LE32(port), LE32(20 + body size), then the message header LE32(protocol), LE32(type),
LE64(opaque), LE32(body size). -/
def host_headers (P : Protocol) (port_nr message_type message_opaque data_size : Nat) :
    List Nat :=
  (to_le 4 port_nr ++ to_le 4 (20 + data_size)) ++
    (to_le 4 P.VD_AGENT_PROTOCOL ++ to_le 4 message_type ++ to_le 8 message_opaque ++
      to_le 4 data_size)

/-- The bytes of one message on the host channel: the two headers, then the body. -/
def host_wire (P : Protocol) (port_nr message_type message_opaque : Nat)
    (body : List Nat) : List Nat :=
  host_headers P port_nr message_type message_opaque body.length ++ body

/-- The `conn_handle_header` of `virtio-port.c` on the 8 bytes of a `VDIChunkHeader` (port,
then size). The two `GUINT32_FROM_LE` conversions in place leave the bytes as they are on
a little-endian host. `VD_AGENT_MAX_DATA_SIZE` and `VDP_END_PORT` come from
`spice/vd_agent.h`. Returns the body size and what was called. -/
def conn_handle_header (VD_AGENT_MAX_DATA_SIZE VDP_END_PORT : Nat) (header_buf : List Nat) :
    Nat × List PortEvent :=
  let size := read_le header_buf 4 4
  let port := read_le header_buf 0 4
  if size > VD_AGENT_MAX_DATA_SIZE then (0, [PortEvent.error_cb])
  else if port ≥ VDP_END_PORT then (0, [PortEvent.error_cb])
  else (size, [])

/-- The class of `VirtioPort` (`virtio_port_class_init`), with the callbacks given to
`vdagent_virtio_port_create`: the read callback only records the call, and
`error_cb_destroys` tells whether the error callback destroys the connection, as the
`virtio_port_error_cb` of `vdagentd.c` does (`vdagent_connection_destroy` cancels the
connection's cancellable). -/
def virtio_port_class (VD_AGENT_MAX_DATA_SIZE VDP_END_PORT : Nat) (error_cb_destroys : Bool) :
    VDAgentConnectionClass VirtioPort PortEvent :=
  { handle_header := fun vport header_buf =>
      let r := conn_handle_header VD_AGENT_MAX_DATA_SIZE VDP_END_PORT header_buf
      (vport, header_buf, r.1, r.2, decide (PortEvent.error_cb ∈ r.2) && error_cb_destroys)
    handle_message := fun vport header_buf data =>
      match vdagent_virtio_port_do_chunk vport
          ⟨read_le header_buf 0 4, read_le header_buf 4 4⟩ (data.getD []) with
      | none => none
      | some r => some (r.1, r.2, decide (PortEvent.error_cb ∈ r.2) && error_cb_destroys)
    error_cb := fun vport _ => (vport, [PortEvent.error_cb], error_cb_destroys) }

/-! ## Local broker server, the list while `func` runs: `udscs.c` -/

/-- The `l->next` of the node of `l` that holds `conn`; `none` is `NULL`. -/
def next_node : List ConnId → ConnId → Option ConnId
  | [], _ => none
  | c :: rest, conn => if c = conn then rest.head? else next_node rest conn

/-- The loop of `udscs_server_for_all_clients` on the server's list as it is while `func`
runs. `func` sees the server and its `priv`, and returns its value, the new `priv` and the
server operations it ran (a destroy of its connection, say). A node is told by the
connection it holds. The pointer `next` is read before `func` runs; when `func` has
unlinked that node, using it is undefined, as is an overflow of the `int` sum. The first
argument bounds the number of rounds; `calls` records each call with its value. -/
def for_all_clients_live {π : Type}
    (func : ConnId → udscs_server → π → Int × π × List ServerOp) :
    Nat → udscs_server → Option ConnId → π → Int → List (ConnId × Int) →
      Option (Int × π × udscs_server × List (ConnId × Int))
  | _, server, none, priv, r, calls => some (r, priv, server, calls)
  | 0, _, some _, _, _, _ => none
  | n + 1, server, some c, priv, r, calls =>
    if c ∉ server.connections then none
    else
      let next := next_node server.connections c
      let x := func c server priv
      let server1 := (server_run server x.2.2).1
      let r1 := r + x.1
      if r1 < -2147483648 ∨ 2147483647 < r1 then none
      else for_all_clients_live func n server1 next x.2.1 r1 (calls ++ [(c, x.1)])

/-- The `udscs_server_for_all_clients` with a `func` that may change the server's list,
run for at most `rounds` rounds; a `NULL` server is `none`. -/
def udscs_server_for_all_clients_live {π : Type} (rounds : Nat)
    (server : Option udscs_server)
    (func : ConnId → udscs_server → π → Int × π × List ServerOp) (priv : π) :
    Option (Int × π × Option udscs_server × List (ConnId × Int)) :=
  match server with
  | none => some (0, priv, none, [])
  | some srv =>
    (for_all_clients_live func rounds srv srv.connections.head? priv 0 []).map
      (fun r => (r.1, r.2.1, some r.2.2.1, r.2.2.2))

/-! ## Routing engine, agent messages and concrete states: `vdagentd/vdagentd.c` -/

/-- The values of the message types of the local broker protocol, the enumeration of
`vdagentd-proto.h` (not among the sources) in its order of declaration. The engine is
embedded for any values (the parameter `code`); these serve the concrete runs. -/
def vdagentd_proto : VDAGENTD → Nat
  | VDAGENTD.GUEST_XORG_RESOLUTION => 0
  | VDAGENTD.MONITORS_CONFIG => 1
  | VDAGENTD.CLIPBOARD_GRAB => 2
  | VDAGENTD.CLIPBOARD_REQUEST => 3
  | VDAGENTD.CLIPBOARD_DATA => 4
  | VDAGENTD.CLIPBOARD_RELEASE => 5
  | VDAGENTD.VERSION => 6
  | VDAGENTD.AUDIO_VOLUME_SYNC => 7
  | VDAGENTD.FILE_XFER_START => 8
  | VDAGENTD.FILE_XFER_STATUS => 9
  | VDAGENTD.FILE_XFER_DATA => 10
  | VDAGENTD.FILE_XFER_DISABLE => 11
  | VDAGENTD.CLIENT_DISCONNECTED => 12
  | VDAGENTD.GRAPHICS_DEVICE_INFO => 13

/-- The `virtio_write_clipboard`: one message to the host, written in pieces through the
global `virtio_port`. The `data_type` `-1` (here `2^32 - 1`) stands for "no type field". A
grab under `CLIPBOARD_GRAB_SERIAL` carries the serial counter of the selection, which is
then advanced. -/
def virtio_write_clipboard (P : Protocol) (d : Daemon) (selection msg_type data_type : Nat)
    (data : Option (List Nat)) (data_size : Nat) : Daemon × List Out :=
  let has_sel : Bool := has_capability P d P.VD_AGENT_CAP_CLIPBOARD_SELECTION
  let has_serial : Bool := decide (msg_type = VD_AGENT_CLIPBOARD_GRAB) &&
    has_capability P d P.VD_AGENT_CAP_CLIPBOARD_GRAB_SERIAL
  let size := data_size
  let size := if has_sel then (size + 4) % 4294967296 else size
  let size := if has_serial then (size + 4) % 4294967296 else size
  let size := if data_type ≠ 4294967295 then (size + 4) % 4294967296 else size
  let out0 := [Out.virtio_port_write_start P.VDP_CLIENT_PORT msg_type 0 size]
  let out1 := if has_sel then [Out.virtio_port_write_append [selection, 0, 0, 0] 4] else []
  let out2 :=
    if data_type ≠ 4294967295 then [Out.virtio_port_write_append (to_le 4 data_type) 4]
    else []
  let serial := d.clipboard_serial selection
  let d1 :=
    if has_serial then
      { d with clipboard_serial :=
          Function.update d.clipboard_serial selection ((serial + 1) % 4294967296) }
    else d
  let out3 := if has_serial then [Out.virtio_port_write_append (to_le 4 serial) 4] else []
  (d1, out0 ++ out1 ++ out2 ++ out3 ++ [Out.virtio_port_write_append (data.getD []) data_size])

/-- The end of `do_agent_clipboard` after the `switch`: an agent whose message has
unexpected extra data is disconnected, otherwise the message goes to the host. -/
def agent_clipboard_forward (P : Protocol) (d : Daemon) (conn : ConnId)
    (header : udscs_message_header) (data : Option (List Nat))
    (selection msg_type data_type size : Nat) : Daemon × List Out :=
  if size ≠ header.size then daemon_destroy_connection d conn
  else virtio_write_clipboard P d selection msg_type data_type data header.size

/-- The `do_agent_clipboard`; `code` gives the values of the `VDAGENTD_*` message types. The
label `error` answers a request with an empty `CLIPBOARD_DATA` and does nothing else. -/
def do_agent_clipboard (P : Protocol) (code : VDAGENTD → Nat) (d : Daemon) (conn : ConnId)
    (header : udscs_message_header) (data : Option (List Nat)) : Daemon × List Out :=
  let selection := header.arg1 % 256
  let error : Daemon × List Out :=
    (d, if header.type = code VDAGENTD.CLIPBOARD_REQUEST then
        [Out.udscs_write conn VDAGENTD.CLIPBOARD_DATA selection P.VD_AGENT_CLIPBOARD_NONE []]
      else [])
  if has_capability P d P.VD_AGENT_CAP_CLIPBOARD_BY_DEMAND = false then error
  else if d.active_session_conn ≠ some conn then error
  else if d.virtio_port = false then error
  else if has_capability P d P.VD_AGENT_CAP_CLIPBOARD_SELECTION = false ∧
      selection ≠ P.VD_AGENT_CLIPBOARD_SELECTION_CLIPBOARD then error
  else if header.type = code VDAGENTD.CLIPBOARD_GRAB then
    agent_clipboard_forward P
      { d with agent_owns_clipboard := Function.update d.agent_owns_clipboard selection true }
      conn header data selection VD_AGENT_CLIPBOARD_GRAB 4294967295 header.size
  else if header.type = code VDAGENTD.CLIPBOARD_REQUEST then
    agent_clipboard_forward P d conn header data selection VD_AGENT_CLIPBOARD_REQUEST
      header.arg2 0
  else if header.type = code VDAGENTD.CLIPBOARD_DATA then
    if d.max_clipboard ≠ -1 ∧ header.size > to_uint32 d.max_clipboard then
      virtio_write_clipboard P d selection VD_AGENT_CLIPBOARD header.arg2 none 0
    else
      agent_clipboard_forward P d conn header data selection VD_AGENT_CLIPBOARD header.arg2
        header.size
  else if header.type = code VDAGENTD.CLIPBOARD_RELEASE then
    agent_clipboard_forward P
      { d with agent_owns_clipboard := Function.update d.agent_owns_clipboard selection false }
      conn header data selection VD_AGENT_CLIPBOARD_RELEASE 4294967295 0
  else error

/-- A write to the host channel (whole, started or appended). -/
def Out.is_host_write : Out → Bool
  | Out.virtio_port_write _ _ _ _ _ => true
  | Out.virtio_port_write_start _ _ _ _ => true
  | Out.virtio_port_write_append _ _ => true
  | _ => false

/-- A daemon like `daemon_one_agent` whose client has also announced
`CLIPBOARD_BY_DEMAND`. -/
def daemon_by_demand : Daemon :=
  { daemon_one_agent with capabilities := [131168] }

/-- The `CLIPBOARD_RELEASE` message that `release_clipboards` writes to the host for
selection `sel`: one byte, the selection. -/
def release_message (P : Protocol) (sel : Nat) : Out :=
  Out.virtio_port_write P.VDP_CLIENT_PORT VD_AGENT_CLIPBOARD_RELEASE 0 [sel] 1

/-- The daemon `daemon_by_demand` after its active agent, connection 1, has sent a
`CLIPBOARD_GRAB` for selection 2 (`SECONDARY`) with one type. -/
def daemon_grabbed_secondary : Daemon :=
  (do_agent_clipboard spice_protocol vdagentd_proto daemon_by_demand 1 ⟨2, 2, 0, 4⟩
    (some [1, 0, 0, 0])).1

/-- The daemon `daemon_by_demand` when the session collaborator has reported that
"seat1" is the active session (the assignment of `si_io_channel_cb`). -/
def daemon_seat1 : Daemon :=
  { daemon_by_demand with active_session := some "seat1" }

/-- What `update_active_session_connection` makes of `daemon_seat1`. -/
def daemon_seat1_after : Daemon × List Out :=
  (update_active_session_connection spice_protocol env_ok daemon_seat1 none).getD
    (daemon_seat1, [])

/-- The daemon `daemon_one_agent` with one live task: id 5, owned by connection 1. -/
def daemon_one_task : Daemon :=
  (do_client_file_xfer spice_protocol env_ok daemon_one_agent true ⟨1, 10, 0, 4⟩
    [5, 0, 0, 0]).1

/-- A `FILE_XFER_STATUS` message written to the host. -/
def Out.is_xfer_status : Out → Bool
  | Out.virtio_port_write _ type _ _ _ => decide (type = VD_AGENT_FILE_XFER_STATUS)
  | _ => false

/-- The status message of `remove_active_xfers` for the task `id`: the id, the result
`CANCELLED`, and no detail. -/
def cancelled_status (P : Protocol) (id : Nat) : Out :=
  Out.virtio_port_write P.VDP_CLIENT_PORT VD_AGENT_FILE_XFER_STATUS 0
    (to_le 4 id ++ to_le 4 P.VD_AGENT_FILE_XFER_STATUS_CANCELLED ++
      List.replicate (P.sizeof_VDAgentFileXferStatusMessage - 8) 0)
    (P.sizeof_VDAgentFileXferStatusMessage % 4294967296)

/-- Collaborators like `env_ok`, when the active session is "seat1". -/
def env_seat1 : Env := { env_ok with get_active_session := some "seat1" }

/-- The daemon `daemon_one_task` after the session collaborator has reported that "seat1"
is the active session (`si_io_channel_cb`): no connection is active, the host channel is
closed, and the task 5 of connection 1 is still in the table. -/
def daemon_task_orphaned : Daemon :=
  ((si_io_channel_cb spice_protocol env_seat1 daemon_one_task).getD (daemon_one_task, [])).1

/-- What `agent_disconnect` of connection 1 makes of `daemon_one_task`. -/
def daemon_one_task_disconnected : Daemon × List Out :=
  (agent_disconnect spice_protocol env_ok daemon_one_task 1).getD (daemon_one_task, [])

/-- The daemon `daemon_one_agent` before any client has announced itself: no client is
recorded as connected and the capability snapshot is empty. -/
def daemon_no_client : Daemon :=
  { daemon_one_agent with client_connected := false, capabilities := [], capabilities_size := 0 }

/-- There is an active connection and it has reported a resolution: its `agent_data` is
there and the `screen_info` in it is set. -/
def resolution_known (d : Daemon) : Prop :=
  ∃ c ad, d.active_session_conn = some c ∧ d.agent_datas c = some ad ∧
    ad.screen_info.isSome = true

/-- The daemon `daemon_one_agent` with the host channel closed. -/
def daemon_channel_closed : Daemon :=
  { daemon_one_agent with virtio_port := false }

/-! ## Routing engine, the entry points together: `vdagentd/vdagentd.c` -/

/-- The `do_agent_xorg_resolution`; `res_size` is
`sizeof(struct vdagentd_guest_xorg_resolution)` of `vdagentd-proto.h` (not among the
sources). The body `data` is `none` for `NULL`; `g_memdup2` gives `NULL` for it and for
size 0. A connection without `agent_data` makes the function dereference `NULL`, a
`res_size` of 0 divides by zero: `none`. -/
def do_agent_xorg_resolution (P : Protocol) (env : Env) (res_size : Nat) (d : Daemon)
    (conn : ConnId) (header : udscs_message_header) (data : Option (List Nat)) :
    Option (Daemon × List Out) :=
  if res_size = 0 then none
  else
    let n := header.size / res_size
    if header.arg1 = 0 ∧ header.arg2 = 0 then some (d, [])
    else if header.size ≠ (n * res_size) % 4294967296 then
      some (daemon_destroy_connection d conn)
    else
      match d.agent_datas conn with
      | none => none
      | some ad =>
        let screen_info : Option (List Nat) :=
          match data with
          | none => none
          | some b => if header.size = 0 then none else some (b.take header.size)
        let ad1 : agent_data :=
          { ad with screen_info := screen_info, width := to_int header.arg1,
                    height := to_int header.arg2, screen_count := to_int n }
        some (check_xorg_resolution P env
          { d with agent_datas := Function.update d.agent_datas conn (some ad1) })

/-- The `agent_read_complete`, the read callback of the agent connections. -/
def agent_read_complete (P : Protocol) (code : VDAGENTD → Nat) (env : Env) (res_size : Nat)
    (d : Daemon) (conn : ConnId) (header : udscs_message_header) (data : Option (List Nat)) :
    Option (Daemon × List Out) :=
  if header.type = code VDAGENTD.GUEST_XORG_RESOLUTION then
    do_agent_xorg_resolution P env res_size d conn header data
  else if header.type = code VDAGENTD.CLIPBOARD_GRAB ∨
      header.type = code VDAGENTD.CLIPBOARD_REQUEST ∨
      header.type = code VDAGENTD.CLIPBOARD_DATA ∨
      header.type = code VDAGENTD.CLIPBOARD_RELEASE then
    some (do_agent_clipboard P code d conn header data)
  else if header.type = code VDAGENTD.FILE_XFER_STATUS then
    do_agent_file_xfer_status P d conn header data
  else some (d, [])

/-- The entry points of the routing engine, each with the answers of the collaborators at
that moment: an agent connects, a tracked agent sends a message or disconnects, the host
sends a message, the session collaborator reports a change. -/
inductive EngineEvent where
  | agent_connect (env : Env) (cenv : ConnectEnv) (version : List Nat) (conn : ConnId)
  | agent_message (env : Env) (conn : ConnId) (header : udscs_message_header)
      (data : Option (List Nat))
  | agent_disconnect (env : Env) (conn : ConnId)
  | host_message (env : Env) (port_nr : Nat) (message_header : VDAgentMessage)
      (data : List Nat)
  | session_change (env : Env)

/-- Run one entry point. Messages and disconnects come from tracked connections only, host
messages only while the host channel is open, session changes only with a session
collaborator: otherwise the event cannot happen (`none`, as for undefined behaviour). -/
def engine_step (P : Protocol) (code : VDAGENTD → Nat) (res_size : Nat) (d : Daemon) :
    EngineEvent → Option (Daemon × List Out)
  | EngineEvent.agent_connect env cenv version conn =>
    session_step P d (SessionEvent.connect env cenv version conn)
  | EngineEvent.agent_message env conn header data =>
    if conn ∈ d.server.connections then
      agent_read_complete P code env res_size d conn header data
    else none
  | EngineEvent.agent_disconnect env conn =>
    if conn ∈ d.server.connections then agent_disconnect P env d conn else none
  | EngineEvent.host_message env port_nr message_header data =>
    if d.virtio_port then some (virtio_port_read_complete P env d port_nr message_header data)
    else none
  | EngineEvent.session_change env =>
    if d.session_info then si_io_channel_cb P env d else none

/-- Run entry points in order. -/
def engine_run (P : Protocol) (code : VDAGENTD → Nat) (res_size : Nat) (d : Daemon) :
    List EngineEvent → Option (Daemon × List Out)
  | [] => some (d, [])
  | e :: es =>
    match engine_step P code res_size d e with
    | none => none
    | some r =>
      match engine_run P code res_size r.1 es with
      | none => none
      | some r2 => some (r2.1, r.2 ++ r2.2)

/-- The active connection, when there is one, is tracked by the server, and so is the
owner of every file-transfer task. -/
def ActiveTracked (d : Daemon) : Prop :=
  (∀ c, d.active_session_conn = some c → c ∈ d.server.connections) ∧
    ∀ e ∈ d.active_xfers, e.2 ∈ d.server.connections

/-- The answers of the collaborators to the connect of an agent of session "seat0". -/
def cenv_seat0 : ConnectEnv := ⟨true, some "seat0", true⟩

/-- A run of the engine from `daemon_init`: the agent of "seat0" connects as connection 1 and
reports one screen of 1024 x 768 (a body of 20 bytes), which opens the host channel; the host
announces `CLIPBOARD_BY_DEMAND` and `CLIPBOARD_GRAB_SERIAL` and starts the file transfer 5. -/
def run_one_task : List EngineEvent :=
  [EngineEvent.agent_connect env_ok cenv_seat0 [] 1,
    EngineEvent.agent_message env_ok 1 ⟨0, 1024, 768, 20⟩ (some (List.replicate 20 0)),
    EngineEvent.host_message env_ok 1 ⟨1, 6, 0, 8⟩ [0, 0, 0, 0, 32, 0, 2, 0],
    EngineEvent.host_message env_ok 1 ⟨1, 10, 0, 4⟩ [5, 0, 0, 0]]

/-- What a run of the engine leaves of the routing state: the tracked connections, the
active connection, the task table; and what it did to the outside. -/
def routing_of (r : Option (Daemon × List Out)) :
    Option (List ConnId × Option ConnId × List (Nat × ConnId) × List Out) :=
  r.map (fun x => (x.1.server.connections, x.1.active_session_conn, x.1.active_xfers, x.2))

/-- The daemon after the agent of "seat0" has connected to `daemon_init` as connection 1:
the connection is active, it has not reported a resolution, so the host channel is closed,
and no client has announced anything. -/
def daemon_agent_connected : Daemon :=
  ((engine_run spice_protocol vdagentd_proto 20 daemon_init
    [EngineEvent.agent_connect env_ok cenv_seat0 [] 1]).getD (daemon_init, [])).1

/-- The message that `virtio_write_clipboard` writes to the host for `CLIPBOARD_DATA`: the
start of a `VD_AGENT_CLIPBOARD` message, the selection field when the client has
`CLIPBOARD_SELECTION`, the data type, and the data part. -/
def clipboard_data_message (P : Protocol) (d : Daemon) (selection data_type : Nat)
    (body : List Nat) (n : Nat) : List Out :=
  [Out.virtio_port_write_start P.VDP_CLIENT_PORT VD_AGENT_CLIPBOARD 0
      (if has_capability P d P.VD_AGENT_CAP_CLIPBOARD_SELECTION = true
        then ((n + 4) % 4294967296 + 4) % 4294967296 else (n + 4) % 4294967296)] ++
    (if has_capability P d P.VD_AGENT_CAP_CLIPBOARD_SELECTION = true
      then [Out.virtio_port_write_append [selection, 0, 0, 0] 4] else []) ++
    [Out.virtio_port_write_append (to_le 4 data_type) 4,
      Out.virtio_port_write_append body n]

/-- A daemon like `daemon_by_demand` after the host has set a maximum clipboard size of 2. -/
def daemon_max_clipboard : Daemon := { daemon_by_demand with max_clipboard := 2 }

/-- The daemon as `main` leaves it before the main loop when `session_info_create` has
returned `NULL`: no session oracle. -/
def daemon_no_oracle : Daemon := { daemon_init with session_info := false }

/-- An agent connect or an agent disconnect. -/
def EngineEvent.is_connect_or_disconnect : EngineEvent → Bool
  | EngineEvent.agent_connect _ _ _ _ => true
  | EngineEvent.agent_disconnect _ _ => true
  | _ => false

/-- The invariant of the engine without a session oracle: the connect callback is there,
`session_count` is the number of tracked connections, which are distinct and at most 128,
and an active connection is the only tracked connection. -/
def NoOracleInv (d : Daemon) : Prop :=
  d.session_info = false ∧ d.server.connect_callback = true ∧
    d.session_count = d.server.connections.length ∧ d.server.connections.Nodup ∧
    d.server.connections.length ≤ 128 ∧
    ∀ c, d.active_session_conn = some c → d.server.connections = [c]

/-- The daemon `daemon_no_oracle` after connection 1 has connected. -/
def daemon_no_oracle_one : Daemon × List Out :=
  (engine_run spice_protocol vdagentd_proto 20 daemon_no_oracle
    [EngineEvent.agent_connect env_ok cenv_seat0 [] 1]).getD (daemon_no_oracle, [])

/-! ## Framed connection, short reads and the write queue: `vdagent-connection.c` -/

/-- The events of a run of read completions, and what is left of the stream. -/
def events_and_rest {σ ε : Type} (r : Option (VDAgentConnection σ × List ε × List Nat)) :
    Option (List ε × List Nat) :=
  r.map (fun x => (x.2.1, x.2.2))

/-- Outcome of `g_pollable_stream_write`: one of the errors `WOULD_BLOCK`, `CANCELLED` or
another one, or the number of bytes the stream has accepted. -/
inductive WriteResult where
  | would_block
  | cancelled
  | failed
  | wrote (n : Nat)
deriving DecidableEq, Repr

/-- The `do_write`: one write of what is left of the head buffer. `res` is the answer of the
stream to the bytes it is offered. Returns the connection, the bytes the stream has
accepted, the events of the error callback, and the return value. -/
def do_write {σ ε : Type} (cls : VDAgentConnectionClass σ ε) (self : VDAgentConnection σ)
    (res : List Nat → WriteResult) : VDAgentConnection σ × List Nat × List ε × Bool :=
  match self.write_queue with
  | [] => (self, [], [], false)
  | msg :: rest =>
    match res (msg.drop self.bytes_written) with
    | WriteResult.would_block => (self, [], [], true)
    | WriteResult.cancelled => (self, [], [], false)
    | WriteResult.failed =>
      let r := cls.error_cb self.sub false
      ({ self with sub := r.1, cancelled := self.cancelled || r.2.2 }, [], r.2.1, false)
    | WriteResult.wrote n =>
      let written := (msg.drop self.bytes_written).take n
      let self1 := { self with bytes_written := self.bytes_written + n }
      let self2 :=
        if self1.bytes_written = msg.length then
          { self1 with write_queue := rest, bytes_written := 0 }
        else self1
      (self2, written, [], !self2.write_queue.isEmpty)

/-- The `vdagent_connection_flush`: `while (do_write(self, TRUE));`. The call number `i`
selects the answer of the stream; `fuel` bounds the number of rounds (`none` when it runs
out). Returns the connection, all bytes the stream has accepted, in order, and the events. -/
def vdagent_connection_flush {σ ε : Type} (cls : VDAgentConnectionClass σ ε)
    (stream : Nat → List Nat → WriteResult) :
    Nat → Nat → VDAgentConnection σ → Option (VDAgentConnection σ × List Nat × List ε)
  | 0, _, _ => none
  | fuel + 1, i, self =>
    let r := do_write cls self (stream i)
    if r.2.2.2 then
      match vdagent_connection_flush cls stream fuel (i + 1) r.1 with
      | none => none
      | some x => some (x.1, r.2.1 ++ x.2.1, r.2.2.1 ++ x.2.2)
    else some (r.1, r.2.1, r.2.2.1)

/-- The bytes of the write queue that the stream has not accepted yet. -/
def pending {σ : Type} (self : VDAgentConnection σ) : List Nat :=
  match self.write_queue with
  | [] => []
  | msg :: rest => msg.drop self.bytes_written ++ rest.flatten

/-- The partial-write offset lies inside the head buffer, and is 0 without one. -/
def WriteInv {σ : Type} (self : VDAgentConnection σ) : Prop :=
  match self.write_queue with
  | [] => self.bytes_written = 0
  | msg :: _ => self.bytes_written ≤ msg.length

/-- A stream without I/O errors: each write accepts at most what it is offered, and at
least one byte when it is offered any. -/
def StreamAccepts (stream : Nat → List Nat → WriteResult) : Prop :=
  ∀ i offered, ∃ n, stream i offered = WriteResult.wrote n ∧ n ≤ offered.length ∧
    (offered ≠ [] → 1 ≤ n)

/-- A stream that accepts one byte per write. -/
def stream_bytewise : Nat → List Nat → WriteResult :=
  fun _ offered => WriteResult.wrote (min 1 offered.length)

/-! ## Device lookup: `vdagent/device-info.c` -/

/-- The `struct PciDevice`; `domain` is an `int`, the other fields are `uint8_t`. -/
structure PciDevice where
  domain : Int
  bus : Nat
  slot : Nat
  function : Nat
deriving DecidableEq, Repr

/-- The `struct PciAddress`: a domain and the `GList` of devices. -/
structure PciAddress where
  domain : Int
  devices : List PciDevice
deriving DecidableEq, Repr

/-- The loop of `compare_addresses` over the two device lists and its final test: the walk
stops at the first pair that differs in slot or function, and the result is true only if
both lists end together. -/
def compare_devices : List PciDevice → List PciDevice → Bool
  | [], [] => true
  | [], _ :: _ => false
  | _ :: _, [] => false
  | deva :: la, devb :: lb =>
    if deva.slot ≠ devb.slot ∨ deva.function ≠ devb.function then false
    else compare_devices la lb

/-- The `compare_addresses`. -/
def compare_addresses (a b : PciAddress) : Bool :=
  if a.domain ≠ b.domain then false else compare_devices a.devices b.devices

/-- The address `a` with the `domain` and `bus` fields of its devices replaced by what `f`
gives. -/
def PciAddress.relabel (a : PciAddress) (f : PciDevice → Int × Nat) : PciAddress :=
  ⟨a.domain, a.devices.map (fun x => ⟨(f x).1, (f x).2, x.slot, x.function⟩)⟩

/-- The first address of the comparison tests of the repository, as a probe read from
the system gives it. -/
def test_address_a : PciAddress :=
  ⟨0, [⟨1, 0, 3, 0⟩, ⟨1, 1, 1, 0⟩, ⟨1, 2, 3, 0⟩]⟩

/-- The same address as the host names it: no domain or bus for the devices. -/
def test_address_b : PciAddress :=
  ⟨0, [⟨0, 0, 3, 0⟩, ⟨0, 0, 1, 0⟩, ⟨0, 0, 3, 0⟩]⟩

/-- The `isspace` of the C library in the "C" locale: space and the characters 9 to 13. -/
def isspace (c : Char) : Bool :=
  decide (c.toNat = 32) || (decide (9 ≤ c.toNat) && decide (c.toNat ≤ 13))

/-- The value of a hexadecimal digit, `none` for any other character. -/
def hex_value (c : Char) : Option Nat :=
  if 48 ≤ c.toNat ∧ c.toNat ≤ 57 then some (c.toNat - 48)
  else if 97 ≤ c.toNat ∧ c.toNat ≤ 102 then some (c.toNat - 87)
  else if 65 ≤ c.toNat ∧ c.toNat ≤ 70 then some (c.toNat - 55)
  else none

/-- The number that a sequence of hexadecimal digits denotes. -/
def hex_number (digits : List Char) : Nat :=
  digits.foldl (fun a c => 16 * a + (hex_value c).getD 0) 0

/-- The `strchr` of the C library on a string without its terminator, for a character other
than the terminator. A pointer into a string is the rest of the string from there on. -/
def strchr : List Char → Char → Option (List Char)
  | [], _ => none
  | x :: xs, c => if x = c then some (x :: xs) else strchr xs c

/-- The optional sign of `strtol`: the text after it. -/
def strtol_sign (t1 : List Char) : List Char :=
  if t1.head? = some '-' ∨ t1.head? = some '+' then t1.drop 1 else t1

/-- The optional `0x` or `0X` of `strtol` in base 16, taken only when a digit follows: the
text after it. -/
def strtol_0x (t2 : List Char) : List Char :=
  match t2 with
  | z :: x :: h :: _ =>
    if z = '0' ∧ (x = 'x' ∨ x = 'X') ∧ (hex_value h).isSome then t2.drop 2 else t2
  | _ => t2

/-- The `strtol(s, &end, 16)` of the C library as the C standard describes it, with a
64-bit `long`: white space, an optional sign, an optional `0x` or `0X` that is followed by a
digit, then the longest run of hexadecimal digits; the value is clamped to the range of
`long`. Without any digit the value is 0 and the end pointer is the start of the string.
Returns the value and the end pointer. -/
def strtol (s : List Char) : Int × List Char :=
  let t1 := s.dropWhile isspace
  let neg : Bool := decide (t1.head? = some '-')
  let t3 := strtol_0x (strtol_sign t1)
  let digits := t3.takeWhile (fun c => (hex_value c).isSome)
  if digits = [] then (0, s)
  else
    let v := hex_number digits
    let r : Int :=
      if neg then (if v > 9223372036854775808 then -9223372036854775808 else -(v : Int))
      else (if v > 9223372036854775807 then 9223372036854775807 else (v : Int))
    (r, t3.drop digits.length)

/-- The conversion of a `long` to `int`: the low 32 bits, signed. -/
def long_to_int (v : Int) : Int :=
  if v % 4294967296 < 2147483648 then v % 4294967296 else v % 4294967296 - 4294967296

/-- The conversion to `uint8_t`. -/
def to_uint8 (v : Int) : Nat := (v % 256).toNat

/-- The `read_next_hex_number`: the value and `*endptr` (`none` for `NULL`). Two pointers
into the same string are equal when the rests have the same length. -/
def read_next_hex_number (input : List Char) (delim : Char) : Int × Option (List Char) :=
  match strchr input delim with
  | none => (0, none)
  | some pos =>
    let r := strtol input
    let n := long_to_int r.1
    (n, if r.2.length ≠ pos.length then none else some r.2)

/-- The loop of `parse_pci_address_from_spice` from the device at `pos + 1` on; `fuel`
bounds the number of rounds. -/
def parse_devices : Nat → List Char → List PciDevice → List PciDevice
  | 0, _, devices => devices
  | fuel + 1, pos, devices =>
    let next := strchr (pos.drop 1) '/'
    let r := read_next_hex_number (pos.drop 1) '.'
    match r.2 with
    | none => devices
    | some pos1 =>
      let f := strtol (pos1.drop 1)
      let stop : Bool :=
        match next with
        | some nx => decide (nx.length ≠ f.2.length)
        | none => false
      if stop then devices
      else
        let dev : PciDevice := ⟨0, 0, to_uint8 r.1, to_uint8 f.1⟩
        match next with
        | none => devices ++ [dev]
        | some nx => parse_devices fuel nx (devices ++ [dev])

/-- The `parse_pci_address_from_spice`; `none` is `NULL`. Each round of the loop moves to a
later `/`, so the length of the input bounds the rounds. -/
def parse_pci_address_from_spice (input : List Char) : Option PciAddress :=
  if input.take 4 ≠ ['p', 'c', 'i', '/'] then none
  else
    let r := read_next_hex_number (input.drop 4) '/'
    match r.2 with
    | none => none
    | some pos => some ⟨r.1, parse_devices input.length pos []⟩

/-- A field of hexadecimal digits: at least one character, hexadecimal digits only. -/
def hex_field (f : List Char) : Prop :=
  f ≠ [] ∧ ∀ c ∈ f, (hex_value c).isSome = true

/-- The text of the devices of a spice address: `/S.F` for each device. -/
def devices_text (devs : List (List Char × List Char)) : List Char :=
  (devs.map (fun p => '/' :: p.1 ++ '.' :: p.2)).flatten

/-- The text `pci/D/S1.F1/.../Sn.Fn`. -/
def spice_text (D : List Char) (devs : List (List Char × List Char)) : List Char :=
  ['p', 'c', 'i', '/'] ++ D ++ devices_text devs

/-- A character that `strtol` in base 16 can pass over: white space, a sign, the `x` of
`0x`, a hexadecimal digit. -/
def strtol_accepts (c : Char) : Bool :=
  isspace c || decide (c = '+') || decide (c = '-') || decide (c = 'x') || decide (c = 'X') ||
    (hex_value c).isSome

/-- The value that `strtol` gives for a run of hexadecimal digits without a sign: the number
that the digits denote, or `LONG_MAX` when that number is larger. -/
def strtol_value (digits : List Char) : Int :=
  if hex_number digits > 9223372036854775807 then 9223372036854775807
  else (hex_number digits : Int)

/-- The device that `parse_pci_address_from_spice` makes of the fields `S` and `F`: the slot
goes through the `int` of `read_next_hex_number` into the `uint8_t`, the function from the
`long` of `strtol` into the `uint8_t`. -/
def device_of (p : List Char × List Char) : PciDevice :=
  ⟨0, 0, to_uint8 (long_to_int (strtol_value p.1)), to_uint8 (strtol_value p.2)⟩

/-- The string `s` is `p ++ r` with only characters in `p` that `strtol` can pass over. -/
def Consumed (s r : List Char) : Prop :=
  ∃ p, s = p ++ r ∧ ∀ c ∈ p, strtol_accepts c = true

/-! ## Received files: `vdagent/file-xfers.c` -/

/-- Outcome of `open(path, O_CREAT | O_WRONLY | O_EXCL, 0644)`: a descriptor, the error
`EEXIST`, or another error. -/
inductive OpenResult where
  | fd (n : Nat)
  | eexist
  | other_error
deriving DecidableEq, Repr

/-- The collaborators of `vdagent_file_xfers_create_file`: the two path functions of GLib,
whether `g_mkdir_with_parents` succeeds on a directory, and the answer of `open` for a
path. -/
structure FileEnv where
  g_build_filename : List Char → List Char → List Char
  g_path_get_dirname : List Char → List Char
  g_mkdir_with_parents : List Char → Bool
  open_excl : List Char → OpenResult

/-- The `strrchr(s + start, c)` of the C library, as an offset into `s`: the last `c` at or
after `start`. -/
def strrchr (s : List Char) (start : Nat) (c : Char) : Option Nat :=
  ((List.range s.length).filter (fun k => decide (start ≤ k) && decide (s[k]? = some c))).getLast?

/-- The pointer `extension` of `vdagent_file_xfers_create_file`, as an offset into
`file_path`: the last `.` after the last `/`. -/
def extension_offset (file_path : List Char) : Option Nat :=
  let component :=
    match strrchr file_path 0 '/' with
    | some k => k + 1
    | none => 0
  strrchr file_path component '.'

/-- The `g_strdup_printf("%.*s (%i)%s", basename_len, file_path, i, extension)` of the
loop. -/
def numbered_path (file_path : List Char) (i : Nat) : List Char :=
  let extension := extension_offset file_path
  let basename_len :=
    match extension with
    | some k => k
    | none => file_path.length
  file_path.take basename_len ++ [' ', '('] ++ (Nat.repr i).toList ++ [')'] ++
    (match extension with
      | some k => file_path.drop k
      | none => [])

/-- The loop `for (i = 0; i < 64; i++)` with `n` rounds left: the descriptor and the path
that was opened, or `none` when an `open` failed with another error than `EEXIST` or the
rounds are used up. -/
def create_file_loop (env : FileEnv) (file_path : List Char) :
    Nat → Nat → List Char → Option (Nat × List Char)
  | 0, _, _ => none
  | n + 1, i, path =>
    match env.open_excl path with
    | OpenResult.fd k => some (k, path)
    | OpenResult.other_error => none
    | OpenResult.eexist => create_file_loop env file_path n (i + 1)
        (numbered_path file_path (i + 1))

/-- The `vdagent_file_xfers_create_file`: the return value and `*file_name_p` afterwards. -/
def vdagent_file_xfers_create_file (env : FileEnv) (save_dir file_name : List Char) :
    Int × List Char :=
  let file_path := env.g_build_filename save_dir file_name
  let dir := env.g_path_get_dirname file_path
  if env.g_mkdir_with_parents dir = false then (-1, file_name)
  else
    match create_file_loop env file_path 64 0 file_path with
    | none => (-1, file_name)
    | some r => ((r.1 : Int), r.2)

/-- The 64 paths tried for `file_path`: the path itself and its numbered forms 1 to 63. -/
def candidate_paths (file_path : List Char) : List (List Char) :=
  file_path :: (List.range 63).map (fun k => numbered_path file_path (k + 1))

/-- A file system in which the files of `existing` exist, any other file can be created
(with descriptor 3) and directories can be made; paths are joined with `/`. -/
def env_existing (existing : List (List Char)) : FileEnv :=
  { g_build_filename := fun d n => d ++ '/' :: n
    g_path_get_dirname := fun p => p
    g_mkdir_with_parents := fun _ => true
    open_excl := fun p => if p ∈ existing then OpenResult.eexist else OpenResult.fd 3 }

/-- A file system in which no directory can be made and no file opened (as when a
component of the path is an existing regular file). -/
def env_not_a_directory : FileEnv :=
  { g_build_filename := fun d n => d ++ '/' :: n
    g_path_get_dirname := fun p => p
    g_mkdir_with_parents := fun _ => false
    open_excl := fun _ => OpenResult.other_error }

/-- A file system in which directories can be made but no file exists or can be created
(as in a directory without write permission). -/
def env_read_only : FileEnv :=
  { env_not_a_directory with g_mkdir_with_parents := fun _ => true }

/-- The paths that the loop opens with `n` rounds left, when every `open` fails. -/
def tried_paths (file_path : List Char) : Nat → Nat → List Char → List (List Char)
  | 0, _, _ => []
  | n + 1, i, path => path :: tried_paths file_path n (i + 1) (numbered_path file_path (i + 1))

/-! ## Routing engine, the bytes read in a host message: `vdagentd/vdagentd.c` -/

/-- What the code does to the body of a host message: it reads or converts in place the
`length` bytes at `offset` (a field, or a range that is copied or forwarded), or it calls
`virtio_msg_uint32_from_le` or `virtio_msg_uint16_from_le` with a `size` and an `offset`. -/
inductive BodyRead where
  | field (offset length : Nat)
  | uint32_from_le (size offset : Nat)
  | uint16_from_le (size offset : Nat)
deriving DecidableEq, Repr

/-- The byte ranges (offset, length) of a `BodyRead`. The helpers convert the words
`i < (size - offset) / 4` (or `/ 2`), counted in `uint32_t`, of the array at `_msg + offset`. -/
def BodyRead.ranges : BodyRead → List (Nat × Nat)
  | BodyRead.field offset length => [(offset, length)]
  | BodyRead.uint32_from_le size offset =>
    (List.range (sub_uint32 size offset / 4)).map (fun i => (offset + 4 * i, 4))
  | BodyRead.uint16_from_le size offset =>
    (List.range (sub_uint32 size offset / 2)).map (fun i => (offset + 2 * i, 2))

/-- The body accesses of `vdagent_message_clipboard_from_le`. -/
def vdagent_message_clipboard_from_le (P : Protocol) (d : Daemon)
    (message_header : VDAgentMessage) : List BodyRead :=
  let min_size := (vdagent_message_min_size P).getD message_header.type 0
  let has_sel : Bool := has_capability P d P.VD_AGENT_CAP_CLIPBOARD_SELECTION
  let min_size := if has_sel then (min_size + 4) % 18446744073709551616 else min_size
  let data_type := if has_sel then 4 else 0
  let t := message_header.type
  if t = VD_AGENT_CLIPBOARD_REQUEST ∨ t = VD_AGENT_CLIPBOARD then
    [BodyRead.field data_type 4]
  else if t = VD_AGENT_CLIPBOARD_GRAB then
    [BodyRead.uint32_from_le message_header.size (min_size % 4294967296)]
  else []

/-- The body accesses of `do_client_clipboard`: the selection byte, the grab serial, the
data type, and the range handed to `udscs_write` (listed for a grab also when its serial
makes the code discard it). -/
def do_client_clipboard_reads (P : Protocol) (d : Daemon) (message_header : VDAgentMessage) :
    List BodyRead :=
  match d.active_session_conn with
  | none => []
  | some _ =>
    let has_sel : Bool := has_capability P d P.VD_AGENT_CAP_CLIPBOARD_SELECTION
    let sel := if has_sel then [BodyRead.field 0 1] else []
    let data := if has_sel then 4 else 0
    let size := if has_sel then sub_uint32 message_header.size 4 else message_header.size
    let t := message_header.type
    if t = VD_AGENT_CLIPBOARD_GRAB then
      if has_capability P d P.VD_AGENT_CAP_CLIPBOARD_GRAB_SERIAL then
        sel ++ [BodyRead.field data 4, BodyRead.field (data + 4) (sub_uint32 size 4)]
      else sel ++ [BodyRead.field data size]
    else if t = VD_AGENT_CLIPBOARD_REQUEST then sel ++ [BodyRead.field data 4]
    else if t = VD_AGENT_CLIPBOARD then
      sel ++ [BodyRead.field data 4,
        BodyRead.field (data + P.sizeof_VDAgentClipboard)
          (sub_uint32 size P.sizeof_VDAgentClipboard)]
    else sel

/-- The body accesses of `vdagent_message_file_xfer_from_le`: the id, then the 64-bit size
of a data message or the status. -/
def vdagent_message_file_xfer_from_le (message_header : VDAgentMessage) : List BodyRead :=
  [BodyRead.field 0 4] ++
    (if message_header.type = VD_AGENT_FILE_XFER_DATA then [BodyRead.field 4 8]
     else if message_header.type = VD_AGENT_FILE_XFER_STATUS then [BodyRead.field 4 4]
     else [])

/-- The body accesses of `virtio_port_read_complete` and of the handlers of `vdagentd.c`
that it calls, for the capability snapshot and the active connection of `d`. Accesses that
depend on the content or on a collaborator (the forward of a file-transfer message, the
copy of an accepted monitors configuration) are listed as if they happen; what
`vdagentd_uinput_do_mouse` and `vdagentd_write_xorg_conf` read is theirs. -/
def body_reads (P : Protocol) (d : Daemon) (message_header : VDAgentMessage) :
    List BodyRead :=
  if vdagent_message_check_size P d message_header = false then []
  else
    let t := message_header.type
    let size := message_header.size
    if t = VD_AGENT_MOUSE_STATE then [BodyRead.uint32_from_le size 0]
    else if t = VD_AGENT_MONITORS_CONFIG then
      [BodyRead.uint32_from_le size 0, BodyRead.field 0 4, BodyRead.field 0 size]
    else if t = VD_AGENT_ANNOUNCE_CAPABILITIES then
      [BodyRead.uint32_from_le size 0,
        BodyRead.field P.sizeof_VDAgentAnnounceCapabilities
          ((P.VD_AGENT_CAPS_SIZE_FROM_MSG_SIZE size).toNat * 4),
        BodyRead.field 0 4]
    else if t = VD_AGENT_CLIPBOARD_GRAB ∨ t = VD_AGENT_CLIPBOARD_REQUEST ∨
        t = VD_AGENT_CLIPBOARD ∨ t = VD_AGENT_CLIPBOARD_RELEASE then
      vdagent_message_clipboard_from_le P d message_header ++
        do_client_clipboard_reads P d message_header
    else if t = VD_AGENT_FILE_XFER_START ∨ t = VD_AGENT_FILE_XFER_STATUS ∨
        t = VD_AGENT_FILE_XFER_DATA then
      vdagent_message_file_xfer_from_le message_header ++
        [BodyRead.field 0 4, BodyRead.field 0 size]
    else if t = VD_AGENT_CLIENT_DISCONNECTED then []
    else if t = VD_AGENT_MAX_CLIPBOARD then [BodyRead.field 0 4]
    else if t = VD_AGENT_GRAPHICS_DEVICE_INFO then [BodyRead.field 0 size]
    else if t = VD_AGENT_AUDIO_VOLUME_SYNC then
      [BodyRead.uint16_from_le size (P.offsetof_VDAgentAudioVolumeSync_volume % 4294967296)] ++
        (match d.active_session_conn with
          | none => []
          | some _ => [BodyRead.field 0 size])
    else []

/-- The structures of `spice/vd_agent.h` hold the fields that the code reads in them: the
sizes are at least the end of those fields and fit 32 bits, the array `volume` starts inside
`VDAgentAudioVolumeSync`, and `VD_AGENT_CAPS_SIZE_FROM_MSG_SIZE` counts the whole words
after the request word. -/
def Layout (P : Protocol) : Prop :=
  SizesFit P ∧ 4 ≤ P.sizeof_VDAgentMonitorsConfig ∧ 4 ≤ P.sizeof_VDAgentClipboard ∧
    4 ≤ P.sizeof_VDAgentAnnounceCapabilities ∧ 4 ≤ P.sizeof_VDAgentClipboardRequest ∧
    4 ≤ P.sizeof_VDAgentFileXferStartMessage ∧ 8 ≤ P.sizeof_VDAgentFileXferStatusMessage ∧
    12 ≤ P.sizeof_VDAgentFileXferDataMessage ∧ 4 ≤ P.sizeof_VDAgentMaxClipboard ∧
    P.offsetof_VDAgentAudioVolumeSync_volume ≤ P.sizeof_VDAgentAudioVolumeSync ∧
    ∀ size, P.sizeof_VDAgentAnnounceCapabilities ≤ size →
      P.sizeof_VDAgentAnnounceCapabilities +
        (P.VD_AGENT_CAPS_SIZE_FROM_MSG_SIZE size).toNat * 4 ≤ size

/-- The read is inside the first `size` bytes, and a helper call has `offset ≤ size`. -/
def BodyRead.inside (r : BodyRead) (size : Nat) : Prop :=
  (∀ x ∈ r.ranges, x.1 + x.2 ≤ size) ∧
    match r with
    | BodyRead.field _ _ => True
    | BodyRead.uint32_from_le s offset => s = size ∧ offset ≤ s
    | BodyRead.uint16_from_le s offset => s = size ∧ offset ≤ s

/-! # Theorems -/

/-! ### Arithmetic and buffer lemmas -/

theorem to_int_of_lt {n : Nat} (h : n < 2147483648) : to_int n = (n : Int) := by
  unfold to_int
  have h1 : n % 4294967296 = n := Nat.mod_eq_of_lt (by omega)
  rw [h1, if_pos h]

theorem to_uint32_natCast {n : Nat} (h : n < 4294967296) : to_uint32 (n : Int) = n := by
  unfold to_uint32
  omega

theorem sub_uint32_of_le {a b : Nat} (h : b ≤ a) (ha : a < 4294967296) :
    sub_uint32 a b = a - b := by
  unfold sub_uint32
  omega

theorem memcpy_length {dst src : List Nat} {off n : Nat} (h1 : off + n ≤ dst.length)
    (h2 : n ≤ src.length) : (memcpy dst off src n).length = dst.length := by
  simp only [memcpy, List.length_append, List.length_take, List.length_drop]
  omega

theorem memcpy_take {dst src : List Nat} {off n : Nat} (h1 : off ≤ dst.length)
    (h2 : n ≤ src.length) :
    (memcpy dst off src n).take (off + n) = dst.take off ++ src.take n := by
  unfold memcpy
  apply List.take_left'
  simp only [List.length_append, List.length_take]
  omega

theorem from_le_to_le (n v : Nat) : from_le (to_le n v) = v % 256 ^ n := by
  induction n generalizing v with
  | zero => simp [to_le, from_le, Nat.mod_one]
  | succ k ih =>
    simp only [to_le, from_le, ih, pow_succ]
    rw [Nat.mul_comm (256 ^ k) 256, Nat.mod_mul]

theorem length_to_le (n v : Nat) : (to_le n v).length = n := by
  induction n generalizing v with
  | zero => rfl
  | succ k ih => simp [to_le, ih]

theorem length_to_wire (h : VDAgentMessage) : h.to_wire.length = 20 := by
  simp [VDAgentMessage.to_wire, length_to_le]

theorem read_le_to_le_append (pre post : List Nat) (k n v : Nat) (hk : pre.length = k)
    (hv : v < 256 ^ n) : read_le (pre ++ (to_le n v ++ post)) k n = v := by
  unfold read_le
  rw [List.drop_left' hk, List.take_left' (length_to_le n v), from_le_to_le]
  exact Nat.mod_eq_of_lt hv

theorem from_wire_to_wire (h : VDAgentMessage) (hp : h.protocol < 4294967296)
    (ht : h.type < 4294967296) (ho : h.opaq < 18446744073709551616)
    (hs : h.size < 4294967296) : VDAgentMessage.from_wire h.to_wire = h := by
  obtain ⟨pr, ty, op, sz⟩ := h
  have l1 := length_to_le 4 pr
  have l2 := length_to_le 4 ty
  have l3 := length_to_le 8 op
  have a1 := read_le_to_le_append [] (to_le 4 ty ++ (to_le 8 op ++ to_le 4 sz)) 0 4 pr rfl hp
  have a2 := read_le_to_le_append (to_le 4 pr) (to_le 8 op ++ to_le 4 sz) 4 4 ty l1 ht
  have a3 := read_le_to_le_append (to_le 4 pr ++ to_le 4 ty) (to_le 4 sz) 8 8 op
    (by rw [List.length_append, l1, l2]) ho
  have a4 := read_le_to_le_append (to_le 4 pr ++ to_le 4 ty ++ to_le 8 op) [] 16 4 sz
    (by rw [List.length_append, List.length_append, l1, l2, l3]) hs
  simp only [List.nil_append, List.append_nil, List.append_assoc] at a1 a2 a3 a4
  simp only [VDAgentMessage.from_wire, VDAgentMessage.to_wire, List.append_assoc, a1, a2, a3, a4]

/-- The header part of a chunk that does not complete the header. -/
theorem do_chunk_header_short (p : vdagent_virtio_port_chunk_port_data) (n port_nr : Nat)
    (c : List Nat) (hn : p.message_header_read = (n : Int)) (hc : n + c.length < 20) :
    do_chunk_header p ⟨port_nr, c.length⟩ c =
      ({ p with
          message_header_raw := memcpy p.message_header_raw n c c.length
          message_header_read := ((n + c.length : Nat) : Int) }, (c.length : Int)) := by
  unfold do_chunk_header
  have h1 : (0 : Int) ≤ (n : Int) ∧ (n : Int) < 20 := by omega
  have h2 : to_uint32 (20 - (n : Int)) > c.length := by
    unfold to_uint32; omega
  have h3 : to_int c.length = (c.length : Int) := to_int_of_lt (by omega)
  have h4 : ¬ ((n : Int) + (c.length : Int) = 20) := by omega
  simp only [hn, h1, and_self, if_true, h2, h3, Int.toNat_natCast, h4, if_false,
    Nat.cast_add]

/-- The header part of a chunk that completes the header. -/
theorem do_chunk_header_full (p : vdagent_virtio_port_chunk_port_data) (n port_nr : Nat)
    (c : List Nat) (hn : p.message_header_read = (n : Int)) (hn20 : n < 20)
    (hc : 20 ≤ n + c.length) :
    do_chunk_header p ⟨port_nr, c.length⟩ c =
      ({ p with
          message_header_raw := memcpy p.message_header_raw n c (20 - n)
          message_header_read := 20
          message_header := VDAgentMessage.from_wire (memcpy p.message_header_raw n c (20 - n))
          message_data :=
            if (VDAgentMessage.from_wire (memcpy p.message_header_raw n c (20 - n))).size ≠ 0
            then some (List.replicate
              (VDAgentMessage.from_wire (memcpy p.message_header_raw n c (20 - n))).size 0)
            else p.message_data }, ((20 - n : Nat) : Int)) := by
  unfold do_chunk_header
  have h1 : (0 : Int) ≤ (n : Int) ∧ (n : Int) < 20 := by omega
  have h2 : ¬ (to_uint32 (20 - (n : Int)) > c.length) := by
    unfold to_uint32; omega
  have h5 : (20 - (n : Int)).toNat = 20 - n := by omega
  have h6 : ((20 - n : Nat) : Int) = (20 : Int) - (n : Int) := by omega
  have h4 : (n : Int) + ((20 : Int) - (n : Int)) = 20 := by omega
  simp only [hn, h1, and_self, if_true, h2, if_false, h5, h6, h4, Int.toNat_natCast]

/-! ### Chunk reassembly -/

theorem Fresh.headerInv {p : vdagent_virtio_port_chunk_port_data} (h : Fresh p)
    (H : List Nat) : HeaderInv H 0 p := by
  obtain ⟨h1, h2, h3, h4⟩ := h
  exact ⟨by simpa using h1, h2, h3, h4, by simp⟩

theorem HeaderInv.fresh {p : vdagent_virtio_port_chunk_port_data} {H : List Nat}
    (h : HeaderInv H 0 p) : Fresh p := by
  obtain ⟨h1, h2, h3, h4, _⟩ := h
  exact ⟨by simpa using h1, h2, h3, h4⟩

/-- The body part of a chunk, on a port whose header is complete: the bytes after `k`
are the next bytes of the body `B`. -/
theorem do_chunk_body_step (rc : Bool) (hdr : VDAgentMessage) (B : List Nat) (d : Nat)
    (p : vdagent_virtio_port_chunk_port_data) (port_nr : Nat) (c : List Nat) (k : Nat)
    (rest : List Nat) (hinv : BodyInv hdr B d p) (hsz : hdr.size = B.length)
    (hB : B.length < 2147483648) (hk : k ≤ c.length) (hc : c.length < 4294967296)
    (hk20 : k ≤ 20) (hd : d ≤ B.length) (hsplit : B.drop d = c.drop k ++ rest) :
    (rest ≠ [] → ∃ p', do_chunk_body rc p ⟨port_nr, c.length⟩ c (k : Int) = some (p', []) ∧
        BodyInv hdr B (d + (c.length - k)) p') ∧
    (rest = [] → ∃ p', do_chunk_body rc p ⟨port_nr, c.length⟩ c (k : Int) =
        some (p', if rc then [PortEvent.read_callback port_nr hdr (body_pointer B)] else []) ∧
        Fresh p') := by
  obtain ⟨i1, i2, i3, i4, i5, i6⟩ := hinv
  have hlen : B.length - d = (c.length - k) + rest.length := by
    have := congrArg List.length hsplit
    simpa [List.length_drop, List.length_append] using this
  have hread0 : to_int (sub_uint32 p.message_header.size (to_uint32 p.message_data_pos)) =
      ((B.length - d : Nat) : Int) := by
    rw [i2, hsz, i3, to_uint32_natCast (by omega), sub_uint32_of_le hd (by omega)]
    exact to_int_of_lt (by omega)
  have havail : to_int (sub_uint32 c.length (to_uint32 (k : Int))) =
      ((c.length - k : Nat) : Int) := by
    rw [to_uint32_natCast (by omega), sub_uint32_of_le hk hc]
    exact to_int_of_lt (by omega)
  have hnoerr : ¬ (((c.length - k : Nat) : Int) > ((B.length - d : Nat) : Int)) := by omega
  have hread : (if ((c.length - k : Nat) : Int) < ((B.length - d : Nat) : Int)
      then ((c.length - k : Nat) : Int) else ((B.length - d : Nat) : Int)) =
      ((c.length - k : Nat) : Int) := by
    split_ifs with h
    · rfl
    · omega
  unfold do_chunk_body
  simp only [i1, if_true, hread0, havail, hnoerr, if_false, hread]
  by_cases ha : c.length - k = 0
  · -- no body bytes in this chunk
    have hrest : B.drop d = rest := by
      rw [hsplit, List.drop_eq_nil_of_le (by omega), List.nil_append]
    simp only [ha, Nat.cast_zero, ne_eq, not_true_eq_false, if_false, i3, i2, hsz,
      to_uint32_natCast (show d < 4294967296 by omega), add_zero]
    constructor
    · intro hne
      have hdlt : d ≠ B.length := by
        intro h
        apply hne
        rw [← hrest, h, List.drop_length]
      simp only [hdlt, if_false]
      exact ⟨p, rfl, i1, i2, i3, i4, i5, i6⟩
    · intro he
      have hdeq : d = B.length := by
        have := congrArg List.length hrest
        rw [he, List.length_drop, List.length_nil] at this
        omega
      simp only [hdeq, if_true]
      have hdata : p.message_data = body_pointer B := by
        unfold body_pointer
        split_ifs with hb
        · exact i5 hb
        · obtain ⟨buf, b1, b2, b3⟩ := i6 hb
          rw [hdeq, List.take_of_length_le (by omega), List.take_of_length_le (by omega)] at b3
          rw [b1, b3]
      rw [hdata]
      exact ⟨_, rfl, rfl, rfl, rfl, i4⟩
  · -- some body bytes in this chunk
    have hBne : B ≠ [] := by
      intro h
      rw [h] at hlen
      simp at hlen
      omega
    obtain ⟨buf, b1, b2, b3⟩ := i6 hBne
    have hne0 : ((c.length - k : Nat) : Int) ≠ 0 := by omega
    have hnn : ¬ ((((c.length - k : Nat) : Int) < 0) ∨ ((d : Int) < 0)) := by omega
    have htake : ((c.drop k).take (c.length - k)) = c.drop k :=
      List.take_of_length_le (by simp)
    have hbuf : (memcpy buf d (c.drop k) (c.length - k)).take (d + (c.length - k)) =
        B.take (d + (c.length - k)) := by
      rw [memcpy_take (by omega) (by simp), b3, htake, List.take_add, hsplit,
        List.take_left' (by simp)]
    have hbuflen : (memcpy buf d (c.drop k) (c.length - k)).length = B.length := by
      rw [memcpy_length (by omega) (by simp), b2]
    simp only [hne0, ne_eq, not_false_eq_true, if_true, b1, i3, hnn, if_false,
      Int.toNat_natCast, i2, hsz]
    have hpos : to_uint32 ((d : Int) + ((c.length - k : Nat) : Int)) = d + (c.length - k) := by
      rw [← Nat.cast_add]
      exact to_uint32_natCast (by omega)
    simp only [hpos]
    constructor
    · intro hne
      have hlt : d + (c.length - k) ≠ B.length := by
        intro h
        apply hne
        apply List.eq_nil_of_length_eq_zero
        omega
      simp only [hlt, if_false]
      refine ⟨_, rfl, rfl, rfl, by simp, i4, fun h => absurd h hBne, fun _ => ?_⟩
      exact ⟨_, rfl, hbuflen, hbuf⟩
    · intro he
      have hdeq : d + (c.length - k) = B.length := by
        rw [he] at hlen
        simp at hlen
        omega
      simp only [hdeq, if_true]
      have hdata : memcpy buf d (c.drop k) (c.length - k) = B := by
        rw [hdeq] at hbuf
        rw [List.take_of_length_le (by omega), List.take_of_length_le (by omega)] at hbuf
        exact hbuf
      simp only [hdata, body_pointer, hBne, if_false]
      exact ⟨_, rfl, rfl, rfl, rfl, i4⟩

/-- One chunk `c` on a port that has consumed `n` bytes of the message, when `c` is made of
the next bytes of the message: either the message goes on, or it is delivered. -/
theorem port_do_chunk_step (rc : Bool) (hdr : VDAgentMessage) (B : List Nat) (n : Nat)
    (p : vdagent_virtio_port_chunk_port_data) (port_nr : Nat) (c rest : List Nat)
    (hwf : WellFormed hdr B) (hB : B.length < 2147483648) (hnle : n ≤ 20 + B.length)
    (hinv : Collecting hdr B n p) (hsplit : (hdr.to_wire ++ B).drop n = c ++ rest) :
    (rest ≠ [] → ∃ p', port_do_chunk rc p ⟨port_nr, c.length⟩ c = some (p', []) ∧
        Collecting hdr B (n + c.length) p') ∧
    (rest = [] → ∃ p', port_do_chunk rc p ⟨port_nr, c.length⟩ c =
        some (p', if rc then [PortEvent.read_callback port_nr hdr (body_pointer B)] else []) ∧
        Fresh p') := by
  obtain ⟨w1, w2, w3, w4⟩ := hwf
  have hH : hdr.to_wire.length = 20 := length_to_wire hdr
  have hlen : 20 + B.length - n = c.length + rest.length := by
    have := congrArg List.length hsplit
    simpa [List.length_drop, List.length_append, hH] using this
  unfold port_do_chunk
  unfold Collecting at hinv
  by_cases hn : n < 20
  · rw [if_pos hn] at hinv
    obtain ⟨i1, i2, i3, i4, i5⟩ := hinv
    have hsplit2 : hdr.to_wire.drop n ++ B = c ++ rest := by
      rw [← hsplit, List.drop_append_of_le_length (by omega)]
    by_cases hc : n + c.length < 20
    · -- the chunk ends inside the header
      rw [do_chunk_header_short p n port_nr c i1 hc]
      have hcpre : (hdr.to_wire.drop n).take c.length = c := by
        have h1 := congrArg (List.take c.length) hsplit2
        rw [List.take_left' rfl,
          List.take_append_of_le_length (by rw [List.length_drop]; omega)] at h1
        exact h1
      have hne : ((n + c.length : Nat) : Int) ≠ 20 := by omega
      simp only [do_chunk_body, hne, if_false]
      constructor
      · intro _
        refine ⟨_, rfl, ?_⟩
        unfold Collecting
        rw [if_pos hc]
        refine ⟨rfl, i2, i3, ?_, ?_⟩
        · exact (memcpy_length (by omega) (by omega)).trans i4
        · show (memcpy p.message_header_raw n c c.length).take (n + c.length) = _
          rw [memcpy_take (by omega) (by omega), i5, List.take_add, hcpre,
            List.take_of_length_le (le_refl _)]
      · intro he
        rw [he] at hlen
        simp at hlen
        omega
    · -- the chunk completes the header
      have hc' : 20 ≤ n + c.length := by omega
      rw [do_chunk_header_full p n port_nr c i1 hn hc']
      have hcpre : c.take (20 - n) = hdr.to_wire.drop n := by
        have h1 := congrArg (List.take (20 - n)) hsplit2
        rw [List.take_left' (by rw [List.length_drop]; omega),
          List.take_append_of_le_length (by omega)] at h1
        exact h1.symm
      have hcpost : B = c.drop (20 - n) ++ rest := by
        have h1 := congrArg (List.drop (20 - n)) hsplit2
        rw [List.drop_left' (by rw [List.length_drop]; omega),
          List.drop_append_of_le_length (by omega)] at h1
        exact h1
      have hraw : memcpy p.message_header_raw n c (20 - n) = hdr.to_wire := by
        have h1 : (memcpy p.message_header_raw n c (20 - n)).take (n + (20 - n)) =
            hdr.to_wire := by
          rw [memcpy_take (by omega) (by omega), i5, hcpre, List.take_append_drop]
        have h2 : (memcpy p.message_header_raw n c (20 - n)).length = 20 :=
          (memcpy_length (by omega) (by omega)).trans i4
        rw [List.take_of_length_le (by omega)] at h1
        exact h1
      have hfw : VDAgentMessage.from_wire hdr.to_wire = hdr :=
        from_wire_to_wire hdr w1 w2 w3 (by omega)
      rw [hraw, hfw]
      have hbody : BodyInv hdr B 0
          { p with
            message_header_raw := hdr.to_wire
            message_header_read := 20
            message_header := hdr
            message_data :=
              if hdr.size ≠ 0 then some (List.replicate hdr.size 0) else p.message_data } := by
        refine ⟨rfl, rfl, by simp [i2], hH, ?_, ?_⟩
        · intro hb
          have : hdr.size = 0 := by rw [w4, hb]; rfl
          simp [this, i3]
        · intro hb
          have : hdr.size ≠ 0 := by
            rw [w4]
            exact fun h => hb (List.eq_nil_of_length_eq_zero h)
          exact ⟨List.replicate hdr.size 0, by simp [this], by simp [w4], by simp⟩
      have hstep := do_chunk_body_step rc hdr B 0 _ port_nr c (20 - n) rest hbody w4 hB
        (by omega) (by omega) (by omega) (by omega) (by simpa using hcpost)
      have hcast : ((20 - n : Nat) : Int) = ((20 - n : Nat) : Int) := rfl
      constructor
      · intro hr
        obtain ⟨p', e1, e2⟩ := hstep.1 hr
        refine ⟨p', e1, ?_⟩
        unfold Collecting
        rw [if_neg (by omega)]
        have : n + c.length - 20 = 0 + (c.length - (20 - n)) := by omega
        rw [this]
        exact e2
      · intro hr
        exact hstep.2 hr
  · -- the header is complete already
    rw [if_neg hn] at hinv
    have i1 := hinv.1
    have hhdr : do_chunk_header p ⟨port_nr, c.length⟩ c = (p, 0) := by
      unfold do_chunk_header
      have : ¬ ((0 : Int) ≤ p.message_header_read ∧ p.message_header_read < 20) := by
        rw [i1]; omega
      rw [if_neg this]
    rw [hhdr]
    have hd : n - 20 ≤ B.length := by omega
    have hdropM : (hdr.to_wire ++ B).drop n = B.drop (n - 20) := by
      rw [List.drop_append_eq_append_drop, hH,
        List.drop_eq_nil_of_le (by rw [hH]; omega), List.nil_append]
    have hsplit2 : B.drop (n - 20) = c.drop 0 ++ rest := by
      rw [List.drop_zero, ← hsplit, hdropM]
    have hstep := do_chunk_body_step rc hdr B (n - 20) p port_nr c 0 rest hinv w4 hB
      (by omega) (by omega) (by omega) hd hsplit2
    simp only [Nat.cast_zero, Nat.sub_zero] at hstep
    constructor
    · intro hr
      obtain ⟨p', e1, e2⟩ := hstep.1 hr
      refine ⟨p', e1, ?_⟩
      unfold Collecting
      rw [if_neg (by omega)]
      have : n + c.length - 20 = n - 20 + c.length := by omega
      rw [this]
      exact e2
    · intro hr
      exact hstep.2 hr

theorem Pending.start (rc : Bool) (port_nr : Nat) (hdr : VDAgentMessage) (B : List Nat)
    (p : vdagent_virtio_port_chunk_port_data) (hp : Fresh p) :
    Pending rc port_nr hdr B p (hdr.to_wire ++ B)
      (if rc then [PortEvent.read_callback port_nr hdr (body_pointer B)] else []) := by
  left
  refine ⟨?_, rfl, 0, by omega, ?_, by simp⟩
  · intro h
    have := congrArg List.length h
    simp [length_to_wire] at this
  · unfold Collecting
    rw [if_pos (by omega)]
    exact hp.headerInv _

/-- An empty chunk leaves a fresh port fresh and makes no callback. -/
theorem port_do_chunk_fresh_nil (rc : Bool) (port_nr : Nat)
    (p : vdagent_virtio_port_chunk_port_data) (hp : Fresh p) :
    ∃ p', port_do_chunk rc p ⟨port_nr, ([] : List Nat).length⟩ [] = some (p', []) ∧
      Fresh p' := by
  have hwf : WellFormed ⟨0, 0, 0, 0⟩ [] := ⟨by norm_num, by norm_num, by norm_num, rfl⟩
  have hcol : Collecting ⟨0, 0, 0, 0⟩ [] 0 p := by
    unfold Collecting
    rw [if_pos (by omega)]
    exact hp.headerInv _
  have h := (port_do_chunk_step rc ⟨0, 0, 0, 0⟩ [] 0 p port_nr []
    ((⟨0, 0, 0, 0⟩ : VDAgentMessage).to_wire ++ []) hwf (by simp) (by omega) hcol
    (by simp)).1 (by simp [VDAgentMessage.to_wire, to_le])
  obtain ⟨p', e1, e2⟩ := h
  refine ⟨p', e1, ?_⟩
  unfold Collecting at e2
  rw [if_pos (by simp)] at e2
  exact HeaderInv.fresh e2

/-- One chunk of the pending bytes: the port makes some of the callbacks it owes and
owes the rest. -/
theorem Pending.step (rc : Bool) (port_nr : Nat) (hdr : VDAgentMessage) (B : List Nat)
    (p : vdagent_virtio_port_chunk_port_data) (c rem : List Nat)
    (exp0 : List PortEvent) (hwf : WellFormed hdr B) (hB : B.length < 2147483648)
    (h : Pending rc port_nr hdr B p (c ++ rem) exp0) :
    ∃ p' evs exp', port_do_chunk rc p ⟨port_nr, c.length⟩ c = some (p', evs) ∧
      exp0 = evs ++ exp' ∧ Pending rc port_nr hdr B p' rem exp' := by
  rcases h with ⟨_, hexp, n, hn, hcol, hdrop⟩ | ⟨hnil, hexp, hfr⟩
  · have hstep := port_do_chunk_step rc hdr B n p port_nr c rem hwf hB hn hcol hdrop
    by_cases hr : rem = []
    · obtain ⟨p', e1, e2⟩ := hstep.2 hr
      exact ⟨p', _, [], e1, by rw [hexp, List.append_nil], Or.inr ⟨hr, rfl, e2⟩⟩
    · obtain ⟨p', e1, e2⟩ := hstep.1 hr
      refine ⟨p', [], exp0, e1, rfl, Or.inl ⟨hr, hexp, n + c.length, ?_, e2, ?_⟩⟩
      · have := congrArg List.length hdrop
        simp [List.length_drop, length_to_wire] at this
        have hpos : 0 < rem.length := List.length_pos.mpr hr
        omega
      · have := congrArg (List.drop c.length) hdrop
        rw [List.drop_drop, List.drop_left' rfl] at this
        exact this
  · have hc : c = [] := (List.append_eq_nil.mp hnil).1
    have hr : rem = [] := (List.append_eq_nil.mp hnil).2
    subst hc
    obtain ⟨p', e1, e2⟩ := port_do_chunk_fresh_nil rc port_nr p hfr
    exact ⟨p', [], [], e1, by rw [hexp]; rfl, Or.inr ⟨hr, rfl, e2⟩⟩

/-- Frame: a chunk for one port leaves the data of every other port, the write buffer, the
write queue and the callback as they were. -/
theorem do_chunk_frame (vport vport1 : VirtioPort) (chunk_header : VDIChunkHeader)
    (chunk_data : List Nat) (evs : List PortEvent)
    (h : vdagent_virtio_port_do_chunk vport chunk_header chunk_data = some (vport1, evs)) :
    (∀ q, q ≠ chunk_header.port → vport1.port_data q = vport.port_data q) ∧
      vport1.read_callback = vport.read_callback ∧ vport1.write_buf = vport.write_buf ∧
      vport1.write_queue = vport.write_queue := by
  unfold vdagent_virtio_port_do_chunk at h
  split at h
  · exact absurd h (by simp)
  · rename_i port1 evs1 _
    simp only [Option.some.injEq, Prod.mk.injEq] at h
    obtain ⟨h1, _⟩ := h
    subst h1
    exact ⟨fun q hq => Function.update_noteq hq _ _, rfl, rfl, rfl⟩

/-- The handler in terms of the data of the chunk's port. -/
theorem do_chunk_of_port (vport : VirtioPort) (chunk_header : VDIChunkHeader)
    (chunk_data : List Nat) (p1 : vdagent_virtio_port_chunk_port_data)
    (evs : List PortEvent)
    (h : port_do_chunk vport.read_callback (vport.port_data chunk_header.port) chunk_header
      chunk_data = some (p1, evs)) :
    ∃ vport1, vdagent_virtio_port_do_chunk vport chunk_header chunk_data =
        some (vport1, evs) ∧ vport1.port_data chunk_header.port = p1 := by
  unfold vdagent_virtio_port_do_chunk
  rw [h]
  exact ⟨_, rfl, Function.update_same _ _ _⟩

/-- Interleaved chunks of two ports: each port makes exactly the callbacks it owes. -/
theorem feed_interleaving (a b : Nat) (hab : a ≠ b) (hdr1 hdr2 : VDAgentMessage)
    (B1 B2 : List Nat) (hwf1 : WellFormed hdr1 B1) (hwf2 : WellFormed hdr2 B2)
    (hB1 : B1.length < 2147483648) (hB2 : B2.length < 2147483648)
    (cs1 cs2 : List (List Nat)) (l : List Chunk) (hl : Interleaving a b cs1 cs2 l) :
    ∀ (vport : VirtioPort) (exp1 exp2 : List PortEvent),
      Pending vport.read_callback a hdr1 B1 (vport.port_data a) cs1.flatten exp1 →
      Pending vport.read_callback b hdr2 B2 (vport.port_data b) cs2.flatten exp2 →
      ∃ vport1 evs, feed_chunks vport l = some (vport1, evs) ∧ evs.Perm (exp1 ++ exp2) ∧
        Pending vport.read_callback a hdr1 B1 (vport1.port_data a) [] [] ∧
        Pending vport.read_callback b hdr2 B2 (vport1.port_data b) [] [] := by
  induction hl with
  | nil =>
    intro vport exp1 exp2 h1 h2
    have e1 : exp1 = [] := by
      rcases h1 with ⟨h, _⟩ | ⟨_, h, _⟩
      · exact absurd rfl h
      · exact h
    have e2 : exp2 = [] := by
      rcases h2 with ⟨h, _⟩ | ⟨_, h, _⟩
      · exact absurd rfl h
      · exact h
    subst e1 e2
    exact ⟨vport, [], rfl, List.Perm.refl _, h1, h2⟩
  | left c cs1 cs2 l _ ih =>
    intro vport exp1 exp2 h1 h2
    rw [List.flatten_cons] at h1
    obtain ⟨p', evs, exp', e1, e2, e3⟩ :=
      Pending.step vport.read_callback a hdr1 B1 _ c cs1.flatten exp1 hwf1 hB1 h1
    obtain ⟨v1, f1, f2⟩ := do_chunk_of_port vport ⟨a, c.length⟩ c p' evs e1
    obtain ⟨g1, g2, _, _⟩ := do_chunk_frame vport v1 ⟨a, c.length⟩ c evs f1
    have h1' : Pending v1.read_callback a hdr1 B1 (v1.port_data a) cs1.flatten exp' := by
      rw [g2]
      simp only at f2
      rw [f2]
      exact e3
    have h2' : Pending v1.read_callback b hdr2 B2 (v1.port_data b) cs2.flatten exp2 := by
      rw [g2, g1 b (fun h => hab h.symm)]
      exact h2
    obtain ⟨v2, evs2, k1, k2, k3, k4⟩ := ih v1 exp' exp2 h1' h2'
    refine ⟨v2, evs ++ evs2, ?_, ?_, by rw [← g2]; exact k3, by rw [← g2]; exact k4⟩
    · simp only [feed_chunks, f1, k1]
    · rw [e2, List.append_assoc]
      exact List.Perm.append_left evs k2
  | right c cs1 cs2 l _ ih =>
    intro vport exp1 exp2 h1 h2
    rw [List.flatten_cons] at h2
    obtain ⟨p', evs, exp', e1, e2, e3⟩ :=
      Pending.step vport.read_callback b hdr2 B2 _ c cs2.flatten exp2 hwf2 hB2 h2
    obtain ⟨v1, f1, f2⟩ := do_chunk_of_port vport ⟨b, c.length⟩ c p' evs e1
    obtain ⟨g1, g2, _, _⟩ := do_chunk_frame vport v1 ⟨b, c.length⟩ c evs f1
    have h2' : Pending v1.read_callback b hdr2 B2 (v1.port_data b) cs2.flatten exp' := by
      rw [g2]
      simp only at f2
      rw [f2]
      exact e3
    have h1' : Pending v1.read_callback a hdr1 B1 (v1.port_data a) cs1.flatten exp1 := by
      rw [g2, g1 a hab]
      exact h1
    obtain ⟨v2, evs2, k1, k2, k3, k4⟩ := ih v1 exp1 exp' h1' h2'
    refine ⟨v2, evs ++ evs2, ?_, ?_, by rw [← g2]; exact k3, by rw [← g2]; exact k4⟩
    · simp only [feed_chunks, f1, k1]
    · rw [e2]
      have : (evs ++ evs2).Perm (evs ++ (exp1 ++ exp')) := List.Perm.append_left evs k2
      refine this.trans ?_
      rw [← List.append_assoc, ← List.append_assoc]
      exact List.Perm.append_right exp' List.perm_append_comm

/-- Chunks of one port: the port makes exactly the callbacks it owes, and ends fresh. -/
theorem feed_one_port (a : Nat) (hdr : VDAgentMessage) (B : List Nat)
    (hwf : WellFormed hdr B) (hB : B.length < 2147483648) (cs : List (List Nat)) :
    ∀ (vport : VirtioPort) (exp : List PortEvent),
      Pending vport.read_callback a hdr B (vport.port_data a) cs.flatten exp →
      ∃ vport1, feed_chunks vport (cs.map (Prod.mk a)) = some (vport1, exp) ∧
        Fresh (vport1.port_data a) := by
  induction cs with
  | nil =>
    intro vport exp h
    rcases h with ⟨h, _⟩ | ⟨_, h, hf⟩
    · exact absurd rfl h
    · subst h
      exact ⟨vport, rfl, hf⟩
  | cons c cs ih =>
    intro vport exp h
    rw [List.flatten_cons] at h
    obtain ⟨p', evs, exp', e1, e2, e3⟩ :=
      Pending.step vport.read_callback a hdr B _ c cs.flatten exp hwf hB h
    obtain ⟨v1, f1, f2⟩ := do_chunk_of_port vport ⟨a, c.length⟩ c p' evs e1
    obtain ⟨_, g2, _, _⟩ := do_chunk_frame vport v1 ⟨a, c.length⟩ c evs f1
    have h' : Pending v1.read_callback a hdr B (v1.port_data a) cs.flatten exp' := by
      rw [g2]
      simp only at f2
      rw [f2]
      exact e3
    obtain ⟨v2, k1, k2⟩ := ih v1 exp' h'
    refine ⟨v2, ?_, k2⟩
    simp only [List.map_cons, feed_chunks, f1, k1, e2]

/-- The events of a run start with the events of its first chunk. -/
theorem feed_chunks_cons_events (vport vport1 : VirtioPort) (c : Chunk) (cs : List Chunk)
    (evs : List PortEvent) (h : feed_chunks vport (c :: cs) = some (vport1, evs)) :
    ∃ e1 e2, events_of (vdagent_virtio_port_do_chunk vport ⟨c.1, c.2.length⟩ c.2) = some e1 ∧
      evs = e1 ++ e2 := by
  simp only [feed_chunks] at h
  split at h
  · exact absurd h (by simp)
  · rename_i v1 e1 heq
    split at h
    · exact absurd h (by simp)
    · rename_i v2 e2 _
      simp only [Option.some.injEq, Prod.mk.injEq] at h
      exact ⟨e1, e2, by simp [events_of, heq], h.2.symm⟩

/-- Reassembly of a message whose declared size is below `2^31`: whatever the split points
(empty chunks included), feeding the chunks of the message to a fresh port makes exactly one
read callback, with the decoded header and the original body, makes no error callback, and
leaves the port fresh. -/
theorem reassembly_below_2GiB (vport : VirtioPort) (a : Nat) (hdr : VDAgentMessage)
    (B : List Nat) (cs : List (List Nat)) (hwf : WellFormed hdr B)
    (hB : B.length < 2147483648) (hrc : vport.read_callback = true)
    (hfresh : Fresh (vport.port_data a)) (hcs : cs.flatten = hdr.to_wire ++ B) :
    ∃ vport1, feed_chunks vport (cs.map (Prod.mk a)) =
        some (vport1, [PortEvent.read_callback a hdr (body_pointer B)]) ∧
      Fresh (vport1.port_data a) := by
  have h := Pending.start vport.read_callback a hdr B _ hfresh
  rw [← hcs] at h
  have h2 := feed_one_port a hdr B hwf hB cs vport _ h
  rw [hrc] at h2
  simpa using h2

/-! ### Local broker framing -/

theorem length_udscs_to_bytes (h : udscs_message_header) : h.to_bytes.length = 16 := by
  simp [udscs_message_header.to_bytes, length_to_le]

theorem udscs_of_bytes_to_bytes (h : udscs_message_header) (h1 : h.type < 4294967296)
    (h2 : h.arg1 < 4294967296) (h3 : h.arg2 < 4294967296) (h4 : h.size < 4294967296) :
    udscs_message_header.of_bytes h.to_bytes = h := by
  obtain ⟨ty, a1, a2, sz⟩ := h
  have l1 := length_to_le 4 ty
  have l2 := length_to_le 4 a1
  have l3 := length_to_le 4 a2
  have e1 := read_le_to_le_append [] (to_le 4 a1 ++ (to_le 4 a2 ++ to_le 4 sz)) 0 4 ty rfl h1
  have e2 := read_le_to_le_append (to_le 4 ty) (to_le 4 a2 ++ to_le 4 sz) 4 4 a1 l1 h2
  have e3 := read_le_to_le_append (to_le 4 ty ++ to_le 4 a1) (to_le 4 sz) 8 4 a2
    (by rw [List.length_append, l1, l2]) h3
  have e4 := read_le_to_le_append (to_le 4 ty ++ to_le 4 a1 ++ to_le 4 a2) [] 12 4 sz
    (by rw [List.length_append, List.length_append, l1, l2, l3]) h4
  simp only [List.nil_append, List.append_nil, List.append_assoc] at e1 e2 e3 e4
  simp only [udscs_message_header.of_bytes, udscs_message_header.to_bytes,
    List.append_assoc, e1, e2, e3, e4]

theorem memcpy_zero_full (dst src : List Nat) (h : dst.length = src.length) :
    memcpy dst 0 src src.length = src := by
  unfold memcpy
  rw [List.take_zero, List.nil_append, List.take_of_length_le (le_refl _),
    List.drop_eq_nil_of_le (by omega), List.append_nil]

/-- The buffer `udscs_write` queues: header bytes, then the body. -/
theorem udscs_write_buffer {σ : Type} (conn : VDAgentConnection σ) (type arg1 arg2 : Nat)
    (data : List Nat) (hlen : 16 + data.length < 4294967296) :
    udscs_write conn type arg1 arg2 data =
      some (vdagent_connection_write conn
        ((⟨type, arg1, arg2, data.length⟩ : udscs_message_header).to_bytes ++ data)) := by
  unfold udscs_write
  have hmod : (16 + data.length) % 4294967296 = 16 + data.length := Nat.mod_eq_of_lt hlen
  have hl := length_udscs_to_bytes ⟨type, arg1, arg2, data.length⟩
  simp only [hmod, lt_irrefl, if_false]
  congr 2
  unfold memcpy
  simp only [List.take_zero, List.nil_append, Nat.zero_add]
  rw [List.take_of_length_le (le_of_eq hl)]
  rw [List.take_left' hl, List.take_of_length_le (le_refl _),
    List.drop_eq_nil_of_le (by simp [hl]), List.append_nil]

/-- A whole header arrives on a udscs connection that awaits one: with a size of 0 the
message is delivered at once, otherwise a read of `size` body bytes is started. -/
theorem udscs_read_header (rconn : VDAgentConnection Unit) (h : udscs_message_header)
    (hf1 : h.type < 4294967296) (hf2 : h.arg1 < 4294967296) (hf3 : h.arg2 < 4294967296)
    (hf4 : h.size < 4294967296)
    (hr3 : rconn.header_buf.length = 16) (hr4 : rconn.data_buf = none)
    (hr5 : rconn.cancelled = false) :
    message_read_cb udscs_connection_class rconn (ReadResult.bytes h.to_bytes) =
      if h.size > 0 then
        some ({ rconn with
                opening := false
                header_buf := h.to_bytes
                data_buf := some (List.replicate h.size 0)
                reading := some h.size }, [])
      else
        some (read_next_message { rconn with opening := false, header_buf := h.to_bytes },
          [UdscsEvent.read_callback h none]) := by
  obtain ⟨sub, opening, cancelled, header_size, header_buf, data_buf, reading, wq, bw⟩ := rconn
  simp only at hr3 hr4 hr5
  subst hr4 hr5
  have hl := length_udscs_to_bytes h
  have hob := udscs_of_bytes_to_bytes h hf1 hf2 hf3 hf4
  have hcp : memcpy header_buf 0 h.to_bytes h.to_bytes.length = h.to_bytes :=
    memcpy_zero_full header_buf h.to_bytes (by rw [hr3, hl])
  have hne : ¬ (h.to_bytes.length = 0) := by rw [hl]; omega
  simp only [message_read_cb, hcp, hne, if_false, udscs_connection_class,
    udscs_conn_handle_header, hob, Bool.or_false, udscs_conn_handle_message, List.nil_append]
  by_cases hs : h.size > 0
  · simp [hs]
  · simp [hs]

/-- The body arrives on a udscs connection that awaits it: the message is delivered. -/
theorem udscs_read_body (rconn : VDAgentConnection Unit) (buf body : List Nat)
    (hb : body ≠ []) (hr4 : rconn.data_buf = some buf) (hbuf : buf.length = body.length) :
    message_read_cb udscs_connection_class rconn (ReadResult.bytes body) =
      some (read_next_message { rconn with opening := false, data_buf := none },
        [UdscsEvent.read_callback (udscs_message_header.of_bytes rconn.header_buf)
          (some body)]) := by
  obtain ⟨sub, opening, cancelled, header_size, header_buf, data_buf, reading, wq, bw⟩ := rconn
  simp only at hr4
  subst hr4
  have hcp : memcpy buf 0 body body.length = body := memcpy_zero_full buf body hbuf
  have hne : ¬ (body.length = 0) := fun h => hb (List.eq_nil_of_length_eq_zero h)
  simp only [message_read_cb, hcp, hne, if_false, udscs_connection_class,
    udscs_conn_handle_message, Bool.or_false]

/-- C2. Local-broker framing round trip: the buffer `udscs_write` queues is the 16-byte
header {type, arg1, arg2, size = body length} followed by the body; `conn_handle_header`
returns the size field of that header; and a framed connection that awaits a header and
reads these bytes delivers to the read callback exactly the original type, arg1, arg2 and
body (a `NULL` body pointer for the empty body), consumes exactly these bytes and awaits the
next header. -/
theorem udscs_framing_round_trip (wconn rconn : VDAgentConnection Unit)
    (type arg1 arg2 : Nat) (body rest : List Nat)
    (ht : type < 4294967296) (h1 : arg1 < 4294967296) (h2 : arg2 < 4294967296)
    (hlen : 16 + body.length < 4294967296)
    (hr1 : rconn.reading = some 16) (hr2 : rconn.header_size = 16)
    (hr3 : rconn.header_buf.length = 16) (hr4 : rconn.data_buf = none)
    (hr5 : rconn.cancelled = false) :
    ∃ buf rconn1,
      (udscs_write wconn type arg1 arg2 body).map (fun c => c.write_queue) =
        some (wconn.write_queue ++ [buf]) ∧
      buf = (⟨type, arg1, arg2, body.length⟩ : udscs_message_header).to_bytes ++ body ∧
      udscs_conn_handle_header (buf.take 16) = body.length ∧
      serve_reads udscs_connection_class (if body = [] then 1 else 2) rconn (buf ++ rest) =
        some (rconn1,
          [UdscsEvent.read_callback ⟨type, arg1, arg2, body.length⟩ (body_pointer body)],
          rest) ∧
      rconn1.reading = some 16 ∧ rconn1.data_buf = none := by
  have hl := length_udscs_to_bytes ⟨type, arg1, arg2, body.length⟩
  have hob := udscs_of_bytes_to_bytes ⟨type, arg1, arg2, body.length⟩ ht h1 h2
    (show body.length < 4294967296 by omega)
  have htake : List.take 16
      ((⟨type, arg1, arg2, body.length⟩ : udscs_message_header).to_bytes ++ body ++ rest) =
      (⟨type, arg1, arg2, body.length⟩ : udscs_message_header).to_bytes := by
    rw [List.append_assoc, List.take_left' hl]
  have hdrop : List.drop 16
      ((⟨type, arg1, arg2, body.length⟩ : udscs_message_header).to_bytes ++ body ++ rest) =
      body ++ rest := by
    rw [List.append_assoc, List.drop_left' hl]
  have hstep1 := udscs_read_header rconn ⟨type, arg1, arg2, body.length⟩ ht h1 h2
    (show body.length < 4294967296 by omega) hr3 hr4 hr5
  have hw : (udscs_write wconn type arg1 arg2 body).map (fun c => c.write_queue) =
      some (wconn.write_queue ++
        [(⟨type, arg1, arg2, body.length⟩ : udscs_message_header).to_bytes ++ body]) := by
    rw [udscs_write_buffer wconn type arg1 arg2 body hlen]; rfl
  have hh : udscs_conn_handle_header (List.take 16
      ((⟨type, arg1, arg2, body.length⟩ : udscs_message_header).to_bytes ++ body)) =
      body.length := by
    rw [List.take_left' hl]
    unfold udscs_conn_handle_header
    rw [hob]
  by_cases hb : body = []
  · -- empty body: the message handler runs on the header alone
    have hz : ¬ (body.length > 0) := by rw [hb]; simp
    rw [if_neg hz] at hstep1
    refine ⟨_, read_next_message { rconn with
      opening := false
      header_buf := (⟨type, arg1, arg2, body.length⟩ : udscs_message_header).to_bytes },
      hw, rfl, hh, ?_, ?_, ?_⟩
    · rw [if_pos hb]
      simp only [serve_reads, hr1, read_all, htake, hdrop, hstep1, List.append_nil]
      simp only [hb, List.nil_append, body_pointer, if_true]
    · simp [read_next_message, hr5, hr2]
    · simp [read_next_message, hr5, hr4]
  · have hz : body.length > 0 := List.length_pos.mpr hb
    rw [if_pos hz] at hstep1
    have hstep2 := udscs_read_body
      { rconn with
        opening := false
        header_buf := (⟨type, arg1, arg2, body.length⟩ : udscs_message_header).to_bytes
        data_buf := some (List.replicate body.length 0)
        reading := some body.length } (List.replicate body.length 0) body hb rfl (by simp)
    refine ⟨_, read_next_message { rconn with
      opening := false
      header_buf := (⟨type, arg1, arg2, body.length⟩ : udscs_message_header).to_bytes
      data_buf := none
      reading := some body.length },
      hw, rfl, hh, ?_, ?_, ?_⟩
    · rw [if_neg hb]
      simp only [serve_reads, hr1, read_all, htake, hdrop, hstep1, List.take_left,
        List.drop_left, hstep2, hob, List.nil_append, List.append_nil, body_pointer, hb,
        if_false]
    · simp [read_next_message, hr5, hr2]
    · simp [read_next_message, hr5]

/-! ### Admission bound -/

theorem server_step_length_le (server : udscs_server) (op : ServerOp)
    (h : server.connections.length ≤ 128) :
    (server_step server op).1.connections.length ≤ 128 := by
  cases op with
  | accept c =>
    simp only [server_step, udscs_server_accept_cb, MAX_CONNECTED_AGENTS]
    by_cases hfull : server.connections.length ≥ 128
    · rw [if_pos hfull]
      exact h
    · rw [if_neg hfull]
      simp only [List.length_cons]
      omega
  | destroy c =>
    simp only [server_step, udscs_server_destroy_connection]
    exact le_trans (List.length_erase_le _ _) h

theorem server_run_length_le (ops : List ServerOp) :
    ∀ server : udscs_server, server.connections.length ≤ 128 →
      (server_run server ops).1.connections.length ≤ 128 := by
  induction ops with
  | nil => intro server h; exact h
  | cons op ops ih =>
    intro server h
    simp only [server_run]
    exact ih _ (server_step_length_le server op h)

/-- Accepting the clients `cs` one after the other: the first ones are registered (and
announced to the connect callback) until 128 connections are tracked, the others are not. -/
theorem server_run_accepts (cs : List ConnId) :
    ∀ server : udscs_server, server.connections.length ≤ 128 →
      (server_run server (cs.map ServerOp.accept)).1.connections =
          (cs.take (128 - server.connections.length)).reverse ++ server.connections ∧
        (server_run server (cs.map ServerOp.accept)).2 =
          if server.connect_callback then
            (cs.take (128 - server.connections.length)).map ServerEvent.connect_callback
          else [] := by
  induction cs with
  | nil => intro server _; simp [server_run]
  | cons c cs ih =>
    intro server h
    simp only [List.map_cons, server_run, server_step, udscs_server_accept_cb,
      MAX_CONNECTED_AGENTS]
    by_cases hfull : server.connections.length ≥ 128
    · have hz : 128 - server.connections.length = 0 := by omega
      have := ih server h
      simp only [hfull, if_true]
      rw [this.1, this.2, hz]
      simp
    · have hs : 128 - server.connections.length = (128 - (server.connections.length + 1)) + 1 := by
        omega
      have := ih { server with connections := c :: server.connections }
        (by simp only [List.length_cons]; omega)
      simp only [hfull, if_false]
      rw [this.1, this.2, hs]
      simp only [List.length_cons, List.take_succ_cons, List.reverse_cons, List.append_assoc,
        List.singleton_append, List.map_cons, true_and]
      split_ifs <;> simp

theorem for_all_clients_loop_visited {π : Type} (func : ConnId → π → Int × π) :
    ∀ (l : List ConnId) (priv : π) (r : Int) (visited : List ConnId),
      (for_all_clients_loop func l priv r visited).2.2 = visited ++ l := by
  intro l
  induction l with
  | nil => intro priv r visited; simp [for_all_clients_loop]
  | cons c l ih =>
    intro priv r visited
    simp only [for_all_clients_loop, ih, List.append_assoc, List.singleton_append]

/-- C4. Admission bound: whatever accepts and `udscs_server_destroy_connection` calls are
run on a server that tracks at most 128 connections, it still tracks at most 128; an accept
that arrives while 128 are tracked registers nothing and calls nothing; and after more than
128 distinct clients have connected to a new server exactly 128 are tracked (the first 128),
while each later client is not tracked, was never given to the connect callback and is not
visited by `udscs_server_for_all_clients`. -/
theorem admission_bound (server : udscs_server) (ops : List ServerOp) (cb : Bool)
    (cs : List ConnId) (hinit : server.connections.length ≤ 128) (hcs : cs.Nodup)
    (hmore : 128 < cs.length) :
    (server_run server ops).1.connections.length ≤ 128 ∧
    (∀ (s : udscs_server) (c : ConnId), s.connections.length = 128 →
      udscs_server_accept_cb s c = (s, [])) ∧
    ((server_run (udscs_server_new cb) (cs.map ServerOp.accept)).1.connections.length = 128 ∧
      (server_run (udscs_server_new cb) (cs.map ServerOp.accept)).1.connections =
        (cs.take 128).reverse ∧
      ∀ c ∈ cs.drop 128,
        c ∉ (server_run (udscs_server_new cb) (cs.map ServerOp.accept)).1.connections ∧
        ServerEvent.connect_callback c ∉
          (server_run (udscs_server_new cb) (cs.map ServerOp.accept)).2 ∧
        ∀ (func : ConnId → Unit → Int × Unit),
          c ∉ (udscs_server_for_all_clients
            (some (server_run (udscs_server_new cb) (cs.map ServerOp.accept)).1)
            func ()).2.2) := by
  refine ⟨server_run_length_le ops server hinit, ?_, ?_⟩
  · intro s c hs
    simp [udscs_server_accept_cb, MAX_CONNECTED_AGENTS, hs]
  · have h := server_run_accepts cs (udscs_server_new cb) (by simp [udscs_server_new])
    simp only [udscs_server_new, List.length_nil, Nat.sub_zero, List.append_nil] at h
    simp only [udscs_server_new]
    have hnot : ∀ c ∈ cs.drop 128, c ∉ cs.take 128 := by
      intro c hc1 hc2
      have hd : (cs.take 128 ++ cs.drop 128).Nodup := by
        rw [List.take_append_drop]; exact hcs
      exact (List.nodup_append.mp hd).2.2 hc2 hc1
    refine ⟨?_, h.1, ?_⟩
    · rw [h.1, List.length_reverse, List.length_take]
      omega
    · intro c hc
      refine ⟨?_, ?_, ?_⟩
      · rw [h.1, List.mem_reverse]
        exact hnot c hc
      · rw [h.2]
        split_ifs
        · intro hmem
          rw [List.mem_map] at hmem
          obtain ⟨c', hc', heq⟩ := hmem
          injection heq with heq
          subst heq
          exact hnot _ hc hc'
        · simp
      · intro func
        simp only [udscs_server_for_all_clients, for_all_clients_loop_visited,
          List.nil_append]
        rw [h.1, List.mem_reverse]
        exact hnot c hc

/-! ### File-transfer admission -/

theorem xfers_remove_of_lookup_none (t : List (Nat × ConnId)) (id : Nat)
    (h : xfers_lookup t id = none) : xfers_remove t id = t := by
  induction t with
  | nil => rfl
  | cons e t ih =>
    obtain ⟨k, v⟩ := e
    unfold xfers_lookup at h ih
    unfold xfers_remove at ih ⊢
    by_cases hk : id = k
    · subst hk
      simp [List.lookup] at h
    · have hk' : (id == k) = false := by simpa using hk
      simp only [List.lookup, hk'] at h
      have hne : k ≠ id := fun e => hk e.symm
      simp only [List.filter_cons, ne_eq, hne, not_false_eq_true, decide_True, if_true]
      rw [ih h]

/-- The reply of `send_file_xfer_status` when the port is set: one write of a
`FILE_XFER_STATUS` message to the client port, whose body starts with the id. -/
theorem send_file_xfer_status_reply (P : Protocol) (d : Daemon) (id xfer_status : Nat)
    (data : Option (List Nat)) (data_size : Nat)
    (hsz : 8 ≤ P.sizeof_VDAgentFileXferStatusMessage) :
    ∃ body size, send_file_xfer_status P d true id xfer_status data data_size =
        [Out.virtio_port_write P.VDP_CLIENT_PORT VD_AGENT_FILE_XFER_STATUS 0 body size] ∧
      body.take 4 = to_le 4 id := by
  unfold send_file_xfer_status
  simp only [if_true]
  refine ⟨_, _, rfl, ?_⟩
  have hhead : ∀ (n : Nat) (st : Nat), 8 ≤ n →
      (memcpy (List.replicate n 0) 0 (to_le 4 id ++ to_le 4 st) 8).take 4 = to_le 4 id := by
    intro n st _
    unfold memcpy
    have l8 : (to_le 4 id ++ to_le 4 st).length = 8 := by simp [length_to_le]
    rw [List.take_zero, List.nil_append, List.take_of_length_le (le_of_eq l8),
      List.append_assoc, List.take_left' (length_to_le 4 id)]
  have hlen : ∀ (n : Nat) (st : Nat), 8 ≤ n →
      (memcpy (List.replicate n 0) 0 (to_le 4 id ++ to_le 4 st) 8).length = n := by
    intro n st hn
    rw [memcpy_length (by simp; omega) (by simp [length_to_le]), List.length_replicate]
  cases data with
  | none => exact hhead _ _ (by omega)
  | some b =>
    simp only
    unfold memcpy at hhead hlen ⊢
    rw [List.append_assoc, List.take_append_of_le_length, List.take_take]
    · have : min 4 P.sizeof_VDAgentFileXferStatusMessage = 4 := by omega
      rw [this]
      exact hhead _ _ (by omega)
    · rw [List.length_take, hlen _ _ (by omega)]
      omega

/-- C6. File-transfer admission: a host `FILE_XFER_START` with id `id` is admitted (the pair
id -> active connection is recorded in the task table and the start is forwarded to the
active connection) if and only if an active connection exists, the session is not locked,
the task table holds fewer than 128 entries and the id is not a key of the table; when a
check fails, exactly one status reply for the id is written to the host, nothing is
forwarded to any agent and the daemon's state, the task table included, is as it was. -/
theorem file_xfer_start_admission (P : Protocol) (env : Env) (d : Daemon)
    (message_header : VDAgentMessage) (data : List Nat)
    (htype : message_header.type = VD_AGENT_FILE_XFER_START)
    (hsz : 8 ≤ P.sizeof_VDAgentFileXferStatusMessage) :
    (start_admitted d (read_le data 0 4) (data.take message_header.size)
        (do_client_file_xfer P env d true message_header data) ↔
      start_checks_pass env d (read_le data 0 4)) ∧
    (¬ start_checks_pass env d (read_le data 0 4) →
      (do_client_file_xfer P env d true message_header data).1 = d ∧
      ∃ body size, (do_client_file_xfer P env d true message_header data).2 =
          [Out.virtio_port_write P.VDP_CLIENT_PORT VD_AGENT_FILE_XFER_STATUS 0 body size] ∧
        body.take 4 = to_le 4 (read_le data 0 4)) := by
  have hreject : ∀ (st : Nat) (dat : Option (List Nat)) (ds : Nat),
      ¬ start_admitted d (read_le data 0 4) (data.take message_header.size)
        (d, send_file_xfer_status P d true (read_le data 0 4) st dat ds) := by
    intro st dat ds hadm
    obtain ⟨a, _, _, h3⟩ := hadm
    obtain ⟨body, size, hb, _⟩ := send_file_xfer_status_reply P d (read_le data 0 4) st dat ds hsz
    simp only at h3
    rw [hb] at h3
    simp at h3
  have hne1 : VD_AGENT_FILE_XFER_START ≠ VD_AGENT_FILE_XFER_STATUS := by decide
  unfold start_checks_pass
  unfold do_client_file_xfer
  simp only [htype, if_true]
  cases hact : d.active_session_conn with
  | none =>
    simp only [Option.isSome_none, Bool.false_eq_true, false_and, iff_false, not_false_eq_true,
      true_implies, true_and]
    exact ⟨hreject _ _ _, send_file_xfer_status_reply P d _ _ _ _ hsz⟩
  | some a =>
    simp only [Option.isSome_some, true_and]
    by_cases hlock : env.session_is_locked = true
    · simp only [hlock, if_true, Bool.true_eq_false, false_and, iff_false, not_false_eq_true,
        true_implies, true_and]
      exact ⟨hreject _ _ _, send_file_xfer_status_reply P d _ _ _ _ hsz⟩
    · have hlock' : env.session_is_locked = false := by simpa using hlock
      simp only [hlock', Bool.false_eq_true, if_false, true_and, MAX_ACTIVE_TRANSFERS]
      by_cases hfull : d.active_xfers.length ≥ 128
      · have : ¬ d.active_xfers.length < 128 := by omega
        simp only [hfull, if_true, this, false_and, iff_false, not_false_eq_true, true_implies,
          true_and]
        exact ⟨hreject _ _ _, send_file_xfer_status_reply P d _ _ _ _ hsz⟩
      · have hlt : d.active_xfers.length < 128 := by omega
        simp only [hfull, if_false, hlt, true_and]
        cases hl : xfers_lookup d.active_xfers (read_le data 0 4) with
        | some c =>
          simp only [Option.isSome_some, if_true, reduceCtorEq, iff_false, not_false_eq_true,
            true_implies, true_and]
          exact ⟨hreject _ _ _, send_file_xfer_status_reply P d _ _ _ _ hsz⟩
        | none =>
          have hins : xfers_lookup (xfers_insert d.active_xfers (read_le data 0 4) a)
              (read_le data 0 4) = some a := by
            simp [xfers_lookup, xfers_insert, List.lookup]
          simp only [Option.isSome_none, Bool.false_eq_true, if_false, file_xfer_forward, hins,
            htype, hne1, not_true_eq_false, iff_true, false_implies, and_true]
          refine ⟨a, hact, ?_, rfl⟩
          simp only [xfers_insert, xfers_remove_of_lookup_none _ _ hl]

/-! ### File-transfer table invariant -/

theorem XfersInv.filter {t : List (Nat × ConnId)} (h : XfersInv t)
    (q : Nat × ConnId → Bool) : XfersInv (t.filter q) :=
  ⟨le_trans (List.length_filter_le q t) h.1,
    List.Nodup.sublist ((List.filter_sublist t).map Prod.fst) h.2⟩

theorem XfersInv.insert {t : List (Nat × ConnId)} (h : XfersInv t) (id : Nat) (conn : ConnId)
    (hlen : t.length < 128) (hl : xfers_lookup t id = none) :
    XfersInv (xfers_insert t id conn) := by
  unfold xfers_insert
  rw [xfers_remove_of_lookup_none t id hl]
  refine ⟨by simp only [List.length_cons]; omega, ?_⟩
  simp only [List.map_cons, List.nodup_cons]
  refine ⟨?_, h.2⟩
  intro hmem
  rw [List.mem_map] at hmem
  obtain ⟨e, he, hk⟩ := hmem
  have := (List.lookup_eq_none_iff.mp hl) e he
  simp [hk] at this

theorem do_client_file_xfer_inv (P : Protocol) (env : Env) (d : Daemon) (vport : Bool)
    (message_header : VDAgentMessage) (data : List Nat) (h : XfersInv d.active_xfers) :
    XfersInv (do_client_file_xfer P env d vport message_header data).1.active_xfers := by
  have hfwd : ∀ (d0 : Daemon) (mt : VDAGENTD), XfersInv d0.active_xfers →
      XfersInv (file_xfer_forward d0 message_header data (read_le data 0 4) mt).1.active_xfers := by
    intro d0 mt h0
    unfold file_xfer_forward
    cases xfers_lookup d0.active_xfers (read_le data 0 4) with
    | none => exact h0
    | some c =>
      simp only
      split_ifs
      · exact h0.filter _
      · exact h0
  unfold do_client_file_xfer
  simp only
  by_cases h1 : message_header.type = VD_AGENT_FILE_XFER_START
  · rw [if_pos h1]
    cases hact : d.active_session_conn with
    | none => exact h
    | some a =>
      simp only
      by_cases h4 : env.session_is_locked = true
      · rw [if_pos h4]; exact h
      · rw [if_neg h4]
        by_cases h5 : d.active_xfers.length ≥ MAX_ACTIVE_TRANSFERS
        · rw [if_pos h5]; exact h
        · rw [if_neg h5]
          by_cases h6 : (xfers_lookup d.active_xfers (read_le data 0 4)).isSome = true
          · rw [if_pos h6]; exact h
          · rw [if_neg h6]
            apply hfwd
            have hl : xfers_lookup d.active_xfers (read_le data 0 4) = none := by
              simpa using h6
            exact h.insert _ _ (by simp only [MAX_ACTIVE_TRANSFERS] at h5; omega) hl
  · rw [if_neg h1]
    by_cases h2 : message_header.type = VD_AGENT_FILE_XFER_STATUS
    · rw [if_pos h2]
      exact hfwd d VDAGENTD.FILE_XFER_STATUS h
    · rw [if_neg h2]
      by_cases h3 : message_header.type = VD_AGENT_FILE_XFER_DATA
      · rw [if_pos h3]
        exact hfwd d VDAGENTD.FILE_XFER_DATA h
      · rw [if_neg h3]
        exact h

theorem release_clipboards_active_xfers (P : Protocol) (d : Daemon) :
    (release_clipboards P d).1.active_xfers = d.active_xfers ∧
      (release_clipboards P d).1.server = d.server := by
  unfold release_clipboards
  have : ∀ (l : List Nat) (acc : Daemon × List Out),
      (l.foldl (release_clipboard P) acc).1.active_xfers = acc.1.active_xfers ∧
        (l.foldl (release_clipboard P) acc).1.server = acc.1.server := by
    intro l
    induction l with
    | nil => intro acc; exact ⟨rfl, rfl⟩
    | cons x l ih =>
      intro acc
      simp only [List.foldl_cons]
      rw [(ih _).1, (ih _).2]
      exact ⟨rfl, rfl⟩
  exact this _ _

theorem check_xorg_resolution_active_xfers (P : Protocol) (env : Env) (d : Daemon) :
    (check_xorg_resolution P env d).1.active_xfers = d.active_xfers ∧
      (check_xorg_resolution P env d).1.server = d.server := by
  unfold check_xorg_resolution vdagentd_quit
  simp only
  split_ifs <;> exact ⟨rfl, rfl⟩

theorem count_session_connections_frame (env : Env) (d d2 : Daemon)
    (new_conn nc : Option ConnId)
    (h : count_session_connections env d new_conn = some (d2, nc)) :
    d2.active_xfers = d.active_xfers ∧ d2.server = d.server ∧
      d2.active_session_conn = d.active_session_conn ∧ d2.agent_datas = d.agent_datas := by
  unfold count_session_connections at h
  by_cases hs : d.session_info = true
  · rw [if_pos hs] at h
    simp only at h
    split at h
    · exact absurd h (by simp)
    · simp only [Option.some.injEq, Prod.mk.injEq] at h
      rw [← h.1]
      unfold ask_active_session
      split_ifs <;> exact ⟨rfl, rfl, rfl, rfl⟩
  · rw [if_neg hs] at h
    split_ifs at h
    all_goals simp only [Option.some.injEq, Prod.mk.injEq] at h
    all_goals rw [← h.1]
    all_goals exact ⟨rfl, rfl, rfl, rfl⟩

theorem switch_active_session_frame (P : Protocol) (env : Env) (d : Daemon)
    (nc : Option ConnId) :
    (switch_active_session P env d nc).1.active_xfers = d.active_xfers ∧
      (switch_active_session P env d nc).1.server = d.server := by
  unfold switch_active_session
  simp only
  by_cases h : (if nc.isSome = true ∧ d.session_count ≠ 1 then none else nc) =
      d.active_session_conn
  · rw [if_pos h]
    exact ⟨rfl, rfl⟩
  · rw [if_neg h]
    simp only
    rw [(check_xorg_resolution_active_xfers _ _ _).1,
      (check_xorg_resolution_active_xfers _ _ _).2,
      (release_clipboards_active_xfers _ _).1, (release_clipboards_active_xfers _ _).2]
    exact ⟨rfl, rfl⟩

theorem update_active_session_connection_active_xfers (P : Protocol) (env : Env)
    (d d' : Daemon) (new_conn : Option ConnId) (out : List Out)
    (h : update_active_session_connection P env d new_conn = some (d', out)) :
    d'.active_xfers = d.active_xfers ∧ d'.server = d.server := by
  unfold update_active_session_connection at h
  split at h
  · exact absurd h (by simp)
  · rename_i d2 nc hcount
    simp only [Option.some.injEq] at h
    have h1 := count_session_connections_frame env d d2 new_conn nc hcount
    have h2 := switch_active_session_frame P env d2 nc
    rw [h] at h2
    exact ⟨h2.1.trans h1.1, h2.2.trans h1.2.1⟩

theorem do_agent_file_xfer_status_inv (P : Protocol) (d d' : Daemon) (conn : ConnId)
    (header : udscs_message_header) (data : Option (List Nat)) (out : List Out)
    (h : XfersInv d.active_xfers)
    (hs : do_agent_file_xfer_status P d conn header data = some (d', out)) :
    XfersInv d'.active_xfers := by
  unfold do_agent_file_xfer_status at hs
  simp only at hs
  cases hl : xfers_lookup d.active_xfers header.arg1 with
  | none =>
    rw [hl] at hs
    simp only [Option.some.injEq, Prod.mk.injEq] at hs
    rw [← hs.1]; exact h
  | some tc =>
    rw [hl] at hs
    simp only at hs
    by_cases h1 : tc ≠ conn
    · rw [if_pos h1] at hs
      simp only [Option.some.injEq, Prod.mk.injEq] at hs
      rw [← hs.1]; exact h
    · rw [if_neg h1] at hs
      split_ifs at hs
      all_goals simp only [Option.some.injEq, Prod.mk.injEq] at hs
      all_goals first
        | (rw [← hs.1]; exact h)
        | (rw [← hs.1]; exact h.filter _)

theorem xfer_step_inv (P : Protocol) (d d' : Daemon) (e : XferEvent) (out : List Out)
    (h : XfersInv d.active_xfers) (hs : xfer_step P d e = some (d', out)) :
    XfersInv d'.active_xfers := by
  cases e with
  | host_message env mh data =>
    simp only [xfer_step, Option.some.injEq] at hs
    have := do_client_file_xfer_inv P env d true mh data h
    rw [hs] at this
    exact this
  | agent_status conn hd data =>
    exact do_agent_file_xfer_status_inv P d d' conn hd data out h hs
  | agent_disconnect env conn =>
    simp only [xfer_step, agent_disconnect] at hs
    split at hs
    · exact absurd hs (by simp)
    · rename_i r3 hup
      simp only [Option.some.injEq, Prod.mk.injEq] at hs
      rw [← hs.1]
      obtain ⟨d3, o3⟩ := r3
      rw [(update_active_session_connection_active_xfers P env _ d3 none o3 hup).1]
      exact h.filter _
  | active_changed conn =>
    simp only [xfer_step, Option.some.injEq, Prod.mk.injEq] at hs
    rw [← hs.1]; exact h

theorem xfer_run_inv (P : Protocol) (es : List XferEvent) :
    ∀ (d d' : Daemon) (out : List Out), XfersInv d.active_xfers →
      xfer_run P d es = some (d', out) → XfersInv d'.active_xfers := by
  induction es with
  | nil =>
    intro d d' out h hr
    simp only [xfer_run, Option.some.injEq, Prod.mk.injEq] at hr
    rw [← hr.1]; exact h
  | cons e es ih =>
    intro d d' out h hr
    simp only [xfer_run] at hr
    split at hr
    · exact absurd hr (by simp)
    · rename_i r hstep
      split at hr
      · exact absurd hr (by simp)
      · rename_i r2 hrun
        simp only [Option.some.injEq, Prod.mk.injEq] at hr
        rw [← hr.1]
        obtain ⟨d1, o1⟩ := r
        obtain ⟨d2, o2⟩ := r2
        exact ih d1 d2 o2 (xfer_step_inv P d d1 e o1 h hstep) hrun

/-- The reply of `send_file_xfer_status` for the status `ERROR`: one write of a
`FILE_XFER_STATUS` message whose body starts with the id and the status `ERROR`. -/
theorem send_file_xfer_status_error (P : Protocol) (d : Daemon) (id : Nat)
    (data : Option (List Nat)) (data_size : Nat)
    (hsz : 8 ≤ P.sizeof_VDAgentFileXferStatusMessage) :
    ∃ body size, send_file_xfer_status P d true id P.VD_AGENT_FILE_XFER_STATUS_ERROR data
        data_size =
        [Out.virtio_port_write P.VDP_CLIENT_PORT VD_AGENT_FILE_XFER_STATUS 0 body size] ∧
      body.take 8 = to_le 4 id ++ to_le 4 P.VD_AGENT_FILE_XFER_STATUS_ERROR := by
  unfold send_file_xfer_status
  simp only [if_true, ite_self]
  refine ⟨_, _, rfl, ?_⟩
  have l8 : (to_le 4 id ++ to_le 4 P.VD_AGENT_FILE_XFER_STATUS_ERROR).length = 8 := by
    simp [length_to_le]
  have hhead : ∀ (n : Nat), 8 ≤ n →
      (memcpy (List.replicate n 0) 0
        (to_le 4 id ++ to_le 4 P.VD_AGENT_FILE_XFER_STATUS_ERROR) 8).take 8 =
      to_le 4 id ++ to_le 4 P.VD_AGENT_FILE_XFER_STATUS_ERROR := by
    intro n _
    unfold memcpy
    rw [List.take_zero, List.nil_append, List.take_of_length_le (le_of_eq l8),
      List.take_left' l8]
  have hlen : ∀ (n : Nat), 8 ≤ n →
      (memcpy (List.replicate n 0) 0
        (to_le 4 id ++ to_le 4 P.VD_AGENT_FILE_XFER_STATUS_ERROR) 8).length = n := by
    intro n hn
    rw [memcpy_length (by simp; omega) (by omega), List.length_replicate]
  cases data with
  | none => exact hhead _ (by omega)
  | some b =>
    simp only
    unfold memcpy at hhead hlen ⊢
    rw [List.append_assoc, List.take_append_of_le_length, List.take_take]
    · have : min 8 P.sizeof_VDAgentFileXferStatusMessage = 8 := by omega
      rw [this]
      exact hhead _ (by omega)
    · rw [List.length_take, hlen _ (by omega)]
      omega

/-- A start whose id is in the table already (or that finds the table full), with an
active connection and an unlocked session: one `ERROR` status for the id, nothing else. -/
theorem do_client_file_xfer_duplicate (P : Protocol) (env : Env) (d : Daemon)
    (message_header : VDAgentMessage) (data : List Nat) (a : ConnId)
    (htype : message_header.type = VD_AGENT_FILE_XFER_START)
    (hsz : 8 ≤ P.sizeof_VDAgentFileXferStatusMessage)
    (hact : d.active_session_conn = some a) (hlock : env.session_is_locked = false)
    (hdup : (xfers_lookup d.active_xfers (read_le data 0 4)).isSome = true) :
    ∃ body size, do_client_file_xfer P env d true message_header data =
        (d, [Out.virtio_port_write P.VDP_CLIENT_PORT VD_AGENT_FILE_XFER_STATUS 0 body size]) ∧
      body.take 8 =
        to_le 4 (read_le data 0 4) ++ to_le 4 P.VD_AGENT_FILE_XFER_STATUS_ERROR := by
  unfold do_client_file_xfer
  simp only [htype, if_true, hact, hlock, Bool.false_eq_true, if_false]
  by_cases hfull : d.active_xfers.length ≥ MAX_ACTIVE_TRANSFERS
  · rw [if_pos hfull]
    obtain ⟨body, size, e1, e2⟩ := send_file_xfer_status_error P d (read_le data 0 4)
      (some (to_le 4 P.VD_AGENT_FILE_XFER_STATUS_ERROR_GLIB_IO ++
        to_le 4 P.G_IO_ERROR_TOO_MANY_OPEN_FILES))
      (if has_capability P d P.VD_AGENT_CAP_FILE_XFER_DETAILED_ERRORS = true then 8 else 0)
      hsz
    exact ⟨body, size, by rw [e1], e2⟩
  · rw [if_neg hfull, if_pos hdup]
    obtain ⟨body, size, e1, e2⟩ := send_file_xfer_status_error P d (read_le data 0 4)
      none 0 hsz
    exact ⟨body, size, by rw [e1], e2⟩

/-- C7. File-transfer table invariant: from a well-formed task table, every run of host
file-transfer messages, agent status messages and agent disconnects (and changes of the
active connection in between) leaves a table with at most 128 entries in which no id occurs
twice; and starting one id twice in a row, the first start being admitted for the active
connection `a`, forwards the first start to `a`, answers the second with one `ERROR` status
for that id, and leaves exactly one entry for the id, owned by `a`. -/
theorem file_xfer_table_invariant (P : Protocol) (env : Env) (d : Daemon)
    (es : List XferEvent) (message_header : VDAgentMessage) (data : List Nat) (a : ConnId)
    (hinv : XfersInv d.active_xfers)
    (htype : message_header.type = VD_AGENT_FILE_XFER_START)
    (hsz : 8 ≤ P.sizeof_VDAgentFileXferStatusMessage)
    (hact : d.active_session_conn = some a)
    (hchk : start_checks_pass env d (read_le data 0 4)) :
    (∀ (d' : Daemon) (out : List Out), xfer_run P d es = some (d', out) →
      XfersInv d'.active_xfers) ∧
    ∃ d2 body size,
      xfer_run P d [XferEvent.host_message env message_header data,
          XferEvent.host_message env message_header data] =
        some (d2, [Out.udscs_write a VDAGENTD.FILE_XFER_START 0 0
            (data.take message_header.size),
          Out.virtio_port_write P.VDP_CLIENT_PORT VD_AGENT_FILE_XFER_STATUS 0 body size]) ∧
      body.take 8 = to_le 4 (read_le data 0 4) ++ to_le 4 P.VD_AGENT_FILE_XFER_STATUS_ERROR ∧
      d2.active_xfers.filter (fun e => e.1 = read_le data 0 4) = [(read_le data 0 4, a)] ∧
      XfersInv d2.active_xfers := by
  refine ⟨fun d' out h => xfer_run_inv P es d d' out hinv h, ?_⟩
  obtain ⟨_, hlock, hlen, hlook⟩ := hchk
  have hne1 : VD_AGENT_FILE_XFER_START ≠ VD_AGENT_FILE_XFER_STATUS := by decide
  have hins : xfers_lookup (xfers_insert d.active_xfers (read_le data 0 4) a)
      (read_le data 0 4) = some a := by
    simp [xfers_lookup, xfers_insert, List.lookup]
  -- the first start is admitted
  have h1 : do_client_file_xfer P env d true message_header data =
      ({ d with active_xfers := (read_le data 0 4, a) :: d.active_xfers },
        [Out.udscs_write a VDAGENTD.FILE_XFER_START 0 0 (data.take message_header.size)]) := by
    unfold do_client_file_xfer
    have hfull : ¬ (d.active_xfers.length ≥ MAX_ACTIVE_TRANSFERS) := by
      simp only [MAX_ACTIVE_TRANSFERS]; omega
    simp only [htype, if_true, hact, hlock, Bool.false_eq_true, if_false, hfull, hlook,
      Option.isSome_none, file_xfer_forward, hins, hne1]
    simp only [xfers_insert, xfers_remove_of_lookup_none _ _ hlook]
  -- the second start is answered with an error status
  have h2 := do_client_file_xfer_duplicate P env
    { d with active_xfers := (read_le data 0 4, a) :: d.active_xfers } message_header data a
    htype hsz hact hlock (by simp [xfers_lookup, List.lookup])
  obtain ⟨body, size, e1, e2⟩ := h2
  refine ⟨{ d with active_xfers := (read_le data 0 4, a) :: d.active_xfers }, body, size,
    ?_, e2, ?_, ?_⟩
  · simp only [xfer_run, xfer_step, h1, e1, List.append_nil, List.singleton_append]
  · have hnone : d.active_xfers.filter (fun e => e.1 = read_le data 0 4) = [] := by
      rw [List.filter_eq_nil_iff]
      intro e he
      have h3 := (List.lookup_eq_none_iff.mp hlook) e he
      simp only [decide_eq_true_eq]
      intro heq
      rw [heq] at h3
      simp at h3
    simp only [List.filter_cons, decide_True, if_true, hnone]
  · have := XfersInv.insert hinv (read_le data 0 4) a hlen hlook
    simpa only [xfers_insert, xfers_remove_of_lookup_none _ _ hlook] using this

/-! ### Session arbitration -/

theorem matches_loop (d : Daemon) (l : List ConnId) :
    ∀ (nc : Option ConnId) (r : Int) (visited : List ConnId),
      (∀ c ∈ l, (d.agent_datas c).isSome = true) →
      for_all_clients_loop (connection_matches_active_session d) l (some nc) r visited =
        (r + ((l.filter (matches_active_session d)).length : Nat),
          some (if l.filter (matches_active_session d) = [] then nc
            else (l.filter (matches_active_session d)).getLast?),
          visited ++ l) := by
  induction l with
  | nil => intro nc r visited _; simp [for_all_clients_loop]
  | cons c l ih =>
    intro nc r visited hall
    have hc := hall c (List.mem_cons_self _ _)
    have hl : ∀ c ∈ l, (d.agent_datas c).isSome = true :=
      fun x hx => hall x (List.mem_cons_of_mem _ hx)
    obtain ⟨ad, had⟩ := Option.isSome_iff_exists.mp hc
    simp only [for_all_clients_loop]
    by_cases hm : matches_active_session d c = true
    · have hstep : connection_matches_active_session d c (some nc) = (1, some (some c)) := by
        unfold matches_active_session at hm
        unfold connection_matches_active_session
        rw [had] at hm ⊢
        simp only at hm ⊢
        cases hs : ad.session with
        | none => simp [hs] at hm
        | some sess =>
          cases ha : d.active_session with
          | none => simp [hs, ha] at hm
          | some act =>
            simp only [hs, ha, decide_eq_true_eq] at hm
            simp [hm]
      rw [hstep, ih (some c) (r + 1) (visited ++ [c]) hl]
      simp only [List.filter_cons, hm, if_true, List.length_cons, Nat.cast_add, Nat.cast_one,
        List.append_assoc, List.singleton_append, reduceCtorEq, if_false, Prod.mk.injEq,
        Option.some.injEq, and_true]
      refine ⟨by ring, ?_⟩
      by_cases hf : l.filter (matches_active_session d) = []
      · simp [hf]
      · simp only [hf, if_false]
        cases hft : l.filter (matches_active_session d) with
        | nil => exact absurd hft hf
        | cons x xs => rw [List.getLast?_cons_cons]
    · have hm' : matches_active_session d c = false := by simpa using hm
      have hstep : connection_matches_active_session d c (some nc) = (0, some nc) := by
        unfold matches_active_session at hm'
        unfold connection_matches_active_session
        rw [had] at hm' ⊢
        simp only at hm' ⊢
        cases hs : ad.session with
        | none => rfl
        | some sess =>
          cases ha : d.active_session with
          | none => rfl
          | some act =>
            simp only [hs, ha, decide_eq_false_iff_not] at hm'
            simp [hm']
      rw [hstep, ih nc (r + 0) (visited ++ [c]) hl]
      simp [List.filter_cons, hm']

theorem selected_congr (d d' : Daemon) (h1 : d'.server = d.server)
    (h2 : d'.agent_datas = d.agent_datas) (h3 : d'.active_session = d.active_session) :
    selected d' = selected d := by
  have hm : matches_active_session d' = matches_active_session d := by
    funext c
    unfold matches_active_session
    rw [h2, h3]
  unfold selected candidates
  rw [h1, hm]

theorem release_clipboards_routing (P : Protocol) (d : Daemon) :
    RoutingEq d (release_clipboards P d).1 := by
  unfold release_clipboards
  have : ∀ (l : List Nat) (acc : Daemon × List Out),
      RoutingEq acc.1 (l.foldl (release_clipboard P) acc).1 := by
    intro l
    induction l with
    | nil => intro acc; exact ⟨rfl, rfl, rfl, rfl, rfl⟩
    | cons x l ih =>
      intro acc
      simp only [List.foldl_cons]
      obtain ⟨a1, a2, a3, a4, a5⟩ := ih (release_clipboard P acc x)
      exact ⟨a1, a2, a3, a4, a5⟩
  exact this _ _

theorem check_xorg_resolution_routing (P : Protocol) (env : Env) (d : Daemon) :
    RoutingEq d (check_xorg_resolution P env d).1 := by
  unfold check_xorg_resolution vdagentd_quit
  simp only
  split_ifs <;> exact ⟨rfl, rfl, rfl, rfl, rfl⟩

/-- What `switch_active_session` leaves: the candidate becomes the active connection,
unless it is one of several. -/
theorem switch_active_session_post (P : Protocol) (env : Env) (d : Daemon)
    (nc : Option ConnId) :
    (switch_active_session P env d nc).1.server = d.server ∧
      (switch_active_session P env d nc).1.agent_datas = d.agent_datas ∧
      (switch_active_session P env d nc).1.active_session = d.active_session ∧
      (switch_active_session P env d nc).1.session_info = d.session_info ∧
      (switch_active_session P env d nc).1.active_session_conn =
        (if nc.isSome = true ∧ d.session_count ≠ 1 then none else nc) := by
  unfold switch_active_session
  simp only
  by_cases h : (if nc.isSome = true ∧ d.session_count ≠ 1 then none else nc) =
      d.active_session_conn
  · rw [if_pos h]
    exact ⟨rfl, rfl, rfl, rfl, h.symm⟩
  · rw [if_neg h]
    simp only
    obtain ⟨a1, a2, a3, a4, a5⟩ := check_xorg_resolution_routing P env
      (release_clipboards P
        { d with active_session_conn :=
          if nc.isSome = true ∧ d.session_count ≠ 1 then none else nc }).1
    obtain ⟨b1, b2, b3, b4, b5⟩ := release_clipboards_routing P
      { d with active_session_conn :=
        if nc.isSome = true ∧ d.session_count ≠ 1 then none else nc }
    exact ⟨a1.trans b1, a2.trans b2, a3.trans b3, a4.trans b4, a5.trans b5⟩

/-- Session arbitration with an oracle, on a state `d` in which every tracked connection
has its `agent_data`: the call is defined, asks the oracle for the active session when none
is known, leaves the connections as they are, and makes the selected connection (the one
candidate, if there is exactly one) the active connection. -/
theorem ask_active_session_frame (env : Env) (d : Daemon) :
    (ask_active_session env d).server = d.server ∧
      (ask_active_session env d).agent_datas = d.agent_datas ∧
      (ask_active_session env d).session_info = d.session_info ∧
      (ask_active_session env d).active_session =
        (if d.active_session.isNone then env.get_active_session else d.active_session) := by
  unfold ask_active_session
  split_ifs <;> exact ⟨rfl, rfl, rfl, rfl⟩

theorem count_session_connections_oracle (env : Env) (d : Daemon) (new_conn : Option ConnId)
    (hsi : d.session_info = true) (hall : AllAttached d)
    (hlen : d.server.connections.length ≤ 128) :
    ∃ d2, count_session_connections env d new_conn =
        some (d2, if candidates (ask_active_session env d) = [] then none
          else (candidates (ask_active_session env d)).getLast?) ∧
      d2.server = d.server ∧ d2.agent_datas = d.agent_datas ∧
      d2.session_info = d.session_info ∧
      d2.active_session = (ask_active_session env d).active_session ∧
      d2.session_count = (candidates (ask_active_session env d)).length := by
  obtain ⟨f1, f2, f3, _⟩ := ask_active_session_frame env d
  have hall1 : ∀ c ∈ (ask_active_session env d).server.connections,
      ((ask_active_session env d).agent_datas c).isSome = true := by
    rw [f1, f2]; exact hall
  have hloop := matches_loop (ask_active_session env d)
    (ask_active_session env d).server.connections none 0 [] hall1
  have hle : (candidates (ask_active_session env d)).length ≤ 128 := by
    unfold candidates
    refine le_trans (List.length_filter_le _ _) ?_
    rw [f1]; exact hlen
  have hu : to_uint32 (((List.filter (matches_active_session (ask_active_session env d))
      (ask_active_session env d).server.connections).length : Nat) : Int) =
      (candidates (ask_active_session env d)).length := by
    unfold candidates at hle ⊢
    exact to_uint32_natCast (by omega)
  refine ⟨{ ask_active_session env d with
    session_count := (candidates (ask_active_session env d)).length }, ?_, f1, f2, f3, rfl,
    rfl⟩
  unfold count_session_connections
  rw [if_pos hsi]
  simp only [udscs_server_for_all_clients, hloop, zero_add, hu]
  rfl

/-- Session arbitration with an oracle, on a state `d` in which every tracked connection
has its `agent_data`: the call is defined, asks the oracle for the active session when none
is known, leaves the connections as they are, and makes the selected connection (the one
candidate, if there is exactly one) the active connection. -/
theorem update_active_session_connection_post (P : Protocol) (env : Env) (d : Daemon)
    (new_conn : Option ConnId) (hsi : d.session_info = true) (hall : AllAttached d)
    (hlen : d.server.connections.length ≤ 128) :
    ∃ d' out, update_active_session_connection P env d new_conn = some (d', out) ∧
      d'.server = d.server ∧ d'.agent_datas = d.agent_datas ∧
      d'.session_info = d.session_info ∧
      d'.active_session =
        (if d.active_session.isNone then env.get_active_session else d.active_session) ∧
      d'.active_session_conn = selected d' := by
  obtain ⟨f1, f2, f3, f4⟩ := ask_active_session_frame env d
  obtain ⟨d2, hc, c1, c2, c3, c4, c5⟩ :=
    count_session_connections_oracle env d new_conn hsi hall hlen
  unfold update_active_session_connection
  rw [hc]
  simp only
  obtain ⟨s1, s2, s3, s4, s5⟩ := switch_active_session_post P env d2
    (if candidates (ask_active_session env d) = [] then none
      else (candidates (ask_active_session env d)).getLast?)
  refine ⟨_, _, rfl, s1.trans c1, s2.trans c2, s4.trans c3, (s3.trans c4).trans f4, ?_⟩
  refine s5.trans ?_
  refine Eq.trans ?_ (selected_congr (ask_active_session env d) _
    (s1.trans (c1.trans f1.symm)) (s2.trans (c2.trans f2.symm)) (s3.trans c4)).symm
  rw [c5]
  unfold selected
  cases hF : candidates (ask_active_session env d) with
  | nil => simp
  | cons c t =>
    cases t with
    | nil => simp
    | cons c2 t2 => simp

theorem SessionInv.of_update (P : Protocol) (env : Env) (d d' : Daemon)
    (new_conn : Option ConnId) (out : List Out) (hsi : d.session_info = true)
    (hcb : d.server.connect_callback = true) (hlen : d.server.connections.length ≤ 128)
    (hall : AllAttached d)
    (h : update_active_session_connection P env d new_conn = some (d', out)) :
    SessionInv d' := by
  obtain ⟨d1, o1, e, p1, p2, p3, _, p5⟩ :=
    update_active_session_connection_post P env d new_conn hsi hall hlen
  rw [h] at e
  simp only [Option.some.injEq, Prod.mk.injEq] at e
  obtain ⟨e1, _⟩ := e
  subst e1
  refine ⟨p3.trans hsi, by rw [p1]; exact hcb, by rw [p1]; exact hlen, ?_, p5⟩
  intro c hc
  rw [p2]
  rw [p1] at hc
  exact hall c hc

/-- A connection that was registered and is destroyed by `agent_connect` leaves the
invariant as it was. -/
theorem SessionInv.of_reject (d : Daemon) (conn : ConnId) (hinv : SessionInv d)
    (hfresh : conn ∉ d.server.connections) :
    SessionInv (daemon_destroy_connection
      { d with
        server := { d.server with connections := conn :: d.server.connections }
        agent_datas := Function.update d.agent_datas conn none } conn).1 := by
  obtain ⟨i1, i2, i3, i4, i5⟩ := hinv
  have hne : ∀ c ∈ d.server.connections, c ≠ conn := fun c hc h => hfresh (h ▸ hc)
  simp only [daemon_destroy_connection, udscs_server_destroy_connection,
    List.erase_cons_head]
  refine ⟨i1, i2, i3, ?_, ?_⟩
  · intro c hc
    simp only at hc ⊢
    rw [Function.update_noteq (hne c hc)]
    exact i4 c hc
  · refine i5.trans ?_
    unfold selected candidates
    simp only
    have : d.server.connections.filter (matches_active_session d) =
        d.server.connections.filter (matches_active_session
          { d with
            server := { d.server with connections := d.server.connections }
            agent_datas := Function.update d.agent_datas conn none }) := by
      apply List.filter_congr
      intro c hc
      unfold matches_active_session
      simp only
      rw [Function.update_noteq (hne c hc)]
    rw [this]

/-- The `agent_connect` on a state with an oracle: either the new connection is destroyed,
or it gets its `agent_data` and arbitration runs. -/
theorem agent_connect_inv (P : Protocol) (env : Env) (cenv : ConnectEnv)
    (version : List Nat) (d1 d' : Daemon) (conn : ConnId) (out : List Out)
    (hsi : d1.session_info = true) (hcb : d1.server.connect_callback = true)
    (hlen : d1.server.connections.length ≤ 128)
    (hall : ∀ c ∈ d1.server.connections, c ≠ conn → (d1.agent_datas c).isSome = true)
    (hrej : SessionInv (daemon_destroy_connection d1 conn).1)
    (hs : agent_connect P env cenv version d1 conn = some (d', out)) : SessionInv d' := by
  unfold agent_connect at hs
  simp only at hs
  rw [if_pos hsi] at hs
  by_cases hp : cenv.peer_found = false
  · rw [if_pos hp] at hs
    simp only [Option.some.injEq] at hs
    rw [hs] at hrej
    exact hrej
  · rw [if_neg hp] at hs
    by_cases hu : cenv.uid_ok = false
    · rw [if_pos hu] at hs
      simp only [Option.some.injEq] at hs
      rw [hs] at hrej
      exact hrej
    · rw [if_neg hu] at hs
      split at hs
      · exact absurd hs (by simp)
      · split_ifs at hs with hdup
        · simp only [Option.some.injEq] at hs
          rw [hs] at hrej
          exact hrej
        · split at hs
          · exact absurd hs (by simp)
          · rename_i r hup
            simp only [Option.some.injEq, Prod.mk.injEq] at hs
            rw [← hs.1]
            obtain ⟨d3, o3⟩ := r
            refine SessionInv.of_update P env
              { d1 with agent_datas :=
                  (Function.update d1.agent_datas conn
                    (some (⟨cenv.session_for_pid, 0, 0, none, 0⟩ : agent_data))) }
              d3 (some conn) o3 hsi hcb hlen ?_ hup
            intro c hc
            simp only at hc ⊢
            by_cases hcc : c = conn
            · subst hcc
              simp
            · rw [Function.update_noteq hcc]
              exact hall c hc hcc

theorem session_step_inv (P : Protocol) (d d' : Daemon) (e : SessionEvent) (out : List Out)
    (hinv : SessionInv d) (hs : session_step P d e = some (d', out)) : SessionInv d' := by
  obtain ⟨i1, i2, i3, i4, i5⟩ := hinv
  cases e with
  | session_change env =>
    simp only [session_step, si_io_channel_cb] at hs
    exact SessionInv.of_update P env { d with active_session := env.get_active_session } d'
      none out i1 i2 i3 i4 hs
  | disconnect env conn =>
    simp only [session_step, agent_disconnect] at hs
    split at hs
    · exact absurd hs (by simp)
    · rename_i r3 hup
      simp only [Option.some.injEq, Prod.mk.injEq] at hs
      rw [← hs.1]
      obtain ⟨d3, o3⟩ := r3
      refine SessionInv.of_update P env
        (daemon_destroy_connection (remove_active_xfers P d conn).1 conn).1 d3 none o3
        i1 i2 ?_ ?_ hup
      · exact le_trans (List.length_erase_le conn d.server.connections) i3
      · intro c hc
        exact i4 c (List.mem_of_mem_erase hc)
  | connect env cenv version conn =>
    simp only [session_step] at hs
    by_cases hmem : conn ∈ d.server.connections
    · rw [if_pos hmem] at hs
      exact absurd hs (by simp)
    · rw [if_neg hmem] at hs
      by_cases hfull : d.server.connections.length ≥ MAX_CONNECTED_AGENTS
      · have hacc : udscs_server_accept_cb d.server conn = (d.server, []) := by
          simp only [udscs_server_accept_cb, hfull, if_true]
        rw [hacc] at hs
        simp only [List.nil_eq, reduceCtorEq, if_false, Option.some.injEq,
          Prod.mk.injEq] at hs
        rw [← hs.1]
        exact ⟨i1, i2, i3, i4, i5⟩
      · have hacc : udscs_server_accept_cb d.server conn =
            ({ d.server with connections := conn :: d.server.connections },
              [ServerEvent.connect_callback conn]) := by
          simp only [udscs_server_accept_cb, hfull, if_false, i2, if_true]
        rw [hacc] at hs
        simp only [if_true] at hs
        have hrej := SessionInv.of_reject d conn ⟨i1, i2, i3, i4, i5⟩ hmem
        refine agent_connect_inv P env cenv version
          { d with
            server := { d.server with connections := conn :: d.server.connections }
            agent_datas := Function.update d.agent_datas conn none }
          d' conn out i1 i2 ?_ ?_ hrej hs
        · simp only [List.length_cons]
          simp only [MAX_CONNECTED_AGENTS] at hfull
          omega
        · intro c hc hcc
          simp only [List.mem_cons] at hc
          simp only
          rw [Function.update_noteq hcc]
          rcases hc with hc | hc
          · exact absurd hc hcc
          · exact i4 c hc

theorem session_run_inv (P : Protocol) (es : List SessionEvent) :
    ∀ (d d' : Daemon) (out : List Out), SessionInv d →
      session_run P d es = some (d', out) → SessionInv d' := by
  induction es with
  | nil =>
    intro d d' out h hr
    simp only [session_run, Option.some.injEq, Prod.mk.injEq] at hr
    rw [← hr.1]; exact h
  | cons e es ih =>
    intro d d' out h hr
    simp only [session_run] at hr
    split at hr
    · exact absurd hr (by simp)
    · rename_i r hstep
      split at hr
      · exact absurd hr (by simp)
      · rename_i r2 hrun
        simp only [Option.some.injEq, Prod.mk.injEq] at hr
        rw [← hr.1]
        obtain ⟨d1, o1⟩ := r
        obtain ⟨d2, o2⟩ := r2
        exact ih d1 d2 o2 (session_step_inv P d d1 e o1 h hstep) hrun

/-! ### Message validation and the grab serial -/

theorem check_size_min_eq_claimed (P : Protocol) (d : Daemon) (t : Nat) (hfit : SizesFit P)
    (h1 : 1 ≤ t) (h2 : t < 17) : check_size_min P d t = claimed_min_size P d t := by
  have hb := hfit t h1 h2
  unfold check_size_min claimed_min_size
  simp only
  split_ifs <;> omega

theorem check_size_false_of_small (P : Protocol) (d : Daemon)
    (message_header : VDAgentMessage) (hfit : SizesFit P) (h1 : 1 ≤ message_header.type)
    (h2 : message_header.type < 17)
    (hsmall : message_header.size < claimed_min_size P d message_header.type) :
    vdagent_message_check_size P d message_header = false := by
  rw [← check_size_min_eq_claimed P d _ hfit h1 h2] at hsmall
  have hne : message_header.size ≠ check_size_min P d message_header.type := by omega
  unfold vdagent_message_check_size
  simp only [hsmall, hne, ne_eq, not_false_eq_true, if_true, ite_self]

/-- C8. Message validation: `vdagent_message_check_size` returns FALSE for every header
whose type is 0 or not below the size of the minimum-size table, and for every header of a
known type whose size is below the computed minimum (the base minimum of the type, plus 4
under `CLIPBOARD_SELECTION` for clipboard grab, request, data and release, plus 4 more under
`CLIPBOARD_GRAB_SERIAL` for clipboard grab); and whenever it returns FALSE,
`virtio_port_read_complete` leaves the daemon's state as it was and calls nothing: no
handler, no write, no destruction of a connection. -/
theorem message_validation (P : Protocol) (env : Env) (d : Daemon) (port_nr : Nat)
    (message_header : VDAgentMessage) (data : List Nat) (hfit : SizesFit P) :
    ((message_header.type = 0 ∨
        message_header.type ≥ (vdagent_message_min_size P).length) →
      vdagent_message_check_size P d message_header = false) ∧
    (1 ≤ message_header.type → message_header.type < (vdagent_message_min_size P).length →
      message_header.size < claimed_min_size P d message_header.type →
      vdagent_message_check_size P d message_header = false) ∧
    (vdagent_message_check_size P d message_header = false →
      virtio_port_read_complete P env d port_nr message_header data = (d, [])) := by
  refine ⟨?_, ?_, ?_⟩
  · intro h
    unfold vdagent_message_check_size
    simp only [h, if_true, ite_self]
  · intro h1 h2 h3
    exact check_size_false_of_small P d message_header hfit h1
      (by simpa [vdagent_message_min_size] using h2) h3
  · intro h
    unfold virtio_port_read_complete
    rw [if_pos h]

/-- C9. Undersized grab leaves state alone: for every capability snapshot, a host
clipboard-grab message whose size is a positive number `k` of bytes (3, say) below its
capability-adjusted minimum is dropped by `virtio_port_read_complete`: the daemon's state is
as it was, in particular every selection's guest-ownership flag and serial counter, and
nothing is written to any connection (nothing is called at all). -/
theorem undersized_grab_dropped (P : Protocol) (env : Env) (d : Daemon) (port_nr : Nat)
    (message_header : VDAgentMessage) (data : List Nat) (k : Nat) (hfit : SizesFit P)
    (htype : message_header.type = VD_AGENT_CLIPBOARD_GRAB) (hk : 0 < k)
    (hsize : message_header.size + k = claimed_min_size P d VD_AGENT_CLIPBOARD_GRAB) :
    virtio_port_read_complete P env d port_nr message_header data = (d, []) ∧
    (∀ sel, (virtio_port_read_complete P env d port_nr message_header data).1.agent_owns_clipboard
        sel = d.agent_owns_clipboard sel) ∧
    (∀ sel, (virtio_port_read_complete P env d port_nr message_header data).1.clipboard_serial
        sel = d.clipboard_serial sel) ∧
    (∀ conn type arg1 arg2 body, Out.udscs_write conn type arg1 arg2 body ∉
      (virtio_port_read_complete P env d port_nr message_header data).2) := by
  have hfalse : vdagent_message_check_size P d message_header = false := by
    apply check_size_false_of_small P d message_header hfit
    · rw [htype]; decide
    · rw [htype]; decide
    · rw [htype]; omega
  have hdrop : virtio_port_read_complete P env d port_nr message_header data = (d, []) := by
    unfold virtio_port_read_complete
    rw [if_pos hfalse]
  rw [hdrop]
  exact ⟨rfl, fun _ => rfl, fun _ => rfl, fun _ _ _ _ _ h => by simp at h⟩

/-- C10 (amended). Grab serial window: for a host clipboard grab on selection `s`, with
`CLIPBOARD_GRAB_SERIAL` present and an active connection: if the incoming serial equals the
stored counter of `s`, the grab is forwarded to the active connection, guest ownership of
`s` is cleared and the counter of `s` is advanced by one (modulo 2^32); if it equals the
stored counter minus one (modulo 2^32), the grab is forwarded and ownership cleared just
the same, but the counter is left as it is; for every other serial nothing is forwarded and
the state, counter and ownership included, is unchanged. -/
theorem grab_serial_window (P : Protocol) (d : Daemon) (message_header : VDAgentMessage)
    (data : List Nat) (a : ConnId)
    (htype : message_header.type = VD_AGENT_CLIPBOARD_GRAB)
    (hact : d.active_session_conn = some a)
    (hcap : has_capability P d P.VD_AGENT_CAP_CLIPBOARD_GRAB_SERIAL = true)
    (hstored : d.clipboard_serial (grab_selection P d data) < 4294967296) :
    (grab_serial P d data = d.clipboard_serial (grab_selection P d data) →
      do_client_clipboard P d message_header data =
        ({ d with
            clipboard_serial := Function.update d.clipboard_serial (grab_selection P d data)
              ((d.clipboard_serial (grab_selection P d data) + 1) % 4294967296)
            agent_owns_clipboard :=
              Function.update d.agent_owns_clipboard (grab_selection P d data) false },
          [Out.udscs_write a VDAGENTD.CLIPBOARD_GRAB (grab_selection P d data) 0
            (grab_payload P d message_header data)])) ∧
    (grab_serial P d data = sub_uint32 (d.clipboard_serial (grab_selection P d data)) 1 →
      do_client_clipboard P d message_header data =
        ({ d with
            agent_owns_clipboard :=
              Function.update d.agent_owns_clipboard (grab_selection P d data) false },
          [Out.udscs_write a VDAGENTD.CLIPBOARD_GRAB (grab_selection P d data) 0
            (grab_payload P d message_header data)])) ∧
    (grab_serial P d data ≠ d.clipboard_serial (grab_selection P d data) →
      grab_serial P d data ≠ sub_uint32 (d.clipboard_serial (grab_selection P d data)) 1 →
      do_client_clipboard P d message_header data = (d, [])) := by
  have hsub : sub_uint32 (d.clipboard_serial (grab_selection P d data)) 1 ≠
      d.clipboard_serial (grab_selection P d data) := by
    unfold sub_uint32
    omega
  unfold do_client_clipboard do_client_clipboard_grab
  unfold grab_serial grab_selection grab_payload at *
  by_cases hsel : has_capability P d P.VD_AGENT_CAP_CLIPBOARD_SELECTION = true
  · simp only [hsel, if_true] at hsub hstored ⊢
    refine ⟨?_, ?_, ?_⟩
    · intro h
      simp only [hact, htype, if_true, hcap, h, hsub.symm, if_false]
    · intro h
      simp only [hact, htype, if_true, hcap, h]
    · intro h1 h2
      simp only [hact, htype, if_true, hcap, h1, h2, if_false]
  · simp only [hsel, Bool.false_eq_true, if_false] at hsub hstored ⊢
    refine ⟨?_, ?_, ?_⟩
    · intro h
      simp only [hact, htype, if_true, hcap, h, hsub.symm, if_false]
    · intro h
      simp only [hact, htype, if_true, hcap, h]
    · intro h1 h2
      simp only [hact, htype, if_true, hcap, h1, h2, if_false]

/-! ### Chunk reassembly and port independence: results -/

/-- C1 (the code at the failing input). Chunk reassembly of a message that declares
`2^31` body bytes: its 20 header bytes, fed as the first chunk to port 1 of a new
`VirtioPort`, make `vdagent_virtio_port_do_chunk` call the error callback ("chunk larger
than message, lost sync?") although the chunk holds no body byte at all, and no read
callback: `read`, an `int`, receives `size - message_data_pos = 2^31`, which is negative. -/
theorem chunk_reassembly_lost_sync_at_2GiB :
    (⟨1, 7, 0, 2147483648⟩ : VDAgentMessage).to_wire =
      [1, 0, 0, 0, 7, 0, 0, 0, 0, 0, 0, 0, 0, 0, 0, 0, 0, 0, 0, 128] ∧
    events_of (vdagent_virtio_port_do_chunk virtio_port_new ⟨1, 20⟩
      (⟨1, 7, 0, 2147483648⟩ : VDAgentMessage).to_wire) = some [PortEvent.error_cb] ∧
    events_of (feed_chunks virtio_port_new
      [(1, (⟨1, 7, 0, 2147483648⟩ : VDAgentMessage).to_wire)]) =
      some [PortEvent.error_cb] := by
  refine ⟨by decide, by decide, by decide⟩

/-- C2 at a concrete message: type 3, arguments 1 and 2, body 10, 20, 30. -/
theorem udscs_framing_round_trip_witness :
    (3 < 4294967296 ∧ 1 < 4294967296 ∧ 2 < 4294967296 ∧
      16 + [10, 20, 30].length < 4294967296 ∧
      udscs_connection_new.reading = some 16 ∧ udscs_connection_new.header_size = 16 ∧
      udscs_connection_new.header_buf.length = 16 ∧ udscs_connection_new.data_buf = none ∧
      udscs_connection_new.cancelled = false) ∧
    ∃ buf rconn1,
      (udscs_write udscs_connection_new 3 1 2 [10, 20, 30]).map (fun c => c.write_queue) =
        some (udscs_connection_new.write_queue ++ [buf]) ∧
      buf = (⟨3, 1, 2, [10, 20, 30].length⟩ : udscs_message_header).to_bytes ++
        [10, 20, 30] ∧
      udscs_conn_handle_header (buf.take 16) = [10, 20, 30].length ∧
      serve_reads udscs_connection_class (if [10, 20, 30] = [] then 1 else 2)
          udscs_connection_new (buf ++ []) =
        some (rconn1,
          [UdscsEvent.read_callback ⟨3, 1, 2, [10, 20, 30].length⟩
            (body_pointer [10, 20, 30])], []) ∧
      rconn1.reading = some 16 ∧ rconn1.data_buf = none :=
  ⟨⟨by decide, by decide, by decide, by decide, rfl, rfl, rfl, rfl, rfl⟩,
    udscs_framing_round_trip udscs_connection_new udscs_connection_new 3 1 2 [10, 20, 30] []
      (by decide) (by decide) (by decide) (by decide) rfl rfl rfl rfl rfl⟩

/-- C3 (the code at the failing input). Port independence, two messages on ports 1 and 2,
the first declaring `2^31` body bytes, interleaved as header of 1, whole message of 2, body
of 1: the run does not yield the two read callbacks, one per port (it starts with an error
callback for port 1, from the same signed `read` as in the single-port case). -/
theorem port_independence_lost_sync_at_2GiB :
    WellFormed ⟨1, 7, 0, 2147483648⟩ (List.replicate 2147483648 0) ∧
    WellFormed ⟨1, 9, 0, 0⟩ [] ∧
    Interleaving 1 2
      [(⟨1, 7, 0, 2147483648⟩ : VDAgentMessage).to_wire, List.replicate 2147483648 0]
      [(⟨1, 9, 0, 0⟩ : VDAgentMessage).to_wire]
      [(1, (⟨1, 7, 0, 2147483648⟩ : VDAgentMessage).to_wire),
       (2, (⟨1, 9, 0, 0⟩ : VDAgentMessage).to_wire),
       (1, List.replicate 2147483648 0)] ∧
    ¬ ∃ vport1 evs,
      feed_chunks virtio_port_new
        [(1, (⟨1, 7, 0, 2147483648⟩ : VDAgentMessage).to_wire),
         (2, (⟨1, 9, 0, 0⟩ : VDAgentMessage).to_wire),
         (1, List.replicate 2147483648 0)] = some (vport1, evs) ∧
      evs.Perm
        [PortEvent.read_callback 1 ⟨1, 7, 0, 2147483648⟩
          (body_pointer (List.replicate 2147483648 0)),
         PortEvent.read_callback 2 ⟨1, 9, 0, 0⟩ (body_pointer [])] := by
  refine ⟨⟨by decide, by decide, by decide, (List.length_replicate _ _).symm⟩,
    ⟨by decide, by decide, by decide, rfl⟩, ?_, ?_⟩
  · exact Interleaving.left _ _ _ _
      (Interleaving.right _ _ _ _ (Interleaving.left _ _ _ _ Interleaving.nil))
  · rintro ⟨vport1, evs, hfeed, hperm⟩
    obtain ⟨e1, e2, h1, h2⟩ := feed_chunks_cons_events _ _ _ _ _ hfeed
    have hfirst : events_of (vdagent_virtio_port_do_chunk virtio_port_new
        ⟨1, ((⟨1, 7, 0, 2147483648⟩ : VDAgentMessage).to_wire).length⟩
        (⟨1, 7, 0, 2147483648⟩ : VDAgentMessage).to_wire) = some [PortEvent.error_cb] := by
      decide
    simp only at h1
    rw [hfirst] at h1
    simp only [Option.some.injEq] at h1
    have hmem : PortEvent.error_cb ∈ evs := by
      rw [h2, ← h1]
      exact List.mem_append_left _ (List.mem_singleton.mpr rfl)
    rcases List.mem_cons.mp (hperm.mem_iff.mp hmem) with h | h
    · exact PortEvent.noConfusion h
    · rcases List.mem_cons.mp h with h | h
      · exact PortEvent.noConfusion h
      · exact absurd h (List.not_mem_nil _)

/-- Port independence below 2 GiB: a chunk processed for one port leaves the reassembly
state of every other port unchanged; hence for two messages whose declared sizes are below
`2^31`, on two different ports that are fresh, every interleaving of their chunk sequences
that keeps each port's own order yields exactly two read callbacks, one per port, each
with that port's original header and body, and no error callback; both ports end fresh. -/
theorem port_independence (vport : VirtioPort) (a b : Nat) (hdr1 hdr2 : VDAgentMessage)
    (B1 B2 : List Nat) (cs1 cs2 : List (List Nat)) (l : List Chunk) (hab : a ≠ b)
    (hwf1 : WellFormed hdr1 B1) (hwf2 : WellFormed hdr2 B2)
    (hB1 : B1.length < 2147483648) (hB2 : B2.length < 2147483648)
    (hrc : vport.read_callback = true)
    (hfa : Fresh (vport.port_data a)) (hfb : Fresh (vport.port_data b))
    (hcs1 : cs1.flatten = hdr1.to_wire ++ B1) (hcs2 : cs2.flatten = hdr2.to_wire ++ B2)
    (hl : Interleaving a b cs1 cs2 l) :
    (∀ (v v1 : VirtioPort) (h : VDIChunkHeader) (data : List Nat) (evs : List PortEvent),
      vdagent_virtio_port_do_chunk v h data = some (v1, evs) →
      ∀ q, q ≠ h.port → v1.port_data q = v.port_data q) ∧
    ∃ vport1 evs, feed_chunks vport l = some (vport1, evs) ∧
      evs.Perm [PortEvent.read_callback a hdr1 (body_pointer B1),
        PortEvent.read_callback b hdr2 (body_pointer B2)] ∧
      Fresh (vport1.port_data a) ∧ Fresh (vport1.port_data b) := by
  refine ⟨fun v v1 h data evs hd => (do_chunk_frame v v1 h data evs hd).1, ?_⟩
  have p1 := Pending.start vport.read_callback a hdr1 B1 _ hfa
  have p2 := Pending.start vport.read_callback b hdr2 B2 _ hfb
  rw [← hcs1] at p1
  rw [← hcs2] at p2
  obtain ⟨v1, evs, e1, e2, e3, e4⟩ :=
    feed_interleaving a b hab hdr1 hdr2 B1 B2 hwf1 hwf2 hB1 hB2 cs1 cs2 l hl vport _ _ p1 p2
  rw [hrc] at e2
  refine ⟨v1, evs, e1, by simpa using e2, ?_, ?_⟩
  · rcases e3 with ⟨h, _⟩ | ⟨_, _, h⟩
    · exact absurd rfl h
    · exact h
  · rcases e4 with ⟨h, _⟩ | ⟨_, _, h⟩
    · exact absurd rfl h
    · exact h

/-- Port independence below 2 GiB at two concrete messages: on port 1 a grab with body 9, 8 cut into three
chunks, on port 2 a release with no body in one chunk, interleaved. -/
theorem port_independence_witness :
    ((1 : Nat) ≠ 2 ∧ WellFormed ⟨1, 7, 0, 2⟩ [9, 8] ∧ WellFormed ⟨1, 9, 0, 0⟩ [] ∧
      [9, 8].length < 2147483648 ∧ ([] : List Nat).length < 2147483648 ∧
      virtio_port_new.read_callback = true ∧
      Fresh (virtio_port_new.port_data 1) ∧ Fresh (virtio_port_new.port_data 2)) ∧
    ∃ vport1 evs,
      feed_chunks virtio_port_new
        [(1, [1, 0, 0, 0, 7, 0, 0, 0, 0, 0, 0, 0]),
         (2, [1, 0, 0, 0, 9, 0, 0, 0, 0, 0, 0, 0, 0, 0, 0, 0, 0, 0, 0, 0]),
         (1, [0, 0, 0, 0, 2, 0, 0, 0, 9]),
         (1, [8])] = some (vport1, evs) ∧
      evs.Perm [PortEvent.read_callback 1 ⟨1, 7, 0, 2⟩ (body_pointer [9, 8]),
        PortEvent.read_callback 2 ⟨1, 9, 0, 0⟩ (body_pointer [])] ∧
      Fresh (vport1.port_data 1) ∧ Fresh (vport1.port_data 2) :=
  ⟨⟨by decide, ⟨by decide, by decide, by decide, rfl⟩, ⟨by decide, by decide, by decide, rfl⟩,
      by decide, by decide, rfl, ⟨rfl, rfl, rfl, rfl⟩, ⟨rfl, rfl, rfl, rfl⟩⟩,
    (port_independence virtio_port_new 1 2 ⟨1, 7, 0, 2⟩ ⟨1, 9, 0, 0⟩ [9, 8] []
      [[1, 0, 0, 0, 7, 0, 0, 0, 0, 0, 0, 0], [0, 0, 0, 0, 2, 0, 0, 0, 9], [8]]
      [[1, 0, 0, 0, 9, 0, 0, 0, 0, 0, 0, 0, 0, 0, 0, 0, 0, 0, 0, 0]]
      [(1, [1, 0, 0, 0, 7, 0, 0, 0, 0, 0, 0, 0]),
       (2, [1, 0, 0, 0, 9, 0, 0, 0, 0, 0, 0, 0, 0, 0, 0, 0, 0, 0, 0, 0]),
       (1, [0, 0, 0, 0, 2, 0, 0, 0, 9]),
       (1, [8])]
      (by decide) ⟨by decide, by decide, by decide, rfl⟩
      ⟨by decide, by decide, by decide, rfl⟩ (by decide) (by decide) rfl
      ⟨rfl, rfl, rfl, rfl⟩ ⟨rfl, rfl, rfl, rfl⟩ (by decide) (by decide)
      (Interleaving.left _ _ _ _ (Interleaving.right _ _ _ _
        (Interleaving.left _ _ _ _ (Interleaving.left _ _ _ _ Interleaving.nil))))).2⟩

/-- C4 at a concrete run: a new server, 130 clients 0 .. 129. -/
theorem admission_bound_witness :
    ((udscs_server_new true).connections.length ≤ 128 ∧ (List.range 130).Nodup ∧
      128 < (List.range 130).length) ∧
    (server_run (udscs_server_new true)
      [ServerOp.accept 1, ServerOp.accept 2, ServerOp.destroy 1]).1.connections.length ≤
        128 ∧
    (server_run (udscs_server_new true)
      ((List.range 130).map ServerOp.accept)).1.connections.length = 128 :=
  ⟨⟨by decide, List.nodup_range 130, by simp⟩,
    (admission_bound (udscs_server_new true)
      [ServerOp.accept 1, ServerOp.accept 2, ServerOp.destroy 1] true (List.range 130)
      (by decide) (List.nodup_range 130) (by simp)).1,
    (admission_bound (udscs_server_new true)
      [ServerOp.accept 1, ServerOp.accept 2, ServerOp.destroy 1] true (List.range 130)
      (by decide) (List.nodup_range 130) (by simp)).2.2.1⟩

/-- C5. Session arbitration with an oracle, on a state in which every tracked connection
has its `agent_data`: `update_active_session_connection` is defined, asks the oracle for the
active session id when none is known, leaves the tracked connections as they are, and
afterwards the active connection is the selected one: the tracked connection whose session
id equals the active session id when exactly one tracked connection matches, none when zero
or more than one match. So after every run of connect, disconnect and session-change events
from a state where this holds, the active connection is again the selected one: a
connection that is active is the only candidate, and no two connections are active. -/
theorem session_arbitration (P : Protocol) (env : Env) (d : Daemon)
    (new_conn : Option ConnId) (es : List SessionEvent)
    (hsi : d.session_info = true) (hcb : d.server.connect_callback = true)
    (hlen : d.server.connections.length ≤ 128) (hall : AllAttached d)
    (hact : d.active_session_conn = selected d) :
    (∃ d' out, update_active_session_connection P env d new_conn = some (d', out) ∧
      d'.server = d.server ∧ d'.agent_datas = d.agent_datas ∧
      d'.active_session =
        (if d.active_session.isNone then env.get_active_session else d.active_session) ∧
      (∀ c, candidates d' = [c] → d'.active_session_conn = some c) ∧
      ((candidates d').length ≠ 1 → d'.active_session_conn = none)) ∧
    (∀ (d1 : Daemon) (out : List Out), session_run P d es = some (d1, out) →
      d1.active_session_conn = selected d1 ∧
      (∀ c, d1.active_session_conn = some c → candidates d1 = [c]) ∧
      (∀ c c', d1.active_session_conn = some c → d1.active_session_conn = some c' →
        c = c')) := by
  have hsel : ∀ x : Daemon, (∀ c, candidates x = [c] → selected x = some c) ∧
      ((candidates x).length ≠ 1 → selected x = none) ∧
      (∀ c, selected x = some c → candidates x = [c]) := by
    intro x
    unfold selected
    refine ⟨?_, ?_, ?_⟩
    · intro c hc
      rw [hc]
    · intro hne
      cases hF : candidates x with
      | nil => rfl
      | cons c t =>
        cases t with
        | nil => rw [hF] at hne; simp at hne
        | cons c2 t2 => rfl
    · intro c hc
      cases hF : candidates x with
      | nil => rw [hF] at hc; simp at hc
      | cons c1 t =>
        cases t with
        | nil =>
          rw [hF] at hc
          simp only [Option.some.injEq] at hc
          rw [hc]
        | cons c2 t2 => rw [hF] at hc; simp at hc
  constructor
  · obtain ⟨d', out, e, p1, p2, _, p4, p5⟩ :=
      update_active_session_connection_post P env d new_conn hsi hall hlen
    refine ⟨d', out, e, p1, p2, p4, ?_, ?_⟩
    · intro c hc
      rw [p5]
      exact (hsel d').1 c hc
    · intro hne
      rw [p5]
      exact (hsel d').2.1 hne
  · intro d1 out hrun
    obtain ⟨_, _, _, _, i5⟩ :=
      session_run_inv P es d d1 out ⟨hsi, hcb, hlen, hall, hact⟩ hrun
    refine ⟨i5, ?_, ?_⟩
    · intro c hc
      rw [i5] at hc
      exact (hsel d1).2.2 c hc
    · intro c c' h1 h2
      rw [h1] at h2
      exact Option.some.inj h2

/-! ### Routing engine: concrete runs -/

theorem spice_sizes_fit : SizesFit spice_protocol := by
  intro t h1 h2
  interval_cases t <;> decide

theorem daemon_one_agent_attached : AllAttached daemon_one_agent := by
  intro c hc
  have h1 : c = 1 := by simpa [daemon_one_agent] using hc
  subst h1
  rfl

/-- C5 at a concrete state: one agent of session "seat0", which is active; arbitration is
run, and the events are a session change followed by the agent's disconnect. -/
theorem session_arbitration_witness :
    (daemon_one_agent.session_info = true ∧
      daemon_one_agent.server.connect_callback = true ∧
      daemon_one_agent.server.connections.length ≤ 128 ∧ AllAttached daemon_one_agent ∧
      daemon_one_agent.active_session_conn = selected daemon_one_agent) ∧
    (∃ d' out,
      update_active_session_connection spice_protocol env_ok daemon_one_agent none =
        some (d', out) ∧
      d'.server = daemon_one_agent.server ∧ d'.agent_datas = daemon_one_agent.agent_datas ∧
      d'.active_session =
        (if daemon_one_agent.active_session.isNone then env_ok.get_active_session
          else daemon_one_agent.active_session) ∧
      (∀ c, candidates d' = [c] → d'.active_session_conn = some c) ∧
      ((candidates d').length ≠ 1 → d'.active_session_conn = none)) ∧
    ∀ (d1 : Daemon) (out : List Out),
      session_run spice_protocol daemon_one_agent
        [SessionEvent.session_change env_ok, SessionEvent.disconnect env_ok 1] =
        some (d1, out) →
      d1.active_session_conn = selected d1 ∧
      (∀ c, d1.active_session_conn = some c → candidates d1 = [c]) ∧
      (∀ c c', d1.active_session_conn = some c → d1.active_session_conn = some c' →
        c = c') :=
  ⟨⟨rfl, rfl, by decide, daemon_one_agent_attached, by decide⟩,
    session_arbitration spice_protocol env_ok daemon_one_agent none
      [SessionEvent.session_change env_ok, SessionEvent.disconnect env_ok 1]
      rfl rfl (by decide) daemon_one_agent_attached (by decide)⟩

/-- C6 at a concrete start: id 5, for the daemon with one active agent, is admitted. -/
theorem file_xfer_start_admission_witness :
    ((⟨1, 10, 0, 4⟩ : VDAgentMessage).type = VD_AGENT_FILE_XFER_START ∧
      8 ≤ spice_protocol.sizeof_VDAgentFileXferStatusMessage) ∧
    start_checks_pass env_ok daemon_one_agent (read_le [5, 0, 0, 0] 0 4) ∧
    start_admitted daemon_one_agent (read_le [5, 0, 0, 0] 0 4)
      (([5, 0, 0, 0] : List Nat).take (⟨1, 10, 0, 4⟩ : VDAgentMessage).size)
      (do_client_file_xfer spice_protocol env_ok daemon_one_agent true ⟨1, 10, 0, 4⟩
        [5, 0, 0, 0]) :=
  ⟨⟨rfl, by decide⟩, ⟨rfl, rfl, by decide, rfl⟩,
    (file_xfer_start_admission spice_protocol env_ok daemon_one_agent ⟨1, 10, 0, 4⟩
      [5, 0, 0, 0] rfl (by decide)).1.mpr ⟨rfl, rfl, by decide, rfl⟩⟩

/-- C7 at a concrete run: id 5 is started twice, its agent reports success, then
disconnects. -/
theorem file_xfer_table_invariant_witness :
    (XfersInv daemon_one_agent.active_xfers ∧
      (⟨1, 10, 0, 4⟩ : VDAgentMessage).type = VD_AGENT_FILE_XFER_START ∧
      8 ≤ spice_protocol.sizeof_VDAgentFileXferStatusMessage ∧
      daemon_one_agent.active_session_conn = some 1 ∧
      start_checks_pass env_ok daemon_one_agent (read_le [5, 0, 0, 0] 0 4)) ∧
    (∀ (d' : Daemon) (out : List Out),
      xfer_run spice_protocol daemon_one_agent
        [XferEvent.host_message env_ok ⟨1, 10, 0, 4⟩ [5, 0, 0, 0],
         XferEvent.host_message env_ok ⟨1, 10, 0, 4⟩ [5, 0, 0, 0],
         XferEvent.agent_status 1 ⟨9, 5, 3, 0⟩ none,
         XferEvent.agent_disconnect env_ok 1] = some (d', out) →
      XfersInv d'.active_xfers) ∧
    ∃ d2 body size,
      xfer_run spice_protocol daemon_one_agent
        [XferEvent.host_message env_ok ⟨1, 10, 0, 4⟩ [5, 0, 0, 0],
         XferEvent.host_message env_ok ⟨1, 10, 0, 4⟩ [5, 0, 0, 0]] =
        some (d2, [Out.udscs_write 1 VDAGENTD.FILE_XFER_START 0 0
            (([5, 0, 0, 0] : List Nat).take (⟨1, 10, 0, 4⟩ : VDAgentMessage).size),
          Out.virtio_port_write spice_protocol.VDP_CLIENT_PORT VD_AGENT_FILE_XFER_STATUS 0
            body size]) ∧
      body.take 8 = to_le 4 (read_le [5, 0, 0, 0] 0 4) ++
        to_le 4 spice_protocol.VD_AGENT_FILE_XFER_STATUS_ERROR ∧
      d2.active_xfers.filter (fun e => e.1 = read_le [5, 0, 0, 0] 0 4) =
        [(read_le [5, 0, 0, 0] 0 4, 1)] ∧
      XfersInv d2.active_xfers :=
  ⟨⟨⟨by decide, by decide⟩, rfl, by decide, rfl, ⟨rfl, rfl, by decide, rfl⟩⟩,
    file_xfer_table_invariant spice_protocol env_ok daemon_one_agent
      [XferEvent.host_message env_ok ⟨1, 10, 0, 4⟩ [5, 0, 0, 0],
       XferEvent.host_message env_ok ⟨1, 10, 0, 4⟩ [5, 0, 0, 0],
       XferEvent.agent_status 1 ⟨9, 5, 3, 0⟩ none,
       XferEvent.agent_disconnect env_ok 1]
      ⟨1, 10, 0, 4⟩ [5, 0, 0, 0] 1 ⟨by decide, by decide⟩ rfl (by decide) rfl
      ⟨rfl, rfl, by decide, rfl⟩⟩

/-- C8 at a concrete header: a file-transfer data message of 11 bytes, one short of its
minimum, is refused and dropped. -/
theorem message_validation_witness :
    SizesFit spice_protocol ∧
    vdagent_message_check_size spice_protocol daemon_one_agent ⟨1, 12, 0, 11⟩ = false ∧
    virtio_port_read_complete spice_protocol env_ok daemon_one_agent 1 ⟨1, 12, 0, 11⟩
      [5, 0, 0, 0, 0, 0, 0, 0, 0, 0, 0] = (daemon_one_agent, []) :=
  ⟨spice_sizes_fit,
    (message_validation spice_protocol env_ok daemon_one_agent 1 ⟨1, 12, 0, 11⟩
      [5, 0, 0, 0, 0, 0, 0, 0, 0, 0, 0] spice_sizes_fit).2.1
      (by decide) (by decide) (by decide),
    (message_validation spice_protocol env_ok daemon_one_agent 1 ⟨1, 12, 0, 11⟩
      [5, 0, 0, 0, 0, 0, 0, 0, 0, 0, 0] spice_sizes_fit).2.2 (by decide)⟩

/-- C9 at a concrete grab: with both capabilities the minimum is 8, the message has 5
bytes. -/
theorem undersized_grab_dropped_witness :
    (SizesFit spice_protocol ∧
      (⟨1, 7, 0, 5⟩ : VDAgentMessage).type = VD_AGENT_CLIPBOARD_GRAB ∧ 0 < 3 ∧
      (⟨1, 7, 0, 5⟩ : VDAgentMessage).size + 3 =
        claimed_min_size spice_protocol daemon_one_agent VD_AGENT_CLIPBOARD_GRAB) ∧
    virtio_port_read_complete spice_protocol env_ok daemon_one_agent 1 ⟨1, 7, 0, 5⟩
      [0, 0, 0, 0, 5] = (daemon_one_agent, []) :=
  ⟨⟨spice_sizes_fit, rfl, by decide, by decide⟩,
    (undersized_grab_dropped spice_protocol env_ok daemon_one_agent 1 ⟨1, 7, 0, 5⟩
      [0, 0, 0, 0, 5] 3 spice_sizes_fit rfl (by decide) (by decide)).1⟩

/-- C10 (counterexample). A host grab on selection 0 with serial 4 while the stored
counter is 5 (the stored counter minus one): the grab is accepted, forwarded to the active
connection with ownership cleared, but the counter is still 5, not advanced to 6. -/
theorem grab_serial_window_counterexample :
    has_capability spice_protocol daemon_one_agent
      spice_protocol.VD_AGENT_CAP_CLIPBOARD_GRAB_SERIAL = true ∧
    daemon_one_agent.active_session_conn = some 1 ∧
    grab_selection spice_protocol daemon_one_agent [0, 0, 0, 0, 4, 0, 0, 0, 1, 0, 0, 0] = 0 ∧
    grab_serial spice_protocol daemon_one_agent [0, 0, 0, 0, 4, 0, 0, 0, 1, 0, 0, 0] = 4 ∧
    daemon_one_agent.clipboard_serial 0 = 5 ∧
    (do_client_clipboard spice_protocol daemon_one_agent ⟨1, 7, 0, 12⟩
      [0, 0, 0, 0, 4, 0, 0, 0, 1, 0, 0, 0]).2 =
      [Out.udscs_write 1 VDAGENTD.CLIPBOARD_GRAB 0 0 [1, 0, 0, 0]] ∧
    (do_client_clipboard spice_protocol daemon_one_agent ⟨1, 7, 0, 12⟩
      [0, 0, 0, 0, 4, 0, 0, 0, 1, 0, 0, 0]).1.agent_owns_clipboard 0 = false ∧
    (do_client_clipboard spice_protocol daemon_one_agent ⟨1, 7, 0, 12⟩
      [0, 0, 0, 0, 4, 0, 0, 0, 1, 0, 0, 0]).1.clipboard_serial 0 = 5 ∧
    ¬ ((do_client_clipboard spice_protocol daemon_one_agent ⟨1, 7, 0, 12⟩
      [0, 0, 0, 0, 4, 0, 0, 0, 1, 0, 0, 0]).1.clipboard_serial 0 =
        daemon_one_agent.clipboard_serial 0 + 1) := by
  refine ⟨by decide, rfl, by decide, by decide, rfl, by decide, by decide, by decide,
    by decide⟩

/-- C10 (amended) at a concrete grab: serial 5 on selection 0, the stored counter: the grab
is forwarded and the counter becomes 6. -/
theorem grab_serial_window_witness :
    ((⟨1, 7, 0, 12⟩ : VDAgentMessage).type = VD_AGENT_CLIPBOARD_GRAB ∧
      daemon_one_agent.active_session_conn = some 1 ∧
      has_capability spice_protocol daemon_one_agent
        spice_protocol.VD_AGENT_CAP_CLIPBOARD_GRAB_SERIAL = true ∧
      daemon_one_agent.clipboard_serial
        (grab_selection spice_protocol daemon_one_agent
          [0, 0, 0, 0, 5, 0, 0, 0, 1, 0, 0, 0]) < 4294967296 ∧
      grab_serial spice_protocol daemon_one_agent [0, 0, 0, 0, 5, 0, 0, 0, 1, 0, 0, 0] =
        daemon_one_agent.clipboard_serial
          (grab_selection spice_protocol daemon_one_agent
            [0, 0, 0, 0, 5, 0, 0, 0, 1, 0, 0, 0])) ∧
    (do_client_clipboard spice_protocol daemon_one_agent ⟨1, 7, 0, 12⟩
        [0, 0, 0, 0, 5, 0, 0, 0, 1, 0, 0, 0]).2 =
      [Out.udscs_write 1 VDAGENTD.CLIPBOARD_GRAB
        (grab_selection spice_protocol daemon_one_agent [0, 0, 0, 0, 5, 0, 0, 0, 1, 0, 0, 0]) 0
        (grab_payload spice_protocol daemon_one_agent ⟨1, 7, 0, 12⟩
          [0, 0, 0, 0, 5, 0, 0, 0, 1, 0, 0, 0])] ∧
    (do_client_clipboard spice_protocol daemon_one_agent ⟨1, 7, 0, 12⟩
        [0, 0, 0, 0, 5, 0, 0, 0, 1, 0, 0, 0]).1.clipboard_serial 0 = 6 :=
  ⟨⟨rfl, rfl, by decide, by decide, by decide⟩,
    congrArg Prod.snd
      ((grab_serial_window spice_protocol daemon_one_agent ⟨1, 7, 0, 12⟩
        [0, 0, 0, 0, 5, 0, 0, 0, 1, 0, 0, 0] 1 rfl rfl (by decide) (by decide)).1
        (by decide)),
    by decide⟩

/-! ### Host channel writes -/

/-- C15 (the code at the failing input). Host-channel write contract, the empty body: a
`vdagent_virtio_port_write` of a message without body (a clipboard release, type 9, on
port 1) on a new port hands nothing to the write queue and leaves the 28-byte buffer in
progress, because `vdagent_virtio_port_write_append` returns at once for size 0; the next
write, with a body of four bytes, then fails in `g_return_if_fail` and in the append, so it
is lost as well. -/
theorem virtio_port_write_empty_body_stuck :
    (vdagent_virtio_port_write spice_protocol virtio_port_new 1 9 0 none 0).map
        (fun v => (v.write_queue, v.write_buf)) =
      some ([], ⟨some (host_wire spice_protocol 1 9 0 []), 28, 28⟩) ∧
    ((vdagent_virtio_port_write spice_protocol virtio_port_new 1 9 0 none 0).bind
        (fun v => vdagent_virtio_port_write spice_protocol v 1 7 0 (some [1, 0, 0, 0]) 4)).map
        (fun v => (v.write_queue, v.write_buf)) =
      some ([], ⟨some (host_wire spice_protocol 1 9 0 []), 28, 28⟩) := by
  refine ⟨by decide, by decide⟩

theorem memcpy_hole (a hole c src : List Nat) (h : src.length = hole.length) :
    memcpy (a ++ hole ++ c) a.length src hole.length = a ++ src ++ c := by
  unfold memcpy
  rw [List.append_assoc a hole c, List.take_left' rfl, ← h, List.take_length,
    ← List.append_assoc, List.drop_append_eq_append_drop]
  have h1 : (a ++ hole).length = a.length + src.length := by rw [List.length_append, h]
  rw [List.drop_of_length_le (le_of_eq h1), h1, Nat.sub_self]
  simp

theorem length_host_headers (P : Protocol) (port_nr type opaq n : Nat) :
    (host_headers P port_nr type opaq n).length = 28 := by
  simp [host_headers, length_to_le]

theorem write_start_buf (P : Protocol) (vport : VirtioPort) (port_nr type opaq n : Nat)
    (hbuf : vport.write_buf.buf = none) (hp : port_nr < 4294967296)
    (ht : type < 4294967296) (ho : opaq < 4294967296) (hn : n < 4294967296) :
    vdagent_virtio_port_write_start P vport port_nr type opaq n =
      { vport with
        write_buf :=
          { buf := some (host_headers P port_nr type opaq n ++ List.replicate n 0)
            size := 28 + n
            write_pos := 28 } } := by
  unfold vdagent_virtio_port_write_start
  rw [hbuf]
  simp only [Option.isSome_none, Bool.false_eq_true, if_false, Nat.mod_eq_of_lt hp,
    Nat.mod_eq_of_lt ht, Nat.mod_eq_of_lt ho, Nat.mod_eq_of_lt hn]
  have e1 : List.replicate (8 + 20 + n) 0 =
      ([] : List Nat) ++ List.replicate 8 0 ++ List.replicate (20 + n) 0 := by
    rw [List.nil_append, ← List.replicate_add, Nat.add_assoc]
  have l1 : (to_le 4 port_nr ++ to_le 4 (20 + n)).length = (List.replicate 8 0).length := by
    simp [length_to_le]
  have m1 := memcpy_hole [] (List.replicate 8 0) (List.replicate (20 + n) 0) _ l1
  simp only [List.length_nil, List.length_replicate, List.nil_append] at m1
  rw [e1, List.nil_append, m1]
  have e2 : List.replicate (20 + n) 0 = List.replicate 20 0 ++ List.replicate n 0 := by
    rw [← List.replicate_add]
  have l2 : (to_le 4 P.VD_AGENT_PROTOCOL ++ to_le 4 type ++ to_le 8 opaq ++ to_le 4 n).length =
      (List.replicate 20 0).length := by
    simp [length_to_le]
  have m2 := memcpy_hole (to_le 4 port_nr ++ to_le 4 (20 + n)) (List.replicate 20 0)
    (List.replicate n 0) _ l2
  have l3 : (to_le 4 port_nr ++ to_le 4 (20 + n)).length = 8 := by simp [length_to_le]
  rw [l3, List.length_replicate] at m2
  rw [e2, ← List.append_assoc, m2]
  rfl

theorem write_append_step (vport : VirtioPort) (pre piece : List Nat) (k : Nat)
    (hbuf : vport.write_buf = ⟨some (pre ++ List.replicate k 0), pre.length + k, pre.length⟩)
    (hp0 : piece ≠ []) (hpk : piece.length ≤ k) (hk : k < 4294967296) :
    vdagent_virtio_port_write_append vport (some piece) piece.length =
      some (if piece.length = k then
          { vport with
            write_queue := vport.write_queue ++ [pre ++ piece]
            write_buf := ⟨none, pre.length + k, pre.length + k⟩ }
        else
          { vport with
            write_buf := ⟨some (pre ++ piece ++ List.replicate (k - piece.length) 0),
              pre.length + k, pre.length + piece.length⟩ }, 0) := by
  have hlen0 : 0 < piece.length := List.length_pos.mpr hp0
  have hmod : piece.length % 4294967296 = piece.length := Nat.mod_eq_of_lt (by omega)
  have hroom : ¬ (pre.length + k + 18446744073709551616 - pre.length) %
      18446744073709551616 < piece.length := by omega
  have hrep : List.replicate k 0 =
      List.replicate piece.length 0 ++ List.replicate (k - piece.length) 0 := by
    rw [← List.replicate_add]; congr 1; omega
  have hm := memcpy_hole pre (List.replicate piece.length 0)
    (List.replicate (k - piece.length) 0) piece (List.length_replicate _ _).symm
  rw [List.length_replicate, List.append_assoc, ← hrep] at hm
  unfold vdagent_virtio_port_write_append
  simp only [hmod, hbuf, hm]
  rw [if_neg (by omega), if_neg hroom, if_neg (by omega)]
  by_cases hfull : piece.length = k
  · rw [if_pos (by omega), if_pos hfull]
    have : k - piece.length = 0 := by omega
    rw [this, hfull]
    simp
  · rw [if_neg (by omega), if_neg hfull]

theorem write_append_pieces_empty (pieces : List (List Nat)) (h : pieces.flatten = []) :
    ∀ vport : VirtioPort, write_append_pieces vport pieces = some vport := by
  induction pieces with
  | nil => intro v; rfl
  | cons p ps ih =>
    intro v
    rw [List.flatten_cons, List.append_eq_nil] at h
    have hp : p = [] := h.1
    subst hp
    unfold write_append_pieces
    have : vdagent_virtio_port_write_append v (some []) ([] : List Nat).length = some (v, 0) := by
      simp [vdagent_virtio_port_write_append]
    rw [this]
    exact ih h.2 v

theorem write_append_pieces_fill (pieces : List (List Nat)) :
    ∀ (vport : VirtioPort) (pre : List Nat) (k : Nat),
      vport.write_buf = ⟨some (pre ++ List.replicate k 0), pre.length + k, pre.length⟩ →
      0 < k → pieces.flatten.length = k → k < 4294967296 →
      write_append_pieces vport pieces =
        some { vport with
          write_queue := vport.write_queue ++ [pre ++ pieces.flatten]
          write_buf := ⟨none, pre.length + k, pre.length + k⟩ } := by
  induction pieces with
  | nil =>
    intro vport pre k _ hk hl _
    simp at hl; omega
  | cons p ps ih =>
    intro vport pre k hbuf hk0 hl hk
    rw [List.flatten_cons, List.length_append] at hl
    by_cases hp : p = []
    · subst hp
      unfold write_append_pieces
      have : vdagent_virtio_port_write_append vport (some []) ([] : List Nat).length =
          some (vport, 0) := by
        simp [vdagent_virtio_port_write_append]
      rw [this]
      simp only [List.length_nil, Nat.zero_add] at hl
      rw [List.flatten_cons, List.nil_append]
      exact ih vport pre k hbuf hk0 hl hk
    · have hstep := write_append_step vport pre p k hbuf hp (by omega) hk
      unfold write_append_pieces
      rw [hstep]
      by_cases hfull : p.length = k
      · simp only [hfull, if_true]
        have hps : ps.flatten = [] := List.length_eq_zero.mp (by omega)
        rw [write_append_pieces_empty ps hps, List.flatten_cons, hps, List.append_nil]
      · simp only [hfull, if_false]
        have h2 := ih { vport with
            write_buf := ⟨some (pre ++ p ++ List.replicate (k - p.length) 0),
              pre.length + k, pre.length + p.length⟩ } (pre ++ p) (k - p.length)
          (by
            show (⟨_, _, _⟩ : vdagent_virtio_port_buf) = ⟨_, _, _⟩
            rw [List.length_append]
            congr 1
            omega)
          (by omega) (by omega) (by omega)
        rw [h2, List.flatten_cons, List.length_append]
        simp only [List.append_assoc]
        congr 3
        · omega
        · omega

/-- Host-channel write contract for a body that is not empty: with no write in progress,
`vdagent_virtio_port_write` hands exactly one buffer to the write queue, of length
8 + 20 + body length, which is the two little-endian headers followed by the body, and
leaves no write in progress; `vdagent_virtio_port_write_start` followed by appends that
supply the body in any number of pieces (empty pieces included) does the same. -/
theorem virtio_port_write_nonempty (P : Protocol) (vport : VirtioPort)
    (port_nr type opaq : Nat) (body : List Nat) (pieces : List (List Nat))
    (hbuf : vport.write_buf.buf = none) (hp : port_nr < 4294967296)
    (ht : type < 4294967296) (ho : opaq < 4294967296) (hne : body ≠ [])
    (hlen : body.length < 4294967296) (hpieces : pieces.flatten = body) :
    vdagent_virtio_port_write P vport port_nr type opaq (some body) body.length =
      some { vport with
        write_queue := vport.write_queue ++ [host_wire P port_nr type opaq body]
        write_buf := ⟨none, 28 + body.length, 28 + body.length⟩ } ∧
    (host_wire P port_nr type opaq body).length = 8 + 20 + body.length ∧
    write_append_pieces
        (vdagent_virtio_port_write_start P vport port_nr type opaq body.length) pieces =
      vdagent_virtio_port_write P vport port_nr type opaq (some body) body.length := by
  have hstart := write_start_buf P vport port_nr type opaq body.length hbuf hp ht ho hlen
  have hl := length_host_headers P port_nr type opaq body.length
  have hk0 : 0 < body.length := List.length_pos.mpr hne
  have hfill : ∀ ps : List (List Nat), ps.flatten = body →
      write_append_pieces
          (vdagent_virtio_port_write_start P vport port_nr type opaq body.length) ps =
        some { vport with
          write_queue := vport.write_queue ++ [host_wire P port_nr type opaq body]
          write_buf := ⟨none, 28 + body.length, 28 + body.length⟩ } := by
    intro ps hps
    have h := write_append_pieces_fill ps
      (vdagent_virtio_port_write_start P vport port_nr type opaq body.length)
      (host_headers P port_nr type opaq body.length) body.length
      (by rw [hstart, hl]) hk0 (by rw [hps]) hlen
    rw [h, hstart, hps, hl]
    rfl
  have hone : vdagent_virtio_port_write P vport port_nr type opaq (some body) body.length =
      write_append_pieces
        (vdagent_virtio_port_write_start P vport port_nr type opaq body.length) [body] := by
    unfold vdagent_virtio_port_write write_append_pieces write_append_pieces
    cases vdagent_virtio_port_write_append
      (vdagent_virtio_port_write_start P vport port_nr type opaq body.length) (some body)
      body.length <;> rfl
  refine ⟨?_, ?_, ?_⟩
  · rw [hone]
    exact hfill [body] (by simp)
  · unfold host_wire
    rw [List.length_append, hl]
  · rw [hone, hfill pieces hpieces, hfill [body] (by simp)]

/-! ### Chunk headers and desynchronisation -/

theorem read_chunk_header (port size : Nat) (hp : port < 4294967296)
    (hs : size < 4294967296) :
    read_le (to_le 4 port ++ to_le 4 size) 0 4 = port ∧
      read_le (to_le 4 port ++ to_le 4 size) 4 4 = size := by
  have h1 := read_le_to_le_append [] (to_le 4 size) 0 4 port rfl (by norm_num; exact hp)
  have h2 := read_le_to_le_append (to_le 4 port) [] 4 4 size (length_to_le 4 port)
    (by norm_num; exact hs)
  rw [List.append_nil] at h2
  rw [List.nil_append] at h1
  exact ⟨h1, h2⟩

/-- C13. Chunk-header validation: for header bytes that hold `port` and `size`
little-endian, `conn_handle_header` returns `size` without calling anything if and only if
`size <= VD_AGENT_MAX_DATA_SIZE` and `port < VDP_END_PORT`, and otherwise calls the error
callback once and returns 0; `message_read_cb`, given these header bytes, then asks for
`size` body bytes when the header is accepted with a body, and for a rejected header ends
with the error callback as its only call, the port's state untouched and no further read
requested: `vdagent_virtio_port_do_chunk` is not run (the error callback having destroyed
the connection, as `virtio_port_error_cb` does). -/
theorem chunk_header_validation (M E port size : Nat) (conn : VDAgentConnection VirtioPort)
    (hp : port < 4294967296) (hs : size < 4294967296)
    (hdata : conn.data_buf = none) (hlen : conn.header_buf.length = 8) :
    (((conn_handle_header M E (to_le 4 port ++ to_le 4 size)).1 = size ∧
        (conn_handle_header M E (to_le 4 port ++ to_le 4 size)).2 = []) ↔
      (size ≤ M ∧ port < E)) ∧
    (¬ (size ≤ M ∧ port < E) →
      conn_handle_header M E (to_le 4 port ++ to_le 4 size) = (0, [PortEvent.error_cb]) ∧
      message_read_cb (virtio_port_class M E true) conn
          (ReadResult.bytes (to_le 4 port ++ to_le 4 size)) =
        some ({ conn with
                header_buf := to_le 4 port ++ to_le 4 size
                opening := false
                cancelled := true
                reading := none }, [PortEvent.error_cb])) ∧
    (size ≤ M ∧ port < E → 0 < size → conn.cancelled = false →
      message_read_cb (virtio_port_class M E true) conn
          (ReadResult.bytes (to_le 4 port ++ to_le 4 size)) =
        some ({ conn with
                header_buf := to_le 4 port ++ to_le 4 size
                opening := false
                data_buf := some (List.replicate size 0)
                reading := some size }, [])) := by
  obtain ⟨r1, r2⟩ := read_chunk_header port size hp hs
  have hl : (to_le 4 port ++ to_le 4 size).length = 8 := by simp [length_to_le]
  have hne : ¬ (to_le 4 port ++ to_le 4 size).length = 0 := by rw [hl]; decide
  have hcopy : memcpy conn.header_buf 0 (to_le 4 port ++ to_le 4 size)
      (to_le 4 port ++ to_le 4 size).length = to_le 4 port ++ to_le 4 size :=
    memcpy_zero_full _ _ (by rw [hlen, hl])
  obtain ⟨sub, opening, cancelled, header_size, header_buf, data_buf, reading, write_queue,
    bytes_written⟩ := conn
  simp only at hdata hlen hcopy
  subst hdata
  refine ⟨?_, ?_, ?_⟩
  · unfold conn_handle_header
    simp only [r1, r2]
    by_cases h1 : size > M
    · rw [if_pos h1]
      constructor
      · intro h; exact absurd h.2 (by simp)
      · intro h; omega
    · rw [if_neg h1]
      by_cases h2 : port ≥ E
      · rw [if_pos h2]
        constructor
        · intro h; exact absurd h.2 (by simp)
        · intro h; omega
      · rw [if_neg h2]
        constructor
        · intro _; omega
        · intro _; exact ⟨rfl, rfl⟩
  · intro hbad
    have hh : conn_handle_header M E (to_le 4 port ++ to_le 4 size) =
        (0, [PortEvent.error_cb]) := by
      unfold conn_handle_header
      simp only [r1, r2]
      by_cases h1 : size > M
      · rw [if_pos h1]
      · rw [if_neg h1, if_pos (by omega)]
    refine ⟨hh, ?_⟩
    have hhh : (virtio_port_class M E true).handle_header sub
        (to_le 4 port ++ to_le 4 size) =
        (sub, to_le 4 port ++ to_le 4 size, 0, [PortEvent.error_cb], true) := by
      simp [virtio_port_class, hh]
    simp only [message_read_cb, hcopy, hne, if_false, hhh, Bool.or_true, if_true]
  · intro hok hpos hc
    simp only at hc
    subst hc
    have hh : conn_handle_header M E (to_le 4 port ++ to_le 4 size) = (size, []) := by
      unfold conn_handle_header
      simp only [r1, r2]
      rw [if_neg (by omega), if_neg (by omega)]
    have hhh : (virtio_port_class M E true).handle_header sub
        (to_le 4 port ++ to_le 4 size) =
        (sub, to_le 4 port ++ to_le 4 size, size, [], false) := by
      simp [virtio_port_class, hh]
    unfold message_read_cb
    dsimp only
    rw [hcopy, if_neg hne, hhh]
    dsimp only
    rw [if_neg (by decide), if_pos hpos]
    rfl

/-- C13 at a concrete header: port 1 with size 5000, above the maximum 2048, read by a
new host-channel connection: the error callback is the only call and no read follows. -/
theorem chunk_header_validation_witness :
    ((1 : Nat) < 4294967296 ∧ (5000 : Nat) < 4294967296 ∧
      (vdagent_connection_setup virtio_port_new true 8).data_buf = none ∧
      (vdagent_connection_setup virtio_port_new true 8).header_buf.length = 8 ∧
      ¬ ((5000 : Nat) ≤ 2048 ∧ (1 : Nat) < 3)) ∧
    conn_handle_header 2048 3 (to_le 4 1 ++ to_le 4 5000) = (0, [PortEvent.error_cb]) ∧
    message_read_cb (virtio_port_class 2048 3 true)
        (vdagent_connection_setup virtio_port_new true 8)
        (ReadResult.bytes (to_le 4 1 ++ to_le 4 5000)) =
      some ({ vdagent_connection_setup virtio_port_new true 8 with
              header_buf := to_le 4 1 ++ to_le 4 5000
              opening := false
              cancelled := true
              reading := none }, [PortEvent.error_cb]) :=
  ⟨⟨by decide, by decide, rfl, rfl, by decide⟩,
    (chunk_header_validation 2048 3 1 5000 (vdagent_connection_setup virtio_port_new true 8)
      (by decide) (by decide) rfl rfl).2.1 (by decide)⟩

/-- C14 (the code at the failing input). Desynchronisation, a false alarm: on a new port
the first chunk of a message that declares `2^32 - 1` body bytes holds the 20 header bytes
and 4 body bytes, far fewer than the message still expects, and yet
`vdagent_virtio_port_do_chunk` reports "chunk larger than message, lost sync?": it calls
the error callback and copies nothing, because `read`, an `int`, receives
`size - message_data_pos = 2^32 - 1`, which is `-1`. -/
theorem desync_false_alarm_at_2GiB :
    (4 : Nat) ≤ 4294967295 - 0 ∧
    ((⟨1, 4, 0, 4294967295⟩ : VDAgentMessage).to_wire ++ [1, 2, 3, 4]).length = 24 ∧
    (do_chunk_header (virtio_port_new.port_data 1) ⟨1, 24⟩
      ((⟨1, 4, 0, 4294967295⟩ : VDAgentMessage).to_wire ++ [1, 2, 3, 4])).1.message_header =
      ⟨1, 4, 0, 4294967295⟩ ∧
    (do_chunk_header (virtio_port_new.port_data 1) ⟨1, 24⟩
      ((⟨1, 4, 0, 4294967295⟩ : VDAgentMessage).to_wire ++ [1, 2, 3, 4])).1.message_data_pos =
      0 ∧
    events_of (vdagent_virtio_port_do_chunk virtio_port_new ⟨1, 24⟩
      ((⟨1, 4, 0, 4294967295⟩ : VDAgentMessage).to_wire ++ [1, 2, 3, 4])) =
      some [PortEvent.error_cb] := by
  refine ⟨by decide, by decide, by decide, by decide, by decide⟩

/-- Desynchronisation below 2 GiB, on the port data as the header part of
`vdagent_virtio_port_do_chunk` leaves it (`q`, with `pos` bytes of the chunk consumed): when
the header is complete, the declared size and the chunk size are below `2^31` and the body
cursor lies within the message, a chunk that still holds more bytes than the message
expects gets the error callback as the only call and the port data stays `q` (no body byte
is copied), and a chunk that holds no more than that never gets the error callback. -/
theorem desync_below_2GiB (rc : Bool) (q : vdagent_virtio_port_chunk_port_data)
    (chunk_header : VDIChunkHeader) (chunk_data : List Nat) (pos dpos : Nat)
    (h20 : q.message_header_read = 20) (hsz : q.message_header.size < 2147483648)
    (hdpos : q.message_data_pos = (dpos : Int)) (hdle : dpos ≤ q.message_header.size)
    (hch : chunk_header.size < 2147483648) (hpos : pos ≤ chunk_header.size) :
    (chunk_header.size - pos > q.message_header.size - dpos →
      do_chunk_body rc q chunk_header chunk_data (pos : Int) =
        some (q, [PortEvent.error_cb])) ∧
    (chunk_header.size - pos ≤ q.message_header.size - dpos →
      ∀ r, do_chunk_body rc q chunk_header chunk_data (pos : Int) = some r →
        PortEvent.error_cb ∉ r.2) := by
  have e1 : to_int (sub_uint32 q.message_header.size (to_uint32 q.message_data_pos)) =
      ((q.message_header.size - dpos : Nat) : Int) := by
    rw [hdpos, to_uint32_natCast (by omega), sub_uint32_of_le hdle (by omega),
      to_int_of_lt (by omega)]
  have e2 : to_int (sub_uint32 chunk_header.size (to_uint32 (pos : Int))) =
      ((chunk_header.size - pos : Nat) : Int) := by
    rw [to_uint32_natCast (by omega), sub_uint32_of_le hpos (by omega),
      to_int_of_lt (by omega)]
  constructor
  · intro hgt
    unfold do_chunk_body
    rw [if_pos h20]
    simp only [e1, e2]
    rw [if_pos (by omega)]
  · intro hle r hr
    unfold do_chunk_body at hr
    rw [if_pos h20] at hr
    simp only [e1, e2] at hr
    rw [if_neg (by omega)] at hr
    split at hr
    · exact absurd hr (by simp)
    · rename_i port1 _
      split_ifs at hr with hfin hrc
      all_goals
        simp only [Option.some.injEq] at hr
        rw [← hr]
        simp

/-! ### The for_each of the local broker -/

theorem next_node_append (kept rest : List ConnId) (c : ConnId) (h : c ∉ kept) :
    next_node (kept ++ c :: rest) c = rest.head? := by
  induction kept with
  | nil => simp [next_node]
  | cons k ks ih =>
    have hk : k ≠ c := fun e => h (by rw [e]; exact List.mem_cons_self _ _)
    have hks : c ∉ ks := fun e => h (List.mem_cons_of_mem _ e)
    simp only [List.cons_append, next_node, if_neg hk]
    exact ih hks

theorem erase_append_cons (kept rest : List ConnId) (c : ConnId) (h : c ∉ kept) :
    (kept ++ c :: rest).erase c = kept ++ rest := by
  rw [List.erase_append_right _ h, List.erase_cons_head]

theorem for_all_clients_live_walk {π : Type}
    (func : ConnId → udscs_server → π → Int × π × List ServerOp)
    (hops : ∀ c s p, (func c s p).2.2 = [] ∨ (func c s p).2.2 = [ServerOp.destroy c])
    (hval : ∀ c s p, -16777215 ≤ (func c s p).1 ∧ (func c s p).1 ≤ 16777215)
    (rest : List ConnId) :
    ∀ (kept : List ConnId) (server : udscs_server) (priv : π) (r : Int)
      (calls : List (ConnId × Int)) (rounds : Nat),
      server.connections = kept ++ rest → (kept ++ rest).Nodup → rest.length ≤ rounds →
      -2147483520 + (rest.length : Int) * 16777215 ≤ r →
      r ≤ 2147483520 - (rest.length : Int) * 16777215 →
      ∃ r1 priv1 server1 calls1,
        for_all_clients_live func rounds server rest.head? priv r calls =
          some (r1, priv1, server1, calls ++ calls1) ∧
        calls1.map Prod.fst = rest ∧ r1 = r + (calls1.map Prod.snd).sum ∧
        (∀ c, c ∈ server1.connections → c ∈ server.connections) ∧
        (∀ c, c ∈ server.connections → c ∉ rest → c ∈ server1.connections) := by
  induction rest with
  | nil =>
    intro kept server priv r calls rounds _ _ _ _ _
    refine ⟨r, priv, server, [], ?_, rfl, by simp, fun _ h => h, fun _ h _ => h⟩
    cases rounds <;> simp [for_all_clients_live]
  | cons c rest ih =>
    intro kept server priv r calls rounds hconn hnd hlen hlo hhi
    obtain ⟨n, rfl⟩ : ∃ n, rounds = n + 1 := ⟨rounds - 1, by simp at hlen; omega⟩
    have hcmem : c ∈ server.connections := by rw [hconn]; simp
    have hck : c ∉ kept := by
      intro hm
      exact (List.nodup_append.mp hnd).2.2 hm (List.mem_cons_self _ _) 
    have hnext : next_node server.connections c = rest.head? := by
      rw [hconn]; exact next_node_append kept rest c hck
    obtain ⟨v1, v2⟩ := hval c server priv
    simp only [List.length_cons, Nat.cast_add, Nat.cast_one] at hlo hhi hlen
    have hr1 : ¬ (r + (func c server priv).1 < -2147483648 ∨
        2147483647 < r + (func c server priv).1) := by omega
    simp only [List.head?_cons, for_all_clients_live]
    rw [if_neg (by simpa using hcmem), if_neg hr1, hnext]
    rcases hops c server priv with hop | hop
    · -- the list is left as it is
      have hs1 : (server_run server (func c server priv).2.2).1 = server := by
        rw [hop]; rfl
      rw [hs1]
      obtain ⟨r1, priv1, server1, calls1, e1, e2, e3, e4, e5⟩ :=
        ih (kept ++ [c]) server (func c server priv).2.1 (r + (func c server priv).1)
          (calls ++ [(c, (func c server priv).1)]) n
          (by rw [hconn]; simp) (by simpa using hnd) (by omega) (by omega) (by omega)
      refine ⟨r1, priv1, server1, (c, (func c server priv).1) :: calls1, ?_, ?_, ?_, e4, ?_⟩
      · rw [e1]; simp
      · simp [e2]
      · rw [e3]; simp; ring
      · intro x hx hxr
        exact e5 x hx (fun h => hxr (List.mem_cons_of_mem _ h))
    · -- the connection is removed from the list
      have hs1 : (server_run server (func c server priv).2.2).1 =
          { server with connections := kept ++ rest } := by
        rw [hop]
        simp only [server_run, server_step, udscs_server_destroy_connection, hconn]
        rw [erase_append_cons kept rest c hck]
      rw [hs1]
      have hnd2 : (kept ++ rest).Nodup := by
        have := hnd
        rw [List.nodup_append] at this ⊢
        refine ⟨this.1, (List.nodup_cons.mp this.2.1).2, ?_⟩
        intro a ha hb
        exact this.2.2 ha (List.mem_cons_of_mem _ hb)
      obtain ⟨r1, priv1, server1, calls1, e1, e2, e3, e4, e5⟩ :=
        ih kept { server with connections := kept ++ rest } (func c server priv).2.1
          (r + (func c server priv).1) (calls ++ [(c, (func c server priv).1)]) n
          rfl hnd2 (by omega) (by omega) (by omega)
      refine ⟨r1, priv1, server1, (c, (func c server priv).1) :: calls1, ?_, ?_, ?_, ?_, ?_⟩
      · rw [e1]; simp
      · simp [e2]
      · rw [e3]; simp; ring
      · intro x hx
        have := e4 x hx
        simp only at this
        rw [hconn]
        rcases List.mem_append.mp this with h | h
        · exact List.mem_append_left _ h
        · exact List.mem_append_right _ (List.mem_cons_of_mem _ h)
      · intro x hx hxr
        apply e5 x
        · simp only
          rw [hconn] at hx
          rcases List.mem_append.mp hx with h | h
          · exact List.mem_append_left _ h
          · rcases List.mem_cons.mp h with h | h
            · exact absurd (by rw [h]; exact List.mem_cons_self _ _) hxr
            · exact List.mem_append_right _ h
        · exact fun h => hxr (List.mem_cons_of_mem _ h)

/-- A `func` that leaves the server alone: the walk over the live list gives the sum and
the `priv` of the walk over the list as a value (`for_all_clients_loop`). -/
theorem for_all_clients_live_pure {π : Type} (func : ConnId → π → Int × π)
    (hval : ∀ c p, -16777215 ≤ (func c p).1 ∧ (func c p).1 ≤ 16777215)
    (rest : List ConnId) :
    ∀ (kept : List ConnId) (server : udscs_server) (priv : π) (r : Int)
      (calls : List (ConnId × Int)) (visited : List ConnId) (rounds : Nat),
      server.connections = kept ++ rest → (kept ++ rest).Nodup → rest.length ≤ rounds →
      -2147483520 + (rest.length : Int) * 16777215 ≤ r →
      r ≤ 2147483520 - (rest.length : Int) * 16777215 →
      ∃ calls1,
        for_all_clients_live (fun c _ p => ((func c p).1, (func c p).2, [])) rounds server
            rest.head? priv r calls =
          some ((for_all_clients_loop func rest priv r visited).1,
            (for_all_clients_loop func rest priv r visited).2.1, server, calls1) := by
  induction rest with
  | nil =>
    intro kept server priv r calls visited rounds _ _ _ _ _
    refine ⟨calls, ?_⟩
    cases rounds <;> simp [for_all_clients_live, for_all_clients_loop]
  | cons c rest ih =>
    intro kept server priv r calls visited rounds hconn hnd hlen hlo hhi
    obtain ⟨n, rfl⟩ : ∃ n, rounds = n + 1 := ⟨rounds - 1, by simp at hlen; omega⟩
    have hcmem : c ∈ server.connections := by rw [hconn]; simp
    have hck : c ∉ kept := by
      intro hm
      exact (List.nodup_append.mp hnd).2.2 hm (List.mem_cons_self _ _)
    have hnext : next_node server.connections c = rest.head? := by
      rw [hconn]; exact next_node_append kept rest c hck
    obtain ⟨v1, v2⟩ := hval c priv
    simp only [List.length_cons, Nat.cast_add, Nat.cast_one] at hlo hhi hlen
    have hr1 : ¬ (r + (func c priv).1 < -2147483648 ∨ 2147483647 < r + (func c priv).1) := by
      omega
    simp only [List.head?_cons, for_all_clients_live, for_all_clients_loop]
    rw [if_neg (by simpa using hcmem), if_neg hr1, hnext]
    have hs1 : (server_run server []).1 = server := rfl
    rw [hs1]
    exact ih (kept ++ [c]) server (func c priv).2 (r + (func c priv).1)
      (calls ++ [(c, (func c priv).1)]) (visited ++ [c]) n
      (by rw [hconn]; simp) (by simpa using hnd) (by omega) (by omega) (by omega)

/-- C16. The for_each of the local broker: with a `NULL` server
`udscs_server_for_all_clients` calls nothing and returns 0; otherwise, also when calls to
`func` remove the connection they are called on from the server's list, it calls `func`
on the tracked connections in list order, exactly once on each, and returns the sum of
the values `func` returned (0 without connections); no connection is added and the
connections that `func` is never called on again are the tracked ones. The connections
are distinct objects, at most 128 are tracked, and the values are small enough for the
`int` sum (below `2^24` in absolute value). -/
theorem for_all_clients_visits_all {π : Type}
    (func : ConnId → udscs_server → π → Int × π × List ServerOp) (srv : udscs_server)
    (priv : π) (rounds : Nat)
    (hops : ∀ c s p, (func c s p).2.2 = [] ∨ (func c s p).2.2 = [ServerOp.destroy c])
    (hval : ∀ c s p, -16777215 ≤ (func c s p).1 ∧ (func c s p).1 ≤ 16777215)
    (hnd : srv.connections.Nodup) (hlen : srv.connections.length ≤ 128)
    (hrounds : srv.connections.length ≤ rounds) :
    udscs_server_for_all_clients_live rounds none func priv = some (0, priv, none, []) ∧
    ∃ r priv1 srv1 calls,
      udscs_server_for_all_clients_live rounds (some srv) func priv =
        some (r, priv1, some srv1, calls) ∧
      calls.map Prod.fst = srv.connections ∧
      (∀ c ∈ srv.connections, (calls.map Prod.fst).count c = 1) ∧
      (∀ c, c ∉ srv.connections → (calls.map Prod.fst).count c = 0) ∧
      r = (calls.map Prod.snd).sum ∧
      (srv.connections = [] → r = 0) ∧
      (∀ c ∈ srv1.connections, c ∈ srv.connections) := by
  refine ⟨rfl, ?_⟩
  have hl : ((srv.connections.length : Nat) : Int) ≤ 128 := by exact_mod_cast hlen
  obtain ⟨r1, priv1, server1, calls1, e1, e2, e3, e4, _⟩ :=
    for_all_clients_live_walk func hops hval srv.connections [] srv priv 0 [] rounds
      (by simp) (by simpa using hnd) hrounds (by omega) (by omega)
  refine ⟨r1, priv1, server1, calls1, ?_, e2, ?_, ?_, ?_, ?_, e4⟩
  · unfold udscs_server_for_all_clients_live
    simp only [e1, List.nil_append, Option.map_some']
  · intro c hc
    rw [e2]
    exact List.count_eq_one_of_mem hnd hc
  · intro c hc
    rw [e2]
    exact List.count_eq_zero_of_not_mem hc
  · rw [e3]; simp
  · intro hnil
    rw [hnil] at e2
    have : calls1 = [] := List.map_eq_nil_iff.mp e2
    rw [e3, this]; simp

/-- C16 at a concrete server: connections 3, 2, 1; `func` returns 5 on connection 2, which
it destroys, and 1 on the others. All three are visited once, the sum is 7. -/
theorem for_all_clients_visits_all_witness :
    ((∀ (c : ConnId) (_ : udscs_server) (p : Unit),
        ((if c = 2 then (5 : Int) else 1, p,
            if c = 2 then [ServerOp.destroy c] else []) : Int × Unit × List ServerOp).2.2 = [] ∨
          ((if c = 2 then (5 : Int) else 1, p,
            if c = 2 then [ServerOp.destroy c] else []) : Int × Unit × List ServerOp).2.2 =
            [ServerOp.destroy c]) ∧
      ([3, 2, 1] : List ConnId).Nodup ∧ ([3, 2, 1] : List ConnId).length ≤ 128 ∧
      ([3, 2, 1] : List ConnId).length ≤ 3) ∧
    udscs_server_for_all_clients_live 3 (some ⟨[3, 2, 1], true⟩)
        (fun c _ (p : Unit) =>
          (if c = 2 then (5 : Int) else 1, p, if c = 2 then [ServerOp.destroy c] else []))
        () =
      some (7, (), some ⟨[3, 1], true⟩, [(3, 1), (2, 5), (1, 1)]) ∧
    ∃ r priv1 srv1 calls,
      udscs_server_for_all_clients_live 3 (some ⟨[3, 2, 1], true⟩)
          (fun c _ (p : Unit) =>
            (if c = 2 then (5 : Int) else 1, p, if c = 2 then [ServerOp.destroy c] else []))
          () =
        some (r, priv1, some srv1, calls) ∧
      calls.map Prod.fst = [3, 2, 1] ∧
      (∀ c ∈ ([3, 2, 1] : List ConnId), (calls.map Prod.fst).count c = 1) ∧
      (∀ c, c ∉ ([3, 2, 1] : List ConnId) → (calls.map Prod.fst).count c = 0) ∧
      r = (calls.map Prod.snd).sum ∧
      (([3, 2, 1] : List ConnId) = [] → r = 0) ∧
      (∀ c ∈ srv1.connections, c ∈ ([3, 2, 1] : List ConnId)) :=
  ⟨⟨fun c _ _ => by by_cases h : c = 2 <;> simp [h], by decide, by decide, by decide⟩,
    by decide,
    (for_all_clients_visits_all
      (fun c _ (p : Unit) =>
        (if c = 2 then (5 : Int) else 1, p, if c = 2 then [ServerOp.destroy c] else []))
      ⟨[3, 2, 1], true⟩ () 3
      (fun c _ _ => by by_cases h : c = 2 <;> simp [h])
      (fun c _ _ => by by_cases h : c = 2 <;> simp [h])
      (by decide) (by decide) (by decide)).2⟩

/-! ### Agent clipboard messages -/

/-- C11. Clipboard messages from a connection that is not the active one are rejected:
`do_agent_clipboard` leaves the daemon's state as it was, so no selection's
guest-ownership flag or serial counter changes, writes nothing to the host channel, and
its only possible call is the empty `CLIPBOARD_DATA` answer to the sender of a request. -/
theorem agent_clipboard_non_active_rejected (P : Protocol) (code : VDAGENTD → Nat)
    (d : Daemon) (conn : ConnId) (header : udscs_message_header) (data : Option (List Nat))
    (hna : d.active_session_conn ≠ some conn) :
    (do_agent_clipboard P code d conn header data).1 = d ∧
    (∀ sel, (do_agent_clipboard P code d conn header data).1.agent_owns_clipboard sel =
      d.agent_owns_clipboard sel) ∧
    (∀ sel, (do_agent_clipboard P code d conn header data).1.clipboard_serial sel =
      d.clipboard_serial sel) ∧
    (∀ o ∈ (do_agent_clipboard P code d conn header data).2, o.is_host_write = false) ∧
    (do_agent_clipboard P code d conn header data).2 =
      (if header.type = code VDAGENTD.CLIPBOARD_REQUEST then
        [Out.udscs_write conn VDAGENTD.CLIPBOARD_DATA (header.arg1 % 256)
          P.VD_AGENT_CLIPBOARD_NONE []]
      else []) := by
  have h : do_agent_clipboard P code d conn header data =
      (d, if header.type = code VDAGENTD.CLIPBOARD_REQUEST then
        [Out.udscs_write conn VDAGENTD.CLIPBOARD_DATA (header.arg1 % 256)
          P.VD_AGENT_CLIPBOARD_NONE []]
      else []) := by
    unfold do_agent_clipboard
    by_cases hcap : has_capability P d P.VD_AGENT_CAP_CLIPBOARD_BY_DEMAND = false
    · simp only [hcap, if_true]
    · rw [if_neg hcap, if_pos hna]
  rw [h]
  refine ⟨rfl, fun _ => rfl, fun _ => rfl, ?_, rfl⟩
  intro o ho
  simp only at ho
  split_ifs at ho
  · rw [List.mem_singleton] at ho
    rw [ho]; rfl
  · exact absurd ho (List.not_mem_nil _)

/-- C11 at a concrete message: connection 2, which is not the active connection 1, sends a
grab for selection 0 and then a request. -/
theorem agent_clipboard_non_active_rejected_witness :
    daemon_by_demand.active_session_conn ≠ some 2 ∧
    do_agent_clipboard spice_protocol vdagentd_proto daemon_by_demand 2 ⟨2, 0, 0, 4⟩
        (some [1, 0, 0, 0]) = (daemon_by_demand, []) ∧
    (do_agent_clipboard spice_protocol vdagentd_proto daemon_by_demand 2 ⟨3, 0, 1, 0⟩
        none).1 = daemon_by_demand ∧
    (do_agent_clipboard spice_protocol vdagentd_proto daemon_by_demand 2 ⟨3, 0, 1, 0⟩
        none).2 = [Out.udscs_write 2 VDAGENTD.CLIPBOARD_DATA 0 0 []] :=
  ⟨by decide,
    Prod.ext
      (agent_clipboard_non_active_rejected spice_protocol vdagentd_proto daemon_by_demand 2
        ⟨2, 0, 0, 4⟩ (some [1, 0, 0, 0]) (by decide)).1
      (agent_clipboard_non_active_rejected spice_protocol vdagentd_proto daemon_by_demand 2
        ⟨2, 0, 0, 4⟩ (some [1, 0, 0, 0]) (by decide)).2.2.2.2,
    (agent_clipboard_non_active_rejected spice_protocol vdagentd_proto daemon_by_demand 2
      ⟨3, 0, 1, 0⟩ none (by decide)).1,
    (agent_clipboard_non_active_rejected spice_protocol vdagentd_proto daemon_by_demand 2
      ⟨3, 0, 1, 0⟩ none (by decide)).2.2.2.2⟩

/-! ### Release of the guest's clipboards -/

theorem release_clipboards_range (P : Protocol) (d : Daemon) (n : Nat) :
    ((List.range n).foldl (release_clipboard P) (d, [])).1.agent_owns_clipboard =
        (fun s => if s < n then false else d.agent_owns_clipboard s) ∧
      ((List.range n).foldl (release_clipboard P) (d, [])).1.virtio_port = d.virtio_port ∧
      ((List.range n).foldl (release_clipboard P) (d, [])).1.clipboard_serial =
        d.clipboard_serial ∧
      ((List.range n).foldl (release_clipboard P) (d, [])).2 =
        ((List.range n).filter (fun s => d.agent_owns_clipboard s && d.virtio_port)).map
          (release_message P) := by
  induction n with
  | zero => exact ⟨by funext s; simp, rfl, rfl, rfl⟩
  | succ n ih =>
    obtain ⟨i1, i2, i3, i4⟩ := ih
    rw [List.range_succ, List.foldl_append, List.foldl_cons, List.foldl_nil]
    refine ⟨?_, ?_, ?_, ?_⟩
    · simp only [release_clipboard, i1]
      funext s
      by_cases hs : s = n
      · subst hs; simp
      · rw [Function.update_noteq hs]
        by_cases h2 : s < n
        · simp [h2, Nat.lt_succ_of_lt h2]
        · have : ¬ s < n + 1 := by omega
          simp [h2, this]
    · simp only [release_clipboard, i2]
    · simp only [release_clipboard, i3]
    · simp only [release_clipboard, i1, i2, i4, List.filter_append, List.map_append]
      congr 1
      by_cases ho : d.agent_owns_clipboard n = true ∧ d.virtio_port = true
      · simp [ho.1, ho.2, release_message]
      · rw [if_neg (by simpa using ho)]
        have : (d.agent_owns_clipboard n && d.virtio_port) = false := by
          cases h1 : d.agent_owns_clipboard n <;> cases h2 : d.virtio_port <;> simp_all
        simp [List.filter_cons, this]

theorem check_xorg_resolution_clipboard (P : Protocol) (env : Env) (d : Daemon) :
    (check_xorg_resolution P env d).1.agent_owns_clipboard = d.agent_owns_clipboard ∧
      (check_xorg_resolution P env d).1.clipboard_serial = d.clipboard_serial ∧
      ∀ sel, release_message P sel ∉ (check_xorg_resolution P env d).2 := by
  unfold check_xorg_resolution vdagentd_quit send_capabilities release_message
  simp only
  split_ifs <;> refine ⟨rfl, rfl, fun sel => ?_⟩ <;>
    simp [VD_AGENT_ANNOUNCE_CAPABILITIES, VD_AGENT_CLIPBOARD_RELEASE]

theorem count_session_connections_clipboard (env : Env) (d d2 : Daemon)
    (new_conn nc : Option ConnId)
    (h : count_session_connections env d new_conn = some (d2, nc)) :
    d2.agent_owns_clipboard = d.agent_owns_clipboard ∧ d2.virtio_port = d.virtio_port ∧
      d2.clipboard_serial = d.clipboard_serial := by
  unfold count_session_connections at h
  by_cases hs : d.session_info = true
  · rw [if_pos hs] at h
    simp only at h
    split at h
    · exact absurd h (by simp)
    · simp only [Option.some.injEq, Prod.mk.injEq] at h
      rw [← h.1]
      unfold ask_active_session
      split_ifs <;> exact ⟨rfl, rfl, rfl⟩
  · rw [if_neg hs] at h
    split_ifs at h
    all_goals simp only [Option.some.injEq, Prod.mk.injEq] at h
    all_goals rw [← h.1]
    all_goals exact ⟨rfl, rfl, rfl⟩

theorem release_message_injective (P : Protocol) : Function.Injective (release_message P) := by
  intro a b h
  simp only [release_message, Out.virtio_port_write.injEq, List.cons.injEq, and_true,
    true_and] at h
  exact h

theorem release_clipboards_count (P : Protocol) (d : Daemon) (sel : Nat) :
    (release_clipboards P d).2.count (release_message P sel) =
      if sel < P.VD_AGENT_CLIPBOARD_SELECTION_SECONDARY ∧ d.agent_owns_clipboard sel = true ∧
          d.virtio_port = true then 1 else 0 := by
  unfold release_clipboards
  rw [(release_clipboards_range P d _).2.2.2]
  have hnd : (((List.range P.VD_AGENT_CLIPBOARD_SELECTION_SECONDARY).filter
      (fun s => d.agent_owns_clipboard s && d.virtio_port)).map (release_message P)).Nodup :=
    ((List.nodup_range _).filter _).map (release_message_injective P)
  by_cases hc : sel < P.VD_AGENT_CLIPBOARD_SELECTION_SECONDARY ∧
      d.agent_owns_clipboard sel = true ∧ d.virtio_port = true
  · rw [if_pos hc]
    apply List.count_eq_one_of_mem hnd
    apply List.mem_map_of_mem
    rw [List.mem_filter, List.mem_range]
    exact ⟨hc.1, by simp [hc.2.1, hc.2.2]⟩
  · rw [if_neg hc]
    apply List.count_eq_zero_of_not_mem
    intro hm
    rw [List.mem_map] at hm
    obtain ⟨s, hs, he⟩ := hm
    have := release_message_injective P he
    subst this
    rw [List.mem_filter, List.mem_range] at hs
    apply hc
    refine ⟨hs.1, ?_⟩
    simpa using hs.2

/-- C12 (amended). Guest clipboard release on active-connection change: whenever
`update_active_session_connection` changes the active connection, afterwards no selection
below `VD_AGENT_CLIPBOARD_SELECTION_SECONDARY` is recorded as owned by the guest, the
selections from `SECONDARY` on are recorded as before, and for every selection below
`SECONDARY` that was guest-owned before the change exactly one `CLIPBOARD_RELEASE` message
for it has been written to the host if the host channel was open when the change began;
with the host channel closed no release message is written, and for a selection from
`SECONDARY` on none is written in any case. -/
theorem clipboards_released_on_change (P : Protocol) (env : Env) (d d' : Daemon)
    (new_conn : Option ConnId) (out : List Out)
    (hsec : P.VD_AGENT_CLIPBOARD_SELECTION_SECONDARY ≤ 255)
    (h : update_active_session_connection P env d new_conn = some (d', out))
    (hchg : d'.active_session_conn ≠ d.active_session_conn) :
    (∀ sel, sel < P.VD_AGENT_CLIPBOARD_SELECTION_SECONDARY →
      d'.agent_owns_clipboard sel = false) ∧
    (∀ sel, P.VD_AGENT_CLIPBOARD_SELECTION_SECONDARY ≤ sel →
      d'.agent_owns_clipboard sel = d.agent_owns_clipboard sel) ∧
    (∀ sel, sel < P.VD_AGENT_CLIPBOARD_SELECTION_SECONDARY →
      d.agent_owns_clipboard sel = true → d.virtio_port = true →
      out.count (release_message P sel) = 1) ∧
    (d.virtio_port = false → ∀ sel, release_message P sel ∉ out) ∧
    (∀ sel, P.VD_AGENT_CLIPBOARD_SELECTION_SECONDARY ≤ sel →
      release_message P sel ∉ out ∧ out.count (release_message P sel) = 0) := by
  have _ := hsec
  unfold update_active_session_connection at h
  cases hcount : count_session_connections env d new_conn with
  | none => rw [hcount] at h; exact absurd h (by simp)
  | some p =>
    obtain ⟨d2, nc⟩ := p
    rw [hcount] at h
    simp only [Option.some.injEq] at h
    obtain ⟨f1, f2, _⟩ := count_session_connections_clipboard env d d2 new_conn nc hcount
    obtain ⟨_, _, f3, _⟩ := count_session_connections_frame env d d2 new_conn nc hcount
    unfold switch_active_session at h
    simp only at h
    by_cases heq : (if nc.isSome = true ∧ d2.session_count ≠ 1 then none else nc) =
        d2.active_session_conn
    · rw [if_pos heq] at h
      have : d' = d2 := (congrArg Prod.fst h).symm
      rw [this, f3] at hchg
      exact absurd rfl hchg
    · rw [if_neg heq] at h
      have hd : d' = _ := (congrArg Prod.fst h).symm
      have ho : out = _ := (congrArg Prod.snd h).symm
      simp only at hd ho
      have hflags : d'.agent_owns_clipboard = fun s =>
          if s < P.VD_AGENT_CLIPBOARD_SELECTION_SECONDARY then false
          else d.agent_owns_clipboard s := by
        rw [hd, (check_xorg_resolution_clipboard _ _ _).1]
        unfold release_clipboards
        rw [(release_clipboards_range P _ _).1]
        simp only [f1]
      have hcnt : ∀ sel, out.count (release_message P sel) =
          if sel < P.VD_AGENT_CLIPBOARD_SELECTION_SECONDARY ∧
            d.agent_owns_clipboard sel = true ∧ d.virtio_port = true then 1 else 0 := by
        intro sel
        rw [ho]
        simp only [List.count_append]
        rw [List.count_eq_zero_of_not_mem
          ((check_xorg_resolution_clipboard _ _ _).2.2 sel), release_clipboards_count]
        simp only [f1, f2]
        have z1 : ∀ l : List Out, (∀ o ∈ l, ∃ c t a b x, o = Out.udscs_write c t a b x) →
            l.count (release_message P sel) = 0 := by
          intro l hl
          apply List.count_eq_zero_of_not_mem
          intro hm
          obtain ⟨c, t, a, b, x, hx⟩ := hl _ hm
          simp [release_message] at hx
        rw [z1, z1]
        · simp
        · intro o ho
          split at ho
          · rw [List.mem_singleton] at ho
            exact ⟨_, _, _, _, _, ho⟩
          · exact absurd ho (List.not_mem_nil _)
        · intro o ho
          split at ho
          · split_ifs at ho
            · rw [List.mem_singleton] at ho
              exact ⟨_, _, _, _, _, ho⟩
            · exact absurd ho (List.not_mem_nil _)
          · exact absurd ho (List.not_mem_nil _)
      refine ⟨?_, ?_, ?_, ?_, ?_⟩
      · intro sel hs
        rw [hflags]; simp [hs]
      · intro sel hs
        rw [hflags]
        have : ¬ sel < P.VD_AGENT_CLIPBOARD_SELECTION_SECONDARY := by omega
        simp [this]
      · intro sel hs hown hport
        rw [hcnt, if_pos ⟨hs, hown, hport⟩]
      · intro hport sel hm
        have := hcnt sel
        rw [if_neg (by simp [hport])] at this
        exact (List.count_eq_zero.mp this) hm
      · intro sel hs
        have := hcnt sel
        rw [if_neg (by intro hx; omega)] at this
        exact ⟨List.count_eq_zero.mp this, this⟩

/-- C12 (counterexample). The active agent grabs selection 2 and is recorded as its owner;
then the active session changes to "seat1", so `update_active_session_connection` changes
the active connection to none: selection 2 is still recorded as owned by the guest and no
release message for it has been written. And when the change happens with the host
channel closed, no release message is written for selection 0 either, which the guest
owned. -/
theorem clipboards_released_on_change_counterexample :
    daemon_grabbed_secondary.agent_owns_clipboard 2 = true ∧
    daemon_grabbed_secondary.active_session_conn = some 1 ∧
    (update_active_session_connection spice_protocol env_ok
        { daemon_grabbed_secondary with active_session := some "seat1" } none).map
        (fun r => (r.1.active_session_conn, r.1.agent_owns_clipboard 2,
          r.2.count (release_message spice_protocol 2))) =
      some (none, true, 0) ∧
    daemon_by_demand.agent_owns_clipboard 0 = true ∧
    (update_active_session_connection spice_protocol env_ok
        { daemon_by_demand with virtio_port := false, active_session := some "seat1" }
        none).map
        (fun r => (r.1.active_session_conn, r.2.count (release_message spice_protocol 0))) =
      some (none, 0) := by
  refine ⟨by decide, by decide, by decide, by decide, by decide⟩

/-- C12 (amended) at a concrete change: the active session becomes "seat1" while the
guest owns selection 0 and the host channel is open; the active connection 1 is dropped,
selection 0 is released and one release message for it is written, none for selection 2. -/
theorem clipboards_released_on_change_witness :
    (spice_protocol.VD_AGENT_CLIPBOARD_SELECTION_SECONDARY ≤ 255 ∧
      update_active_session_connection spice_protocol env_ok daemon_seat1 none =
        some (daemon_seat1_after.1, daemon_seat1_after.2) ∧
      daemon_seat1_after.1.active_session_conn ≠ daemon_seat1.active_session_conn ∧
      0 < spice_protocol.VD_AGENT_CLIPBOARD_SELECTION_SECONDARY ∧
      daemon_seat1.agent_owns_clipboard 0 = true ∧ daemon_seat1.virtio_port = true) ∧
    daemon_seat1_after.1.agent_owns_clipboard 0 = false ∧
    daemon_seat1_after.2.count (release_message spice_protocol 0) = 1 ∧
    daemon_seat1_after.2.count (release_message spice_protocol 2) = 0 :=
  ⟨⟨by decide, rfl, by decide, by decide, rfl, rfl⟩,
    (clipboards_released_on_change spice_protocol env_ok daemon_seat1 daemon_seat1_after.1
      none daemon_seat1_after.2 (by decide) rfl (by decide)).1 0 (by decide),
    (clipboards_released_on_change spice_protocol env_ok daemon_seat1 daemon_seat1_after.1
      none daemon_seat1_after.2 (by decide) rfl (by decide)).2.2.1 0 (by decide) rfl rfl,
    ((clipboards_released_on_change spice_protocol env_ok daemon_seat1 daemon_seat1_after.1
      none daemon_seat1_after.2 (by decide) rfl (by decide)).2.2.2.2 2 (by decide)).2⟩

/-! ### File-transfer status and owner disconnect -/

theorem send_file_xfer_status_cancelled (P : Protocol) (d : Daemon) (id : Nat)
    (hsz : 8 ≤ P.sizeof_VDAgentFileXferStatusMessage)
    (hcancel : P.VD_AGENT_FILE_XFER_STATUS_CANCELLED ≤ P.VD_AGENT_FILE_XFER_STATUS_SUCCESS) :
    send_file_xfer_status P d true id P.VD_AGENT_FILE_XFER_STATUS_CANCELLED none 0 =
      [cancelled_status P id] := by
  unfold send_file_xfer_status cancelled_status
  have hno : ¬ (P.VD_AGENT_FILE_XFER_STATUS_CANCELLED > P.VD_AGENT_FILE_XFER_STATUS_SUCCESS ∧
      has_capability P d P.VD_AGENT_CAP_FILE_XFER_DETAILED_ERRORS = false) := by
    intro h; omega
  simp only [hno, if_false, Nat.add_zero, if_true]
  have hrep : List.replicate P.sizeof_VDAgentFileXferStatusMessage 0 =
      ([] : List Nat) ++ List.replicate 8 0 ++
        List.replicate (P.sizeof_VDAgentFileXferStatusMessage - 8) 0 := by
    rw [List.nil_append, ← List.replicate_add]; congr 1; omega
  have hl : (to_le 4 id ++ to_le 4 P.VD_AGENT_FILE_XFER_STATUS_CANCELLED).length =
      (List.replicate 8 0).length := by simp [length_to_le]
  have hm := memcpy_hole [] (List.replicate 8 0)
    (List.replicate (P.sizeof_VDAgentFileXferStatusMessage - 8) 0) _ hl
  simp only [List.length_nil, List.length_replicate, List.nil_append] at hm
  rw [hrep, List.nil_append, hm]

theorem release_clipboards_no_status (P : Protocol) (d : Daemon) :
    ∀ o ∈ (release_clipboards P d).2, o.is_xfer_status = false := by
  unfold release_clipboards
  rw [(release_clipboards_range P d _).2.2.2]
  intro o ho
  rw [List.mem_map] at ho
  obtain ⟨s, _, hs⟩ := ho
  rw [← hs]
  rfl

theorem check_xorg_resolution_no_status (P : Protocol) (env : Env) (d : Daemon) :
    ∀ o ∈ (check_xorg_resolution P env d).2, o.is_xfer_status = false := by
  have hall : (check_xorg_resolution P env d).2.all (fun o => !o.is_xfer_status) = true := by
    unfold check_xorg_resolution vdagentd_quit send_capabilities
    simp only
    split_ifs <;> rfl
  intro o ho
  have := List.all_eq_true.mp hall o ho
  simpa using this

theorem switch_active_session_no_status (P : Protocol) (env : Env) (d : Daemon)
    (nc : Option ConnId) :
    ∀ o ∈ (switch_active_session P env d nc).2, o.is_xfer_status = false := by
  unfold switch_active_session
  simp only
  by_cases h : (if nc.isSome = true ∧ d.session_count ≠ 1 then none else nc) =
      d.active_session_conn
  · rw [if_pos h]
    intro o ho; exact absurd ho (List.not_mem_nil _)
  · rw [if_neg h]
    intro o ho
    simp only [List.mem_append] at ho
    rcases ho with ((ho | ho) | ho) | ho
    · split at ho
      · split_ifs at ho
        · rw [List.mem_singleton] at ho; rw [ho]; rfl
        · exact absurd ho (List.not_mem_nil _)
      · exact absurd ho (List.not_mem_nil _)
    · split at ho
      · rw [List.mem_singleton] at ho; rw [ho]; rfl
      · exact absurd ho (List.not_mem_nil _)
    · exact release_clipboards_no_status P _ o ho
    · exact check_xorg_resolution_no_status P env _ o ho

theorem filter_eq_nil_of_forall_false {α : Type} (p : α → Bool) (l : List α)
    (h : ∀ o ∈ l, p o = false) : l.filter p = [] := by
  rw [List.filter_eq_nil_iff]
  intro a ha
  rw [h a ha]
  decide

theorem xfers_lookup_filter_other (t : List (Nat × ConnId)) (id : Nat) (c c2 : ConnId)
    (hne : c2 ≠ c) (hl : xfers_lookup t id = some c2) :
    xfers_lookup (t.filter (fun e => e.2 ≠ c)) id = some c2 := by
  unfold xfers_lookup at *
  induction t with
  | nil => simp at hl
  | cons e t ih =>
    obtain ⟨k, v⟩ := e
    by_cases hk : id = k
    · subst hk
      simp only [List.lookup_cons, beq_self_eq_true, Option.some.injEq] at hl
      subst hl
      simp [List.filter_cons, hne, List.lookup_cons]
    · have hb : (id == k) = false := by simpa using hk
      rw [List.lookup_cons, hb] at hl
      by_cases hv : v ≠ c
      · have hp : decide (v ≠ c) = true := decide_eq_true hv
        simp only [List.filter_cons, hp, if_true, List.lookup_cons, hb]
        exact ih hl
      · have hp : decide (v ≠ c) = false := decide_eq_false hv
        simp only [List.filter_cons, hp, Bool.false_eq_true, if_false]
        exact ih hl

theorem xfers_lookup_filter_owner (t : List (Nat × ConnId)) (id : Nat) (c : ConnId)
    (hnd : (t.map Prod.fst).Nodup) (hl : xfers_lookup t id = some c) :
    xfers_lookup (t.filter (fun e => e.2 ≠ c)) id = none := by
  unfold xfers_lookup at *
  induction t with
  | nil => simp at hl
  | cons e t ih =>
    obtain ⟨k, v⟩ := e
    simp only [List.map_cons, List.nodup_cons] at hnd
    by_cases hk : id = k
    · subst hk
      simp only [List.lookup_cons, beq_self_eq_true, Option.some.injEq] at hl
      subst hl
      simp only [List.filter_cons, ne_eq, not_true_eq_false, decide_False,
        Bool.false_eq_true, if_false]
      rw [List.lookup_eq_none_iff]
      intro p hp
      rw [List.mem_filter] at hp
      have : p.1 ≠ id := by
        intro he
        exact hnd.1 (by rw [← he]; exact List.mem_map_of_mem _ hp.1)
      simpa using Ne.symm this
    · have hb : (id == k) = false := by simpa using hk
      rw [List.lookup_cons, hb] at hl
      by_cases hv : v ≠ c
      · have hp : decide (v ≠ c) = true := decide_eq_true hv
        simp only [List.filter_cons, hp, if_true, List.lookup_cons, hb]
        exact ih hnd.2 hl
      · have hp : decide (v ≠ c) = false := decide_eq_false hv
        simp only [List.filter_cons, hp, Bool.false_eq_true, if_false]
        exact ih hnd.2 hl

theorem cancelled_status_inj (P : Protocol) (a b : Nat) (ha : a < 4294967296)
    (hb : b < 4294967296) (h : cancelled_status P a = cancelled_status P b) : a = b := by
  simp only [cancelled_status, Out.virtio_port_write.injEq, true_and, and_true] at h
  have h1 := congrArg (fun l => from_le (l.take 4)) h
  simp only [List.append_assoc] at h1
  rw [List.take_left' (length_to_le 4 a), List.take_left' (length_to_le 4 b),
    from_le_to_le, from_le_to_le] at h1
  norm_num at h1
  rw [Nat.mod_eq_of_lt ha, Nat.mod_eq_of_lt hb] at h1
  exact h1

theorem remove_active_xfers_out (P : Protocol) (d : Daemon) (c : ConnId)
    (hsz : 8 ≤ P.sizeof_VDAgentFileXferStatusMessage)
    (hcancel : P.VD_AGENT_FILE_XFER_STATUS_CANCELLED ≤ P.VD_AGENT_FILE_XFER_STATUS_SUCCESS) :
    (remove_active_xfers P d c).2 =
      if d.virtio_port then
        (d.active_xfers.filter (fun e => e.2 = c)).map (fun e => cancelled_status P e.1)
      else [] := by
  unfold remove_active_xfers
  simp only
  cases hp : d.virtio_port
  · simp only [Bool.false_eq_true, if_false]
    have : ∀ l : List (Nat × ConnId), (l.map (fun e =>
        send_file_xfer_status P d false e.1 P.VD_AGENT_FILE_XFER_STATUS_CANCELLED none
          0)).flatten = [] := by
      intro l
      induction l with
      | nil => rfl
      | cons e l ih =>
        rw [List.map_cons, List.flatten_cons, ih]
        simp [send_file_xfer_status]
    exact this _
  · simp only [if_true]
    have : ∀ l : List (Nat × ConnId), (l.map (fun e =>
        send_file_xfer_status P d true e.1 P.VD_AGENT_FILE_XFER_STATUS_CANCELLED none
          0)).flatten = l.map (fun e => cancelled_status P e.1) := by
      intro l
      induction l with
      | nil => rfl
      | cons e l ih =>
        rw [List.map_cons, List.flatten_cons, ih,
          send_file_xfer_status_cancelled P d e.1 hsz hcancel]
        rfl
    exact this _

theorem mem_of_xfers_lookup (t : List (Nat × ConnId)) (id : Nat) (c : ConnId)
    (h : xfers_lookup t id = some c) : (id, c) ∈ t := by
  unfold xfers_lookup at h
  induction t with
  | nil => simp at h
  | cons e t ih =>
    obtain ⟨k, v⟩ := e
    by_cases hk : id = k
    · subst hk
      simp only [List.lookup_cons, beq_self_eq_true, Option.some.injEq] at h
      subst h
      exact List.mem_cons_self _ _
    · have hb : (id == k) = false := by simpa using hk
      rw [List.lookup_cons, hb] at h
      exact List.mem_cons_of_mem _ (ih h)

/-- C18 (amended). Owner disconnect cancels its tasks: when `agent_disconnect` runs for
connection `c`, every task owned by `c` is removed from the table and every task owned by
another connection stays with the same owner; with the host channel open the
`FILE_XFER_STATUS` messages written to the host are exactly one `CANCELLED` status for the
id of each task of `c`, and with the host channel closed none is written. The ids are
`uint32_t` values, no id occurs twice in the table, and `CANCELLED` is not above `SUCCESS`
in the enumeration of the statuses. -/
theorem owner_disconnect_cancels_tasks (P : Protocol) (env : Env) (d d' : Daemon)
    (c : ConnId) (out : List Out) (hinv : XfersInv d.active_xfers)
    (hkeys : ∀ e ∈ d.active_xfers, e.1 < 4294967296)
    (hsz : 8 ≤ P.sizeof_VDAgentFileXferStatusMessage)
    (hcancel : P.VD_AGENT_FILE_XFER_STATUS_CANCELLED ≤ P.VD_AGENT_FILE_XFER_STATUS_SUCCESS)
    (h : agent_disconnect P env d c = some (d', out)) :
    d'.active_xfers = d.active_xfers.filter (fun e => e.2 ≠ c) ∧
    (∀ id, xfers_lookup d.active_xfers id = some c → xfers_lookup d'.active_xfers id = none) ∧
    (∀ id c2, c2 ≠ c → xfers_lookup d.active_xfers id = some c2 →
      xfers_lookup d'.active_xfers id = some c2) ∧
    (d.virtio_port = true →
      out.filter Out.is_xfer_status =
        (d.active_xfers.filter (fun e => e.2 = c)).map (fun e => cancelled_status P e.1) ∧
      ∀ id, xfers_lookup d.active_xfers id = some c →
        out.count (cancelled_status P id) = 1) ∧
    (d.virtio_port = false → out.filter Out.is_xfer_status = []) := by
  unfold agent_disconnect at h
  simp only at h
  cases hu : update_active_session_connection P env
      (daemon_destroy_connection (remove_active_xfers P d c).1 c).1 none with
  | none => rw [hu] at h; exact absurd h (by simp)
  | some r3 =>
    rw [hu] at h
    simp only [Option.some.injEq, Prod.mk.injEq] at h
    obtain ⟨hd, ho⟩ := h
    have hx := (update_active_session_connection_active_xfers P env _ r3.1 none r3.2 hu).1
    have htab : d'.active_xfers = d.active_xfers.filter (fun e => e.2 ≠ c) := by
      rw [← hd, hx]; rfl
    have hr3 : ∀ o ∈ r3.2, o.is_xfer_status = false := by
      unfold update_active_session_connection at hu
      split at hu
      · exact absurd hu (by simp)
      · simp only [Option.some.injEq] at hu
        rw [← hu]
        exact switch_active_session_no_status P env _ _
    have hfil : out.filter Out.is_xfer_status =
        if d.virtio_port then
          (d.active_xfers.filter (fun e => e.2 = c)).map (fun e => cancelled_status P e.1)
        else [] := by
      rw [← ho, List.filter_append, List.filter_append,
        filter_eq_nil_of_forall_false _ _ hr3, remove_active_xfers_out P d c hsz hcancel]
      have h2 : (daemon_destroy_connection (remove_active_xfers P d c).1 c).2.filter
          Out.is_xfer_status = [] := rfl
      rw [h2, List.append_nil, List.append_nil]
      split_ifs
      · rw [List.filter_eq_self]
        intro o ho
        rw [List.mem_map] at ho
        obtain ⟨e, _, he⟩ := ho
        rw [← he]; rfl
      · rfl
    refine ⟨htab, ?_, ?_, ?_, ?_⟩
    · intro id hl
      rw [htab]
      exact xfers_lookup_filter_owner _ id c hinv.2 hl
    · intro id c2 hne hl
      rw [htab]
      exact xfers_lookup_filter_other _ id c c2 hne hl
    · intro hport
      rw [hport, if_pos rfl] at hfil
      refine ⟨hfil, ?_⟩
      intro id hl
      have hst : (cancelled_status P id).is_xfer_status = true := rfl
      rw [← List.count_filter hst, hfil]
      have hmem : (id, c) ∈ d.active_xfers.filter (fun e => e.2 = c) := by
        rw [List.mem_filter]
        exact ⟨mem_of_xfers_lookup _ _ _ hl, by simp⟩
      have hnd : ((d.active_xfers.filter (fun e => e.2 = c)).map
          (fun e => cancelled_status P e.1)).Nodup := by
        have h1 : ((d.active_xfers.filter (fun e => e.2 = c)).map Prod.fst).Nodup :=
          (hinv.filter _).2
        have h2 : (d.active_xfers.filter (fun e => e.2 = c)).map
            (fun e => cancelled_status P e.1) =
            ((d.active_xfers.filter (fun e => e.2 = c)).map Prod.fst).map
              (cancelled_status P) := by
          rw [List.map_map]; rfl
        rw [h2]
        apply List.Nodup.map_on _ h1
        intro a ha b hb hab
        rw [List.mem_map] at ha hb
        obtain ⟨ea, hea, rfl⟩ := ha
        obtain ⟨eb, heb, rfl⟩ := hb
        exact cancelled_status_inj P _ _ (hkeys _ (List.mem_of_mem_filter hea))
          (hkeys _ (List.mem_of_mem_filter heb)) hab
      exact List.count_eq_one_of_mem hnd (List.mem_map_of_mem _ hmem)
    · intro hport
      rw [hport] at hfil
      exact hfil

/-- C18 (counterexample). Connection 1 owns task 5; the active session changes, which
closes the host channel and leaves the task in the table; then connection 1 disconnects:
the task is removed but nothing at all is written to the host, so no `CANCELLED` status
for id 5 is sent. -/
theorem owner_disconnect_cancels_tasks_counterexample :
    (si_io_channel_cb spice_protocol env_seat1 daemon_one_task).map
        (fun r => (r.1.virtio_port, r.1.active_session_conn, r.1.active_xfers)) =
      some (false, none, [(5, 1)]) ∧
    xfers_lookup daemon_task_orphaned.active_xfers 5 = some 1 ∧
    (agent_disconnect spice_protocol env_seat1 daemon_task_orphaned 1).map
        (fun r => (r.1.active_xfers, r.2.filter Out.is_host_write,
          r.2.count (cancelled_status spice_protocol 5))) =
      some ([], [], 0) := by
  refine ⟨by decide, by decide, by decide⟩

/-- C18 (amended) at a concrete disconnect: connection 1, the owner of task 5, disconnects
while the host channel is open: the task is removed and one `CANCELLED` status for id 5 is
written. -/
theorem owner_disconnect_cancels_tasks_witness :
    (XfersInv daemon_one_task.active_xfers ∧
      (∀ e ∈ daemon_one_task.active_xfers, e.1 < 4294967296) ∧
      8 ≤ spice_protocol.sizeof_VDAgentFileXferStatusMessage ∧
      spice_protocol.VD_AGENT_FILE_XFER_STATUS_CANCELLED ≤
        spice_protocol.VD_AGENT_FILE_XFER_STATUS_SUCCESS ∧
      agent_disconnect spice_protocol env_ok daemon_one_task 1 =
        some (daemon_one_task_disconnected.1, daemon_one_task_disconnected.2) ∧
      daemon_one_task.virtio_port = true ∧
      xfers_lookup daemon_one_task.active_xfers 5 = some 1) ∧
    xfers_lookup daemon_one_task_disconnected.1.active_xfers 5 = none ∧
    daemon_one_task_disconnected.2.count (cancelled_status spice_protocol 5) = 1 :=
  ⟨⟨⟨by decide, by decide⟩, by decide, by decide, by decide, rfl, rfl, by decide⟩,
    (owner_disconnect_cancels_tasks spice_protocol env_ok daemon_one_task
      daemon_one_task_disconnected.1 1 daemon_one_task_disconnected.2
      ⟨by decide, by decide⟩ (by decide) (by decide) (by decide) rfl).2.1 5 (by decide),
    ((owner_disconnect_cancels_tasks spice_protocol env_ok daemon_one_task
      daemon_one_task_disconnected.1 1 daemon_one_task_disconnected.2
      ⟨by decide, by decide⟩ (by decide) (by decide) (by decide) rfl).2.2.2.1 rfl).2 5
      (by decide)⟩

/-! ### Capability negotiation -/

theorem set_capability_length (caps : List Nat) (j : Nat) :
    (set_capability caps j).length = caps.length := by
  unfold set_capability
  exact List.length_modify _ _ _

theorem set_capability_bits (caps : List Nat) (S : List Nat) (j : Nat)
    (h : CapabilityBits caps S) : CapabilityBits (set_capability caps j) (S ++ [j]) := by
  intro i hi
  rw [set_capability_length] at hi
  have hold := h i hi
  rw [List.getD_eq_getElem?_getD] at hold ⊢
  unfold set_capability
  rw [List.getElem?_modify]
  obtain ⟨w, hw⟩ : ∃ w, caps[i / 32]? = some w :=
    ⟨caps[i / 32], List.getElem?_eq_getElem hi⟩
  rw [hw] at hold ⊢
  simp only [Option.map_eq_map, Option.map_some', Option.getD_some] at hold ⊢
  rw [List.mem_append, List.mem_singleton, ← hold]
  by_cases hq : j / 32 = i / 32
  · rw [if_pos hq, Nat.testBit_or, Nat.testBit_two_pow]
    have hiff : (j % 32 = i % 32) ↔ i = j := by omega
    simp only [Bool.or_eq_true, decide_eq_true_eq, hiff]
  · rw [if_neg hq]
    have hne : i ≠ j := by intro e; rw [e] at hq; exact hq rfl
    simp only [hne, or_false]

theorem zero_capability_bits (n : Nat) : CapabilityBits (List.replicate n 0) [] := by
  intro i hi
  rw [List.length_replicate] at hi
  rw [List.getD_eq_getElem?_getD, List.getElem?_replicate, if_pos hi]
  simp

/-- What `send_capabilities` does: one call, the daemon's capability announcement. -/
theorem send_capabilities_announcement (P : Protocol) (request : Nat) :
    ∃ o, send_capabilities P request = [o] ∧ capability_announcement P request o := by
  refine ⟨_, rfl, _, ?_, ?_, rfl⟩
  · simp only [set_capability_length, List.length_replicate]
  · exact set_capability_bits _ _ _ (set_capability_bits _ _ _ (set_capability_bits _ _ _
      (set_capability_bits _ _ _ (set_capability_bits _ _ _ (set_capability_bits _ _ _
      (set_capability_bits _ _ _ (set_capability_bits _ _ _ (set_capability_bits _ _ _
      (set_capability_bits _ _ _ (set_capability_bits _ _ _ (set_capability_bits _ _ _
      (zero_capability_bits _))))))))))))

/-- The announcement of the daemon with the values of `spice/vd_agent.h`: the request word
and the capability word `0x38DE7`. -/
theorem spice_announcement (request : Nat) :
    capability_announcement spice_protocol request
      (Out.virtio_port_write 1 VD_AGENT_ANNOUNCE_CAPABILITIES 0
        (to_le 4 request ++ [231, 141, 3, 0]) 8) := by
  obtain ⟨o, h1, h2⟩ := send_capabilities_announcement spice_protocol request
  have h3 : send_capabilities spice_protocol request =
      [Out.virtio_port_write 1 VD_AGENT_ANNOUNCE_CAPABILITIES 0
        (to_le 4 request ++ [231, 141, 3, 0]) 8] := by
    unfold send_capabilities
    simp only [spice_protocol]
    have : (List.map (to_le 4)
        (set_capability (set_capability (set_capability (set_capability (set_capability
          (set_capability (set_capability (set_capability (set_capability (set_capability
          (set_capability (set_capability (List.replicate (4 / 4) 0) 0) 1) 2) 5) 6) 7) 8)
          10) 11) 15) 16) 17)).flatten = [231, 141, 3, 0] := by decide
    rw [this]
  rw [h3] at h1
  rw [List.cons.injEq] at h1
  rw [h1.1]
  exact h2

/-- C19 (amended). Capability negotiation: on every host capability announcement
`do_client_capabilities` stores the announced capability words verbatim as the new
snapshot, its length being what `VD_AGENT_CAPS_SIZE_FROM_MSG_SIZE` makes of the message
size. When the request flag is set it then empties the file-transfer task table, writes a
`CLIENT_DISCONNECTED` message to every tracked local connection if a client was recorded
as connected (and none otherwise), records a client as connected, sets every selection's
serial counter to 0, and finally sends the daemon's own capability set with request = 0:
one write to the host whose body is the request word 0 and the capability words with
exactly the daemon's capabilities set; these writes are all it does. Without the request
flag it writes nothing and leaves the task table and the serial counters as they were. -/
theorem capability_negotiation (P : Protocol) (d : Daemon) (message_header : VDAgentMessage)
    (data : List Nat) :
    ((do_client_capabilities P d message_header data).1.capabilities_size =
        P.VD_AGENT_CAPS_SIZE_FROM_MSG_SIZE message_header.size ∧
      (do_client_capabilities P d message_header data).1.capabilities =
        (List.range (P.VD_AGENT_CAPS_SIZE_FROM_MSG_SIZE message_header.size).toNat).map
          (fun i => read_le data (P.sizeof_VDAgentAnnounceCapabilities + 4 * i) 4)) ∧
    (read_le data 0 4 ≠ 0 →
      (∃ o, capability_announcement P 0 o ∧
        (do_client_capabilities P d message_header data).2 =
          (if d.client_connected then
            d.server.connections.map
              (fun c => Out.udscs_write c VDAGENTD.CLIENT_DISCONNECTED 0 0 [])
          else []) ++ [o]) ∧
      (do_client_capabilities P d message_header data).1.active_xfers = [] ∧
      (∀ sel, (do_client_capabilities P d message_header data).1.clipboard_serial sel = 0) ∧
      (do_client_capabilities P d message_header data).1.client_connected = true) ∧
    (read_le data 0 4 = 0 →
      (do_client_capabilities P d message_header data).2 = [] ∧
      (do_client_capabilities P d message_header data).1.active_xfers = d.active_xfers ∧
      (do_client_capabilities P d message_header data).1.clipboard_serial =
        d.clipboard_serial ∧
      (do_client_capabilities P d message_header data).1.client_connected =
        d.client_connected) := by
  obtain ⟨o, ho, hann⟩ := send_capabilities_announcement P 0
  refine ⟨?_, ?_, ?_⟩
  · unfold do_client_capabilities do_client_disconnect
    simp only
    split_ifs <;> exact ⟨rfl, rfl⟩
  · intro hreq
    unfold do_client_capabilities do_client_disconnect udscs_server_write_all
    simp only
    rw [if_pos hreq, ho]
    split_ifs <;> exact ⟨⟨o, hann, rfl⟩, rfl, fun _ => rfl, rfl⟩
  · intro hreq
    unfold do_client_capabilities
    simp only
    rw [if_neg (by simpa using hreq)]
    exact ⟨rfl, rfl, rfl, rfl⟩

/-- C19 (counterexample). The first announcement of a client, with the request flag set,
while connection 1 is tracked: no client was recorded as connected, so
`do_client_disconnect` writes no `CLIENT_DISCONNECTED` message; the only write is the
daemon's reply to the host. -/
theorem capability_negotiation_counterexample :
    daemon_no_client.server.connections = [1] ∧
    read_le [1, 0, 0, 0, 96, 0, 2, 0] 0 4 = 1 ∧
    (do_client_capabilities spice_protocol daemon_no_client ⟨1, 6, 0, 8⟩
      [1, 0, 0, 0, 96, 0, 2, 0]).2 =
      [Out.virtio_port_write 1 VD_AGENT_ANNOUNCE_CAPABILITIES 0
        [0, 0, 0, 0, 231, 141, 3, 0] 8] ∧
    Out.udscs_write 1 VDAGENTD.CLIENT_DISCONNECTED 0 0 [] ∉
      (do_client_capabilities spice_protocol daemon_no_client ⟨1, 6, 0, 8⟩
        [1, 0, 0, 0, 96, 0, 2, 0]).2 := by
  refine ⟨by decide, by decide, by decide, by decide⟩

/-- C19 (amended) at a concrete announcement: a client that announces the word 131168
with the request flag set, while a client is recorded as connected and connection 1 is
tracked. The agent is told of the disconnect, then the host is sent the request word 0 and
the capability word `0x38DE7`, the bits 0, 1, 2, 5, 6, 7, 8, 10, 11, 15, 16 and 17. -/
theorem capability_negotiation_witness :
    read_le [1, 0, 0, 0, 96, 0, 2, 0] 0 4 ≠ 0 ∧
    (do_client_capabilities spice_protocol daemon_one_agent ⟨1, 6, 0, 8⟩
      [1, 0, 0, 0, 96, 0, 2, 0]).1.capabilities = [131168] ∧
    (∃ o, capability_announcement spice_protocol 0 o ∧
      (do_client_capabilities spice_protocol daemon_one_agent ⟨1, 6, 0, 8⟩
        [1, 0, 0, 0, 96, 0, 2, 0]).2 =
        [Out.udscs_write 1 VDAGENTD.CLIENT_DISCONNECTED 0 0 []] ++ [o]) ∧
    (do_client_capabilities spice_protocol daemon_one_agent ⟨1, 6, 0, 8⟩
      [1, 0, 0, 0, 96, 0, 2, 0]).2 =
      [Out.udscs_write 1 VDAGENTD.CLIENT_DISCONNECTED 0 0 [],
        Out.virtio_port_write 1 VD_AGENT_ANNOUNCE_CAPABILITIES 0
          [0, 0, 0, 0, 231, 141, 3, 0] 8] ∧
    daemon_capabilities spice_protocol = [0, 1, 2, 5, 6, 7, 8, 10, 11, 15, 16, 17] ∧
    (do_client_capabilities spice_protocol daemon_one_agent ⟨1, 6, 0, 8⟩
      [1, 0, 0, 0, 96, 0, 2, 0]).1.clipboard_serial 0 = 0 :=
  ⟨by decide,
    (capability_negotiation spice_protocol daemon_one_agent ⟨1, 6, 0, 8⟩
      [1, 0, 0, 0, 96, 0, 2, 0]).1.2,
    ((capability_negotiation spice_protocol daemon_one_agent ⟨1, 6, 0, 8⟩
      [1, 0, 0, 0, 96, 0, 2, 0]).2.1 (by decide)).1,
    by decide, rfl,
    ((capability_negotiation spice_protocol daemon_one_agent ⟨1, 6, 0, 8⟩
      [1, 0, 0, 0, 96, 0, 2, 0]).2.1 (by decide)).2.2.1 0⟩

/-! ### Host-channel gating -/

theorem check_xorg_resolution_known (P : Protocol) (env : Env) (d : Daemon)
    (h : resolution_known d) :
    check_xorg_resolution P env d =
      if env.uinput_ok = false then
        ({ d with uinput := env.uinput_ok, retval := some 1 },
          (if d.uinput then [Out.uinput_update_size] else [Out.uinput_create]) ++
            [Out.quit 1])
      else if d.virtio_port = false then
        if env.virtio_port_create_ok = false then
          ({ d with uinput := env.uinput_ok, retval := some 1 },
            (if d.uinput then [Out.uinput_update_size] else [Out.uinput_create]) ++
              [Out.virtio_port_create] ++ [Out.quit 1])
        else
          ({ d with uinput := env.uinput_ok, virtio_port := true },
            (if d.uinput then [Out.uinput_update_size] else [Out.uinput_create]) ++
              [Out.virtio_port_create] ++ send_capabilities P 1)
      else
        ({ d with uinput := env.uinput_ok },
          if d.uinput then [Out.uinput_update_size] else [Out.uinput_create]) := by
  obtain ⟨c, ad, hc, ha, hs⟩ := h
  unfold check_xorg_resolution vdagentd_quit
  simp only [hc, ha, hs, if_true]

theorem check_xorg_resolution_unknown (P : Protocol) (env : Env) (d : Daemon)
    (h : ¬ resolution_known d) :
    check_xorg_resolution P env d =
      if (if d.static_uinput = true then d else { d with uinput := false }).virtio_port =
          true then
        if (if d.static_uinput = true then d else { d with uinput := false }).only_once =
            true then
          ({ (if d.static_uinput = true then d else { d with uinput := false }) with
              retval := some 0 },
            (if d.static_uinput = true then [] else [Out.uinput_destroy]) ++ [Out.quit 0])
        else
          ({ (if d.static_uinput = true then d else { d with uinput := false }) with
              virtio_port := false },
            (if d.static_uinput = true then [] else [Out.uinput_destroy]) ++
              [Out.virtio_port_flush, Out.virtio_port_destroy])
      else
        (if d.static_uinput = true then d else { d with uinput := false },
          if d.static_uinput = true then [] else [Out.uinput_destroy]) := by
  unfold resolution_known at h
  unfold check_xorg_resolution vdagentd_quit
  cases hc : d.active_session_conn with
  | none => simp only [Bool.false_eq_true, if_false]
  | some c =>
    cases ha : d.agent_datas c with
    | none => simp only [ha, Bool.false_eq_true, if_false]
    | some ad =>
      cases hs : ad.screen_info with
      | none => simp only [ha, hs, Option.isSome_none, Bool.false_eq_true, if_false]
      | some si => exact absurd ⟨c, ad, hc, ha, by rw [hs]; rfl⟩ h

/-- C20. Host-channel gating: whenever `check_xorg_resolution` returns without having
requested the daemon to quit, the host channel is open afterwards if and only if there is
an active connection that has reported a resolution; when it opens the channel, the
opening is followed at once by the daemon's capability announcement with request = 1 (one
write to the host whose body is the request word 1 and the capability words with exactly
the daemon's capabilities set), which ends its calls; and when it closes the channel, its
last two calls are the flush of the write queue and then the destruction of the channel. -/
theorem host_channel_gating (P : Protocol) (env : Env) (d : Daemon) :
    ((∀ code, Out.quit code ∉ (check_xorg_resolution P env d).2) →
      ((check_xorg_resolution P env d).1.virtio_port = true ↔ resolution_known d)) ∧
    (d.virtio_port = false → (check_xorg_resolution P env d).1.virtio_port = true →
      ∃ pre o, capability_announcement P 1 o ∧
        (check_xorg_resolution P env d).2 = pre ++ [Out.virtio_port_create, o]) ∧
    (d.virtio_port = true → (check_xorg_resolution P env d).1.virtio_port = false →
      ∃ pre, (check_xorg_resolution P env d).2 =
        pre ++ [Out.virtio_port_flush, Out.virtio_port_destroy]) := by
  obtain ⟨o, ho, hann⟩ := send_capabilities_announcement P 1
  by_cases hknown : resolution_known d
  · rw [check_xorg_resolution_known P env d hknown]
    have hres := hknown
    by_cases hu : env.uinput_ok = false
    · rw [if_pos hu]
      refine ⟨fun hq => absurd (List.mem_append_right _ (List.mem_singleton.mpr rfl)) (hq 1),
        ?_, ?_⟩
      · intro h1 h2; simp only at h2; rw [h1] at h2; exact absurd h2 (by simp)
      · intro h1 h2; simp only at h2; rw [h1] at h2; exact absurd h2 (by simp)
    · rw [if_neg hu]
      by_cases hp : d.virtio_port = false
      · rw [if_pos hp]
        by_cases hc : env.virtio_port_create_ok = false
        · rw [if_pos hc]
          refine ⟨fun hq =>
            absurd (List.mem_append_right _ (List.mem_singleton.mpr rfl)) (hq 1), ?_, ?_⟩
          · intro _ h2; simp only at h2; rw [hp] at h2; exact absurd h2 (by simp)
          · intro h1; rw [hp] at h1; exact absurd h1 (by simp)
        · rw [if_neg hc, ho]
          refine ⟨fun _ => ⟨fun _ => hres, fun _ => rfl⟩,
            fun _ _ => ⟨if d.uinput = true then [Out.uinput_update_size]
              else [Out.uinput_create], o, hann,
              by simp only [List.append_assoc, List.singleton_append]⟩,
            ?_⟩
          intro h1; rw [hp] at h1; exact absurd h1 (by simp)
      · rw [if_neg hp]
        have hpt : d.virtio_port = true := by simpa using hp
        refine ⟨fun _ => ⟨fun _ => hres, fun _ => hpt⟩, ?_, ?_⟩
        · intro h1; rw [hpt] at h1; exact absurd h1 (by simp)
        · intro _ h2; simp only at h2; rw [hpt] at h2; exact absurd h2 (by simp)
  · rw [check_xorg_resolution_unknown P env d hknown]
    have hres : ¬ resolution_known d := hknown
    have hvp : (if d.static_uinput = true then d
        else { d with uinput := false }).virtio_port = d.virtio_port := by
      split_ifs <;> rfl
    by_cases hp : d.virtio_port = true
    · rw [if_pos (by rw [hvp]; exact hp)]
      by_cases ho2 : d.only_once = true
      · have hoo : (if d.static_uinput = true then d
            else { d with uinput := false }).only_once = true := by
          split_ifs <;> exact ho2
        rw [if_pos hoo]
        refine ⟨fun hq =>
          absurd (List.mem_append_right _ (List.mem_singleton.mpr rfl)) (hq 0), ?_, ?_⟩
        · intro h1; rw [hp] at h1; exact absurd h1 (by simp)
        · intro _ h2; simp only at h2; rw [hvp, hp] at h2; exact absurd h2 (by simp)
      · have hoo : ¬ (if d.static_uinput = true then d
            else { d with uinput := false }).only_once = true := by
          split_ifs <;> exact ho2
        rw [if_neg hoo]
        refine ⟨fun _ => ⟨fun h => absurd h (by simp), fun h => absurd h hres⟩, ?_,
          fun _ _ => ⟨_, rfl⟩⟩
        intro h1; rw [hp] at h1; exact absurd h1 (by simp)
    · rw [if_neg (by rw [hvp]; exact hp)]
      have hpf : d.virtio_port = false := by simpa using hp
      refine ⟨fun _ => ⟨fun h => ?_, fun h => absurd h hres⟩, ?_, ?_⟩
      · simp only at h; rw [hvp, hpf] at h; exact absurd h (by simp)
      · intro _ h2; simp only at h2; rw [hvp, hpf] at h2; exact absurd h2 (by simp)
      · intro h1; rw [hpf] at h1; exact absurd h1 (by simp)

theorem check_xorg_resolution_channel_closed :
    (check_xorg_resolution spice_protocol env_ok daemon_channel_closed).2 =
      [Out.uinput_update_size, Out.virtio_port_create,
        Out.virtio_port_write 1 VD_AGENT_ANNOUNCE_CAPABILITIES 0
          [1, 0, 0, 0, 231, 141, 3, 0] 8] := by
  decide

/-- C20 at a concrete state: the active connection 1 has reported its resolution and the
host channel is closed; `check_xorg_resolution` opens it and announces the capabilities
with request = 1: the request word 1 and the capability word `0x38DE7`. -/
theorem host_channel_gating_witness :
    ((∀ code, Out.quit code ∉
        (check_xorg_resolution spice_protocol env_ok daemon_channel_closed).2) ∧
      daemon_channel_closed.virtio_port = false ∧ resolution_known daemon_channel_closed) ∧
    (check_xorg_resolution spice_protocol env_ok daemon_channel_closed).1.virtio_port = true ∧
    (∃ pre o, capability_announcement spice_protocol 1 o ∧
      (check_xorg_resolution spice_protocol env_ok daemon_channel_closed).2 =
        pre ++ [Out.virtio_port_create, o]) ∧
    (check_xorg_resolution spice_protocol env_ok daemon_channel_closed).2 =
      [Out.uinput_update_size, Out.virtio_port_create,
        Out.virtio_port_write 1 VD_AGENT_ANNOUNCE_CAPABILITIES 0
          [1, 0, 0, 0, 231, 141, 3, 0] 8] :=
  ⟨⟨fun code h => by
        rw [check_xorg_resolution_channel_closed] at h
        simp at h,
      rfl, ⟨1, ⟨some "seat0", 1024, 768, some [0], 1⟩, rfl, rfl, rfl⟩⟩,
    ((host_channel_gating spice_protocol env_ok daemon_channel_closed).1
      (fun code h => by
        rw [check_xorg_resolution_channel_closed] at h
        simp at h)).mpr
      ⟨1, ⟨some "seat0", 1024, 768, some [0], 1⟩, rfl, rfl, rfl⟩,
    (host_channel_gating spice_protocol env_ok daemon_channel_closed).2.1 rfl (by decide),
    check_xorg_resolution_channel_closed⟩

/-! ### Monitors configuration size -/

/-- C29 (the code at the failing input). Monitors-config size check: a message of 8 bytes
whose `num_of_monitors` is `2^30` holds no monitor entry, and the exact sum
`8 + 2^30 * 20` is not 8; but the sum is stored in a `uint32_t`, where it is 8, so
`vdagent_message_check_size` and `do_client_monitors` accept the message: the
configuration is stored, forwarded to the active agent and acknowledged to the host. -/
theorem monitors_size_wraps_around :
    read_le [0, 0, 0, 64, 0, 0, 0, 0] 0 4 = 1073741824 ∧
    spice_protocol.sizeof_VDAgentMonitorsConfig +
      1073741824 * spice_protocol.sizeof_VDAgentMonConfig ≠ 8 ∧
    vdagent_message_check_size spice_protocol daemon_one_agent ⟨1, 2, 0, 8⟩ = true ∧
    (virtio_port_read_complete spice_protocol env_ok daemon_one_agent 1 ⟨1, 2, 0, 8⟩
      [0, 0, 0, 64, 0, 0, 0, 0]).1.mon_config = some [0, 0, 0, 64, 0, 0, 0, 0] ∧
    (virtio_port_read_complete spice_protocol env_ok daemon_one_agent 1 ⟨1, 2, 0, 8⟩
      [0, 0, 0, 64, 0, 0, 0, 0]).2 =
      [Out.write_xorg_conf [0, 0, 0, 64, 0, 0, 0, 0],
        Out.udscs_write 1 VDAGENTD.MONITORS_CONFIG 0 0 [0, 0, 0, 64, 0, 0, 0, 0],
        Out.virtio_port_write 1 VD_AGENT_REPLY 0 [2, 0, 0, 0, 1, 0, 0, 0] 8] := by
  refine ⟨by decide, by decide, by decide, by decide, by decide⟩

/-- Monitors-config size check without wrap-around: when the exact sum fits 32 bits,
`do_client_monitors` does nothing unless the message size equals it. -/
theorem do_client_monitors_exact (P : Protocol) (d : Daemon) (port_nr : Nat)
    (message_header : VDAgentMessage) (data : List Nat)
    (hfit : P.sizeof_VDAgentMonitorsConfig + read_le data 0 4 * P.sizeof_VDAgentMonConfig <
      4294967296)
    (hne : message_header.size ≠
      P.sizeof_VDAgentMonitorsConfig + read_le data 0 4 * P.sizeof_VDAgentMonConfig) :
    do_client_monitors P d port_nr message_header data = (d, []) := by
  unfold do_client_monitors
  simp only [Nat.mod_eq_of_lt hfit]
  rw [if_pos hne]

/-! ### Engine-initiated destroys -/

/-- C28 (the code at the failing input). From `daemon_init`, after `run_one_task` the connection 1
is tracked, active and owns task 5. When it then sends a `CLIPBOARD_REQUEST` with 4 bytes of
extra data, or a resolution message of 3 bytes, the engine destroys the connection and does
nothing else: no connection is tracked any more, but connection 1 is still the active
connection and still owns task 5, so the state is not `ActiveTracked`; the disconnect of the same
connection through `agent_disconnect` clears both. -/
theorem active_connection_dangles :
    (routing_of (engine_run spice_protocol vdagentd_proto 20 daemon_init run_one_task)).map
        (fun x => (x.1, x.2.1, x.2.2.1)) = some ([1], some 1, [(5, 1)]) ∧
    (routing_of (engine_run spice_protocol vdagentd_proto 20 daemon_init
        (run_one_task ++
          [EngineEvent.agent_message env_ok 1 ⟨3, 0, 1, 4⟩ (some [0, 0, 0, 0])]))).map
        (fun x => (x.1, x.2.1, x.2.2.1)) = some ([], some 1, [(5, 1)]) ∧
    (routing_of (engine_run spice_protocol vdagentd_proto 20 daemon_init
        (run_one_task ++
          [EngineEvent.agent_message env_ok 1 ⟨0, 1024, 768, 3⟩ (some [0, 0, 0])]))).map
        (fun x => (x.1, x.2.1, x.2.2.1)) = some ([], some 1, [(5, 1)]) ∧
    (routing_of (engine_run spice_protocol vdagentd_proto 20 daemon_init
        (run_one_task ++ [EngineEvent.agent_disconnect env_ok 1]))).map
        (fun x => (x.1, x.2.1, x.2.2.1)) = some ([], none, []) ∧
    (∀ d out, engine_run spice_protocol vdagentd_proto 20 daemon_init
        (run_one_task ++
          [EngineEvent.agent_message env_ok 1 ⟨3, 0, 1, 4⟩ (some [0, 0, 0, 0])]) =
        some (d, out) → ¬ ActiveTracked d) := by
  refine ⟨by decide, by decide, by decide, by decide, ?_⟩
  intro d out h hinv
  have h2 : (routing_of (engine_run spice_protocol vdagentd_proto 20 daemon_init
        (run_one_task ++
          [EngineEvent.agent_message env_ok 1 ⟨3, 0, 1, 4⟩ (some [0, 0, 0, 0])]))).map
        (fun x => (x.1, x.2.1, x.2.2.1)) = some ([], some 1, [(5, 1)]) := by decide
  rw [h] at h2
  simp only [routing_of, Option.map_some', Option.some.injEq, Prod.mk.injEq] at h2
  have := hinv.1 1 h2.2.1
  rw [h2.1] at this
  exact absurd this (List.not_mem_nil _)

/-! ### Oversized clipboard data -/

theorem virtio_write_clipboard_data (P : Protocol) (d : Daemon) (selection data_type : Nat)
    (data : Option (List Nat)) (n : Nat) (ht : data_type ≠ 4294967295) :
    virtio_write_clipboard P d selection VD_AGENT_CLIPBOARD data_type data n =
      (d, clipboard_data_message P d selection data_type (data.getD []) n) := by
  unfold virtio_write_clipboard clipboard_data_message
  have h47 : (VD_AGENT_CLIPBOARD = VD_AGENT_CLIPBOARD_GRAB) = False := by
    simp [VD_AGENT_CLIPBOARD, VD_AGENT_CLIPBOARD_GRAB]
  by_cases hs : has_capability P d P.VD_AGENT_CAP_CLIPBOARD_SELECTION = true
  · simp [hs, ht, h47]
  · simp [hs, ht, h47]

/-- C21 (counterexample). Oversized clipboard data: in `daemon_agent_connected` the connection 1 is the
active connection and no maximum is set, but a `CLIPBOARD_DATA` message of 3 bytes from it is
not forwarded: the client has not announced `CLIPBOARD_BY_DEMAND` (and the host channel is
closed), so `do_agent_clipboard` leaves by its `error` label and nothing is sent. -/
theorem oversized_clipboard_data_counterexample :
    engine_run spice_protocol vdagentd_proto 20 daemon_init
        [EngineEvent.agent_connect env_ok cenv_seat0 [] 1] =
      some (daemon_agent_connected,
        [Out.udscs_write 1 VDAGENTD.VERSION 0 0 [], Out.uinput_destroy]) ∧
    daemon_agent_connected.active_session_conn = some 1 ∧
    daemon_agent_connected.max_clipboard = -1 ∧
    (do_agent_clipboard spice_protocol vdagentd_proto daemon_agent_connected 1 ⟨4, 0, 1, 3⟩
      (some [97, 98, 99])).2 = [] := by
  refine ⟨rfl, by decide, by decide, by decide⟩

/-- C21 (amended). Oversized clipboard data, for a `CLIPBOARD_DATA` message from the active
connection. When the message passes the checks of `do_agent_clipboard` (the client has
announced `CLIPBOARD_BY_DEMAND`, the host channel is open, the selection is `CLIPBOARD`
unless the client has `CLIPBOARD_SELECTION`), its data type is not `2^32 - 1` and the
maximum is a size or `-1`: if a maximum is set and the body is larger than it, the host is
sent a clipboard message of the same selection and data type with an empty data part;
otherwise the host is sent the message with the body unchanged. When the message fails one
of the checks, nothing is sent at all, to the host or to an agent. The state does not
change in any case. -/
theorem oversized_clipboard_data (P : Protocol) (code : VDAGENTD → Nat) (d : Daemon)
    (conn : ConnId) (header : udscs_message_header) (data : Option (List Nat))
    (hact : d.active_session_conn = some conn)
    (htype : header.type = code VDAGENTD.CLIPBOARD_DATA)
    (hgrab : code VDAGENTD.CLIPBOARD_DATA ≠ code VDAGENTD.CLIPBOARD_GRAB)
    (hreq : code VDAGENTD.CLIPBOARD_DATA ≠ code VDAGENTD.CLIPBOARD_REQUEST) :
    (has_capability P d P.VD_AGENT_CAP_CLIPBOARD_BY_DEMAND = true → d.virtio_port = true →
      (has_capability P d P.VD_AGENT_CAP_CLIPBOARD_SELECTION = true ∨
        header.arg1 % 256 = P.VD_AGENT_CLIPBOARD_SELECTION_CLIPBOARD) →
      header.arg2 ≠ 4294967295 → -1 ≤ d.max_clipboard → d.max_clipboard < 2147483648 →
      (d.max_clipboard ≠ -1 ∧ d.max_clipboard < (header.size : Int) →
        do_agent_clipboard P code d conn header data =
          (d, clipboard_data_message P d (header.arg1 % 256) header.arg2 [] 0)) ∧
      (d.max_clipboard = -1 ∨ (header.size : Int) ≤ d.max_clipboard →
        do_agent_clipboard P code d conn header data =
          (d, clipboard_data_message P d (header.arg1 % 256) header.arg2 (data.getD [])
            header.size))) ∧
    ((has_capability P d P.VD_AGENT_CAP_CLIPBOARD_BY_DEMAND = false ∨ d.virtio_port = false ∨
        (has_capability P d P.VD_AGENT_CAP_CLIPBOARD_SELECTION = false ∧
          header.arg1 % 256 ≠ P.VD_AGENT_CLIPBOARD_SELECTION_CLIPBOARD)) →
      do_agent_clipboard P code d conn header data = (d, [])) := by
  refine ⟨?_, ?_⟩
  · intro hcap hport hsel hdt hmax hmax2
    have hsel2 : ¬ (has_capability P d P.VD_AGENT_CAP_CLIPBOARD_SELECTION = false ∧
        header.arg1 % 256 ≠ P.VD_AGENT_CLIPBOARD_SELECTION_CLIPBOARD) := by
      rintro ⟨h1, h2⟩
      rcases hsel with h | h
      · rw [h] at h1; exact Bool.noConfusion h1
      · exact h2 h
    have hu : d.max_clipboard ≠ -1 → to_uint32 d.max_clipboard = d.max_clipboard.toNat := by
      intro hne
      have h0 : 0 ≤ d.max_clipboard := by omega
      unfold to_uint32
      rw [Int.emod_eq_of_lt h0 (by omega)]
    have hstart : ∀ r : Daemon × List Out,
        (if d.max_clipboard ≠ -1 ∧ header.size > to_uint32 d.max_clipboard then
            virtio_write_clipboard P d (header.arg1 % 256) VD_AGENT_CLIPBOARD header.arg2
              none 0
          else agent_clipboard_forward P d conn header data (header.arg1 % 256)
            VD_AGENT_CLIPBOARD header.arg2 header.size) = r →
        do_agent_clipboard P code d conn header data = r := by
      intro r hr
      unfold do_agent_clipboard
      dsimp only
      rw [if_neg (by rw [hcap]; exact Bool.noConfusion), if_neg (by rw [hact]; simp),
        if_neg (by rw [hport]; exact Bool.noConfusion), if_neg hsel2,
        if_neg (by rw [htype]; exact hgrab), if_neg (by rw [htype]; exact hreq),
        if_pos htype]
      exact hr
    constructor
    · rintro ⟨hne, hlt⟩
      apply hstart
      have hgt : header.size > to_uint32 d.max_clipboard := by
        rw [hu hne]; omega
      rw [if_pos ⟨hne, hgt⟩]
      exact virtio_write_clipboard_data P d _ _ none 0 hdt
    · intro h
      apply hstart
      have hn : ¬ (d.max_clipboard ≠ -1 ∧ header.size > to_uint32 d.max_clipboard) := by
        rintro ⟨hne, hgt⟩
        rcases h with h | h
        · exact hne h
        · rw [hu hne] at hgt; omega
      rw [if_neg hn]
      unfold agent_clipboard_forward
      rw [if_neg (by simp)]
      exact virtio_write_clipboard_data P d _ _ data header.size hdt
  · intro hfail
    have herr : (if header.type = code VDAGENTD.CLIPBOARD_REQUEST then
        [Out.udscs_write conn VDAGENTD.CLIPBOARD_DATA (header.arg1 % 256)
          P.VD_AGENT_CLIPBOARD_NONE []] else []) = [] := by
      rw [if_neg (by rw [htype]; exact hreq)]
    unfold do_agent_clipboard
    dsimp only
    rw [herr]
    by_cases hcap : has_capability P d P.VD_AGENT_CAP_CLIPBOARD_BY_DEMAND = false
    · rw [if_pos hcap]
    · rw [if_neg hcap, if_neg (by rw [hact]; simp)]
      by_cases hport : d.virtio_port = false
      · rw [if_pos hport]
      · rw [if_neg hport]
        rcases hfail with h | h | h
        · exact absurd h hcap
        · exact absurd h hport
        · rw [if_pos h]

/-- C21 (witness). In `daemon_max_clipboard` (maximum 2) a body of 3 bytes is replaced by an
empty data part and a body of 2 bytes is forwarded; in `daemon_agent_connected`, where the
client has not announced `CLIPBOARD_BY_DEMAND`, nothing is sent. -/
theorem oversized_clipboard_data_witness :
    (do_agent_clipboard spice_protocol vdagentd_proto daemon_max_clipboard 1 ⟨4, 0, 1, 3⟩
        (some [97, 98, 99]) =
      (daemon_max_clipboard,
        clipboard_data_message spice_protocol daemon_max_clipboard (0 % 256) 1 [] 0) ∧
      clipboard_data_message spice_protocol daemon_max_clipboard (0 % 256) 1 [] 0 =
        [Out.virtio_port_write_start 1 VD_AGENT_CLIPBOARD 0 8,
          Out.virtio_port_write_append [0, 0, 0, 0] 4,
          Out.virtio_port_write_append [1, 0, 0, 0] 4, Out.virtio_port_write_append [] 0]) ∧
    (do_agent_clipboard spice_protocol vdagentd_proto daemon_max_clipboard 1 ⟨4, 0, 1, 2⟩
        (some [97, 98]) =
      (daemon_max_clipboard,
        clipboard_data_message spice_protocol daemon_max_clipboard (0 % 256) 1 [97, 98] 2) ∧
      clipboard_data_message spice_protocol daemon_max_clipboard (0 % 256) 1 [97, 98] 2 =
        [Out.virtio_port_write_start 1 VD_AGENT_CLIPBOARD 0 10,
          Out.virtio_port_write_append [0, 0, 0, 0] 4,
          Out.virtio_port_write_append [1, 0, 0, 0] 4,
          Out.virtio_port_write_append [97, 98] 2]) ∧
    do_agent_clipboard spice_protocol vdagentd_proto daemon_agent_connected 1 ⟨4, 0, 1, 3⟩
        (some [97, 98, 99]) = (daemon_agent_connected, []) :=
  ⟨⟨((oversized_clipboard_data spice_protocol vdagentd_proto daemon_max_clipboard 1
      ⟨4, 0, 1, 3⟩ (some [97, 98, 99]) (by decide) (by decide) (by decide) (by decide)).1
      (by decide) (by decide) (Or.inr (by decide)) (by decide) (by decide) (by decide)).1
      ⟨by decide, by decide⟩, by decide⟩,
    ⟨((oversized_clipboard_data spice_protocol vdagentd_proto daemon_max_clipboard 1
      ⟨4, 0, 1, 2⟩ (some [97, 98]) (by decide) (by decide) (by decide) (by decide)).1
      (by decide) (by decide) (Or.inr (by decide)) (by decide) (by decide) (by decide)).2
      (Or.inr (by decide)), by decide⟩,
    (oversized_clipboard_data spice_protocol vdagentd_proto daemon_agent_connected 1
      ⟨4, 0, 1, 3⟩ (some [97, 98, 99]) (by decide) (by decide) (by decide) (by decide)).2
      (Or.inl (by decide))⟩

/-! ### Active connection without a session oracle -/

theorem release_clipboards_session_count (P : Protocol) (d : Daemon) :
    (release_clipboards P d).1.session_count = d.session_count := by
  unfold release_clipboards
  have : ∀ (l : List Nat) (acc : Daemon × List Out),
      (l.foldl (release_clipboard P) acc).1.session_count = acc.1.session_count := by
    intro l
    induction l with
    | nil => intro acc; rfl
    | cons x l ih =>
      intro acc
      simp only [List.foldl_cons]
      rw [ih (release_clipboard P acc x)]
      rfl
  exact this _ _

theorem release_clipboards_connect_callback (P : Protocol) (d : Daemon) :
    (release_clipboards P d).1.server = d.server :=
  (release_clipboards_routing P d).1

theorem check_xorg_resolution_session_count (P : Protocol) (env : Env) (d : Daemon) :
    (check_xorg_resolution P env d).1.session_count = d.session_count := by
  unfold check_xorg_resolution vdagentd_quit
  simp only
  split_ifs <;> rfl

theorem switch_active_session_session_count (P : Protocol) (env : Env) (d : Daemon)
    (nc : Option ConnId) :
    (switch_active_session P env d nc).1.session_count = d.session_count := by
  unfold switch_active_session
  simp only
  by_cases h : (if nc.isSome = true ∧ d.session_count ≠ 1 then none else nc) =
      d.active_session_conn
  · rw [if_pos h]
  · rw [if_neg h]
    simp only
    rw [check_xorg_resolution_session_count, release_clipboards_session_count]

/-- Without a session oracle `update_active_session_connection` only counts. -/
theorem update_active_no_oracle (P : Protocol) (env : Env) (d : Daemon)
    (new_conn : Option ConnId) (hsi : d.session_info = false) :
    update_active_session_connection P env d new_conn =
      some (switch_active_session P env
        { d with session_count :=
            if new_conn.isSome then (d.session_count + 1) % 4294967296
            else (d.session_count + 4294967295) % 4294967296 } new_conn) := by
  unfold update_active_session_connection count_session_connections
  rw [hsi]
  simp only [Bool.false_eq_true, if_false]
  cases new_conn with
  | none => simp only [Option.isSome_none, Bool.false_eq_true, if_false]
  | some c => simp only [Option.isSome_some, if_true]

/-- Without a session oracle a connect of a new connection keeps the invariant and is
defined; the new connection becomes active exactly when it is the only one. -/
theorem connect_no_oracle (P : Protocol) (d : Daemon) (env : Env) (cenv : ConnectEnv)
    (version : List Nat) (conn : ConnId) (hinv : NoOracleInv d)
    (hnew : conn ∉ d.server.connections) :
    ∃ r, session_step P d (SessionEvent.connect env cenv version conn) = some r ∧
      NoOracleInv r.1 ∧
      (r.1.server.connections = [conn] → r.1.active_session_conn = some conn) := by
  obtain ⟨hsi, hcb, hcount, hnd, hlen, hact⟩ := hinv
  have post := fun D => switch_active_session_post P env D (some conn)
  have cnt := fun D => switch_active_session_session_count P env D (some conn)
  unfold session_step
  simp only
  rw [if_neg hnew]
  unfold udscs_server_accept_cb
  by_cases hfull : d.server.connections.length ≥ MAX_CONNECTED_AGENTS
  · rw [if_pos hfull]
    simp only
    rw [if_neg (by simp)]
    refine ⟨_, rfl, ⟨hsi, hcb, hcount, hnd, hlen, hact⟩, ?_⟩
    intro h
    simp only at h
    exact absurd (by rw [h]; exact List.mem_singleton_self _) hnew
  · rw [if_neg hfull]
    simp only [hcb, if_true]
    unfold agent_connect
    simp only [hsi, Bool.false_eq_true, if_false]
    rw [update_active_no_oracle P env _ (some conn) rfl]
    simp only [Option.isSome_some, if_true]
    have hlt : d.server.connections.length < 128 := by
      unfold MAX_CONNECTED_AGENTS at hfull; omega
    have hmod : (d.session_count + 1) % 4294967296 = d.server.connections.length + 1 := by
      rw [hcount]; exact Nat.mod_eq_of_lt (by omega)
    refine ⟨_, rfl, ⟨?_, ?_, ?_, ?_, ?_, ?_⟩, ?_⟩
    · simp only [(post _).2.2.2.1]
    · simp only [(post _).1]
    · simp only [cnt, (post _).1, List.length_cons]
      exact hmod
    · simp only [(post _).1]
      exact List.nodup_cons.mpr ⟨hnew, hnd⟩
    · simp only [(post _).1, List.length_cons]
      omega
    · intro c hc
      simp only [(post _).2.2.2.2, Option.isSome_some, true_and, hmod] at hc
      simp only [(post _).1]
      by_cases h1 : d.server.connections.length + 1 ≠ 1
      · rw [if_pos h1] at hc; exact Option.noConfusion hc
      · rw [if_neg h1] at hc
        have h0 : d.server.connections = [] :=
          List.length_eq_zero.mp (by omega)
        rw [h0, Option.some.inj hc]
    · intro h
      simp only [(post _).1, List.cons.injEq, true_and] at h
      simp only [(post _).2.2.2.2, Option.isSome_some, true_and, hmod, h, List.length_nil]
      rfl

/-- Without a session oracle the disconnect of a tracked connection keeps the invariant, is
defined, and leaves no connection active. -/
theorem disconnect_no_oracle (P : Protocol) (d : Daemon) (env : Env) (conn : ConnId)
    (hinv : NoOracleInv d) (hin : conn ∈ d.server.connections) :
    ∃ r, agent_disconnect P env d conn = some r ∧ NoOracleInv r.1 ∧
      r.1.active_session_conn = none ∧
      r.1.server.connections = d.server.connections.erase conn := by
  obtain ⟨hsi, hcb, hcount, hnd, hlen, hact⟩ := hinv
  have post := fun D => switch_active_session_post P env D none
  have cnt := fun D => switch_active_session_session_count P env D none
  unfold agent_disconnect
  simp only
  have hsi2 : (daemon_destroy_connection (remove_active_xfers P d conn).1 conn).1.session_info
      = false := hsi
  rw [update_active_no_oracle P env _ none hsi2]
  simp only [Option.isSome_none, Bool.false_eq_true, if_false]
  have hpos : 0 < d.server.connections.length := List.length_pos_of_mem hin
  have hmod : (d.session_count + 4294967295) % 4294967296 =
      d.server.connections.length - 1 := by
    rw [hcount]; omega
  have hserver : (daemon_destroy_connection (remove_active_xfers P d conn).1 conn).1.server =
      { d.server with connections := d.server.connections.erase conn } := rfl
  have hcnt : (daemon_destroy_connection (remove_active_xfers P d conn).1 conn).1.session_count
      = d.session_count := rfl
  refine ⟨_, rfl, ⟨?_, ?_, ?_, ?_, ?_, ?_⟩, ?_, ?_⟩
  · simp only [(post _).2.2.2.1]; exact hsi
  · simp only [(post _).1, hserver]; exact hcb
  · simp only [cnt, (post _).1, hserver, hcnt, hmod]
    rw [List.length_erase_of_mem hin]
  · simp only [(post _).1, hserver]; exact hnd.erase conn
  · simp only [(post _).1, hserver]
    rw [List.length_erase_of_mem hin]; omega
  · intro c hc
    simp only [(post _).2.2.2.2, Option.isSome_none, Bool.false_eq_true, false_and, if_false]
      at hc
    exact Option.noConfusion hc
  · simp only [(post _).2.2.2.2, Option.isSome_none, Bool.false_eq_true, false_and, if_false]
  · simp only [(post _).1, hserver]

/-- One connect or disconnect of the engine without a session oracle. -/
theorem engine_step_no_oracle (P : Protocol) (code : VDAGENTD → Nat) (res_size : Nat)
    (d : Daemon) (e : EngineEvent) (r : Daemon × List Out) (hinv : NoOracleInv d)
    (he : e.is_connect_or_disconnect = true)
    (hstep : engine_step P code res_size d e = some r) :
    NoOracleInv r.1 ∧
      (∀ env cenv version conn, e = EngineEvent.agent_connect env cenv version conn →
        r.1.server.connections = [conn] → r.1.active_session_conn = some conn) ∧
      (∀ env conn, e = EngineEvent.agent_disconnect env conn →
        r.1.active_session_conn = none) := by
  cases e with
  | agent_connect env cenv version conn =>
    unfold engine_step at hstep
    simp only at hstep
    by_cases hnew : conn ∈ d.server.connections
    · unfold session_step at hstep
      simp only at hstep
      rw [if_pos hnew] at hstep
      exact Option.noConfusion hstep
    · obtain ⟨r2, h1, h2, h3⟩ := connect_no_oracle P d env cenv version conn hinv hnew
      rw [h1] at hstep
      cases Option.some.inj hstep
      refine ⟨h2, ?_, ?_⟩
      · intro env2 cenv2 v2 conn2 heq
        cases heq
        exact h3
      · intro env2 conn2 heq
        cases heq
  | agent_disconnect env conn =>
    unfold engine_step at hstep
    simp only at hstep
    by_cases hin : conn ∈ d.server.connections
    · simp only [if_pos hin] at hstep
      obtain ⟨r2, h1, h2, h3, _⟩ := disconnect_no_oracle P d env conn hinv hin
      rw [h1] at hstep
      cases Option.some.inj hstep
      refine ⟨h2, ?_, ?_⟩
      · intro env2 cenv2 v2 conn2 heq
        cases heq
      · intro _ _ _
        exact h3
    · simp only [if_neg hin] at hstep
      exact Option.noConfusion hstep
  | agent_message env conn header data => exact Bool.noConfusion he
  | host_message env port_nr message_header data => exact Bool.noConfusion he
  | session_change env => exact Bool.noConfusion he

theorem engine_run_cons (P : Protocol) (code : VDAGENTD → Nat) (res_size : Nat) (d : Daemon)
    (e : EngineEvent) (es : List EngineEvent) (x : Daemon × List Out)
    (h : engine_run P code res_size d (e :: es) = some x) :
    ∃ r r2, engine_step P code res_size d e = some r ∧
      engine_run P code res_size r.1 es = some r2 ∧ x = (r2.1, r.2 ++ r2.2) := by
  unfold engine_run at h
  cases h1 : engine_step P code res_size d e with
  | none => rw [h1] at h; exact Option.noConfusion h
  | some r =>
    rw [h1] at h
    simp only at h
    cases h2 : engine_run P code res_size r.1 es with
    | none => rw [h2] at h; exact Option.noConfusion h
    | some r2 =>
      rw [h2] at h
      exact ⟨r, r2, rfl, h2, (Option.some.inj h).symm⟩

/-- The invariant and the effect of the last event along a run of connects and disconnects
without a session oracle. -/
theorem engine_run_no_oracle (P : Protocol) (code : VDAGENTD → Nat) (res_size : Nat)
    (es : List EngineEvent) :
    ∀ (d0 : Daemon) (x : Daemon × List Out), NoOracleInv d0 →
      (∀ e ∈ es, e.is_connect_or_disconnect = true) →
      engine_run P code res_size d0 es = some x →
      NoOracleInv x.1 ∧
        (∀ es1 env cenv version conn,
          es = es1 ++ [EngineEvent.agent_connect env cenv version conn] →
          x.1.server.connections = [conn] → x.1.active_session_conn = some conn) ∧
        (∀ es1 env conn, es = es1 ++ [EngineEvent.agent_disconnect env conn] →
          x.1.active_session_conn = none) := by
  induction es with
  | nil =>
    intro d0 x h0 _ hrun
    unfold engine_run at hrun
    cases Option.some.inj hrun
    refine ⟨h0, ?_, ?_⟩
    · intro es1 env cenv version conn h
      exact absurd h (by simp)
    · intro es1 env conn h
      exact absurd h (by simp)
  | cons e es ih =>
    intro d0 x h0 hes hrun
    obtain ⟨r, r2, h1, h2, hx⟩ := engine_run_cons P code res_size d0 e es x hrun
    have hstep := engine_step_no_oracle P code res_size d0 e r h0
      (hes e (List.mem_cons_self _ _)) h1
    have hrest := ih r.1 r2 hstep.1 (fun e2 h => hes e2 (List.mem_cons_of_mem _ h)) h2
    rw [hx]
    refine ⟨hrest.1, ?_, ?_⟩
    · intro es1 env cenv version conn h
      cases es1 with
      | nil =>
        simp only [List.nil_append, List.cons.injEq] at h
        obtain ⟨he, hnil⟩ := h
        subst hnil
        unfold engine_run at h2
        cases Option.some.inj h2
        exact hstep.2.1 env cenv version conn he
      | cons a es2 =>
        simp only [List.cons_append, List.cons.injEq] at h
        exact hrest.2.1 es2 env cenv version conn h.2
    · intro es1 env conn h
      cases es1 with
      | nil =>
        simp only [List.nil_append, List.cons.injEq] at h
        obtain ⟨he, hnil⟩ := h
        subst hnil
        unfold engine_run at h2
        cases Option.some.inj h2
        exact hstep.2.2 env conn he
      | cons a es2 =>
        simp only [List.cons_append, List.cons.injEq] at h
        exact hrest.2.2 es2 env conn h.2

theorem daemon_no_oracle_inv : NoOracleInv daemon_no_oracle :=
  ⟨rfl, rfl, rfl, List.nodup_nil, by decide, fun c h => Option.noConfusion h⟩

/-- C22 (counterexample). Active connection without an oracle: from `daemon_no_oracle`, connection 1
connects, connection 2 connects, connection 2 disconnects. Exactly one connection is then
tracked, connection 1, and no connection is active. -/
theorem active_without_oracle_counterexample :
    (routing_of (engine_run spice_protocol vdagentd_proto 20 daemon_no_oracle
        [EngineEvent.agent_connect env_ok cenv_seat0 [] 1,
          EngineEvent.agent_connect env_ok cenv_seat0 [] 2,
          EngineEvent.agent_disconnect env_ok 2])).map (fun x => (x.1, x.2.1)) =
      some ([1], none) := by
  decide

/-- C22 (amended). Active connection without an oracle: after every sequence of agent connect and
agent disconnect events run on a daemon without session oracle, whenever there is an active
connection it is the only tracked connection; when the last event is a connect that leaves
its connection as the only tracked one, that connection is active; when the last event is a
disconnect, no connection is active, also when exactly one connection is left. -/
theorem active_without_oracle (P : Protocol) (code : VDAGENTD → Nat) (res_size : Nat)
    (d0 d : Daemon) (es : List EngineEvent) (out : List Out) (h0 : NoOracleInv d0)
    (hes : ∀ e ∈ es, e.is_connect_or_disconnect = true)
    (hrun : engine_run P code res_size d0 es = some (d, out)) :
    (∀ c, d.active_session_conn = some c → d.server.connections = [c]) ∧
      (∀ es1 env cenv version conn,
        es = es1 ++ [EngineEvent.agent_connect env cenv version conn] →
        d.server.connections = [conn] → d.active_session_conn = some conn) ∧
      (∀ es1 env conn, es = es1 ++ [EngineEvent.agent_disconnect env conn] →
        d.active_session_conn = none) := by
  obtain ⟨h1, h2, h3⟩ := engine_run_no_oracle P code res_size es d0 (d, out) h0 hes hrun
  exact ⟨h1.2.2.2.2.2, h2, h3⟩

/-- C22 (witness). After the connect of connection 1 to `daemon_no_oracle`, connection 1 is
active. -/
theorem active_without_oracle_witness :
    NoOracleInv daemon_no_oracle ∧
      engine_run spice_protocol vdagentd_proto 20 daemon_no_oracle
        [EngineEvent.agent_connect env_ok cenv_seat0 [] 1] =
        some (daemon_no_oracle_one.1, daemon_no_oracle_one.2) ∧
      daemon_no_oracle_one.1.active_session_conn = some 1 :=
  ⟨daemon_no_oracle_inv, rfl,
    (active_without_oracle spice_protocol vdagentd_proto 20 daemon_no_oracle
      daemon_no_oracle_one.1 [EngineEvent.agent_connect env_ok cenv_seat0 [] 1]
      daemon_no_oracle_one.2 daemon_no_oracle_inv
      (by intro e he; rw [List.mem_singleton.mp he]; rfl) rfl).2.1
      [] env_ok cenv_seat0 [] 1 rfl (by decide)⟩

/-! ### Short reads -/

/-- C23 (the code at the failing input). Read state machine: a `UdscsConnection` whose stream holds
one complete header (a `CLIPBOARD_DATA` message without body) followed by a single byte 5 and
then ends. The read of the second header ends short with 1 byte of the 16; `message_read_cb`
still calls the header handler and then the message handler, on a header buffer that holds
the new byte and 15 bytes of the previous header: the read callback gets a `CLIPBOARD_RELEASE`
message that was never sent. In the same way a body of 3 bytes of which only 1 arrives is
handed to the message handler. -/
theorem short_read_reaches_handlers :
    events_and_rest (serve_reads udscs_connection_class 3 udscs_connection_new
        ((⟨4, 0, 1, 0⟩ : udscs_message_header).to_bytes ++ [5])) =
      some ([UdscsEvent.read_callback ⟨4, 0, 1, 0⟩ none,
        UdscsEvent.read_callback ⟨5, 0, 1, 0⟩ none, UdscsEvent.error_cb true], []) ∧
    (message_read_cb udscs_connection_class
        { udscs_connection_new with header_buf := (⟨4, 0, 1, 0⟩ : udscs_message_header).to_bytes }
        (ReadResult.bytes [5])).map (fun x => x.2) =
      some [UdscsEvent.read_callback ⟨5, 0, 1, 0⟩ none] ∧
    events_and_rest (serve_reads udscs_connection_class 3 udscs_connection_new
        ((⟨4, 0, 1, 3⟩ : udscs_message_header).to_bytes ++ [97])) =
      some ([UdscsEvent.read_callback ⟨4, 0, 1, 3⟩ (some [97, 0, 0]),
        UdscsEvent.error_cb true], []) := by
  refine ⟨by decide, by decide, by decide⟩

/-! ### Write queue -/

/-- One `do_write` that is answered with `n` accepted bytes, `n` at most what is left of the
head buffer: the accepted bytes are the next `n` of the buffer; the buffer is popped and the
offset reset when it is written out, otherwise the offset advances by `n`. -/
theorem do_write_wrote {σ ε : Type} (cls : VDAgentConnectionClass σ ε)
    (self : VDAgentConnection σ) (res : List Nat → WriteResult) (msg : List Nat)
    (rest : List (List Nat)) (n : Nat) (hq : self.write_queue = msg :: rest)
    (hres : res (msg.drop self.bytes_written) = WriteResult.wrote n) :
    do_write cls self res =
      (if self.bytes_written + n = msg.length then
          ({ self with write_queue := rest, bytes_written := 0 },
            (msg.drop self.bytes_written).take n, [], !rest.isEmpty)
        else
          ({ self with bytes_written := self.bytes_written + n },
            (msg.drop self.bytes_written).take n, [], true)) := by
  unfold do_write
  rw [hq]
  simp only
  rw [hres]
  simp only
  by_cases h : self.bytes_written + n = msg.length
  · rw [if_pos h, if_pos h]
  · rw [if_neg h, if_neg h]
    simp only [hq, List.isEmpty_cons, Bool.not_false]

theorem flush_drains {σ ε : Type} (cls : VDAgentConnectionClass σ ε)
    (stream : Nat → List Nat → WriteResult) (hstream : StreamAccepts stream) :
    ∀ (fuel i : Nat) (self : VDAgentConnection σ), WriteInv self →
      (pending self).length + self.write_queue.length < fuel →
      ∃ self1, vdagent_connection_flush cls stream fuel i self =
          some (self1, pending self, []) ∧
        self1.write_queue = [] ∧ self1.bytes_written = 0 ∧ self1.sub = self.sub ∧
        self1.cancelled = self.cancelled := by
  intro fuel
  induction fuel with
  | zero => intro i self _ h; exact absurd h (Nat.not_lt_zero _)
  | succ fuel ih =>
    intro i self hinv hfuel
    unfold vdagent_connection_flush
    cases hq : self.write_queue with
    | nil =>
      have h1 : do_write cls self (stream i) = (self, [], [], false) := by
        unfold do_write; rw [hq]
      have hbw : self.bytes_written = 0 := by
        unfold WriteInv at hinv; rw [hq] at hinv; exact hinv
      simp only [h1]
      refine ⟨self, ?_, hq, hbw, rfl, rfl⟩
      unfold pending; rw [hq]; rfl
    | cons msg rest =>
      have hbw : self.bytes_written ≤ msg.length := by
        unfold WriteInv at hinv; rw [hq] at hinv; exact hinv
      obtain ⟨n, hn, hle, hpos⟩ := hstream i (msg.drop self.bytes_written)
      have hpend : pending self = msg.drop self.bytes_written ++ rest.flatten := by
        unfold pending; rw [hq]
      rw [List.length_drop] at hle
      rw [do_write_wrote cls self (stream i) msg rest n hq hn]
      by_cases h : self.bytes_written + n = msg.length
      · rw [if_pos h]
        have htake : (msg.drop self.bytes_written).take n = msg.drop self.bytes_written := by
          apply List.take_of_length_le
          rw [List.length_drop]; omega
        cases hrest : rest with
        | nil =>
          simp only [List.isEmpty_nil, Bool.not_true, Bool.false_eq_true, if_false]
          refine ⟨{ self with write_queue := [], bytes_written := 0 }, ?_, rfl, rfl, rfl, rfl⟩
          rw [hpend, htake, hrest]
          simp
        | cons m2 rest2 =>
          simp only [List.isEmpty_cons, Bool.not_false, if_true]
          have hinv2 : WriteInv { self with write_queue := m2 :: rest2, bytes_written := 0 } := by
            unfold WriteInv; exact Nat.zero_le _
          have hpend2 : pending { self with write_queue := m2 :: rest2, bytes_written := 0 } =
              (m2 :: rest2).flatten := by
            unfold pending; simp
          have hf2 : (pending
              { self with write_queue := m2 :: rest2, bytes_written := 0 }).length +
              ({ self with write_queue := m2 :: rest2, bytes_written := 0 } :
                VDAgentConnection σ).write_queue.length < fuel := by
            rw [hpend2]
            rw [hpend, hq, hrest] at hfuel
            simp only [List.length_append, List.length_cons] at hfuel ⊢
            omega
          obtain ⟨s1, e1, e2, e3, e4, e5⟩ := ih (i + 1) _ hinv2 hf2
          rw [e1]
          refine ⟨s1, ?_, e2, e3, e4, e5⟩
          rw [hpend, htake, hpend2, hrest]
          simp
      · rw [if_neg h]
        simp only [if_true]
        have hne : msg.drop self.bytes_written ≠ [] := by
          intro h0
          have := congrArg List.length h0
          rw [List.length_drop, List.length_nil] at this
          omega
        have hn1 := hpos hne
        have hinv2 : WriteInv { self with bytes_written := self.bytes_written + n } := by
          unfold WriteInv; rw [hq]; simp only; omega
        have hpend2 : pending { self with bytes_written := self.bytes_written + n } =
            msg.drop (self.bytes_written + n) ++ rest.flatten := by
          unfold pending; rw [hq]
        have hf2 : (pending { self with bytes_written := self.bytes_written + n }).length +
            ({ self with bytes_written := self.bytes_written + n } :
              VDAgentConnection σ).write_queue.length < fuel := by
          rw [hpend2]
          rw [hpend] at hfuel
          simp only [List.length_append, List.length_drop] at hfuel ⊢
          omega
        obtain ⟨s1, e1, e2, e3, e4, e5⟩ := ih (i + 1) _ hinv2 hf2
        rw [e1]
        refine ⟨s1, ?_, e2, e3, e4, e5⟩
        rw [hpend, hpend2]
        simp only [List.append_nil, Option.some.injEq, Prod.mk.injEq, true_and, and_true]
        rw [← List.append_assoc]
        congr 1
        have : msg.drop (self.bytes_written + n) = (msg.drop self.bytes_written).drop n := by
          rw [List.drop_drop, Nat.add_comm]
        rw [this, List.take_append_drop]

theorem write_queue_enqueue {σ : Type} (bufs : List (List Nat)) :
    ∀ conn : VDAgentConnection σ,
      (bufs.foldl vdagent_connection_write conn).write_queue = conn.write_queue ++ bufs ∧
      (bufs.foldl vdagent_connection_write conn).bytes_written = conn.bytes_written ∧
      (bufs.foldl vdagent_connection_write conn).sub = conn.sub := by
  induction bufs with
  | nil => intro conn; simp
  | cons b bufs ih =>
    intro conn
    simp only [List.foldl_cons]
    obtain ⟨h1, h2, h3⟩ := ih (vdagent_connection_write conn b)
    rw [h1, h2, h3]
    unfold vdagent_connection_write
    simp

/-- C24. Write queue order: buffers are enqueued with `vdagent_connection_write` on a
connection with an empty queue, and `do_write` is repeated until it returns `FALSE`
(`vdagent_connection_flush`) on a stream without I/O errors whose writes each accept between
1 and the offered number of bytes. Then the flush ends (given rounds for every byte and
buffer), the stream has received exactly the concatenation of the buffers in enqueue order,
and the queue is left empty with the offset 0. Along the way a write that does not finish
the head buffer keeps it and advances the offset by the accepted count, and a write that
finishes it pops it and resets the offset to 0. -/
theorem write_queue_order {σ ε : Type} (cls : VDAgentConnectionClass σ ε)
    (conn : VDAgentConnection σ) (bufs : List (List Nat))
    (stream : Nat → List Nat → WriteResult) (fuel : Nat)
    (hempty : conn.write_queue = []) (hoff : conn.bytes_written = 0)
    (hstream : StreamAccepts stream)
    (hfuel : bufs.flatten.length + bufs.length < fuel) :
    (∃ self1 : VDAgentConnection σ,
      vdagent_connection_flush cls stream fuel 0 (bufs.foldl vdagent_connection_write conn) =
        some (self1, bufs.flatten, []) ∧
      self1.write_queue = [] ∧ self1.bytes_written = 0) ∧
    ∀ (self : VDAgentConnection σ) (res : List Nat → WriteResult) (msg : List Nat)
      (rest : List (List Nat)) (n : Nat), self.write_queue = msg :: rest →
      res (msg.drop self.bytes_written) = WriteResult.wrote n →
      (do_write cls self res).2.1 = (msg.drop self.bytes_written).take n ∧
      (self.bytes_written + n ≠ msg.length →
        (do_write cls self res).1.write_queue = msg :: rest ∧
        (do_write cls self res).1.bytes_written = self.bytes_written + n) ∧
      (self.bytes_written + n = msg.length →
        (do_write cls self res).1.write_queue = rest ∧
        (do_write cls self res).1.bytes_written = 0) := by
  refine ⟨?_, ?_⟩
  swap
  · intro self res msg rest n hq hres
    rw [do_write_wrote cls self res msg rest n hq hres]
    by_cases h : self.bytes_written + n = msg.length
    · rw [if_pos h]
      exact ⟨rfl, fun h2 => absurd h h2, fun _ => ⟨rfl, rfl⟩⟩
    · rw [if_neg h]
      exact ⟨rfl, fun _ => ⟨hq, rfl⟩, fun h2 => absurd h2 h⟩
  obtain ⟨h1, h2, _⟩ := write_queue_enqueue bufs conn
  rw [hempty, List.nil_append] at h1
  rw [hoff] at h2
  have hpend : pending (bufs.foldl vdagent_connection_write conn) = bufs.flatten := by
    unfold pending
    rw [h1, h2]
    cases bufs with
    | nil => rfl
    | cons b bs => simp
  have hinv : WriteInv (bufs.foldl vdagent_connection_write conn) := by
    unfold WriteInv
    rw [h1, h2]
    cases bufs with
    | nil => rfl
    | cons b bs => exact Nat.zero_le _
  obtain ⟨s1, e1, e2, e3, _, _⟩ := flush_drains cls stream hstream fuel 0
    (bufs.foldl vdagent_connection_write conn) hinv (by rw [hpend, h1]; exact hfuel)
  rw [hpend] at e1
  exact ⟨s1, e1, e2, e3⟩

theorem stream_bytewise_accepts : StreamAccepts stream_bytewise := by
  intro i offered
  refine ⟨min 1 offered.length, rfl, Nat.min_le_right _ _, ?_⟩
  intro h
  have : 0 < offered.length := List.length_pos.mpr h
  omega

/-- C24 (witness). Two buffers enqueued on a new `UdscsConnection` and flushed to a stream that
accepts one byte per write. -/
theorem write_queue_order_witness :
    ∃ self1 : VDAgentConnection Unit,
      vdagent_connection_flush udscs_connection_class stream_bytewise 6 0
          ([[1, 2], [3]].foldl vdagent_connection_write udscs_connection_new) =
        some (self1, [[1, 2], [3]].flatten, []) ∧
      self1.write_queue = [] ∧ self1.bytes_written = 0 :=
  (write_queue_order udscs_connection_class udscs_connection_new [[1, 2], [3]]
    stream_bytewise 6 rfl rfl stream_bytewise_accepts (by decide)).1

/-! ### PCI addresses -/

theorem compare_devices_iff (la : List PciDevice) :
    ∀ lb : List PciDevice, compare_devices la lb = true ↔
      la.length = lb.length ∧
      ∀ (i : Nat) (da db : PciDevice), la[i]? = some da → lb[i]? = some db →
        da.slot = db.slot ∧ da.function = db.function := by
  induction la with
  | nil =>
    intro lb
    cases lb with
    | nil => simp [compare_devices]
    | cons b lb => simp [compare_devices]
  | cons a la ih =>
    intro lb
    cases lb with
    | nil => simp [compare_devices]
    | cons b lb =>
      unfold compare_devices
      by_cases h : a.slot ≠ b.slot ∨ a.function ≠ b.function
      · rw [if_pos h]
        constructor
        · intro hf; exact Bool.noConfusion hf
        · rintro ⟨_, hall⟩
          have := hall 0 a b (by simp) (by simp)
          rcases h with h | h
          · exact absurd this.1 h
          · exact absurd this.2 h
      · rw [if_neg h, ih lb]
        have h2 : a.slot = b.slot ∧ a.function = b.function := by
          constructor
          · by_contra hc; exact h (Or.inl hc)
          · by_contra hc; exact h (Or.inr hc)
        constructor
        · rintro ⟨hlen, hall⟩
          refine ⟨by simp [hlen], ?_⟩
          intro i da db hda hdb
          cases i with
          | zero =>
            simp only [List.getElem?_cons_zero, Option.some.injEq] at hda hdb
            rw [← hda, ← hdb]; exact h2
          | succ i =>
            simp only [List.getElem?_cons_succ] at hda hdb
            exact hall i da db hda hdb
        · rintro ⟨hlen, hall⟩
          refine ⟨by simpa using hlen, ?_⟩
          intro i da db hda hdb
          exact hall (i + 1) da db (by simpa using hda) (by simpa using hdb)

/-- C25. PCI address comparison: `compare_addresses a b` is true if and only if the two
addresses have the same domain, the same number of devices, and at every position devices
of equal slot and equal function. The `domain` and `bus` fields of the devices never
influence the result: replacing them in any device of `a` or `b` leaves it unchanged. -/
theorem compare_addresses_spec (a b : PciAddress) :
    (compare_addresses a b = true ↔
      a.domain = b.domain ∧ a.devices.length = b.devices.length ∧
      ∀ (i : Nat) (da db : PciDevice), a.devices[i]? = some da → b.devices[i]? = some db →
        da.slot = db.slot ∧ da.function = db.function) ∧
    ∀ (f g : PciDevice → Int × Nat),
      compare_addresses (a.relabel f) (b.relabel g) = compare_addresses a b := by
  have key : ∀ a b : PciAddress, compare_addresses a b = true ↔
      a.domain = b.domain ∧ a.devices.length = b.devices.length ∧
      ∀ (i : Nat) (da db : PciDevice), a.devices[i]? = some da → b.devices[i]? = some db →
        da.slot = db.slot ∧ da.function = db.function := by
    intro a b
    unfold compare_addresses
    by_cases h : a.domain ≠ b.domain
    · rw [if_pos h]
      constructor
      · intro hf; exact Bool.noConfusion hf
      · rintro ⟨h1, _⟩; exact absurd h1 h
    · rw [if_neg h, compare_devices_iff]
      have h1 : a.domain = b.domain := by by_contra hc; exact h hc
      exact ⟨fun hx => ⟨h1, hx⟩, fun hx => hx.2⟩
  refine ⟨key a b, ?_⟩
  intro f g
  rw [Bool.eq_iff_iff, key, key]
  unfold PciAddress.relabel
  simp only [List.length_map, List.getElem?_map, Option.map_eq_some']
  constructor
  · rintro ⟨h1, h2, h3⟩
    refine ⟨h1, h2, ?_⟩
    intro i da db hda hdb
    exact h3 i ⟨(f da).1, (f da).2, da.slot, da.function⟩
      ⟨(g db).1, (g db).2, db.slot, db.function⟩ ⟨da, hda, rfl⟩ ⟨db, hdb, rfl⟩
  · rintro ⟨h1, h2, h3⟩
    refine ⟨h1, h2, ?_⟩
    rintro i da db ⟨xa, hxa, rfl⟩ ⟨xb, hxb, rfl⟩
    exact h3 i xa xb hxa hxb

/-- C25 (witness). The two addresses of the repository's test compare equal, and have the same
number of devices. -/
theorem compare_addresses_spec_witness :
    compare_addresses test_address_a test_address_b = true ∧
      test_address_a.devices.length = test_address_b.devices.length :=
  ⟨by decide, ((compare_addresses_spec test_address_a test_address_b).1.mp (by decide)).2.1⟩

/-! ### Spice PCI address parsing -/

theorem hex_value_range (c : Char) (h : (hex_value c).isSome = true) :
    (48 ≤ c.toNat ∧ c.toNat ≤ 57) ∨ (97 ≤ c.toNat ∧ c.toNat ≤ 102) ∨
      (65 ≤ c.toNat ∧ c.toNat ≤ 70) := by
  unfold hex_value at h
  by_cases h1 : 48 ≤ c.toNat ∧ c.toNat ≤ 57
  · exact Or.inl h1
  · by_cases h2 : 97 ≤ c.toNat ∧ c.toNat ≤ 102
    · exact Or.inr (Or.inl h2)
    · by_cases h3 : 65 ≤ c.toNat ∧ c.toNat ≤ 70
      · exact Or.inr (Or.inr h3)
      · rw [if_neg h1, if_neg h2, if_neg h3] at h
        exact Bool.noConfusion h

theorem hex_not_char (c d : Char) (h : (hex_value c).isSome = true)
    (hd : d.toNat < 48 ∨ (57 < d.toNat ∧ d.toNat < 65) ∨ (70 < d.toNat ∧ d.toNat < 97) ∨
      102 < d.toNat) : c ≠ d := by
  intro heq
  subst heq
  have := hex_value_range c h
  omega

theorem hex_not_space (c : Char) (h : (hex_value c).isSome = true) : isspace c = false := by
  have := hex_value_range c h
  unfold isspace
  simp only [Bool.or_eq_false_iff, Bool.and_eq_false_iff, decide_eq_false_iff_not]
  omega

theorem strchr_skip (l : List Char) (c : Char) (rest : List Char) (h : c ∉ l) :
    strchr (l ++ c :: rest) c = some (c :: rest) := by
  induction l with
  | nil => simp [strchr]
  | cons x xs ih =>
    have hx : x ≠ c := fun e => h (by rw [e]; exact List.mem_cons_self _ _)
    have hxs : c ∉ xs := fun e => h (List.mem_cons_of_mem _ e)
    simp only [List.cons_append, strchr, if_neg hx]
    exact ih hxs

theorem strchr_none (l : List Char) (c : Char) (h : c ∉ l) : strchr l c = none := by
  induction l with
  | nil => rfl
  | cons x xs ih =>
    have hx : x ≠ c := fun e => h (by rw [e]; exact List.mem_cons_self _ _)
    have hxs : c ∉ xs := fun e => h (List.mem_cons_of_mem _ e)
    simp only [strchr, if_neg hx]
    exact ih hxs

theorem takeWhile_hex (digits rest : List Char)
    (hd : ∀ c ∈ digits, (hex_value c).isSome = true)
    (hr : ∀ c, rest.head? = some c → (hex_value c).isSome = false) :
    (digits ++ rest).takeWhile (fun c => (hex_value c).isSome) = digits := by
  induction digits with
  | nil =>
    cases rest with
    | nil => rfl
    | cons r rs =>
      simp only [List.nil_append, List.takeWhile_cons, hr r rfl]
      rfl
  | cons d ds ih =>
    simp only [List.cons_append, List.takeWhile_cons, hd d (List.mem_cons_self _ _), if_true]
    rw [ih (fun c hc => hd c (List.mem_cons_of_mem _ hc))]

/-- The `strtol` on a field of hexadecimal digits that is followed by the end of the string
or by a character that is neither a digit nor an `x`: the value of the field, clamped to
`LONG_MAX`, and the end pointer after it. -/
theorem strtol_hex (digits rest : List Char) (hf : hex_field digits)
    (hr : ∀ c, rest.head? = some c → (hex_value c).isSome = false ∧ c ≠ 'x' ∧ c ≠ 'X') :
    strtol (digits ++ rest) = (strtol_value digits, rest) := by
  obtain ⟨hne, hd⟩ := hf
  cases digits with
  | nil => exact absurd rfl hne
  | cons d ds =>
    have hd0 := hd d (List.mem_cons_self _ _)
    have hsp : isspace d = false := hex_not_space d hd0
    have hminus : d ≠ '-' := hex_not_char d '-' hd0 (by decide)
    have hplus : d ≠ '+' := hex_not_char d '+' hd0 (by decide)
    have ht1 : (d :: ds ++ rest).dropWhile isspace = d :: ds ++ rest := by
      simp only [List.cons_append, List.dropWhile_cons, hsp]
      rfl
    have ht2 : strtol_sign (d :: ds ++ rest) = d :: ds ++ rest := by
      unfold strtol_sign
      rw [if_neg]
      rintro (h | h)
      · exact hminus (Option.some.inj h)
      · exact hplus (Option.some.inj h)
    have ht3 : strtol_0x (d :: ds ++ rest) = d :: ds ++ rest := by
      unfold strtol_0x
      cases hl : ds ++ rest with
      | nil => simp [hl]
      | cons x l2 =>
        cases l2 with
        | nil => simp [hl]
        | cons h l3 =>
          have hx : x ≠ 'x' ∧ x ≠ 'X' := by
            cases ds with
            | nil =>
              simp only [List.nil_append] at hl
              have := hr x (by rw [hl]; rfl)
              exact ⟨this.2.1, this.2.2⟩
            | cons e es =>
              simp only [List.cons_append, List.cons.injEq] at hl
              have he := hd e (List.mem_cons_of_mem _ (List.mem_cons_self _ _))
              rw [hl.1] at he
              exact ⟨hex_not_char x 'x' he (by decide), hex_not_char x 'X' he (by decide)⟩
          simp only [List.cons_append, hl]
          rw [if_neg]
          rintro ⟨_, h2, _⟩
          rcases h2 with h2 | h2
          · exact hx.1 h2
          · exact hx.2 h2
    have htw := takeWhile_hex (d :: ds) rest hd (fun c hc => (hr c hc).1)
    have hh : (d :: ds ++ rest).head? = some d := rfl
    have hneg : decide ((d :: ds ++ rest).head? = some '-') = false := by
      rw [hh]
      exact decide_eq_false (fun h => hminus (Option.some.inj h))
    unfold strtol
    simp only [ht1, ht2, ht3, htw, hneg]
    rw [if_neg (by simp)]
    simp only [Bool.false_eq_true, if_false]
    unfold strtol_value
    simp

theorem long_to_int_small (n : Nat) (h : n < 2147483648) : long_to_int (n : Int) = n := by
  unfold long_to_int
  have h1 : ((n : Int)) % 4294967296 = n := Int.emod_eq_of_lt (by omega) (by omega)
  rw [h1, if_pos (by omega)]

theorem to_uint8_small (n : Nat) (h : n < 256) : to_uint8 (n : Int) = n := by
  unfold to_uint8
  have h1 : ((n : Int)) % 256 = n := Int.emod_eq_of_lt (by omega) (by omega)
  rw [h1]
  rfl

theorem devices_text_head (devs : List (List Char × List Char)) :
    ∀ c, (devices_text devs).head? = some c →
      (hex_value c).isSome = false ∧ c ≠ 'x' ∧ c ≠ 'X' ∧ c = '/' := by
  intro c hc
  cases devs with
  | nil => exact Option.noConfusion hc
  | cons p ps =>
    have : c = '/' := by
      unfold devices_text at hc
      simp only [List.map_cons, List.flatten_cons, List.cons_append, List.head?_cons,
        Option.some.injEq] at hc
      exact hc.symm
    subst this
    exact ⟨by decide, by decide, by decide, rfl⟩

theorem strtol_value_small (digits : List Char) (h : hex_number digits ≤ 9223372036854775807) :
    strtol_value digits = (hex_number digits : Int) := by
  unfold strtol_value
  rw [if_neg (by omega)]

/-- The conversion to `uint8_t` of an `int` that came from a `long` keeps the low 8 bits of
the `long`. -/
theorem to_uint8_long_to_int (v : Int) : to_uint8 (long_to_int v) = to_uint8 v := by
  unfold to_uint8 long_to_int
  have h : (v % 4294967296) % 256 = v % 256 :=
    Int.emod_emod_of_dvd v (by decide)
  split
  · rw [h]
  · have h2 : (v % 4294967296 - 4294967296) % 256 = v % 256 := by omega
    rw [h2]

/-- The loop on the text of well-formed devices. -/
theorem parse_devices_text (devs : List (List Char × List Char)) :
    ∀ (fuel : Nat) (acc : List PciDevice), devs ≠ [] → devs.length ≤ fuel →
      (∀ p ∈ devs, hex_field p.1 ∧ hex_field p.2) →
      parse_devices fuel (devices_text devs) acc = acc ++ devs.map device_of := by
  induction devs with
  | nil => intro fuel acc h; exact absurd rfl h
  | cons p ps ih =>
    intro fuel acc _ hfuel hall
    obtain ⟨hS, hF⟩ := hall p (List.mem_cons_self _ _)
    cases fuel with
    | zero => exact absurd hfuel (by simp)
    | succ fuel =>
      have htext : devices_text (p :: ps) = '/' :: (p.1 ++ '.' :: (p.2 ++ devices_text ps)) := by
        unfold devices_text
        simp
      have hslashS : '/' ∉ p.1 := fun h => hex_not_char _ '/' (hS.2 _ h) (by decide) rfl
      have hslashF : '/' ∉ p.2 := fun h => hex_not_char _ '/' (hF.2 _ h) (by decide) rfl
      have hdotS : '.' ∉ p.1 := fun h => hex_not_char _ '.' (hS.2 _ h) (by decide) rfl
      have hT := devices_text_head ps
      have hnext : strchr (p.1 ++ '.' :: (p.2 ++ devices_text ps)) '/' =
          (if ps = [] then none else some (devices_text ps)) := by
        cases ps with
        | nil =>
          rw [if_pos rfl]
          apply strchr_none
          simp only [devices_text, List.map_nil, List.flatten_nil, List.append_nil,
            List.mem_append, List.mem_cons, not_or]
          exact ⟨hslashS, by decide, hslashF⟩
        | cons q qs =>
          rw [if_neg (by simp)]
          have e : devices_text (q :: qs) = '/' :: (q.1 ++ '.' :: q.2 ++ devices_text qs) := by
            unfold devices_text
            simp
          rw [e]
          have e2 : p.1 ++ '.' :: (p.2 ++ '/' :: (q.1 ++ '.' :: q.2 ++ devices_text qs)) =
              (p.1 ++ '.' :: p.2) ++ '/' :: (q.1 ++ '.' :: q.2 ++ devices_text qs) := by
            simp
          rw [e2]
          apply strchr_skip
          simp only [List.mem_append, List.mem_cons, not_or]
          exact ⟨hslashS, by decide, hslashF⟩
      have hslot : read_next_hex_number (p.1 ++ '.' :: (p.2 ++ devices_text ps)) '.' =
          (long_to_int (strtol_value p.1), some ('.' :: (p.2 ++ devices_text ps))) := by
        unfold read_next_hex_number
        rw [strchr_skip _ _ _ hdotS]
        simp only
        rw [strtol_hex p.1 _ hS (by
          intro c hc
          simp only [List.head?_cons, Option.some.injEq] at hc
          subst hc
          exact ⟨by decide, by decide, by decide⟩)]
        simp only [ne_eq, not_true_eq_false, if_false]
      have hfun : strtol (p.2 ++ devices_text ps) = (strtol_value p.2, devices_text ps) :=
        strtol_hex p.2 _ hF (fun c hc => ⟨(hT c hc).1, (hT c hc).2.1, (hT c hc).2.2.1⟩)
      rw [htext]
      unfold parse_devices
      simp only [List.drop_succ_cons, List.drop_zero, hnext, hslot, hfun]
      cases ps with
      | nil =>
        simp only [if_true, Bool.false_eq_true, if_false, List.map_cons, List.map_nil]
        rfl
      | cons q qs =>
        simp only [reduceCtorEq, if_false, ne_eq, not_true_eq_false, decide_False,
          Bool.false_eq_true, List.map_cons]
        rw [ih fuel _ (by simp) (by simpa using hfuel)
          (fun x hx => hall x (List.mem_cons_of_mem _ hx))]
        simp only [List.map_cons, List.append_assoc, List.singleton_append]
        rfl

theorem devices_text_length (devs : List (List Char × List Char)) :
    devs.length ≤ (devices_text devs).length := by
  induction devs with
  | nil => exact Nat.zero_le _
  | cons p ps ih =>
    have : devices_text (p :: ps) = '/' :: (p.1 ++ '.' :: p.2) ++ devices_text ps := by
      unfold devices_text
      simp
    rw [this]
    simp only [List.cons_append, List.length_cons, List.length_append]
    omega

/-- Well-formed input: `pci/D/S1.F1/.../Sn.Fn` with at least one device and fields of
hexadecimal digits. -/
theorem parse_spice_text (D : List Char) (devs : List (List Char × List Char))
    (hD : hex_field D) (hne : devs ≠ [])
    (hall : ∀ p ∈ devs, hex_field p.1 ∧ hex_field p.2) :
    parse_pci_address_from_spice (spice_text D devs) =
      some ⟨long_to_int (strtol_value D), devs.map device_of⟩ := by
  have hT := devices_text_head devs
  have hslashD : '/' ∉ D := fun h => hex_not_char _ '/' (hD.2 _ h) (by decide) rfl
  obtain ⟨p, ps, rfl⟩ := List.exists_cons_of_ne_nil hne
  have htext : devices_text (p :: ps) = '/' :: (p.1 ++ '.' :: (p.2 ++ devices_text ps)) := by
    unfold devices_text
    simp
  have hdom : read_next_hex_number (D ++ devices_text (p :: ps)) '/' =
      (long_to_int (strtol_value D), some (devices_text (p :: ps))) := by
    unfold read_next_hex_number
    rw [strtol_hex D _ hD (fun c hc => ⟨(hT c hc).1, (hT c hc).2.1, (hT c hc).2.2.1⟩)]
    rw [htext, strchr_skip _ _ _ hslashD]
    simp only [ne_eq, not_true_eq_false, if_false]
  unfold parse_pci_address_from_spice spice_text
  rw [if_neg (by simp)]
  have hdrop : (['p', 'c', 'i', '/'] ++ D ++ devices_text (p :: ps)).drop 4 =
      D ++ devices_text (p :: ps) := by simp
  simp only [hdrop, hdom]
  rw [parse_devices_text (p :: ps) _ [] hne
    (by
      have := devices_text_length (p :: ps)
      simp only [List.length_append]
      omega) hall]
  simp

/-- Well-formed input with a domain below `2^31` and slots and functions below 256: the
fields are stored as they are. -/
theorem parse_spice_text_small (D : List Char) (devs : List (List Char × List Char))
    (hD : hex_field D) (hDv : hex_number D < 2147483648) (hne : devs ≠ [])
    (hall : ∀ p ∈ devs, hex_field p.1 ∧ hex_field p.2 ∧ hex_number p.1 < 256 ∧
      hex_number p.2 < 256) :
    parse_pci_address_from_spice (spice_text D devs) =
      some ⟨(hex_number D : Int),
        devs.map (fun p => ⟨0, 0, hex_number p.1, hex_number p.2⟩)⟩ := by
  rw [parse_spice_text D devs hD hne (fun p hp => ⟨(hall p hp).1, (hall p hp).2.1⟩),
    strtol_value_small D (by omega), long_to_int_small _ hDv]
  congr 2
  apply List.map_congr_left
  intro p hp
  obtain ⟨_, _, h1, h2⟩ := hall p hp
  unfold device_of
  rw [strtol_value_small p.1 (by omega), strtol_value_small p.2 (by omega),
    long_to_int_small _ (by omega), to_uint8_small _ h1, to_uint8_small _ h2]

/-- Well-formed input of any size: the stored fields, with the slot as the low 8 bits of
the value of `strtol`. -/
theorem parse_spice_text_reduced (D : List Char) (devs : List (List Char × List Char))
    (hD : hex_field D) (hne : devs ≠ [])
    (hall : ∀ p ∈ devs, hex_field p.1 ∧ hex_field p.2) :
    parse_pci_address_from_spice (spice_text D devs) =
      some ⟨long_to_int (strtol_value D),
        devs.map (fun p => ⟨0, 0, to_uint8 (strtol_value p.1), to_uint8 (strtol_value p.2)⟩)⟩ := by
  rw [parse_spice_text D devs hD hne hall]
  congr 2
  apply List.map_congr_left
  intro p _
  unfold device_of
  rw [to_uint8_long_to_int]

theorem Consumed.refl (s : List Char) : Consumed s s :=
  ⟨[], rfl, fun _ h => absurd h (List.not_mem_nil _)⟩

theorem Consumed.trans {a b c : List Char} (h1 : Consumed a b) (h2 : Consumed b c) :
    Consumed a c := by
  obtain ⟨p, hp, hpa⟩ := h1
  obtain ⟨q, hq, hqa⟩ := h2
  refine ⟨p ++ q, by rw [hp, hq, List.append_assoc], ?_⟩
  intro x hx
  rcases List.mem_append.mp hx with h | h
  · exact hpa x h
  · exact hqa x h

theorem consumed_dropWhile (s : List Char) (f : Char → Bool)
    (hf : ∀ c, f c = true → strtol_accepts c = true) : Consumed s (s.dropWhile f) :=
  ⟨s.takeWhile f, (List.takeWhile_append_dropWhile f s).symm,
    fun c hc => hf c (List.mem_takeWhile_imp hc)⟩

theorem consumed_takeWhile (s : List Char) (f : Char → Bool)
    (hf : ∀ c, f c = true → strtol_accepts c = true) :
    Consumed s (s.drop (s.takeWhile f).length) := by
  refine ⟨s.takeWhile f, ?_, fun c hc => hf c (List.mem_takeWhile_imp hc)⟩
  have h := List.takeWhile_append_dropWhile f s
  have h2 : s.drop (s.takeWhile f).length = s.dropWhile f := by
    have h3 : (s.takeWhile f ++ s.dropWhile f).drop (s.takeWhile f).length =
        s.dropWhile f := List.drop_left' rfl
    rw [h] at h3
    exact h3
  rw [h2, h]

theorem consumed_sign (t1 : List Char) : Consumed t1 (strtol_sign t1) := by
  unfold strtol_sign
  by_cases hsign : t1.head? = some '-' ∨ t1.head? = some '+'
  · rw [if_pos hsign]
    cases t1 with
    | nil => exact Consumed.refl _
    | cons x xs =>
      refine ⟨[x], rfl, ?_⟩
      intro c hc
      rw [List.mem_singleton.mp hc]
      simp only [List.head?_cons, Option.some.injEq] at hsign
      unfold strtol_accepts
      rcases hsign with h | h <;> simp [h]
  · rw [if_neg hsign]
    exact Consumed.refl _

theorem consumed_0x (t2 : List Char) : Consumed t2 (strtol_0x t2) := by
  unfold strtol_0x
  split
  · rename_i z x h l
    by_cases hc : z = '0' ∧ (x = 'x' ∨ x = 'X') ∧ (hex_value h).isSome = true
    · rw [if_pos hc]
      refine ⟨[z, x], rfl, ?_⟩
      intro c hcm
      simp only [List.mem_cons, List.mem_singleton, List.not_mem_nil, or_false] at hcm
      unfold strtol_accepts
      rcases hcm with e | e
      · rw [e, hc.1]; decide
      · rcases hc.2.1 with e2 | e2 <;> simp [e, e2]
    · rw [if_neg hc]
      exact Consumed.refl _
  · exact Consumed.refl _

/-- What `strtol` has passed over when it stops are characters it accepts. -/
theorem strtol_consumed (s : List Char) : Consumed s (strtol s).2 := by
  unfold strtol
  simp only
  by_cases hdig : (strtol_0x (strtol_sign (s.dropWhile isspace))).takeWhile
      (fun c => (hex_value c).isSome) = []
  · rw [if_pos hdig]
    exact Consumed.refl s
  · rw [if_neg hdig]
    simp only
    have c1 : Consumed s (s.dropWhile isspace) := consumed_dropWhile s isspace (by
      intro c hc; unfold strtol_accepts; simp [hc])
    exact c1.trans ((consumed_sign _).trans ((consumed_0x _).trans
      (consumed_takeWhile _ _ (by intro c hc; unfold strtol_accepts; simp [hc]))))

/-- Without the `pci/` in front there is no address. -/
theorem parse_spice_no_pci (input : List Char) (h : input.take 4 ≠ ['p', 'c', 'i', '/']) :
    parse_pci_address_from_spice input = none := by
  unfold parse_pci_address_from_spice
  rw [if_pos h]

/-- Without a `/` after the `pci/` there is no address. -/
theorem parse_spice_no_slash (t : List Char) (h : '/' ∉ t) :
    parse_pci_address_from_spice (['p', 'c', 'i', '/'] ++ t) = none := by
  unfold parse_pci_address_from_spice
  rw [if_neg (by simp)]
  have hdrop : (['p', 'c', 'i', '/'] ++ t).drop 4 = t := by simp
  simp only [hdrop]
  unfold read_next_hex_number
  rw [strchr_none t '/' h]

/-- A domain text with a character that `strtol` cannot pass over gives no address. -/
theorem parse_spice_bad_domain (T rest : List Char) (h : '/' ∉ T)
    (hbad : ∃ c ∈ T, strtol_accepts c = false) :
    parse_pci_address_from_spice (['p', 'c', 'i', '/'] ++ T ++ '/' :: rest) = none := by
  unfold parse_pci_address_from_spice
  rw [if_neg (by simp)]
  have hdrop : (['p', 'c', 'i', '/'] ++ T ++ '/' :: rest).drop 4 = T ++ '/' :: rest := by simp
  simp only [hdrop]
  unfold read_next_hex_number
  rw [strchr_skip T '/' rest h]
  simp only
  obtain ⟨p, hp, hacc⟩ := strtol_consumed (T ++ '/' :: rest)
  have hlen : (strtol (T ++ '/' :: rest)).2.length ≠ ('/' :: rest).length := by
    intro hl
    have hpl : p.length = T.length := by
      have := congrArg List.length hp
      simp only [List.length_append] at this
      omega
    have hpT : p = T := (List.append_inj hp.symm hpl).1
    obtain ⟨c, hc, hcb⟩ := hbad
    rw [← hpT] at hc
    rw [hacc c hc] at hcb
    exact Bool.noConfusion hcb
  rw [if_pos hlen]

/-- C26 (counterexample). Spice PCI address parsing: the input `pci//02.0` has no hexadecimal
domain before the `/` that follows the prefix, yet an address is returned, with domain 0 and
one device; and the input `pci/0/100.0`, whose fields are hexadecimal, gives a device of
slot 0, not `0x100`, as the input `pci/100000000/2.0` gives the domain 0. -/
theorem parse_pci_address_from_spice_counterexample :
    parse_pci_address_from_spice "pci//02.0".toList = some ⟨0, [⟨0, 0, 2, 0⟩]⟩ ∧
    parse_pci_address_from_spice "pci/0/100.0".toList = some ⟨0, [⟨0, 0, 0, 0⟩]⟩ ∧
    hex_number "100".toList = 256 ∧
    parse_pci_address_from_spice "pci/100000000/2.0".toList = some ⟨0, [⟨0, 0, 2, 0⟩]⟩ ∧
    hex_number "100000000".toList = 4294967296 := by
  refine ⟨by decide, by decide, by decide, by decide, by decide⟩

/-- C26 (amended). Spice PCI address parsing: `parse_pci_address_from_spice` returns no address for
every input that does not start with `pci/`, that has no `/` after that prefix, or whose
text between the prefix and the next `/` holds a character that is neither a hexadecimal
digit nor white space, a sign or an `x`. For every input `pci/D/S1.F1/.../Sn.Fn` with
`n ≥ 1` and fields of hexadecimal digits it returns an address with one device for each
`Si.Fi`, in input order, each of domain 0 and bus 0; with `D` below `2^31` and every `Si`
and `Fi` below 256 the domain is `D` and the i-th device has slot `Si` and function `Fi`.
In general each field is first clamped to `LONG_MAX = 2^63 - 1` by `strtol`; the domain is
the low 32 bits of that value read as a signed `int`, slot and function are its low 8
bits. -/
theorem parse_pci_address_from_spice_spec :
    (∀ input : List Char, input.take 4 ≠ ['p', 'c', 'i', '/'] →
      parse_pci_address_from_spice input = none) ∧
    (∀ t : List Char, '/' ∉ t →
      parse_pci_address_from_spice (['p', 'c', 'i', '/'] ++ t) = none) ∧
    (∀ T rest : List Char, '/' ∉ T → (∃ c ∈ T, strtol_accepts c = false) →
      parse_pci_address_from_spice (['p', 'c', 'i', '/'] ++ T ++ '/' :: rest) = none) ∧
    (∀ (D : List Char) (devs : List (List Char × List Char)),
      hex_field D → hex_number D < 2147483648 → devs ≠ [] →
      (∀ p ∈ devs, hex_field p.1 ∧ hex_field p.2 ∧ hex_number p.1 < 256 ∧
        hex_number p.2 < 256) →
      parse_pci_address_from_spice (spice_text D devs) =
        some ⟨(hex_number D : Int),
          devs.map (fun p => ⟨0, 0, hex_number p.1, hex_number p.2⟩)⟩) ∧
    (∀ (D : List Char) (devs : List (List Char × List Char)),
      hex_field D → devs ≠ [] → (∀ p ∈ devs, hex_field p.1 ∧ hex_field p.2) →
      parse_pci_address_from_spice (spice_text D devs) =
        some ⟨long_to_int ((min (hex_number D) 9223372036854775807 : Nat) : Int),
          devs.map (fun p => ⟨0, 0,
            (min (hex_number p.1) 9223372036854775807) % 256,
            (min (hex_number p.2) 9223372036854775807) % 256⟩)⟩) := by
  refine ⟨parse_spice_no_pci, parse_spice_no_slash, parse_spice_bad_domain,
    parse_spice_text_small, ?_⟩
  intro D devs hD hne hall
  rw [parse_spice_text_reduced D devs hD hne hall]
  have hv : ∀ f : List Char,
      strtol_value f = ((min (hex_number f) 9223372036854775807 : Nat) : Int) := by
    intro f
    unfold strtol_value
    split
    · rw [Nat.min_eq_right (by omega)]
      rfl
    · rw [Nat.min_eq_left (by omega)]
  have hu : ∀ n : Nat, to_uint8 (n : Int) = n % 256 := by
    intro n
    unfold to_uint8
    omega
  simp only [hv, hu]

theorem hex_field_of_decide (f : List Char) (h1 : f ≠ [])
    (h2 : f.all (fun c => (hex_value c).isSome) = true) : hex_field f :=
  ⟨h1, fun c hc => List.all_eq_true.mp h2 c hc⟩

/-- C26 (witness). The input `pci/000a/01.0/02.1` of the form `pci/D/S1.F1/S2.F2` within the
bounds, and the input `pci/10000000000000000/10000000000000000.100` whose domain and slot
are `2^64` and whose function is 256: the clamped value `2^63 - 1` gives the domain -1 and
the slot 255, and the function is 0. -/
theorem parse_pci_address_from_spice_spec_witness :
    spice_text "000a".toList [("01".toList, "0".toList), ("02".toList, "1".toList)] =
        "pci/000a/01.0/02.1".toList ∧
      parse_pci_address_from_spice
          (spice_text "000a".toList [("01".toList, "0".toList), ("02".toList, "1".toList)]) =
        some ⟨10, [⟨0, 0, 1, 0⟩, ⟨0, 0, 2, 1⟩]⟩ ∧
      spice_text "10000000000000000".toList [("10000000000000000".toList, "100".toList)] =
        "pci/10000000000000000/10000000000000000.100".toList ∧
      parse_pci_address_from_spice
          (spice_text "10000000000000000".toList
            [("10000000000000000".toList, "100".toList)]) =
        some ⟨-1, [⟨0, 0, 255, 0⟩]⟩ :=
  ⟨by decide,
    parse_pci_address_from_spice_spec.2.2.2.1 "000a".toList
      [("01".toList, "0".toList), ("02".toList, "1".toList)]
      (hex_field_of_decide _ (by decide) (by decide)) (by decide) (by decide)
      (by
        intro p hp
        simp only [List.mem_cons, List.mem_singleton, List.not_mem_nil, or_false] at hp
        rcases hp with rfl | rfl
        · exact ⟨hex_field_of_decide _ (by decide) (by decide),
            hex_field_of_decide _ (by decide) (by decide), by decide, by decide⟩
        · exact ⟨hex_field_of_decide _ (by decide) (by decide),
            hex_field_of_decide _ (by decide) (by decide), by decide, by decide⟩),
    by decide,
    (parse_pci_address_from_spice_spec.2.2.2.2 "10000000000000000".toList
      [("10000000000000000".toList, "100".toList)]
      (hex_field_of_decide _ (by decide) (by decide)) (by decide)
      (by
        intro p hp
        simp only [List.mem_singleton] at hp
        subst hp
        exact ⟨hex_field_of_decide _ (by decide) (by decide),
          hex_field_of_decide _ (by decide) (by decide)⟩)).trans (by decide)⟩

/-! ### Received-file naming -/

theorem tried_paths_64 (file_path : List Char) :
    tried_paths file_path 64 0 file_path = candidate_paths file_path := rfl

theorem create_file_loop_first (env : FileEnv) (file_path : List Char) :
    ∀ (n i : Nat) (path : List Char) (pre : List (List Char)) (c : List Char)
      (post : List (List Char)) (k : Nat),
      tried_paths file_path n i path = pre ++ c :: post →
      (∀ q ∈ pre, env.open_excl q = OpenResult.eexist) → env.open_excl c = OpenResult.fd k →
      create_file_loop env file_path n i path = some (k, c) := by
  intro n
  induction n with
  | zero =>
    intro i path pre c post k h
    unfold tried_paths at h
    exact absurd h (by simp)
  | succ n ih =>
    intro i path pre c post k h hpre hc
    unfold tried_paths at h
    unfold create_file_loop
    cases pre with
    | nil =>
      simp only [List.nil_append, List.cons.injEq] at h
      rw [h.1, hc]
    | cons q pre2 =>
      simp only [List.cons_append, List.cons.injEq] at h
      have hq := hpre q (List.mem_cons_self _ _)
      rw [← h.1] at hq
      rw [hq]
      exact ih (i + 1) _ pre2 c post k h.2 (fun x hx => hpre x (List.mem_cons_of_mem _ hx)) hc

theorem create_file_loop_error (env : FileEnv) (file_path : List Char) :
    ∀ (n i : Nat) (path : List Char) (pre : List (List Char)) (c : List Char)
      (post : List (List Char)),
      tried_paths file_path n i path = pre ++ c :: post →
      (∀ q ∈ pre, env.open_excl q = OpenResult.eexist) →
      env.open_excl c = OpenResult.other_error →
      create_file_loop env file_path n i path = none := by
  intro n
  induction n with
  | zero =>
    intro i path pre c post h
    unfold tried_paths at h
    exact absurd h (by simp)
  | succ n ih =>
    intro i path pre c post h hpre hc
    unfold tried_paths at h
    unfold create_file_loop
    cases pre with
    | nil =>
      simp only [List.nil_append, List.cons.injEq] at h
      rw [h.1, hc]
    | cons q pre2 =>
      simp only [List.cons_append, List.cons.injEq] at h
      have hq := hpre q (List.mem_cons_self _ _)
      rw [← h.1] at hq
      rw [hq]
      exact ih (i + 1) _ pre2 c post h.2 (fun x hx => hpre x (List.mem_cons_of_mem _ hx)) hc

theorem create_file_loop_none (env : FileEnv) (file_path : List Char) :
    ∀ (n i : Nat) (path : List Char),
      (∀ q ∈ tried_paths file_path n i path, env.open_excl q = OpenResult.eexist) →
      create_file_loop env file_path n i path = none := by
  intro n
  induction n with
  | zero => intro i path _; rfl
  | succ n ih =>
    intro i path h
    unfold tried_paths at h
    unfold create_file_loop
    rw [h path (List.mem_cons_self _ _)]
    exact ih (i + 1) _ (fun q hq => h q (List.mem_cons_of_mem _ hq))

theorem getLast?_filter_range (n : Nat) (p : Nat → Bool) :
    (∀ k, ((List.range n).filter p).getLast? = some k →
      k < n ∧ p k = true ∧ ∀ j, j < n → p j = true → j ≤ k) ∧
    (((List.range n).filter p).getLast? = none → ∀ j, j < n → p j = false) := by
  induction n with
  | zero =>
    refine ⟨?_, ?_⟩
    · intro k h; simp at h
    · intro _ j hj; exact absurd hj (Nat.not_lt_zero _)
  | succ n ih =>
    rw [List.range_succ, List.filter_append]
    by_cases hp : p n = true
    · have hf : [n].filter p = [n] := by simp [hp]
      rw [hf, List.getLast?_append, List.getLast?_singleton]
      have hor : (some n : Option Nat).or ((List.range n).filter p).getLast? = some n := rfl
      rw [hor]
      refine ⟨?_, fun h => Option.noConfusion h⟩
      intro k hk
      have hk := Option.some.inj hk
      subst hk
      refine ⟨Nat.lt_succ_self _, hp, ?_⟩
      intro j hj _
      omega
    · have hf : [n].filter p = [] := by simp [hp]
      rw [hf, List.append_nil]
      refine ⟨?_, ?_⟩
      · intro k hk
        obtain ⟨h1, h2, h3⟩ := ih.1 k hk
        refine ⟨by omega, h2, ?_⟩
        intro j hj hpj
        by_cases hjn : j = n
        · rw [hjn] at hpj; exact absurd hpj hp
        · exact h3 j (by omega) hpj
      · intro hnone j hj
        by_cases hjn : j = n
        · rw [hjn]; simpa using hp
        · exact ih.2 hnone j (by omega)

/-- What `strrchr` returns: the last position at or after `start` that holds `c`. -/
theorem strrchr_spec (s : List Char) (start : Nat) (c : Char) :
    (∀ k, strrchr s start c = some k →
      start ≤ k ∧ s[k]? = some c ∧ ∀ j, start ≤ j → s[j]? = some c → j ≤ k) ∧
    (strrchr s start c = none → ∀ j, start ≤ j → s[j]? ≠ some c) := by
  unfold strrchr
  obtain ⟨h1, h2⟩ := getLast?_filter_range s.length
    (fun k => decide (start ≤ k) && decide (s[k]? = some c))
  refine ⟨?_, ?_⟩
  · intro k hk
    obtain ⟨_, b, d⟩ := h1 k hk
    simp only [Bool.and_eq_true, decide_eq_true_eq] at b
    refine ⟨b.1, b.2, ?_⟩
    intro j hj hc
    have hlt : j < s.length := by
      by_contra hge
      rw [List.getElem?_eq_none (by omega)] at hc
      exact Option.noConfusion hc
    exact d j hlt (by simp [hj, hc])
  · intro hnone j hj hc
    have hlt : j < s.length := by
      by_contra hge
      rw [List.getElem?_eq_none (by omega)] at hc
      exact Option.noConfusion hc
    have := h2 hnone j hlt
    simp [hj, hc] at this

/-- The extension is taken from the last path component: the offset of `extension` is that
of the last `.` of `file_path`, it comes after every `/`, and there is none when the last
component has no `.`. -/
theorem extension_offset_spec (file_path : List Char) :
    (∀ k, extension_offset file_path = some k →
      file_path[k]? = some '.' ∧ (∀ j, file_path[j]? = some '/' → j < k) ∧
      ∀ j, k < j → file_path[j]? ≠ some '.') ∧
    (extension_offset file_path = none →
      ∀ j, file_path[j]? = some '.' → ∃ m : Nat, j < m ∧ file_path[m]? = some '/') := by
  unfold extension_offset
  cases hs : strrchr file_path 0 '/' with
  | none =>
    have hno := (strrchr_spec file_path 0 '/').2 hs
    simp only
    refine ⟨?_, ?_⟩
    · intro k hk
      obtain ⟨_, a2, a3⟩ := (strrchr_spec file_path 0 '.').1 k hk
      refine ⟨a2, ?_, ?_⟩
      · intro j hj; exact absurd hj (hno j (Nat.zero_le _))
      · intro j hj hc
        have := a3 j (Nat.zero_le _) hc
        omega
    · intro hnone j hj
      exact absurd hj ((strrchr_spec file_path 0 '.').2 hnone j (Nat.zero_le _))
  | some sl =>
    obtain ⟨_, b2, b3⟩ := (strrchr_spec file_path 0 '/').1 sl hs
    simp only
    refine ⟨?_, ?_⟩
    · intro k hk
      obtain ⟨a1, a2, a3⟩ := (strrchr_spec file_path (sl + 1) '.').1 k hk
      refine ⟨a2, ?_, ?_⟩
      · intro j hj
        have := b3 j (Nat.zero_le _) hj
        omega
      · intro j hj hc
        have := a3 j (by omega) hc
        omega
    · intro hnone j hj
      have hno := (strrchr_spec file_path (sl + 1) '.').2 hnone
      refine ⟨sl, ?_, b2⟩
      by_contra hge
      have hne : j ≠ sl := by
        intro e
        rw [e, b2] at hj
        exact absurd (Option.some.inj hj) (by decide)
      exact hno j (by omega) hj

/-- C27 (counterexample). Received-file naming: no file exists, yet nothing is created: in
`env_not_a_directory` the directory of the path cannot be made, in `env_read_only` the
`open` fails with another error than `EEXIST`; the function returns -1 and leaves the name
as it was. -/
theorem create_file_counterexample :
    env_not_a_directory.open_excl "/tmp/test.txt/out".toList ≠ OpenResult.eexist ∧
    vdagent_file_xfers_create_file env_not_a_directory "/tmp".toList "test.txt/out".toList =
      (-1, "test.txt/out".toList) ∧
    env_read_only.open_excl "/srv/test.txt".toList ≠ OpenResult.eexist ∧
    vdagent_file_xfers_create_file env_read_only "/srv".toList "test.txt".toList =
      (-1, "test.txt".toList) := by
  refine ⟨by decide, by decide, by decide, by decide⟩

/-- C27 (amended). Received-file naming: when the directory of `p` cannot be made the function
returns -1 and leaves the name argument unchanged. When it can be made, the function opens
the paths `p`, `b (1)e`, ..., `b (63)e` in this order (`e` the text of `p` from the last
`.` of its last component, `b` the text before it) as long as the `open` fails because the
file exists: at the first path whose `open` succeeds it returns the descriptor and stores
the path in the name argument; at the first path whose `open` fails for another reason it
returns -1 and leaves the name argument unchanged; when all 64 exist it returns -1 and
leaves the name argument unchanged. -/
theorem create_file_first_free (env : FileEnv) (save_dir file_name : List Char) :
    (env.g_mkdir_with_parents
        (env.g_path_get_dirname (env.g_build_filename save_dir file_name)) = false →
      vdagent_file_xfers_create_file env save_dir file_name = (-1, file_name)) ∧
    (env.g_mkdir_with_parents
        (env.g_path_get_dirname (env.g_build_filename save_dir file_name)) = true →
      (∀ (pre : List (List Char)) (c : List Char) (post : List (List Char)),
        candidate_paths (env.g_build_filename save_dir file_name) = pre ++ c :: post →
        (∀ q ∈ pre, env.open_excl q = OpenResult.eexist) →
        (∀ k, env.open_excl c = OpenResult.fd k →
          vdagent_file_xfers_create_file env save_dir file_name = ((k : Int), c)) ∧
        (env.open_excl c = OpenResult.other_error →
          vdagent_file_xfers_create_file env save_dir file_name = (-1, file_name))) ∧
      ((∀ q ∈ candidate_paths (env.g_build_filename save_dir file_name),
          env.open_excl q = OpenResult.eexist) →
        vdagent_file_xfers_create_file env save_dir file_name = (-1, file_name))) ∧
    (candidate_paths (env.g_build_filename save_dir file_name)).length = 64 ∧
    (∀ (p : List Char) (i k : Nat), extension_offset p = some k →
      p[k]? = some '.' ∧ (∀ j, p[j]? = some '/' → j < k) ∧
      (∀ j, k < j → p[j]? ≠ some '.') ∧
      numbered_path p i = p.take k ++ [' ', '('] ++ (Nat.repr i).toList ++ [')'] ++ p.drop k) ∧
    (∀ (p : List Char) (i : Nat), extension_offset p = none →
      (∀ j, p[j]? = some '.' → ∃ m : Nat, j < m ∧ p[m]? = some '/') ∧
      numbered_path p i = p ++ [' ', '('] ++ (Nat.repr i).toList ++ [')']) := by
  refine ⟨?_, ?_, rfl, ?_, ?_⟩
  · intro hdir
    unfold vdagent_file_xfers_create_file
    simp only
    rw [if_pos hdir]
  · intro hdir
    refine ⟨?_, ?_⟩
    · intro pre c post hc hpre
      refine ⟨?_, ?_⟩
      · intro k hk
        unfold vdagent_file_xfers_create_file
        simp only
        rw [if_neg (by rw [hdir]; exact Bool.noConfusion)]
        rw [create_file_loop_first env _ 64 0 _ pre c post k
          (by rw [tried_paths_64]; exact hc) hpre hk]
      · intro hk
        unfold vdagent_file_xfers_create_file
        simp only
        rw [if_neg (by rw [hdir]; exact Bool.noConfusion)]
        rw [create_file_loop_error env _ 64 0 _ pre c post
          (by rw [tried_paths_64]; exact hc) hpre hk]
    · intro hall
      unfold vdagent_file_xfers_create_file
      simp only
      rw [if_neg (by rw [hdir]; exact Bool.noConfusion)]
      rw [create_file_loop_none env _ 64 0 _ (by rw [tried_paths_64]; exact hall)]
  · intro p i k hk
    obtain ⟨a1, a2, a3⟩ := (extension_offset_spec p).1 k hk
    refine ⟨a1, a2, a3, ?_⟩
    unfold numbered_path
    simp only [hk]
  · intro p i hnone
    refine ⟨(extension_offset_spec p).2 hnone, ?_⟩
    unfold numbered_path
    simp only [hnone, List.take_length, List.append_nil]

/-- C27 (witness). In a file system where `/tmp/test.txt` and `/tmp/test (1).txt` exist, the file
`test.txt` is saved in `/tmp` as `/tmp/test (2).txt`; where `/tmp/test.txt` exists and the
`open` of `/tmp/test (1).txt` fails for another reason, and where the directory cannot be
made, the function returns -1 and the name is unchanged; and `sub.dir/test` becomes
`sub.dir/test (1)`. -/
theorem create_file_first_free_witness :
    vdagent_file_xfers_create_file
        (env_existing ["/tmp/test.txt".toList, "/tmp/test (1).txt".toList])
        "/tmp".toList "test.txt".toList = (3, "/tmp/test (2).txt".toList) ∧
      vdagent_file_xfers_create_file
        { env_read_only with
          open_excl := fun p =>
            if p = "/tmp/test.txt".toList then OpenResult.eexist else OpenResult.other_error }
        "/tmp".toList "test.txt".toList = (-1, "test.txt".toList) ∧
      vdagent_file_xfers_create_file env_not_a_directory "/tmp".toList "test.txt".toList =
        (-1, "test.txt".toList) ∧
      numbered_path "sub.dir/test".toList 1 = "sub.dir/test (1)".toList :=
  ⟨((create_file_first_free
      (env_existing ["/tmp/test.txt".toList, "/tmp/test (1).txt".toList])
      "/tmp".toList "test.txt".toList).2.1 rfl).1
      ["/tmp/test.txt".toList, "/tmp/test (1).txt".toList] "/tmp/test (2).txt".toList
      ((List.range 61).map (fun k => numbered_path "/tmp/test.txt".toList (k + 3)))
      (by decide) (by decide) |>.1 3 (by decide),
    ((create_file_first_free
      { env_read_only with
        open_excl := fun p =>
          if p = "/tmp/test.txt".toList then OpenResult.eexist else OpenResult.other_error }
      "/tmp".toList "test.txt".toList).2.1 rfl).1
      ["/tmp/test.txt".toList] "/tmp/test (1).txt".toList
      ((List.range 62).map (fun k => numbered_path "/tmp/test.txt".toList (k + 2)))
      (by decide) (by decide) |>.2 (by decide),
    (create_file_first_free env_not_a_directory "/tmp".toList "test.txt".toList).1 rfl,
    by decide⟩

/-! ### Reads of a validated host message -/

theorem field_inside (offset length size : Nat) (h : offset + length ≤ size) :
    (BodyRead.field offset length).inside size := by
  refine ⟨?_, trivial⟩
  intro x hx
  simp only [BodyRead.ranges, List.mem_singleton] at hx
  rw [hx]
  exact h

theorem uint32_from_le_inside (size offset : Nat) (hs : size < 4294967296)
    (h : offset ≤ size) : (BodyRead.uint32_from_le size offset).inside size := by
  refine ⟨?_, rfl, h⟩
  intro x hx
  simp only [BodyRead.ranges, List.mem_map, List.mem_range] at hx
  obtain ⟨i, hi, rfl⟩ := hx
  unfold sub_uint32 at hi
  simp only
  omega

theorem uint16_from_le_inside (size offset : Nat) (hs : size < 4294967296)
    (h : offset ≤ size) : (BodyRead.uint16_from_le size offset).inside size := by
  refine ⟨?_, rfl, h⟩
  intro x hx
  simp only [BodyRead.ranges, List.mem_map, List.mem_range] at hx
  obtain ⟨i, hi, rfl⟩ := hx
  unfold sub_uint32 at hi
  simp only
  omega

theorem check_size_bound (P : Protocol) (d : Daemon) (message_header : VDAgentMessage)
    (hok : vdagent_message_check_size P d message_header = true) :
    1 ≤ message_header.type ∧ message_header.type < 17 ∧
      check_size_min P d message_header.type ≤ message_header.size ∧
      ((message_header.type = VD_AGENT_MOUSE_STATE ∨
          message_header.type = VD_AGENT_FILE_XFER_STATUS ∨
          message_header.type = VD_AGENT_CLIPBOARD_REQUEST ∨
          message_header.type = VD_AGENT_CLIPBOARD_RELEASE ∨
          message_header.type = VD_AGENT_MAX_CLIPBOARD) →
        message_header.size = check_size_min P d message_header.type) := by
  unfold vdagent_message_check_size at hok
  by_cases h1 : message_header.protocol ≠ P.VD_AGENT_PROTOCOL
  · rw [if_pos h1] at hok; exact Bool.noConfusion hok
  rw [if_neg h1] at hok
  by_cases h2 : message_header.type = 0 ∨
      message_header.type ≥ (vdagent_message_min_size P).length
  · rw [if_pos h2] at hok; exact Bool.noConfusion hok
  rw [if_neg h2] at hok
  have hlen : (vdagent_message_min_size P).length = 17 := rfl
  rw [hlen] at h2
  simp only at hok
  refine ⟨by omega, by omega, ?_, ?_⟩
  · split_ifs at hok with a b c e
    · omega
    · omega
  · intro ht
    split_ifs at hok with a b c e
    · exfalso
      simp only [VD_AGENT_MOUSE_STATE, VD_AGENT_FILE_XFER_STATUS, VD_AGENT_CLIPBOARD_REQUEST,
        VD_AGENT_CLIPBOARD_RELEASE, VD_AGENT_MAX_CLIPBOARD, VD_AGENT_MONITORS_CONFIG,
        VD_AGENT_FILE_XFER_START, VD_AGENT_FILE_XFER_DATA, VD_AGENT_CLIPBOARD,
        VD_AGENT_CLIPBOARD_GRAB, VD_AGENT_AUDIO_VOLUME_SYNC, VD_AGENT_ANNOUNCE_CAPABILITIES,
        VD_AGENT_GRAPHICS_DEVICE_INFO] at ht a
      omega
    · omega

theorem clipboard_data_reads_inside (P : Protocol) (d : Daemon) (prot opq size : Nat)
    (hL : Layout P) (hsize : size < 4294967296)
    (hok : vdagent_message_check_size P d ⟨prot, 4, opq, size⟩ = true) :
    ∀ r ∈ vdagent_message_clipboard_from_le P d ⟨prot, 4, opq, size⟩ ++
        do_client_clipboard_reads P d ⟨prot, 4, opq, size⟩, r.inside size := by
  obtain ⟨hfit, l1, l2, l3, l4, l5, l6, l7, l8, l9, l10⟩ := hL
  obtain ⟨b1, b2, b3, b4⟩ := check_size_bound P d _ hok
  have hf := hfit 4 (by decide) (by decide)
  clear hok
  unfold check_size_min at b3 b4
  simp only [VD_AGENT_MOUSE_STATE, VD_AGENT_FILE_XFER_STATUS, VD_AGENT_CLIPBOARD_REQUEST,
    VD_AGENT_CLIPBOARD_RELEASE, VD_AGENT_MAX_CLIPBOARD, VD_AGENT_MONITORS_CONFIG,
    VD_AGENT_FILE_XFER_START, VD_AGENT_FILE_XFER_DATA, VD_AGENT_CLIPBOARD,
    VD_AGENT_CLIPBOARD_GRAB, VD_AGENT_AUDIO_VOLUME_SYNC, VD_AGENT_ANNOUNCE_CAPABILITIES,
    VD_AGENT_GRAPHICS_DEVICE_INFO, VD_AGENT_CLIENT_DISCONNECTED,
    vdagent_message_clipboard_from_le, do_client_clipboard_reads] at b3 b4 ⊢
  generalize has_capability P d P.VD_AGENT_CAP_CLIPBOARD_SELECTION = sel at *
  generalize has_capability P d P.VD_AGENT_CAP_CLIPBOARD_GRAB_SERIAL = ser at *
  cases hact : d.active_session_conn <;> cases sel <;> cases ser <;>
    simp [vdagent_message_min_size] at hf b3 b4 ⊢ <;>
    (repeat' first
        | exact uint32_from_le_inside _ _ hsize (by omega)
        | exact uint16_from_le_inside _ _ hsize (by omega)
        | exact field_inside _ _ _ (by unfold sub_uint32; omega)
        | exact field_inside _ _ _ (by omega)
        | apply And.intro)

theorem clipboard_grab_reads_inside (P : Protocol) (d : Daemon) (prot opq size : Nat)
    (hL : Layout P) (hsize : size < 4294967296)
    (hok : vdagent_message_check_size P d ⟨prot, 7, opq, size⟩ = true) :
    ∀ r ∈ vdagent_message_clipboard_from_le P d ⟨prot, 7, opq, size⟩ ++
        do_client_clipboard_reads P d ⟨prot, 7, opq, size⟩, r.inside size := by
  obtain ⟨hfit, l1, l2, l3, l4, l5, l6, l7, l8, l9, l10⟩ := hL
  obtain ⟨b1, b2, b3, b4⟩ := check_size_bound P d _ hok
  have hf := hfit 7 (by decide) (by decide)
  clear hok
  unfold check_size_min at b3 b4
  simp only [VD_AGENT_MOUSE_STATE, VD_AGENT_FILE_XFER_STATUS, VD_AGENT_CLIPBOARD_REQUEST,
    VD_AGENT_CLIPBOARD_RELEASE, VD_AGENT_MAX_CLIPBOARD, VD_AGENT_MONITORS_CONFIG,
    VD_AGENT_FILE_XFER_START, VD_AGENT_FILE_XFER_DATA, VD_AGENT_CLIPBOARD,
    VD_AGENT_CLIPBOARD_GRAB, VD_AGENT_AUDIO_VOLUME_SYNC, VD_AGENT_ANNOUNCE_CAPABILITIES,
    VD_AGENT_GRAPHICS_DEVICE_INFO, VD_AGENT_CLIENT_DISCONNECTED,
    vdagent_message_clipboard_from_le, do_client_clipboard_reads] at b3 b4 ⊢
  generalize has_capability P d P.VD_AGENT_CAP_CLIPBOARD_SELECTION = sel at *
  generalize has_capability P d P.VD_AGENT_CAP_CLIPBOARD_GRAB_SERIAL = ser at *
  cases hact : d.active_session_conn <;> cases sel <;> cases ser <;>
    simp [vdagent_message_min_size] at hf b3 b4 ⊢ <;>
    (repeat' first
        | exact uint32_from_le_inside _ _ hsize (by omega)
        | exact uint16_from_le_inside _ _ hsize (by omega)
        | exact field_inside _ _ _ (by unfold sub_uint32; omega)
        | exact field_inside _ _ _ (by omega)
        | apply And.intro)

theorem clipboard_request_reads_inside (P : Protocol) (d : Daemon) (prot opq size : Nat)
    (hL : Layout P) (hsize : size < 4294967296)
    (hok : vdagent_message_check_size P d ⟨prot, 8, opq, size⟩ = true) :
    ∀ r ∈ vdagent_message_clipboard_from_le P d ⟨prot, 8, opq, size⟩ ++
        do_client_clipboard_reads P d ⟨prot, 8, opq, size⟩, r.inside size := by
  obtain ⟨hfit, l1, l2, l3, l4, l5, l6, l7, l8, l9, l10⟩ := hL
  obtain ⟨b1, b2, b3, b4⟩ := check_size_bound P d _ hok
  have hf := hfit 8 (by decide) (by decide)
  clear hok
  unfold check_size_min at b3 b4
  simp only [VD_AGENT_MOUSE_STATE, VD_AGENT_FILE_XFER_STATUS, VD_AGENT_CLIPBOARD_REQUEST,
    VD_AGENT_CLIPBOARD_RELEASE, VD_AGENT_MAX_CLIPBOARD, VD_AGENT_MONITORS_CONFIG,
    VD_AGENT_FILE_XFER_START, VD_AGENT_FILE_XFER_DATA, VD_AGENT_CLIPBOARD,
    VD_AGENT_CLIPBOARD_GRAB, VD_AGENT_AUDIO_VOLUME_SYNC, VD_AGENT_ANNOUNCE_CAPABILITIES,
    VD_AGENT_GRAPHICS_DEVICE_INFO, VD_AGENT_CLIENT_DISCONNECTED,
    vdagent_message_clipboard_from_le, do_client_clipboard_reads] at b3 b4 ⊢
  generalize has_capability P d P.VD_AGENT_CAP_CLIPBOARD_SELECTION = sel at *
  generalize has_capability P d P.VD_AGENT_CAP_CLIPBOARD_GRAB_SERIAL = ser at *
  cases hact : d.active_session_conn <;> cases sel <;> cases ser <;>
    simp [vdagent_message_min_size] at hf b3 b4 ⊢ <;>
    (repeat' first
        | exact uint32_from_le_inside _ _ hsize (by omega)
        | exact uint16_from_le_inside _ _ hsize (by omega)
        | exact field_inside _ _ _ (by unfold sub_uint32; omega)
        | exact field_inside _ _ _ (by omega)
        | apply And.intro)

theorem clipboard_release_reads_inside (P : Protocol) (d : Daemon) (prot opq size : Nat)
    (hL : Layout P) (hsize : size < 4294967296)
    (hok : vdagent_message_check_size P d ⟨prot, 9, opq, size⟩ = true) :
    ∀ r ∈ vdagent_message_clipboard_from_le P d ⟨prot, 9, opq, size⟩ ++
        do_client_clipboard_reads P d ⟨prot, 9, opq, size⟩, r.inside size := by
  obtain ⟨hfit, l1, l2, l3, l4, l5, l6, l7, l8, l9, l10⟩ := hL
  obtain ⟨b1, b2, b3, b4⟩ := check_size_bound P d _ hok
  have hf := hfit 9 (by decide) (by decide)
  clear hok
  unfold check_size_min at b3 b4
  simp only [VD_AGENT_MOUSE_STATE, VD_AGENT_FILE_XFER_STATUS, VD_AGENT_CLIPBOARD_REQUEST,
    VD_AGENT_CLIPBOARD_RELEASE, VD_AGENT_MAX_CLIPBOARD, VD_AGENT_MONITORS_CONFIG,
    VD_AGENT_FILE_XFER_START, VD_AGENT_FILE_XFER_DATA, VD_AGENT_CLIPBOARD,
    VD_AGENT_CLIPBOARD_GRAB, VD_AGENT_AUDIO_VOLUME_SYNC, VD_AGENT_ANNOUNCE_CAPABILITIES,
    VD_AGENT_GRAPHICS_DEVICE_INFO, VD_AGENT_CLIENT_DISCONNECTED,
    vdagent_message_clipboard_from_le, do_client_clipboard_reads] at b3 b4 ⊢
  generalize has_capability P d P.VD_AGENT_CAP_CLIPBOARD_SELECTION = sel at *
  generalize has_capability P d P.VD_AGENT_CAP_CLIPBOARD_GRAB_SERIAL = ser at *
  cases hact : d.active_session_conn <;> cases sel <;> cases ser <;>
    simp [vdagent_message_min_size] at hf b3 b4 ⊢ <;>
    (repeat' first
        | exact uint32_from_le_inside _ _ hsize (by omega)
        | exact uint16_from_le_inside _ _ hsize (by omega)
        | exact field_inside _ _ _ (by unfold sub_uint32; omega)
        | exact field_inside _ _ _ (by omega)
        | apply And.intro)

/-- C30. Validated reads stay inside the body: for a host message that
`vdagent_message_check_size` accepts under the capability snapshot of `d`, every access of
`virtio_port_read_complete` and of the handlers of `vdagentd.c` it calls lies within the
first `size` bytes of the body, and every call of `virtio_msg_uint32_from_le` and
`virtio_msg_uint16_from_le` is made with the message size and an offset that is at most the
size. -/
theorem validated_reads_inside_body (P : Protocol) (d : Daemon)
    (message_header : VDAgentMessage) (hL : Layout P)
    (hsize : message_header.size < 4294967296)
    (hok : vdagent_message_check_size P d message_header = true) :
    ∀ r ∈ body_reads P d message_header, r.inside message_header.size := by
  obtain ⟨b1, b2, b3, b4⟩ := check_size_bound P d message_header hok
  unfold body_reads
  rw [if_neg (by rw [hok]; exact Bool.noConfusion)]
  obtain ⟨prot, t, opq, size⟩ := message_header
  simp only at b1 b2 b3 b4 hsize ⊢
  have hf := hL.1 t b1 b2
  have l1 := hL.2.1
  have l3 := hL.2.2.2.1
  have l5 := hL.2.2.2.2.2.1
  have l6 := hL.2.2.2.2.2.2.1
  have l7 := hL.2.2.2.2.2.2.2.1
  have l8 := hL.2.2.2.2.2.2.2.2.1
  have l9 := hL.2.2.2.2.2.2.2.2.2.1
  have l10 := hL.2.2.2.2.2.2.2.2.2.2
  unfold check_size_min at b3 b4
  simp only [VD_AGENT_MOUSE_STATE, VD_AGENT_FILE_XFER_STATUS, VD_AGENT_CLIPBOARD_REQUEST,
    VD_AGENT_CLIPBOARD_RELEASE, VD_AGENT_MAX_CLIPBOARD, VD_AGENT_MONITORS_CONFIG,
    VD_AGENT_FILE_XFER_START, VD_AGENT_FILE_XFER_DATA, VD_AGENT_CLIPBOARD,
    VD_AGENT_CLIPBOARD_GRAB, VD_AGENT_AUDIO_VOLUME_SYNC, VD_AGENT_ANNOUNCE_CAPABILITIES,
    VD_AGENT_GRAPHICS_DEVICE_INFO, VD_AGENT_CLIENT_DISCONNECTED,
    vdagent_message_file_xfer_from_le] at b3 b4 ⊢
  interval_cases t
  · -- type 1
    clear hok
    simp [vdagent_message_min_size] at hf b3 b4 ⊢ <;>
      (repeat' first
        | exact uint32_from_le_inside _ _ hsize (by omega)
        | exact uint16_from_le_inside _ _ hsize (by omega)
        | exact field_inside _ _ _ (by omega)
        | apply And.intro)
  · -- type 2
    clear hok
    simp [vdagent_message_min_size] at hf b3 b4 ⊢ <;>
      (repeat' first
        | exact uint32_from_le_inside _ _ hsize (by omega)
        | exact uint16_from_le_inside _ _ hsize (by omega)
        | exact field_inside _ _ _ (by omega)
        | apply And.intro)
  · -- type 3
    simp
  · -- type 4
    have h := clipboard_data_reads_inside P d prot opq size hL hsize hok
    simpa [VD_AGENT_MOUSE_STATE, VD_AGENT_FILE_XFER_STATUS, VD_AGENT_CLIPBOARD_REQUEST,
    VD_AGENT_CLIPBOARD_RELEASE, VD_AGENT_MAX_CLIPBOARD, VD_AGENT_MONITORS_CONFIG,
    VD_AGENT_FILE_XFER_START, VD_AGENT_FILE_XFER_DATA, VD_AGENT_CLIPBOARD,
    VD_AGENT_CLIPBOARD_GRAB, VD_AGENT_AUDIO_VOLUME_SYNC, VD_AGENT_ANNOUNCE_CAPABILITIES,
    VD_AGENT_GRAPHICS_DEVICE_INFO, VD_AGENT_CLIENT_DISCONNECTED] using h
  · -- type 5
    simp
  · -- type 6
    clear hok
    simp [vdagent_message_min_size] at hf b3 b4 ⊢
    exact ⟨uint32_from_le_inside _ _ hsize (by omega),
      field_inside _ _ _ (l10 size (by omega)), field_inside _ _ _ (by omega)⟩
  · -- type 7
    have h := clipboard_grab_reads_inside P d prot opq size hL hsize hok
    simpa [VD_AGENT_MOUSE_STATE, VD_AGENT_FILE_XFER_STATUS, VD_AGENT_CLIPBOARD_REQUEST,
    VD_AGENT_CLIPBOARD_RELEASE, VD_AGENT_MAX_CLIPBOARD, VD_AGENT_MONITORS_CONFIG,
    VD_AGENT_FILE_XFER_START, VD_AGENT_FILE_XFER_DATA, VD_AGENT_CLIPBOARD,
    VD_AGENT_CLIPBOARD_GRAB, VD_AGENT_AUDIO_VOLUME_SYNC, VD_AGENT_ANNOUNCE_CAPABILITIES,
    VD_AGENT_GRAPHICS_DEVICE_INFO, VD_AGENT_CLIENT_DISCONNECTED] using h
  · -- type 8
    have h := clipboard_request_reads_inside P d prot opq size hL hsize hok
    simpa [VD_AGENT_MOUSE_STATE, VD_AGENT_FILE_XFER_STATUS, VD_AGENT_CLIPBOARD_REQUEST,
    VD_AGENT_CLIPBOARD_RELEASE, VD_AGENT_MAX_CLIPBOARD, VD_AGENT_MONITORS_CONFIG,
    VD_AGENT_FILE_XFER_START, VD_AGENT_FILE_XFER_DATA, VD_AGENT_CLIPBOARD,
    VD_AGENT_CLIPBOARD_GRAB, VD_AGENT_AUDIO_VOLUME_SYNC, VD_AGENT_ANNOUNCE_CAPABILITIES,
    VD_AGENT_GRAPHICS_DEVICE_INFO, VD_AGENT_CLIENT_DISCONNECTED] using h
  · -- type 9
    have h := clipboard_release_reads_inside P d prot opq size hL hsize hok
    simpa [VD_AGENT_MOUSE_STATE, VD_AGENT_FILE_XFER_STATUS, VD_AGENT_CLIPBOARD_REQUEST,
    VD_AGENT_CLIPBOARD_RELEASE, VD_AGENT_MAX_CLIPBOARD, VD_AGENT_MONITORS_CONFIG,
    VD_AGENT_FILE_XFER_START, VD_AGENT_FILE_XFER_DATA, VD_AGENT_CLIPBOARD,
    VD_AGENT_CLIPBOARD_GRAB, VD_AGENT_AUDIO_VOLUME_SYNC, VD_AGENT_ANNOUNCE_CAPABILITIES,
    VD_AGENT_GRAPHICS_DEVICE_INFO, VD_AGENT_CLIENT_DISCONNECTED] using h
  · -- type 10
    clear hok
    simp [vdagent_message_min_size] at hf b3 b4 ⊢ <;>
      (repeat' first
        | exact uint32_from_le_inside _ _ hsize (by omega)
        | exact uint16_from_le_inside _ _ hsize (by omega)
        | exact field_inside _ _ _ (by omega)
        | apply And.intro)
  · -- type 11
    clear hok
    simp [vdagent_message_min_size] at hf b3 b4 ⊢ <;>
      (repeat' first
        | exact uint32_from_le_inside _ _ hsize (by omega)
        | exact uint16_from_le_inside _ _ hsize (by omega)
        | exact field_inside _ _ _ (by omega)
        | apply And.intro)
  · -- type 12
    clear hok
    simp [vdagent_message_min_size] at hf b3 b4 ⊢ <;>
      (repeat' first
        | exact uint32_from_le_inside _ _ hsize (by omega)
        | exact uint16_from_le_inside _ _ hsize (by omega)
        | exact field_inside _ _ _ (by omega)
        | apply And.intro)
  · -- type 13
    simp
  · -- type 14
    clear hok
    simp [vdagent_message_min_size] at hf b3 b4 ⊢ <;>
      (repeat' first
        | exact uint32_from_le_inside _ _ hsize (by omega)
        | exact uint16_from_le_inside _ _ hsize (by omega)
        | exact field_inside _ _ _ (by omega)
        | apply And.intro)
  · -- type 15
    clear hok
    cases hact : d.active_session_conn <;>
      simp [vdagent_message_min_size] at hf b3 b4 ⊢ <;>
      (repeat' first
        | exact uint32_from_le_inside _ _ hsize (by omega)
        | exact uint16_from_le_inside _ _ hsize (by omega)
        | exact field_inside _ _ _ (by omega)
        | apply And.intro)
  · -- type 16
    clear hok
    simp [vdagent_message_min_size] at hf b3 b4 ⊢ <;>
      (repeat' first
        | exact uint32_from_le_inside _ _ hsize (by omega)
        | exact uint16_from_le_inside _ _ hsize (by omega)
        | exact field_inside _ _ _ (by omega)
        | apply And.intro)

theorem spice_layout : Layout spice_protocol := by
  refine ⟨spice_sizes_fit, by decide, by decide, by decide, by decide, by decide, by decide,
    by decide, by decide, by decide, ?_⟩
  intro size h
  simp only [spice_protocol] at h ⊢
  omega

/-- C30 (witness). A host grab of 12 bytes under `CLIPBOARD_SELECTION` and `CLIPBOARD_GRAB_SERIAL`:
the helper is called with offset 4, then the selection byte, the serial and the 4 bytes that
are forwarded are read. -/
theorem validated_reads_inside_body_witness :
    body_reads spice_protocol daemon_one_agent ⟨1, 7, 0, 12⟩ =
        [BodyRead.uint32_from_le 12 4, BodyRead.field 0 1, BodyRead.field 4 4,
          BodyRead.field 8 4] ∧
      ∀ r ∈ body_reads spice_protocol daemon_one_agent ⟨1, 7, 0, 12⟩, r.inside 12 :=
  ⟨by decide,
    validated_reads_inside_body spice_protocol daemon_one_agent ⟨1, 7, 0, 12⟩ spice_layout
      (by decide) (by decide)⟩

end VDAgent
